import Mathlib

/-! # Transport catalogue: a shallow embedding and its verified properties

The development follows the C++ sources of the transport catalogue
(`domain.h`, `transport_catalogue.cpp`, `json_builder.h`, `json_reader.cpp`,
`transport_router.cpp`).

Conventions of the embedding:

* `std::string` is `String`. An `int` is an `Int`; the two `int` accumulators
  of the program, `route_length` and `total_distance`, are reduced to the
  range of a 32-bit `int` after every addition (`intWrap`): signed overflow is
  undefined in C++ and wraps around in the built program. `double` is `ℚ`,
  i.e. arithmetic on `double` is read as exact arithmetic; `Binary64` models
  the rounding of `double` where a statement depends on it.
* `std::deque<T>` is `List T`, `push_back` appends at the end. A pointer to a
  deque element is the index of that element, the null pointer is `none`.
* `std::unordered_map<K, V>` is an association list with at most one entry per
  key; `std::unordered_set<T>` is a duplicate-free list. The iteration order
  of the C++ containers is unspecified; the model fixes insertion order.
* A function that can throw returns `Except String _`.
* Strings are compared as `std::string_view` compares them, lexicographically
  character by character; on UTF-8 text this is the byte-wise order.
-/

/-! ## Machine integers -/

/-- The value an `int` of 32 bits holds after an operation whose mathematical result is `x`:
`x` reduced modulo `2 ^ 32` into the range `-2 ^ 31 .. 2 ^ 31 - 1`. Signed overflow is undefined
in C++; this is the two's complement wrap-around of the built program. -/
def intWrap (x : Int) : Int := (x + 2147483648) % 4294967296 - 2147483648

/-! ## Containers -/

/-- The call `m.find(k)` on a `std::unordered_map`: the value stored under `k`, if any. -/
def mapFind {κ ν : Type} [DecidableEq κ] : List (κ × ν) → κ → Option ν
  | [], _ => none
  | (k', v) :: t, k => if k' = k then some v else mapFind t k

/-- The assignment `m[k] = v` on a `std::unordered_map`: insert or overwrite. -/
def mapAssign {κ ν : Type} [DecidableEq κ] : List (κ × ν) → κ → ν → List (κ × ν)
  | [], k, v => [(k, v)]
  | (k', v') :: t, k, v => if k' = k then (k, v) :: t else (k', v') :: mapAssign t k v

/-- The expression `m[k]` read as a value: the stored value, or a value-initialised one. -/
def mapGetD {κ ν : Type} [DecidableEq κ] (m : List (κ × ν)) (k : κ) (dflt : ν) : ν :=
  (mapFind m k).getD dflt

/-- The call `s.insert(x)` on a `std::unordered_set`: no effect when `x` is already a member. -/
def setInsert {α : Type} [DecidableEq α] (s : List α) (x : α) : List α :=
  if x ∈ s then s else s ++ [x]

/-- The order `operator<=` of `std::string_view`: lexicographic on the characters. -/
def strLE (a b : String) : Prop := a.toList ≤ b.toList

instance strLE.decidable : DecidableRel strLE :=
  fun a b => inferInstanceAs (Decidable (a.toList ≤ b.toList))

/-- The call `std::sort(v.begin(), v.end())` on a vector of `std::string_view`. -/
def stdSort (v : List String) : List String := v.insertionSort strLE

/-! ## domain.h -/

/-- The record `Stop` of `domain.h`. -/
structure Stop where
  name : String
  lat : ℚ := 0
  lng : ℚ := 0
  road_distances : List (String × Int) := []
  deriving DecidableEq, Repr

/-- The record `Bus` of `domain.h`. -/
structure Bus where
  name : String
  stops : List String
  is_roundtrip : Bool := false
  deriving DecidableEq, Repr

/-! ## transport_catalogue.h, transport_catalogue.cpp -/

/-- A `const Stop*` that is not null: the index of the stop in `stops_`. -/
abbrev StopPtr := Nat

/-- A `const Bus*` that is not null: the index of the bus in `buses_`. -/
abbrev BusPtr := Nat

/-- The private state of `class TransportCatalogue`. -/
structure TransportCatalogue where
  stops_ : List Stop := []
  buses_ : List Bus := []
  stopname_to_stop_ : List (String × StopPtr) := []
  busname_to_bus_ : List (String × BusPtr) := []
  distances_ : List (StopPtr × List (StopPtr × Int)) := []
  stop_to_buses_ : List (StopPtr × List String) := []
  deriving DecidableEq, Repr

namespace TransportCatalogue

/-- A default-constructed catalogue. -/
def empty : TransportCatalogue := {}

/-- The function `TransportCatalogue::AddStop`. -/
def AddStop (db : TransportCatalogue) (stop : Stop) : TransportCatalogue :=
  let stop_ptr : StopPtr := db.stops_.length
  { db with
    stops_ := db.stops_ ++ [stop]
    stopname_to_stop_ := mapAssign db.stopname_to_stop_ stop.name stop_ptr }

/-- The function `TransportCatalogue::FindStop`. -/
def FindStop (db : TransportCatalogue) (name : String) : Option StopPtr :=
  mapFind db.stopname_to_stop_ name

/-- The function `TransportCatalogue::FindBus`. -/
def FindBus (db : TransportCatalogue) (name : String) : Option BusPtr :=
  mapFind db.busname_to_bus_ name

/-- The body of the loop of `AddBus`, for one stop name of the bus. -/
def AddBus.visit (bus_name : String) (db : TransportCatalogue) (stop_name : String) :
    TransportCatalogue :=
  match db.FindStop stop_name with
  | some stop =>
    { db with
      stop_to_buses_ :=
        mapAssign db.stop_to_buses_ stop (setInsert (mapGetD db.stop_to_buses_ stop []) bus_name) }
  | none => db

/-- The function `TransportCatalogue::AddBus`. -/
def AddBus (db : TransportCatalogue) (bus : Bus) : TransportCatalogue :=
  let bus_ptr : BusPtr := db.buses_.length
  let db1 : TransportCatalogue :=
    { db with
      buses_ := db.buses_ ++ [bus]
      busname_to_bus_ := mapAssign db.busname_to_bus_ bus.name bus_ptr }
  bus.stops.foldl (AddBus.visit bus.name) db1

/-- The function `TransportCatalogue::SetDistance`. -/
def SetDistance (db : TransportCatalogue) (from_stop to_stop : Option StopPtr) (distance : Int) :
    TransportCatalogue :=
  match from_stop, to_stop with
  | some f, some t =>
    { db with
      distances_ := mapAssign db.distances_ f (mapAssign (mapGetD db.distances_ f []) t distance) }
  | _, _ => db

/-- The function `TransportCatalogue::GetBusesByStop`. -/
def GetBusesByStop (db : TransportCatalogue) (stop_name : String) : List String :=
  match db.FindStop stop_name with
  | some stop =>
    match mapFind db.stop_to_buses_ stop with
    | some buses => stdSort buses
    | none => []
  | none => []

/-- The function `TransportCatalogue::GetRoadDistance`. -/
def GetRoadDistance (db : TransportCatalogue) (from_stop to_stop : Option StopPtr) : Int :=
  match from_stop, to_stop with
  | some f, some t =>
    match mapFind db.distances_ f with
    | some row =>
      match mapFind row t with
      | some d => d
      | none => 0
    | none => 0
  | _, _ => 0

/-- The function `TransportCatalogue::GetRoadDistanceBidirectional`. -/
def GetRoadDistanceBidirectional (db : TransportCatalogue) (from_stop to_stop : Option StopPtr) : Int :=
  match from_stop, to_stop with
  | some f, some t =>
    let distance := db.GetRoadDistance (some f) (some t)
    if distance > 0 then distance
    else
      let distance := db.GetRoadDistance (some t) (some f)
      if distance > 0 then distance else 0
  | _, _ => 0

/-- The entry of `distances_` for the ordered pair `(a, b)`: the distance last stored by
`SetDistance` for that pair, `none` when none was ever stored. -/
def storedDistance (db : TransportCatalogue) (a b : StopPtr) : Option Int :=
  (mapFind db.distances_ a).bind (fun row => mapFind row b)

/-- The states a catalogue goes through: it starts empty and changes only through
`AddStop`, `AddBus` and `SetDistance`. -/
inductive Reachable : TransportCatalogue → Prop
  | empty : Reachable TransportCatalogue.empty
  | addStop {db : TransportCatalogue} (stop : Stop) : Reachable db → Reachable (db.AddStop stop)
  | addBus {db : TransportCatalogue} (bus : Bus) : Reachable db → Reachable (db.AddBus bus)
  | setDistance {db : TransportCatalogue} (a b : Option StopPtr) (d : Int) :
      Reachable db → Reachable (db.SetDistance a b d)

end TransportCatalogue

/-! ## json.h -/

namespace json

/-- The class `Node` of `json.h`, a `std::variant` over null, array, dictionary, bool, int, double
and string. `Node::Value` is the same variant. -/
inductive Node where
  | null
  | array (a : List Node)
  | dict (d : List (String × Node))
  | bool (b : Bool)
  | int (i : Int)
  | double (x : ℚ)
  | string (s : String)

/-- The function `Node::IsArray`. -/
def Node.IsArray : Node → Bool
  | .array _ => true
  | _ => false

/-- The function `Node::IsMap`. -/
def Node.IsMap : Node → Bool
  | .dict _ => true
  | _ => false

/-- The function `Node::IsNull`, the test `GetValue().index() == 0`. -/
def Node.IsNull : Node → Bool
  | .null => true
  | _ => false

/-- The type `Dict`, a `std::map<std::string, Node>`: an association list kept in increasing key
order, one entry per key. -/
abbrev Dict := List (String × Node)

/-- The call `dict.find(k)`, also `dict.count(k)` through `isSome`. -/
def Dict.find (d : Dict) (k : String) : Option Node := mapFind d k

/-- The call `dict.emplace(k, v)` of `std::map`: inserts at the sorted position, and does
nothing when the key is already present. -/
def Dict.emplace : Dict → String → Node → Dict
  | [], k, v => [(k, v)]
  | (k', v') :: t, k, v =>
    if k' = k then (k', v') :: t
    else if strLE k k' then (k, v) :: (k', v') :: t
    else (k', v') :: Dict.emplace t k v

/-- One step from a node to a child: an array position or a dictionary key. -/
inductive Step where
  | index (i : Nat)
  | key (k : String)
  deriving DecidableEq, Repr

/-- A `Node*` into the tree under `root_`: the path from the root to the node it points to. -/
abbrev NodePtr := List Step

/-- Dereferencing a `Node*`: the node at the end of the path, if the path exists. -/
def Node.deref : Node → NodePtr → Option Node
  | n, [] => some n
  | .array a, .index i :: rest =>
    match a[i]? with
    | some c => Node.deref c rest
    | none => none
  | .dict d, .key k :: rest =>
    match Dict.find d k with
    | some c => Node.deref c rest
    | none => none
  | _, _ :: _ => none

/-- Replacing the entry stored under an existing key of a dictionary. -/
def Dict.replace : Dict → String → Node → Dict
  | [], _, _ => []
  | (k', v') :: t, k, v => if k' = k then (k', v) :: t else (k', v') :: Dict.replace t k v

/-- Writing through a `Node*`: the tree in which the node at the end of the path is `v`. -/
def Node.store : Node → NodePtr → Node → Node
  | _, [], v => v
  | .array a, .index i :: rest, v =>
    match a[i]? with
    | some c => .array (a.set i (Node.store c rest v))
    | none => .array a
  | .dict d, .key k :: rest, v =>
    match Dict.find d k with
    | some c => .dict (Dict.replace d k (Node.store c rest v))
    | none => .dict d
  | n, _ :: _, _ => n

end json

/-! ## json_builder.h -/

namespace json

/-- The enumeration `Builder::ContextType`. -/
inductive ContextType where
  | None | Dict | Array | KeyAfterDict | ValueAfterKey
  deriving DecidableEq, Repr

/-- The private state of `class Builder`. `nodes_stack_` is a `std::vector<Node*>`, its back is
the last element of the list. -/
structure Builder where
  root_ : Node := .null
  nodes_stack_ : List NodePtr := []
  waiting_key_ : Option String := none
  completed_ : Bool := false
  context_type_ : ContextType := .None

namespace Builder

/-- The node `*nodes_stack_.back()`, when the stack is not empty. A pointer of the stack always
points into `root_`; one that did not would raise here. -/
def top (b : Builder) : Except String (Option (NodePtr × Node)) :=
  match b.nodes_stack_.getLast? with
  | none => .ok none
  | some p =>
    match b.root_.deref p with
    | some n => .ok (some (p, n))
    | none => .error "dangling pointer on nodes_stack_"

/-- The common part of `StartDict` and `StartArray`: opens the container `fresh` (an empty
dictionary or an empty array) at the current position. -/
def start (b : Builder) (fresh : Node) (what : String) : Except String Builder :=
  if b.completed_ then .error (what ++ " after Build or after value already set")
  else do
    match (← b.top) with
    | none => .ok { b with root_ := fresh, nodes_stack_ := b.nodes_stack_ ++ [[]] }
    | some (p, .array arr) =>
      .ok { b with
            root_ := b.root_.store p (.array (arr ++ [fresh]))
            nodes_stack_ := b.nodes_stack_ ++ [p ++ [.index arr.length]] }
    | some (p, n) =>
      match b.waiting_key_ with
      | some key =>
        match n with
        | .dict dict =>
          .ok { b with
                root_ := b.root_.store p (.dict (Dict.emplace dict key fresh))
                nodes_stack_ := b.nodes_stack_ ++ [p ++ [.key key]]
                waiting_key_ := none }
        | _ => .error "AsMap on a node that is not a dictionary"
      | none => .error (what ++ " in wrong context")

/-- The function `Builder::StartDict`. -/
def StartDict (b : Builder) : Except String Builder := b.start (.dict []) "StartDict"

/-- The function `Builder::StartArray`. -/
def StartArray (b : Builder) : Except String Builder := b.start (.array []) "StartArray"

/-- The function `Builder::Value`. -/
def Value (b : Builder) (value : Node) : Except String Builder :=
  if b.completed_ then .error "Value after Build or after value already set"
  else do
    match (← b.top) with
    | some (p, .array arr) => .ok { b with root_ := b.root_.store p (.array (arr ++ [value])) }
    | some (p, n) =>
      match b.waiting_key_ with
      | some key =>
        match n with
        | .dict dict =>
          .ok { b with
                root_ := b.root_.store p (.dict (Dict.emplace dict key value))
                waiting_key_ := none }
        | _ => .error "AsMap on a node that is not a dictionary"
      | none => .error "Value in wrong context"
    | none =>
      if !b.root_.IsNull then .error "Root value already set"
      else .ok { b with root_ := value, completed_ := true }

/-- The function `Builder::Build`. -/
def Build (b : Builder) : Except String Node :=
  if !b.completed_ || !b.nodes_stack_.isEmpty then
    .error "Build called before JSON is complete"
  else .ok b.root_

/-- The function `Builder::DoKey`. -/
def DoKey (b : Builder) (key : String) : Except String Builder :=
  if b.completed_ then .error "Key after Build or after value already set"
  else do
    match (← b.top) with
    | some (_, .dict _) =>
      if b.waiting_key_.isSome then .error "Key after Key"
      else .ok { b with waiting_key_ := some key }
    | _ => .error "Key outside of dict"

/-- The function `Builder::DoValue`. -/
def DoValue (b : Builder) (value : Node) : Except String Builder :=
  if b.completed_ then .error "Value after Build or after value already set"
  else do
    match (← b.top) with
    | some (p, .dict dict) =>
      match b.waiting_key_ with
      | some key =>
        .ok { b with
              root_ := b.root_.store p (.dict (Dict.emplace dict key value))
              waiting_key_ := none }
      | none => .error "Value in wrong context after Key"
    | _ => .error "Value in wrong context after Key"

/-- The function `Builder::DoStartDict`. -/
def DoStartDict (b : Builder) : Except String Builder := b.StartDict

/-- The function `Builder::DoStartArray`. -/
def DoStartArray (b : Builder) : Except String Builder := b.StartArray

/-- The function `Builder::DoEndDict`. -/
def DoEndDict (b : Builder) : Except String Builder :=
  if b.completed_ then .error "EndDict after Build or after value already set"
  else do
    match (← b.top) with
    | some (_, .dict _) =>
      if b.waiting_key_.isSome then .error "EndDict after Key"
      else
        let stack := b.nodes_stack_.dropLast
        .ok { b with nodes_stack_ := stack, completed_ := if stack.isEmpty then true else b.completed_ }
    | _ => .error "EndDict outside of dict"

/-- The function `Builder::DoEndArray`. -/
def DoEndArray (b : Builder) : Except String Builder :=
  if b.completed_ then .error "EndArray after Build or after value already set"
  else do
    match (← b.top) with
    | some (_, .array _) =>
      let stack := b.nodes_stack_.dropLast
      .ok { b with nodes_stack_ := stack, completed_ := if stack.isEmpty then true else b.completed_ }
    | _ => .error "EndArray outside of array"

/-- The function `Builder::DoKeyAfterValue`. -/
def DoKeyAfterValue (b : Builder) (key : String) : Except String Builder := b.DoKey key

/-- The function `Builder::Key`. -/
def Key (b : Builder) (key : String) : Except String Builder := do
  match (← b.top) with
  | some (_, .dict _) =>
    if b.waiting_key_.isSome then .error "Key after Key"
    else b.DoKey key
  | _ => .error "Key called in wrong context"

/-- The function `Builder::EndDict`. -/
def EndDict (b : Builder) : Except String Builder := do
  match (← b.top) with
  | some (_, .dict _) =>
    if b.waiting_key_.isSome then .error "EndDict after Key"
    else b.DoEndDict
  | _ => .error "EndDict called in wrong context"

/-- The function `Builder::EndArray`. -/
def EndArray (b : Builder) : Except String Builder := do
  match (← b.top) with
  | some (_, .array _) => b.DoEndArray
  | _ => .error "EndArray called in wrong context"

end Builder

/-- The function `DictItemContext::Key`. -/
def DictItemContext.Key (b : Builder) (key : String) : Except String Builder := b.DoKey key

/-- The function `DictItemContext::EndDict`. -/
def DictItemContext.EndDict (b : Builder) : Except String Builder := b.DoEndDict

/-- The function `KeyItemContext::Value`. -/
def KeyItemContext.Value (b : Builder) (value : Node) : Except String Builder := b.DoValue value

/-- The function `KeyItemContext::StartDict`. -/
def KeyItemContext.StartDict (b : Builder) : Except String Builder := b.DoStartDict

/-- The function `KeyItemContext::StartArray`. -/
def KeyItemContext.StartArray (b : Builder) : Except String Builder := b.DoStartArray

/-- The function `ValueAfterKeyContext::Key`. -/
def ValueAfterKeyContext.Key (b : Builder) (key : String) : Except String Builder :=
  b.DoKeyAfterValue key

/-- The function `ValueAfterKeyContext::EndDict`. -/
def ValueAfterKeyContext.EndDict (b : Builder) : Except String Builder := b.DoEndDict

/-- The function `ArrayItemContext::Value`. -/
def ArrayItemContext.Value (b : Builder) (value : Node) : Except String Builder := b.Value value

/-- The function `ArrayItemContext::StartDict`. -/
def ArrayItemContext.StartDict (b : Builder) : Except String Builder := b.DoStartDict

/-- The function `ArrayItemContext::StartArray`. -/
def ArrayItemContext.StartArray (b : Builder) : Except String Builder := b.DoStartArray

/-- The function `ArrayItemContext::EndArray`. -/
def ArrayItemContext.EndArray (b : Builder) : Except String Builder := b.DoEndArray

end json

/-! ## json_reader.cpp -/

namespace geo

/-- The record `geo::Coordinates` passed to `geo::ComputeDistance`. -/
structure Coordinates where
  lat : ℚ
  lng : ℚ
  deriving DecidableEq, Repr

end geo

namespace TransportCatalogue

/-- The stop a non-null `const Stop*` of the catalogue points to. -/
def stopAt (db : TransportCatalogue) (p : StopPtr) : Stop := db.stops_.getD p { name := "" }

/-- The bus a non-null `const Bus*` of the catalogue points to. -/
def busAt (db : TransportCatalogue) (p : BusPtr) : Bus := db.buses_.getD p { name := "", stops := [] }

end TransportCatalogue

namespace JsonReader

open json

/-- The answer built in `ProcessStopRequest`, `ProcessBusRequest` and `ProcessRouteRequest` when
the requested object is missing. -/
def notFound (id : Int) : Except String Node := do
  let b ← Builder.StartDict {}
  let b ← DictItemContext.Key b "request_id"
  let b ← KeyItemContext.Value b (.int id)
  let b ← ValueAfterKeyContext.Key b "error_message"
  let b ← KeyItemContext.Value b (.string "not found")
  let b ← ValueAfterKeyContext.EndDict b
  b.Build

/-- The function `JsonReader::ProcessStopRequest`, for a request whose fields `id` and `name` hold `id` and
`stop_name`. -/
def ProcessStopRequest (db_ : TransportCatalogue) (id : Int) (stop_name : String) :
    Except String Node :=
  match db_.FindStop stop_name with
  | none => notFound id
  | some _ => do
    let buses_view := db_.GetBusesByStop stop_name
    let builder : Builder := {}
    let builder ← builder.StartDict
    let builder ← DictItemContext.Key builder "buses"
    let builder ← KeyItemContext.StartArray builder
    let builder ← buses_view.foldlM (fun (b : Builder) bus => b.Value (.string bus)) builder
    let builder ← builder.EndArray
    let builder ← builder.Key "request_id"
    let builder ← KeyItemContext.Value builder (.int id)
    let builder ← ValueAfterKeyContext.EndDict builder
    builder.Build

/-- The answer of `ProcessBusRequest` with its five entries. -/
def busAnswer (id : Int) (curvature : ℚ) (route_length stop_count unique_stop_count : Int) :
    Except String Node := do
  let b ← Builder.StartDict {}
  let b ← DictItemContext.Key b "curvature"
  let b ← KeyItemContext.Value b (.double curvature)
  let b ← ValueAfterKeyContext.Key b "request_id"
  let b ← KeyItemContext.Value b (.int id)
  let b ← ValueAfterKeyContext.Key b "route_length"
  let b ← KeyItemContext.Value b (.int route_length)
  let b ← ValueAfterKeyContext.Key b "stop_count"
  let b ← KeyItemContext.Value b (.int stop_count)
  let b ← ValueAfterKeyContext.Key b "unique_stop_count"
  let b ← KeyItemContext.Value b (.int unique_stop_count)
  let b ← ValueAfterKeyContext.EndDict b
  b.Build

/-- The body shared by the two loops of `ProcessBusRequest`: `acc` holds `route_length` and
`geo_length`, the hop goes from the stop named `prev_name` to the one named `curr_name`. The
statement `route_length += road_dist` adds in `int`. -/
def ProcessBusRequest.hop (db_ : TransportCatalogue)
    (ComputeDistance : geo.Coordinates → geo.Coordinates → ℚ)
    (acc : Int × ℚ) (prev_name curr_name : String) : Int × ℚ :=
  match db_.FindStop prev_name, db_.FindStop curr_name with
  | some prev, some curr =>
    let road_dist := db_.GetRoadDistanceBidirectional (some prev) (some curr)
    let geo_dist :=
      ComputeDistance ⟨(db_.stopAt prev).lat, (db_.stopAt prev).lng⟩
        ⟨(db_.stopAt curr).lat, (db_.stopAt curr).lng⟩
    (intWrap (acc.1 + road_dist), acc.2 + geo_dist)
  | _, _ => acc

/-- The two loops of `ProcessBusRequest` over the stop sequence `stops` of a bus: the values of
`route_length` and `geo_length` after them. `stops[i]` is `stops.getD i ""`, every index used is
in bounds. -/
def ProcessBusRequest.lengths (db_ : TransportCatalogue)
    (ComputeDistance : geo.Coordinates → geo.Coordinates → ℚ)
    (stops : List String) (is_roundtrip : Bool) : Int × ℚ :=
  let forward := (List.range' 1 (stops.length - 1)).foldl
    (fun acc i => ProcessBusRequest.hop db_ ComputeDistance acc (stops.getD (i - 1) "") (stops.getD i ""))
    (0, 0)
  if !is_roundtrip then
    (List.range' 1 (stops.length - 1)).reverse.foldl
      (fun acc i =>
        ProcessBusRequest.hop db_ ComputeDistance acc (stops.getD i "") (stops.getD (i - 1) ""))
      forward
  else forward

/-- The function `JsonReader::ProcessBusRequest`, for a request whose fields `id` and `name` hold `id` and
`bus_name`. `ComputeDistance` is `geo::ComputeDistance`. -/
def ProcessBusRequest (db_ : TransportCatalogue)
    (ComputeDistance : geo.Coordinates → geo.Coordinates → ℚ)
    (id : Int) (bus_name : String) : Except String Node :=
  match db_.FindBus bus_name with
  | none => notFound id
  | some bus_ptr =>
    let bus := db_.busAt bus_ptr
    if bus.stops.isEmpty then busAnswer id 0 0 0 0
    else
      let unique_stops : List String := bus.stops.foldl setInsert []
      let unique_stop_count : Int := unique_stops.length
      let stop_count : Int :=
        if bus.is_roundtrip then (bus.stops.length : Int) else (bus.stops.length : Int) * 2 - 1
      let lengths := ProcessBusRequest.lengths db_ ComputeDistance bus.stops bus.is_roundtrip
      let route_length := lengths.1
      let geo_length := lengths.2
      let curvature : ℚ := if geo_length > 0 then (route_length : ℚ) / geo_length else 0
      busAnswer id curvature route_length stop_count unique_stop_count

end JsonReader

/-! ## graph.h, router.h -/

namespace graph

/-- The type `graph::VertexId`, a `size_t`. -/
abbrev VertexId := Nat

/-- The type `graph::EdgeId`, a `size_t`. -/
abbrev EdgeId := Nat

/-- Modelled from the spec: `graph.h` is not among the sources. An edge of the weighted directed
graph: source vertex `from`, target vertex `to`, and a weight. -/
structure Edge where
  from_ : VertexId
  to_ : VertexId
  weight : ℚ
  deriving DecidableEq, Repr

/-- Modelled from the spec: `graph.h` is not among the sources. The weighted directed graph over
the vertices `0 .. vertex_count - 1`; an edge is identified by its position in `edges_`. -/
structure DirectedWeightedGraph where
  vertex_count : Nat := 0
  edges_ : List Edge := []
  deriving DecidableEq, Repr

/-- Modelled from the spec: `graph.h` is not among the sources. `AddEdge` stores the edge and
returns its id, the number of edges stored before it. -/
def DirectedWeightedGraph.AddEdge (g : DirectedWeightedGraph) (edge : Edge) :
    DirectedWeightedGraph × EdgeId :=
  ({ g with edges_ := g.edges_ ++ [edge] }, g.edges_.length)

/-- Modelled from the spec: `graph.h` is not among the sources. `GetEdge` returns the edge with
the given id and raises for an id that names no edge. -/
def DirectedWeightedGraph.GetEdge (g : DirectedWeightedGraph) (edge_id : EdgeId) :
    Except String Edge :=
  match g.edges_[edge_id]? with
  | some edge => .ok edge
  | none => .error "GetEdge: no such edge"

/-- The record `graph::Router<double>::RouteInfo`: the weight of a path and its edges in order. -/
structure RouteInfo where
  weight : ℚ
  edges : List EdgeId
  deriving DecidableEq, Repr

/-- Modelled from the spec: `router.h` is not among the sources. The shortest-path engine
`graph::Router<double>`, seen through `BuildRoute`: for the graph it was constructed over, a
source vertex and a target vertex, it reports a path or the absence of one. -/
abbrev Router := DirectedWeightedGraph → VertexId → VertexId → Option RouteInfo

/-- The edges `path`, taken in order, chain from vertex `s` to vertex `t` in `g`. -/
def IsPath (g : DirectedWeightedGraph) : VertexId → VertexId → List EdgeId → Bool
  | s, t, [] => decide (s = t)
  | s, t, e :: rest =>
    match g.edges_[e]? with
    | some edge => decide (edge.from_ = s) && IsPath g edge.to_ t rest
    | none => false

/-- The sum of the weights of the edges of a path. -/
def pathWeight (g : DirectedWeightedGraph) (path : List EdgeId) : ℚ :=
  (path.map (fun e => ((g.edges_[e]?).map Edge.weight).getD 0)).sum

/-- Modelled from the spec: the contract of the shortest-path engine on the graph `g` for the
query from `s` to `t`. It reports "no path" only when there is none, and otherwise a chain of
edges from `s` to `t` whose reported weight is the sum of its edge weights and is minimal among
all chains from `s` to `t`. -/
def Router.MinimumWeight (engine : Router) (g : DirectedWeightedGraph) (s t : VertexId) : Prop :=
  match engine g s t with
  | none => ∀ path, IsPath g s t path = false
  | some route =>
    IsPath g s t route.edges = true ∧ route.weight = pathWeight g route.edges ∧
      ∀ path, IsPath g s t path = true → route.weight ≤ pathWeight g path

end graph

/-! ## transport_router.h, transport_router.cpp -/

/-- The record `RoutingSettings`. -/
structure RoutingSettings where
  bus_wait_time : Int := 0
  bus_velocity : ℚ := 0
  deriving DecidableEq, Repr

/-- The enumeration `RouteItem::Type`. -/
inductive RouteItem.Type where
  | Wait
  | Bus
  deriving DecidableEq, Repr

/-- The record `RouteItem`. A member the code leaves unset holds its value-initialised value
here (`span_count` of a `Wait` item is indeterminate in C++). -/
structure RouteItem where
  type : RouteItem.Type
  stop_name : String := ""
  bus : String := ""
  span_count : Int := 0
  time : ℚ := 0
  deriving DecidableEq, Repr

/-- The record `RouteInfo` of `transport_router.h`. -/
structure RouteInfo where
  total_time : ℚ
  items : List RouteItem := []
  deriving DecidableEq, Repr

/-- The private state of `class TransportRouter`. The reference `catalogue_` is passed to the
member functions instead. `graph_` is a `std::unique_ptr` that `BuildGraph` sets before anything
reads it; `router_` is the engine constructed over `*graph_`. -/
structure TransportRouter where
  settings_ : RoutingSettings := {}
  graph_ : graph.DirectedWeightedGraph := {}
  stop_to_wait_vertex_ : List (String × graph.VertexId) := []
  stop_to_bus_vertex_ : List (String × graph.VertexId) := []
  vertex_to_stop_ : List (graph.VertexId × String) := []
  edge_to_bus_ : List (graph.EdgeId × String) := []
  edge_to_span_count_ : List (graph.EdgeId × Int) := []
  graph_built_ : Bool := false
  deriving DecidableEq, Repr

namespace TransportRouter

/-- The constructor `TransportRouter::TransportRouter`. -/
def new : TransportRouter := {}

/-- The function `TransportRouter::SetRoutingSettings`. -/
def SetRoutingSettings (r : TransportRouter) (settings : RoutingSettings) : TransportRouter :=
  { r with settings_ := settings, graph_built_ := false }

/-- The function `TransportRouter::CalculateTime`, with the arithmetic of `double` read as exact;
`CalculateTime.binary64` is the same function with the rounding of `double`. -/
def CalculateTime (r : TransportRouter) (distance : Int) : ℚ :=
  if r.settings_.bus_velocity ≤ 0 then 0
  else
    let velocity_m_per_min := r.settings_.bus_velocity * 1000 / 60
    (distance : ℚ) / velocity_m_per_min

/-- The body of the innermost loops of `AddEdgesForBus` for the hop from the stop named
`current_stop` to the one named `next_stop`: `total_distance` where the body leaves it as it
is, and the mathematical value of `total_distance + distance` where the body runs
`total_distance += distance`. The loops store it in the `int` variable, which reduces it with
`intWrap`. -/
def AddEdgesForBus.hop (catalogue : TransportCatalogue) (total_distance : Int)
    (current_stop next_stop : String) : Int :=
  match catalogue.FindStop current_stop, catalogue.FindStop next_stop with
  | some current_stop_ptr, some next_stop_ptr =>
    let distance := catalogue.GetRoadDistance (some current_stop_ptr) (some next_stop_ptr)
    let distance :=
      if distance = 0 then catalogue.GetRoadDistance (some next_stop_ptr) (some current_stop_ptr)
      else distance
    if distance = 0 then total_distance else total_distance + distance
  | _, _ => total_distance

/-- The end of the body of the pair loops of `AddEdgesForBus`, from the test of
`total_distance` on. -/
def AddEdgesForBus.addEdge (r : TransportRouter) (bus_name : String)
    (from_vertex to_vertex : graph.VertexId) (total_distance : Int) (span_count : Int) :
    TransportRouter :=
  if total_distance = 0 then r
  else
    let total_time := r.CalculateTime total_distance
    let (g, edge_id) := r.graph_.AddEdge ⟨from_vertex, to_vertex, total_time⟩
    { r with
      graph_ := g
      edge_to_bus_ := mapAssign r.edge_to_bus_ edge_id bus_name
      edge_to_span_count_ := mapAssign r.edge_to_span_count_ edge_id span_count }

/-- The body of the forward pair loop of `AddEdgesForBus` for the positions `i < j`. -/
def AddEdgesForBus.forwardPair (catalogue : TransportCatalogue) (bus : Bus) (r : TransportRouter)
    (i j : Nat) : TransportRouter :=
  let from_stop := bus.stops.getD i ""
  let to_stop := bus.stops.getD j ""
  match mapFind r.stop_to_bus_vertex_ from_stop, mapFind r.stop_to_wait_vertex_ to_stop with
  | some from_vertex, some to_vertex =>
    let total_distance := (List.range' i (j - i)).foldl
      (fun total k =>
        intWrap
          (AddEdgesForBus.hop catalogue total (bus.stops.getD k "") (bus.stops.getD (k + 1) "")))
      0
    AddEdgesForBus.addEdge r bus.name from_vertex to_vertex total_distance ((j - i : Nat) : Int)
  | _, _ => r

/-- The body of the return-leg pair loop of `AddEdgesForBus` for the positions `i > j`. -/
def AddEdgesForBus.backwardPair (catalogue : TransportCatalogue) (bus : Bus) (r : TransportRouter)
    (i j : Nat) : TransportRouter :=
  let from_stop := bus.stops.getD i ""
  let to_stop := bus.stops.getD j ""
  match mapFind r.stop_to_bus_vertex_ from_stop, mapFind r.stop_to_wait_vertex_ to_stop with
  | some from_vertex, some to_vertex =>
    let total_distance := (List.range' (j + 1) (i - j)).reverse.foldl
      (fun total k =>
        intWrap
          (AddEdgesForBus.hop catalogue total (bus.stops.getD k "") (bus.stops.getD (k - 1) "")))
      0
    AddEdgesForBus.addEdge r bus.name from_vertex to_vertex total_distance ((i - j : Nat) : Int)
  | _, _ => r

/-- The function `TransportRouter::AddEdgesForBus`. The forward loops run `i` over `0 .. n-1` and `j` over
`i+1 .. n-1`; the return-leg loops run `i` from `n-1` down to `1` and `j` from `i-1` down to `0`
(the unsigned counter `j` leaves its loop by wrapping around below `0`). -/
def AddEdgesForBus (catalogue : TransportCatalogue) (r : TransportRouter) (bus : Bus) :
    TransportRouter :=
  let n := bus.stops.length
  if n < 2 then r
  else
    let r := (List.range n).foldl
      (fun r i =>
        (List.range' (i + 1) (n - (i + 1))).foldl
          (fun r j => AddEdgesForBus.forwardPair catalogue bus r i j) r)
      r
    if !bus.is_roundtrip then
      (List.range' 1 (n - 1)).reverse.foldl
        (fun r i =>
          (List.range i).reverse.foldl
            (fun r j => AddEdgesForBus.backwardPair catalogue bus r i j) r)
        r
    else r

/-- The body of the first loop of `BuildGraph`, for the stop at index `i`. -/
def BuildGraph.addStop (r : TransportRouter) (i : Nat) (stop : Stop) : TransportRouter :=
  let wait_vertex : graph.VertexId := i * 2
  let bus_vertex : graph.VertexId := i * 2 + 1
  let wait_edge : graph.Edge := ⟨wait_vertex, bus_vertex, (r.settings_.bus_wait_time : ℚ)⟩
  { r with
    stop_to_wait_vertex_ := mapAssign r.stop_to_wait_vertex_ stop.name wait_vertex
    stop_to_bus_vertex_ := mapAssign r.stop_to_bus_vertex_ stop.name bus_vertex
    vertex_to_stop_ :=
      mapAssign (mapAssign r.vertex_to_stop_ wait_vertex stop.name) bus_vertex stop.name
    graph_ := (r.graph_.AddEdge wait_edge).1 }

/-- The function `TransportRouter::BuildGraph`. -/
def BuildGraph (catalogue : TransportCatalogue) (r : TransportRouter) : TransportRouter :=
  if r.graph_built_ then r
  else
    let stops := catalogue.stops_
    let vertex_count := stops.length * 2
    let r := { r with graph_ := { vertex_count := vertex_count, edges_ := [] } }
    let r := stops.enum.foldl (fun r (p : Nat × Stop) => BuildGraph.addStop r p.1 p.2) r
    let r := catalogue.buses_.foldl (AddEdgesForBus catalogue) r
    { r with graph_built_ := true }

/-- The body of the loop of `ReconstructRoute`: the item list after the edge `edge_id`. -/
def ReconstructRoute.visit (r : TransportRouter) (items : List RouteItem) (edge_id : graph.EdgeId) :
    Except String (List RouteItem) := do
  let edge ← r.graph_.GetEdge edge_id
  if edge.to_ = edge.from_ + 1 ∧ edge.from_ % 2 = 0 then
    match mapFind r.vertex_to_stop_ edge.from_ with
    | some stop_name =>
      .ok (items ++ [{ type := .Wait, stop_name := stop_name, time := edge.weight }])
    | none => .error "vertex_to_stop_.at: no such vertex"
  else
    match mapFind r.edge_to_bus_ edge_id, mapFind r.edge_to_span_count_ edge_id with
    | some bus, some span_count =>
      .ok (items ++ [{ type := .Bus, bus := bus, span_count := span_count, time := edge.weight }])
    | _, _ => .ok items

/-- The function `TransportRouter::ReconstructRoute`; `router` is the engine. -/
def ReconstructRoute (r : TransportRouter) (from_vertex to_vertex : graph.VertexId)
    (router : graph.Router) : Except String (Option RouteInfo) :=
  match router r.graph_ from_vertex to_vertex with
  | none => .ok none
  | some route =>
    if route.edges.isEmpty then .ok (some { total_time := route.weight })
    else do
      let items ← route.edges.foldlM (ReconstructRoute.visit r) []
      .ok (some { total_time := route.weight, items := items })

/-- The function `TransportRouter::BuildRoute`: the state of the router after the call, and what the call
returns or raises. `router` is the engine `graph::Router<double>` that `BuildGraph` constructs
over the graph. -/
def BuildRoute (router : graph.Router) (catalogue : TransportCatalogue) (r : TransportRouter)
    (from_name to_name : String) : TransportRouter × Except String (Option RouteInfo) :=
  let r := r.BuildGraph catalogue
  match mapFind r.stop_to_wait_vertex_ from_name, mapFind r.stop_to_wait_vertex_ to_name with
  | some from_vertex, some to_vertex => (r, r.ReconstructRoute from_vertex to_vertex router)
  | _, _ => (r, .ok none)

end TransportRouter

/-! ## The statements of the specification, as definitions -/

namespace Spec

/-- The fallback of the specification, by presence: the distance stored for `(a, b)` if one is
stored, else the distance stored for `(b, a)` if one is stored, else zero. -/
def presenceFallback (db : TransportCatalogue) (a b : StopPtr) : Int :=
  match db.storedDistance a b with
  | some d => d
  | none =>
    match db.storedDistance b a with
    | some d => d
    | none => 0

/-- The fallback by sign: the distance stored for `(a, b)` if one is stored and is positive, else
the distance stored for `(b, a)` if one is stored and is positive, else zero. -/
def positiveFallback (db : TransportCatalogue) (a b : StopPtr) : Int :=
  match (db.storedDistance a b).filter (fun d => decide (0 < d)) with
  | some d => d
  | none =>
    match (db.storedDistance b a).filter (fun d => decide (0 < d)) with
    | some d => d
    | none => 0

end Spec

/-! ## Example catalogues -/

namespace Example

/-- Two stops; `A -> B` is declared as `0` and `B -> A` as `5`. -/
def zeroForward : TransportCatalogue :=
  (((TransportCatalogue.empty.AddStop { name := "A" }).AddStop { name := "B" }).SetDistance
    (some 0) (some 1) 0).SetDistance (some 1) (some 0) 5

/-- Two stops; only `A -> B` is declared, as `d`. -/
def oneWay (d : Int) : TransportCatalogue :=
  ((TransportCatalogue.empty.AddStop { name := "A" }).AddStop { name := "B" }).SetDistance
    (some 0) (some 1) d

/-- One stop `A` served by the buses `"9"`, `"10"` and `"9"` again, added in that order. -/
def threeBuses : TransportCatalogue :=
  (((TransportCatalogue.empty.AddStop { name := "A" }).AddBus
    { name := "9", stops := ["A", "A"] }).AddBus
    { name := "10", stops := ["A"] }).AddBus { name := "9", stops := ["A"] }

end Example

/-! ## Invariants of the catalogue -/

namespace TransportCatalogue

/-- Every set of `stop_to_buses_` is free of duplicates. -/
def SetsNodup (db : TransportCatalogue) : Prop :=
  ∀ p s, mapFind db.stop_to_buses_ p = some s → s.Nodup

/-- A name that `FindStop` resolves is the name of the stop the pointer points to. -/
def NamesResolve (db : TransportCatalogue) : Prop :=
  ∀ n p, db.FindStop n = some p → ∃ stop, db.stops_[p]? = some stop ∧ stop.name = n

/-- The name of every stored stop is resolved by `FindStop`. -/
def StopsIndexed (db : TransportCatalogue) : Prop :=
  ∀ stop ∈ db.stops_, db.FindStop stop.name ≠ none

/-- A bus name recorded for a stop is the name of a stored bus whose stop sequence holds the name
of that stop. -/
def SetsSound (db : TransportCatalogue) : Prop :=
  ∀ p x, x ∈ mapGetD db.stop_to_buses_ p [] →
    ∃ bus ∈ db.buses_, bus.name = x ∧ ∃ stop, db.stops_[p]? = some stop ∧ stop.name ∈ bus.stops

/-- The catalogue built by adding the stops, then setting the distances, then adding the buses,
each list in order (the order in which `LoadData` fills the catalogue). -/
def populate (stops : List Stop) (distances : List (Option StopPtr × Option StopPtr × Int))
    (buses : List Bus) : TransportCatalogue :=
  buses.foldl AddBus
    (distances.foldl (fun db d => db.SetDistance d.1 d.2.1 d.2.2)
      (stops.foldl AddStop TransportCatalogue.empty))

end TransportCatalogue

namespace Example

/-- Stops `A` and `B`; the bus `"9"` goes through `A` only. -/
def unserved : TransportCatalogue :=
  ((TransportCatalogue.empty.AddStop { name := "A" }).AddStop { name := "B" }).AddBus
    { name := "9", stops := ["A"] }

/-- The scenario of the specification: stops `A` and `B`, `A -> B = 1000` declared and no entry
for `B -> A`, and the bus `R = [A, B]`, not round-trip. -/
def thereAndBack : TransportCatalogue :=
  (((TransportCatalogue.empty.AddStop { name := "A" }).AddStop
    { name := "B", lng := 1 / 1000 }).SetDistance (some 0) (some 1) 1000).AddBus
    { name := "R", stops := ["A", "B"], is_roundtrip := false }

/-- A stand-in for `geo::ComputeDistance` in examples: the sum of the coordinate differences,
each taken as an absolute value. -/
def flatDistance (a b : geo.Coordinates) : ℚ := |a.lat - b.lat| + |a.lng - b.lng|

end Example

namespace Example

/-- The routing scenario of the specification: stops `X`, `Y`, `Z`, distances `X -> Y = 1200`
and `Y -> Z = 1200`, and the bus `B = [X, Y, Z]`, not round-trip. -/
def linear : TransportCatalogue :=
  (((((TransportCatalogue.empty.AddStop { name := "X" }).AddStop { name := "Y" }).AddStop
    { name := "Z" }).SetDistance (some 0) (some 1) 1200).SetDistance (some 1) (some 2)
    1200).AddBus { name := "B", stops := ["X", "Y", "Z"], is_roundtrip := false }

/-- A router for the routing scenario: `bus_wait_time = 6`, `bus_velocity = 40`. -/
def linearRouter : TransportRouter :=
  TransportRouter.new.SetRoutingSettings { bus_wait_time := 6, bus_velocity := 40 }

/-- The graph of the routing scenario, written out: three wait edges, then the ride edges of
bus `B` forward (`X -> Y`, `X -> Z`, `Y -> Z`) and back (`Z -> Y`, `Z -> X`, `Y -> X`). -/
def linearGraph : graph.DirectedWeightedGraph :=
  { vertex_count := 6
    edges_ := [⟨0, 1, 6⟩, ⟨2, 3, 6⟩, ⟨4, 5, 6⟩, ⟨1, 2, 9 / 5⟩, ⟨1, 4, 18 / 5⟩, ⟨3, 4, 9 / 5⟩,
      ⟨5, 2, 9 / 5⟩, ⟨5, 0, 18 / 5⟩, ⟨3, 0, 9 / 5⟩] }

/-- An engine that knows one route: from vertex `0` to vertex `4` over the edges `0` and `4`. -/
def directEngine : graph.Router :=
  fun _ s t => if s = 0 ∧ t = 4 then some { weight := 48 / 5, edges := [0, 4] } else none

end Example

/-! ## Invariants of the router -/

namespace TransportRouter

/-- The router a `JsonReader` creates: constructed, then given its settings. -/
def configured (settings : RoutingSettings) : TransportRouter :=
  TransportRouter.new.SetRoutingSettings settings

/-- Every riding vertex recorded in `stop_to_bus_vertex_` has an odd id. -/
def BusVerticesOdd (r : TransportRouter) : Prop :=
  ∀ (name : String) (v : Nat), mapFind r.stop_to_bus_vertex_ name = some v → v % 2 = 1

/-- Every edge with id `n` or more leaves a vertex with an odd id and has a bus name and a span
count recorded for its id. -/
def RideEdgesTagged (r : TransportRouter) (n : Nat) : Prop :=
  ∀ (e : Nat) (edge : graph.Edge), n ≤ e → r.graph_.edges_[e]? = some edge →
    edge.from_ % 2 = 1 ∧ (mapFind r.edge_to_bus_ e).isSome ∧
      (mapFind r.edge_to_span_count_ e).isSome

/-- For every index `i` of `stops`, the edge with id `i` is the wait edge of the stop at index
`i`, from vertex `2 i` to vertex `2 i + 1` with the wait time as weight, and `vertex_to_stop_`
maps vertex `2 i` to the name of that stop. -/
def WaitEdges (r : TransportRouter) (stops : List Stop) : Prop :=
  ∀ (i : Nat) (stop : Stop), stops[i]? = some stop →
    r.graph_.edges_[i]? = some ⟨i * 2, i * 2 + 1, (r.settings_.bus_wait_time : ℚ)⟩ ∧
      mapFind r.vertex_to_stop_ (i * 2) = some stop.name

/-- Every waiting vertex recorded in `stop_to_wait_vertex_` is vertex `2 i` for an index `i` of
a stop of `stops` that has the name it is recorded under. -/
def WaitVerticesSound (r : TransportRouter) (stops : List Stop) : Prop :=
  ∀ (name : String) (v : Nat), mapFind r.stop_to_wait_vertex_ name = some v →
    ∃ (i : Nat) (stop : Stop), stops[i]? = some stop ∧ stop.name = name ∧ v = i * 2

end TransportRouter

namespace Spec

/-- The item the specification asks for an edge of a path over the built graph: for the wait
edge of the stop at index `e`, a `Wait` item with the name of that stop and the wait time; for
any other edge, a `Bus` item with the bus name and span count recorded for the edge and the
weight of the edge. -/
def itemOfEdge (catalogue : TransportCatalogue) (r : TransportRouter) (e : graph.EdgeId) :
    RouteItem :=
  if e < catalogue.stops_.length then
    { type := .Wait
      stop_name := (catalogue.stopAt e).name
      time := (r.settings_.bus_wait_time : ℚ) }
  else
    { type := .Bus
      bus := mapGetD r.edge_to_bus_ e ""
      span_count := mapGetD r.edge_to_span_count_ e 0
      time := ((r.graph_.edges_[e]?).map graph.Edge.weight).getD 0 }

end Spec

namespace TransportRouter

/-- The router `r` comes from `r0` by adding ride edges only: settings and vertex tables are
those of `r0`, the first `n` edges are those of `r0`, and every later edge is a tagged ride
edge. -/
def Extends (n : Nat) (r0 r : TransportRouter) : Prop :=
  r.settings_ = r0.settings_ ∧ r.stop_to_wait_vertex_ = r0.stop_to_wait_vertex_ ∧
    r.stop_to_bus_vertex_ = r0.stop_to_bus_vertex_ ∧ r.vertex_to_stop_ = r0.vertex_to_stop_ ∧
    r.RideEdgesTagged n ∧ (∀ i : Nat, i < n → r.graph_.edges_[i]? = r0.graph_.edges_[i]?) ∧
    n ≤ r.graph_.edges_.length

end TransportRouter

namespace Spec

/-- The great-circle length of one hop of a bus, from the stop named `a` to the stop named `b`:
the distance between the coordinates of the two stops when both names resolve, and nothing
otherwise. -/
def hopGeo (db : TransportCatalogue) (ComputeDistance : geo.Coordinates → geo.Coordinates → ℚ)
    (a b : String) : ℚ :=
  match db.FindStop a, db.FindStop b with
  | some p, some q =>
    ComputeDistance ⟨(db.stopAt p).lat, (db.stopAt p).lng⟩ ⟨(db.stopAt q).lat, (db.stopAt q).lng⟩
  | _, _ => 0

/-- The accumulated geographic length of a bus: the sum of the hop lengths over the consecutive
pairs of its stop sequence, and for a bus that is not round-trip the same over the reversed
pairs as well. -/
def geoLength (db : TransportCatalogue) (ComputeDistance : geo.Coordinates → geo.Coordinates → ℚ)
    (stops : List String) (is_roundtrip : Bool) : ℚ :=
  (∑ i ∈ Finset.Ico 1 stops.length,
      hopGeo db ComputeDistance (stops.getD (i - 1) "") (stops.getD i "")) +
    if is_roundtrip then 0
    else ∑ i ∈ Finset.Ico 1 stops.length,
      hopGeo db ComputeDistance (stops.getD i "") (stops.getD (i - 1) "")

end Spec

namespace Example

/-- One bus `E` with an empty stop sequence, not round-trip. -/
def emptyBus : TransportCatalogue :=
  TransportCatalogue.empty.AddBus { name := "E", stops := [], is_roundtrip := false }

/-- One bus `L` over the names `P`, `Q`, `P`, none of which is a stop. -/
def unknownStops : TransportCatalogue :=
  TransportCatalogue.empty.AddBus { name := "L", stops := ["P", "Q", "P"], is_roundtrip := true }

end Example

namespace TransportCatalogue

/-- A name that `FindBus` resolves is the name of the bus the pointer points to. -/
def BusNamesResolve (db : TransportCatalogue) : Prop :=
  ∀ n p, db.FindBus n = some p → ∃ bus, db.buses_[p]? = some bus ∧ bus.name = n

end TransportCatalogue

/-! ## json.h: the accessors of `Node` and `Dict` -/

namespace json

/-- Modelled from the spec: `json.cpp`, which defines the accessors of `Node`, is not among the
sources. `AsString` returns the string a node holds and raises on any other node. -/
def Node.AsString : Node → Except String String
  | .string s => .ok s
  | _ => .error "AsString: not a string"

/-- Modelled from the spec: `json.cpp` is not among the sources. `AsInt` returns the `int` a node
holds and raises on any other node. -/
def Node.AsInt : Node → Except String Int
  | .int i => .ok i
  | _ => .error "AsInt: not an int"

/-- Modelled from the spec: `json.cpp` is not among the sources. `AsDouble` returns the number a
node holds, an `int` converted, and raises on any other node. -/
def Node.AsDouble : Node → Except String ℚ
  | .double x => .ok x
  | .int i => .ok (i : ℚ)
  | _ => .error "AsDouble: not a number"

/-- Modelled from the spec: `json.cpp` is not among the sources. `AsBool` returns the `bool` a
node holds and raises on any other node. -/
def Node.AsBool : Node → Except String Bool
  | .bool b => .ok b
  | _ => .error "AsBool: not a bool"

/-- Modelled from the spec: `json.cpp` is not among the sources. `AsArray` returns the array a
node holds and raises on any other node. -/
def Node.AsArray : Node → Except String (List Node)
  | .array a => .ok a
  | _ => .error "AsArray: not an array"

/-- Modelled from the spec: `json.cpp` is not among the sources. `AsMap` returns the dictionary
a node holds and raises on any other node. -/
def Node.AsMap : Node → Except String Dict
  | .dict d => .ok d
  | _ => .error "AsMap: not a dictionary"

/-- The call `dict.at(k)` of `std::map`: the value under `k`, raising `std::out_of_range` when
there is none. -/
def Dict.at (d : Dict) (k : String) : Except String Node :=
  match Dict.find d k with
  | some v => .ok v
  | none => .error "at: no such key"

/-- The call `dict.count(k)` of `std::map`, as a truth value. -/
def Dict.count (d : Dict) (k : String) : Bool := (Dict.find d k).isSome

/-- The dictionary without its entry for the key `k`. -/
def Dict.erase (d : Dict) (k : String) : Dict := d.filter (fun e => decide (e.1 ≠ k))

end json

/-! ## json_reader.cpp: loading -/

/-- The private state of `class JsonReader`: the catalogue `db_` refers to, and the router,
null until `LoadData` finds routing settings. -/
structure JsonReader where
  db_ : TransportCatalogue := {}
  router_ : Option TransportRouter := none

namespace JsonReader

open json

/-- The body of the loop of `LoadStops`. -/
def LoadStops.visit (db_ : TransportCatalogue) (node : Node) : Except String TransportCatalogue := do
  let dict ← node.AsMap
  if (← (← dict.at "type").AsString) = "Stop" then
    let name ← (← dict.at "name").AsString
    let lat ← (← dict.at "latitude").AsDouble
    let lng ← (← dict.at "longitude").AsDouble
    pure (db_.AddStop { name := name, lat := lat, lng := lng })
  else pure db_

/-- The function `JsonReader::LoadStops`. -/
def LoadStops (db_ : TransportCatalogue) (base_requests : List Node) :
    Except String TransportCatalogue :=
  base_requests.foldlM LoadStops.visit db_

/-- The body of the inner loop of `LoadDistances`, for the entry `to -> dist` of the
`road_distances` of the stop `from_stop` points to. -/
def LoadDistances.entry (from_stop : Option StopPtr) (db_ : TransportCatalogue)
    (e : String × Node) : Except String TransportCatalogue :=
  let to_stop := db_.FindStop e.1
  if from_stop.isSome && to_stop.isSome then do
    let d ← e.2.AsInt
    pure (db_.SetDistance from_stop to_stop d)
  else pure db_

/-- The body of the outer loop of `LoadDistances`. -/
def LoadDistances.visit (db_ : TransportCatalogue) (node : Node) :
    Except String TransportCatalogue := do
  let dict ← node.AsMap
  if (← (← dict.at "type").AsString) = "Stop" ∧ dict.count "road_distances" = true then
    let from_name ← (← dict.at "name").AsString
    let from_stop := db_.FindStop from_name
    let distances ← (← dict.at "road_distances").AsMap
    distances.foldlM (LoadDistances.entry from_stop) db_
  else pure db_

/-- The function `JsonReader::LoadDistances`. -/
def LoadDistances (db_ : TransportCatalogue) (base_requests : List Node) :
    Except String TransportCatalogue :=
  base_requests.foldlM LoadDistances.visit db_

/-- The body of the loop of `LoadBuses`. -/
def LoadBuses.visit (db_ : TransportCatalogue) (node : Node) : Except String TransportCatalogue := do
  let dict ← node.AsMap
  if (← (← dict.at "type").AsString) = "Bus" then
    let name ← (← dict.at "name").AsString
    let stops ← (← (← dict.at "stops").AsArray).mapM Node.AsString
    let is_roundtrip ← (← dict.at "is_roundtrip").AsBool
    pure (db_.AddBus { name := name, stops := stops, is_roundtrip := is_roundtrip })
  else pure db_

/-- The function `JsonReader::LoadBuses`. -/
def LoadBuses (db_ : TransportCatalogue) (base_requests : List Node) :
    Except String TransportCatalogue :=
  base_requests.foldlM LoadBuses.visit db_

/-- The function `JsonReader::ParseRoutingSettings`. -/
def ParseRoutingSettings (settings : Dict) : Except String RoutingSettings := do
  let bus_wait_time ← (← settings.at "bus_wait_time").AsInt
  let bus_velocity ← (← settings.at "bus_velocity").AsDouble
  pure { bus_wait_time := bus_wait_time, bus_velocity := bus_velocity }

/-- The function `JsonReader::LoadData`, on the root node of the document. -/
def LoadData (reader : JsonReader) (root_node : Node) : Except String JsonReader := do
  let root ← root_node.AsMap
  let base_requests ← (← root.at "base_requests").AsArray
  let db ← LoadStops reader.db_ base_requests
  let db ← LoadDistances db base_requests
  let db ← LoadBuses db base_requests
  if root.count "routing_settings" = true then
    let routing_settings ← ParseRoutingSettings (← (← root.at "routing_settings").AsMap)
    pure { db_ := db, router_ := some (TransportRouter.new.SetRoutingSettings routing_settings) }
  else pure { reader with db_ := db }

/-- The body of the loop of `ProcessRouteRequest`: the builder after the item `item`. -/
def ProcessRouteRequest.visit (builder : Builder) (item : RouteItem) : Except String Builder := do
  let builder ← builder.StartDict
  let builder ←
    match item.type with
    | .Wait => do
      let b ← builder.Key "type"
      let b ← KeyItemContext.Value b (.string "Wait")
      let b ← ValueAfterKeyContext.Key b "stop_name"
      let b ← KeyItemContext.Value b (.string item.stop_name)
      let b ← ValueAfterKeyContext.Key b "time"
      KeyItemContext.Value b (.double item.time)
    | .Bus => do
      let b ← builder.Key "type"
      let b ← KeyItemContext.Value b (.string "Bus")
      let b ← ValueAfterKeyContext.Key b "bus"
      let b ← KeyItemContext.Value b (.string item.bus)
      let b ← ValueAfterKeyContext.Key b "span_count"
      let b ← KeyItemContext.Value b (.int item.span_count)
      let b ← ValueAfterKeyContext.Key b "time"
      KeyItemContext.Value b (.double item.time)
  builder.EndDict

/-- The function `JsonReader::ProcessRouteRequest`, for a request whose fields `id`, `from` and
`to` hold `id`, `from_name` and `to_name`: the reader after the call (the router may have built
its graph) and the answer. `engine` is the shortest-path engine of the router. -/
def ProcessRouteRequest (reader : JsonReader) (engine : graph.Router) (id : Int)
    (from_name to_name : String) : JsonReader × Except String Node :=
  match reader.router_ with
  | none => (reader, notFound id)
  | some router =>
    let result := TransportRouter.BuildRoute engine reader.db_ router from_name to_name
    let reader := { reader with router_ := some result.1 }
    match result.2 with
    | .error msg => (reader, .error msg)
    | .ok none => (reader, notFound id)
    | .ok (some route) =>
      (reader, do
        let builder : Builder := {}
        let builder ← builder.StartDict
        let builder ← DictItemContext.Key builder "request_id"
        let builder ← KeyItemContext.Value builder (.int id)
        let builder ← ValueAfterKeyContext.Key builder "total_time"
        let builder ← KeyItemContext.Value builder (.double route.total_time)
        let builder ← ValueAfterKeyContext.Key builder "items"
        let builder ← KeyItemContext.StartArray builder
        let builder ← route.items.foldlM ProcessRouteRequest.visit builder
        let builder ← builder.EndArray
        let builder ← builder.EndDict
        builder.Build)

end JsonReader

namespace Example

open json

/-- A `base_requests` array: the stops `A` and `B`; `A` declares the distances `B -> 1000` and
`Q -> 5`, where `Q` is not a stop. -/
def requestsWithUnknown : List Node :=
  [.dict [("latitude", .double 0), ("longitude", .double 0), ("name", .string "A"),
      ("road_distances", .dict [("B", .int 1000), ("Q", .int 5)]), ("type", .string "Stop")],
    .dict [("latitude", .double 0), ("longitude", .int 1), ("name", .string "B"),
      ("type", .string "Stop")]]

/-- The catalogue with the stops `A` and `B` and nothing else. -/
def twoStops : TransportCatalogue :=
  (TransportCatalogue.empty.AddStop { name := "A" }).AddStop { name := "B" }

end Example

/-! ## Comparing routers -/

/-- Two `std::unordered_map`s hold the same entries: every key finds the same value in both. -/
def mapEquiv {κ ν : Type} [DecidableEq κ] (m m' : List (κ × ν)) : Prop :=
  ∀ k, mapFind m k = mapFind m' k

namespace TransportRouter

/-- Two routers are equal as C++ objects: same settings, same graph, same flag, and the same
entries in each of the five tables. -/
def SameContent (a b : TransportRouter) : Prop :=
  a.settings_ = b.settings_ ∧ a.graph_ = b.graph_ ∧ a.graph_built_ = b.graph_built_ ∧
    mapEquiv a.stop_to_wait_vertex_ b.stop_to_wait_vertex_ ∧
    mapEquiv a.stop_to_bus_vertex_ b.stop_to_bus_vertex_ ∧
    mapEquiv a.vertex_to_stop_ b.vertex_to_stop_ ∧
    mapEquiv a.edge_to_bus_ b.edge_to_bus_ ∧
    mapEquiv a.edge_to_span_count_ b.edge_to_span_count_

/-- The graph has at least `n` edges, and every edge id with a bus name or a span count recorded
is at least `n` and is the id of an edge of the graph. -/
def TagsBounded (n : Nat) (r : TransportRouter) : Prop :=
  n ≤ r.graph_.edges_.length ∧
    ∀ e : Nat, (mapFind r.edge_to_bus_ e).isSome ∨ (mapFind r.edge_to_span_count_ e).isSome →
      n ≤ e ∧ e < r.graph_.edges_.length

/-- Two routers agree on the stop tables and on the number of edges of their graphs. -/
def SameShape (a b : TransportRouter) : Prop :=
  a.stop_to_wait_vertex_ = b.stop_to_wait_vertex_ ∧
    a.stop_to_bus_vertex_ = b.stop_to_bus_vertex_ ∧
    a.graph_.edges_.length = b.graph_.edges_.length

/-- The settings and the three vertex tables of `r` are those of `r0`. -/
def SameVertexTables (r0 r : TransportRouter) : Prop :=
  r.settings_ = r0.settings_ ∧ r.stop_to_wait_vertex_ = r0.stop_to_wait_vertex_ ∧
    r.stop_to_bus_vertex_ = r0.stop_to_bus_vertex_ ∧ r.vertex_to_stop_ = r0.vertex_to_stop_

/-- The state `a` of a router that rebuilds its graph over edge tables left by `stale`, next to
the state `b` of a fresh router at the same point of `BuildGraph`: same settings and graph, same
entries in the stop tables, the same tags for the ride edges added so far, and for every other
edge id the tags `a` holds are those of `stale`. -/
def Rebuilding (n : Nat) (stale a b : TransportRouter) : Prop :=
  a.settings_ = b.settings_ ∧ a.graph_ = b.graph_ ∧ n ≤ a.graph_.edges_.length ∧
    mapEquiv a.stop_to_wait_vertex_ b.stop_to_wait_vertex_ ∧
    mapEquiv a.stop_to_bus_vertex_ b.stop_to_bus_vertex_ ∧
    (∀ e : Nat, n ≤ e → e < a.graph_.edges_.length →
      mapFind a.edge_to_bus_ e = mapFind b.edge_to_bus_ e ∧
        mapFind a.edge_to_span_count_ e = mapFind b.edge_to_span_count_ e) ∧
    (∀ e : Nat, e < n ∨ a.graph_.edges_.length ≤ e →
      mapFind a.edge_to_bus_ e = mapFind stale.edge_to_bus_ e ∧
        mapFind a.edge_to_span_count_ e = mapFind stale.edge_to_span_count_ e)

end TransportRouter

/-! ## The ride edges of a bus, pair by pair -/

namespace TransportRouter

open graph

/-- The value of `total_distance` when the innermost loop of the forward pair loop of
`AddEdgesForBus` ends, for the positions `i < j`: the hops `k -> k + 1` for `k = i .. j - 1`. -/
def AddEdgesForBus.forwardDistance (catalogue : TransportCatalogue) (bus : Bus) (i j : Nat) :
    Int :=
  (List.range' i (j - i)).foldl
    (fun total k =>
      intWrap
        (AddEdgesForBus.hop catalogue total (bus.stops.getD k "") (bus.stops.getD (k + 1) "")))
    0

/-- The value of `total_distance` when the innermost loop of the return-leg pair loop of
`AddEdgesForBus` ends, for the positions `i > j`: the hops `k -> k - 1` for `k = i` down to
`j + 1`. -/
def AddEdgesForBus.backwardDistance (catalogue : TransportCatalogue) (bus : Bus) (i j : Nat) :
    Int :=
  (List.range' (j + 1) (i - j)).reverse.foldl
    (fun total k =>
      intWrap
        (AddEdgesForBus.hop catalogue total (bus.stops.getD k "") (bus.stops.getD (k - 1) "")))
    0

/-- The accumulated distance of the position pair `(i, j)`: that of the forward loops when
`i < j`, that of the return-leg loops otherwise. -/
def AddEdgesForBus.distance (catalogue : TransportCatalogue) (bus : Bus) (i j : Nat) : Int :=
  if i < j then AddEdgesForBus.forwardDistance catalogue bus i j
  else AddEdgesForBus.backwardDistance catalogue bus i j

/-- The span count of the position pair `(i, j)`: `static_cast<int>(j - i)` in the forward
loops, `static_cast<int>(i - j)` in the return-leg loops. -/
def AddEdgesForBus.span (i j : Nat) : Int :=
  if i < j then ((j - i : Nat) : Int) else ((i - j : Nat) : Int)

/-- The position pairs `(i, j)` the forward loops of `AddEdgesForBus` reach over a sequence of
`n` stops, in the order they reach them. -/
def AddEdgesForBus.forwardPairs (n : Nat) : List (Nat × Nat) :=
  (List.range n).flatMap (fun i => (List.range' (i + 1) (n - (i + 1))).map (fun j => (i, j)))

/-- The position pairs `(i, j)` the return-leg loops of `AddEdgesForBus` reach over a sequence
of `n` stops, in the order they reach them. -/
def AddEdgesForBus.backwardPairs (n : Nat) : List (Nat × Nat) :=
  (List.range' 1 (n - 1)).reverse.flatMap (fun i => (List.range i).reverse.map (fun j => (i, j)))

/-- The position pairs `AddEdgesForBus` reaches for a bus: those of the forward loops, then,
for a bus that is not a round trip, those of the return-leg loops. -/
def AddEdgesForBus.pairs (bus : Bus) : List (Nat × Nat) :=
  AddEdgesForBus.forwardPairs bus.stops.length ++
    if !bus.is_roundtrip then AddEdgesForBus.backwardPairs bus.stops.length else []

/-- A ride edge with its tags: the edge, and the bus name and span count `AddEdgesForBus`
records for its id. -/
structure Ride where
  edge : Edge
  bus : String
  span_count : Int
  deriving DecidableEq, Repr

/-- The last three statements of the body of a pair loop of `AddEdgesForBus`: `AddEdge` and the
two assignments under the new edge id. -/
def AddEdgesForBus.store (r : TransportRouter) (x : Ride) : TransportRouter :=
  let (g, edge_id) := r.graph_.AddEdge x.edge
  { r with
    graph_ := g
    edge_to_bus_ := mapAssign r.edge_to_bus_ edge_id x.bus
    edge_to_span_count_ := mapAssign r.edge_to_span_count_ edge_id x.span_count }

/-- What the body of a pair loop of `AddEdgesForBus` stores for the position pair `p = (i, j)`
of `bus`: nothing when a vertex lookup fails or the accumulated distance is zero. -/
def AddEdgesForBus.ride (catalogue : TransportCatalogue) (r : TransportRouter) (bus : Bus)
    (p : Nat × Nat) : Option Ride :=
  match mapFind r.stop_to_bus_vertex_ (bus.stops.getD p.1 ""),
    mapFind r.stop_to_wait_vertex_ (bus.stops.getD p.2 "") with
  | some from_vertex, some to_vertex =>
    if AddEdgesForBus.distance catalogue bus p.1 p.2 = 0 then none
    else
      some
        { edge :=
            ⟨from_vertex, to_vertex,
              r.CalculateTime (AddEdgesForBus.distance catalogue bus p.1 p.2)⟩
          bus := bus.name
          span_count := AddEdgesForBus.span p.1 p.2 }
  | _, _ => none

/-- The ride edges `AddEdgesForBus` stores for a bus, in order. -/
def AddEdgesForBus.rides (catalogue : TransportCatalogue) (r : TransportRouter) (bus : Bus) :
    List Ride :=
  (AddEdgesForBus.pairs bus).filterMap (AddEdgesForBus.ride catalogue r bus)

/-- The ride edges the second loop of `BuildGraph` stores, bus after bus. -/
def BuildGraph.rides (catalogue : TransportCatalogue) (r : TransportRouter) : List Ride :=
  catalogue.buses_.flatMap (AddEdgesForBus.rides catalogue r)

end TransportRouter

namespace TransportCatalogue

/-- No distance stored in `distances_` is negative. -/
def DistancesNonneg (db : TransportCatalogue) : Prop :=
  ∀ row ∈ db.distances_, ∀ e ∈ row.2, 0 ≤ e.2

instance DistancesNonneg.decidable (db : TransportCatalogue) : Decidable db.DistancesNonneg := by
  unfold DistancesNonneg
  infer_instance

end TransportCatalogue

namespace Spec

/-- The accumulated distance `D(i, j)` of the specification for the positions `i < j` of a stop
sequence: the sum of `DistanceEitherWay(s_k, s_{k+1})`, which the code provides as
`GetRoadDistanceBidirectional`, over `k = i .. j - 1`. -/
def spanDistance (db : TransportCatalogue) (stops : List String) (i j : Nat) : Int :=
  ((List.range' i (j - i)).map
    (fun k => db.GetRoadDistanceBidirectional (db.FindStop (stops.getD k ""))
      (db.FindStop (stops.getD (k + 1) "")))).sum

end Spec

namespace Example

/-- Two stops; `A -> B` is declared as `-5` and `B -> A` as `7`; the round-trip bus `N` goes
`A, B`. -/
def negativeForward : TransportCatalogue :=
  ((((TransportCatalogue.empty.AddStop { name := "A" }).AddStop { name := "B" }).SetDistance
    (some 0) (some 1) (-5)).SetDistance (some 1) (some 0) 7).AddBus
    { name := "N", stops := ["A", "B"], is_roundtrip := true }

end Example

namespace Example

/-- Three stops `A`, `B`, `C`; only `A -> B = 1000` is declared, so the hop between `B` and `C`
is undeclared in both directions; the round-trip bus `G` goes `A, B, C`. -/
def gap : TransportCatalogue :=
  ((((TransportCatalogue.empty.AddStop { name := "A" }).AddStop { name := "B" }).AddStop
    { name := "C" }).SetDistance (some 0) (some 1) 1000).AddBus
    { name := "G", stops := ["A", "B", "C"], is_roundtrip := true }

end Example

/-! ## json_reader.cpp: the type of an entry of `base_requests` -/

namespace JsonReader

open json

/-- The string `node.AsMap().at("type").AsString()` that every loop of the loader reads off an
entry of `base_requests` first. -/
def entryType (node : Node) : Except String String := do
  let dict ← node.AsMap
  (← dict.at "type").AsString

/-- The entry is a dictionary whose `type` is the string `t`. -/
def hasType (t : String) (node : Node) : Bool :=
  match entryType node with
  | .ok s => decide (s = t)
  | .error _ => false

end JsonReader

namespace Example

open json

/-- A `base_requests` array that lists the round-trip bus `b = [A, B]` before its stops, and in
which the stop `A` declares the distance `7` to the stop `B` listed after it. -/
def busFirst : List Node :=
  [.dict [("is_roundtrip", .bool true), ("name", .string "b"),
      ("stops", .array [.string "A", .string "B"]), ("type", .string "Bus")],
    .dict [("latitude", .double 0), ("longitude", .double 0), ("name", .string "A"),
      ("road_distances", .dict [("B", .int 7)]), ("type", .string "Stop")],
    .dict [("latitude", .double 0), ("longitude", .double 1), ("name", .string "B"),
      ("type", .string "Stop")]]

/-- The entries of `busFirst` with the two stops listed before the bus. -/
def stopsFirst : List Node :=
  [.dict [("latitude", .double 0), ("longitude", .double 0), ("name", .string "A"),
      ("road_distances", .dict [("B", .int 7)]), ("type", .string "Stop")],
    .dict [("latitude", .double 0), ("longitude", .double 1), ("name", .string "B"),
      ("type", .string "Stop")],
    .dict [("is_roundtrip", .bool true), ("name", .string "b"),
      ("stops", .array [.string "A", .string "B"]), ("type", .string "Bus")]]

end Example

namespace Example

/-- Three stops `A`, `B`, `C` with `A -> B = -5`, `B -> A = 7`, `B -> C = 0` and `C -> B = 5`
declared; the round-trip bus `K` goes `A, B, C`. -/
def cancelling : TransportCatalogue :=
  (((((((TransportCatalogue.empty.AddStop { name := "A" }).AddStop { name := "B" }).AddStop
    { name := "C" }).SetDistance (some 0) (some 1) (-5)).SetDistance (some 1) (some 0)
    7).SetDistance (some 1) (some 2) 0).SetDistance (some 2) (some 1) 5).AddBus
    { name := "K", stops := ["A", "B", "C"], is_roundtrip := true }

end Example

/-! ## The order of a dictionary -/

namespace json

/-- The invariant of a `std::map`: the keys of the entries increase strictly from one entry to
the next. -/
def Dict.Ordered (d : Dict) : Prop := d.Pairwise (fun a b => strLE a.1 b.1 ∧ a.1 ≠ b.1)

end json

namespace Example

open json

/-- A builder positioned inside an open dictionary that holds the entry `a -> 1`: the state
after `StartDict().Key("a").Value(1)`. -/
def openDict : Builder :=
  { root_ := .dict [("a", .int 1)], nodes_stack_ := [[]] }

end Example

/-! ## The loops of `AddEdgesForBus` over `size_t` counters -/

/-- The value of `c + 1` on a `size_t` of `w` bits. -/
def sizeSucc (w c : Nat) : Nat := (c + 1) % 2 ^ w

/-- The value of `c - 1` on a `size_t` of `w` bits: `0 - 1` wraps around to `2 ^ w - 1`. -/
def sizePred (w c : Nat) : Nat := (c + 2 ^ w - 1) % 2 ^ w

/-- A loop `for (size_t c = start; cond(c); c = step(c)) body(c)` run on the state `s` for at
most `fuel` tests of its condition: the state when the condition fails, an error when the body
raises one, and an error when the fuel runs out before the condition fails. -/
def forLoop {σ : Type} (cond : Nat → Bool) (step : Nat → Nat)
    (body : Nat → σ → Except String σ) : Nat → Nat → σ → Except String σ
  | 0, _, _ => .error "out of fuel"
  | fuel + 1, c, s =>
    if cond c then
      match body c s with
      | .ok s' => forLoop cond step body fuel (step c) s'
      | .error e => .error e
    else .ok s

namespace TransportRouter

/-- The subscript `bus.stops[k]` with its bound checked: a read outside the vector, undefined in
C++, is an error here. -/
def AddEdgesForBus.subscript (bus : Bus) (k : Nat) : Except String String :=
  match bus.stops[k]? with
  | some stop => .ok stop
  | none => .error "subscript out of range"

namespace Sized

/-- The innermost loop of the forward loops of `AddEdgesForBus`,
`for (size_t k = i; k < j; ++k)`, with `size_t` of `w` bits: the value of `total_distance` when
it ends. -/
def forwardHops (w fuel : Nat) (catalogue : TransportCatalogue) (bus : Bus) (i j : Nat) :
    Except String Int :=
  forLoop (fun k => decide (k < j)) (sizeSucc w)
    (fun k total_distance => do
      let current_stop ← AddEdgesForBus.subscript bus k
      let next_stop ← AddEdgesForBus.subscript bus (sizeSucc w k)
      pure (intWrap (AddEdgesForBus.hop catalogue total_distance current_stop next_stop)))
    fuel i 0

/-- The innermost loop of the return-leg loops of `AddEdgesForBus`,
`for (size_t k = i; k > j; --k)`, with `size_t` of `w` bits: the value of `total_distance` when
it ends. -/
def backwardHops (w fuel : Nat) (catalogue : TransportCatalogue) (bus : Bus) (i j : Nat) :
    Except String Int :=
  forLoop (fun k => decide (k > j)) (sizePred w)
    (fun k total_distance => do
      let current_stop ← AddEdgesForBus.subscript bus k
      let next_stop ← AddEdgesForBus.subscript bus (sizePred w k)
      pure (intWrap (AddEdgesForBus.hop catalogue total_distance current_stop next_stop)))
    fuel i 0

/-- The body of the forward pair loop of `AddEdgesForBus` for the counters `i` and `j`, with
checked subscripts. -/
def forwardPair (w fuel : Nat) (catalogue : TransportCatalogue) (bus : Bus) (i j : Nat)
    (r : TransportRouter) : Except String TransportRouter := do
  let from_stop ← AddEdgesForBus.subscript bus i
  let to_stop ← AddEdgesForBus.subscript bus j
  match mapFind r.stop_to_bus_vertex_ from_stop, mapFind r.stop_to_wait_vertex_ to_stop with
  | some from_vertex, some to_vertex => do
    let total_distance ← forwardHops w fuel catalogue bus i j
    pure (AddEdgesForBus.addEdge r bus.name from_vertex to_vertex total_distance
      ((j - i : Nat) : Int))
  | _, _ => pure r

/-- The body of the return-leg pair loop of `AddEdgesForBus` for the counters `i` and `j`, with
checked subscripts. -/
def backwardPair (w fuel : Nat) (catalogue : TransportCatalogue) (bus : Bus) (i j : Nat)
    (r : TransportRouter) : Except String TransportRouter := do
  let from_stop ← AddEdgesForBus.subscript bus i
  let to_stop ← AddEdgesForBus.subscript bus j
  match mapFind r.stop_to_bus_vertex_ from_stop, mapFind r.stop_to_wait_vertex_ to_stop with
  | some from_vertex, some to_vertex => do
    let total_distance ← backwardHops w fuel catalogue bus i j
    pure (AddEdgesForBus.addEdge r bus.name from_vertex to_vertex total_distance
      ((i - j : Nat) : Int))
  | _, _ => pure r

/-- The two forward loops of `AddEdgesForBus` over a sequence of `n` stops,
`for (size_t i = 0; i < n; ++i) for (size_t j = i + 1; j < n; ++j)`, around the body
`body i j`. -/
def forwardLeg {σ : Type} (w fuel n : Nat) (body : Nat → Nat → σ → Except String σ) (s : σ) :
    Except String σ :=
  forLoop (fun i => decide (i < n)) (sizeSucc w)
    (fun i s => forLoop (fun j => decide (j < n)) (sizeSucc w) (body i) fuel (sizeSucc w i) s)
    fuel 0 s

/-- The two return-leg loops of `AddEdgesForBus` over a sequence of `n` stops,
`for (size_t i = n - 1; i > 0; --i) for (size_t j = i - 1; j < n; --j)`, around the body
`body i j`. The counter `j` leaves its loop by wrapping around below `0`. -/
def returnLeg {σ : Type} (w fuel n : Nat) (body : Nat → Nat → σ → Except String σ) (s : σ) :
    Except String σ :=
  forLoop (fun i => decide (i > 0)) (sizePred w)
    (fun i s => forLoop (fun j => decide (j < n)) (sizePred w) (body i) fuel (sizePred w i) s)
    fuel (sizePred w n) s

/-- The function `TransportRouter::AddEdgesForBus` with its loops run over `size_t` counters of
`w` bits, for at most `fuel` tests of each loop condition, and with checked subscripts.
`bus.stops.size()` is the length of the sequence, which fits a `size_t`. -/
def AddEdgesForBus (w fuel : Nat) (catalogue : TransportCatalogue) (r : TransportRouter)
    (bus : Bus) : Except String TransportRouter :=
  let n := bus.stops.length
  if n < 2 then .ok r
  else do
    let r ← forwardLeg w fuel n (forwardPair w fuel catalogue bus) r
    if !bus.is_roundtrip then returnLeg w fuel n (backwardPair w fuel catalogue bus) r
    else pure r

/-- The body that records the counters it is run with. -/
def record (i j : Nat) (visited : List (Nat × Nat)) : Except String (List (Nat × Nat)) :=
  .ok (visited ++ [(i, j)])

end Sized

end TransportRouter

/-! ## Sums as mathematical integers -/

/-- The integer `x` is a value of a 32-bit `int`. -/
def fitsInt (x : Int) : Prop := -2147483648 ≤ x ∧ x ≤ 2147483647

instance fitsInt.decidable (x : Int) : Decidable (fitsInt x) := by
  unfold fitsInt
  infer_instance

namespace Spec

/-- The accumulated distance of the positions `i < j` of a bus as a mathematical integer: the
sum over `k = i .. j - 1` of what the hop `s_k -> s_{k+1}` of the graph builder adds, without
the reduction to the range of `int`. -/
def forwardSum (catalogue : TransportCatalogue) (bus : Bus) (i j : Nat) : Int :=
  ((List.range' i (j - i)).map
    (fun k =>
      TransportRouter.AddEdgesForBus.hop catalogue 0 (bus.stops.getD k "")
        (bus.stops.getD (k + 1) ""))).sum

/-- The accumulated distance of the positions `i > j` of a bus as a mathematical integer: the
sum over `k = j + 1 .. i` of what the hop `s_k -> s_{k-1}` of the graph builder adds, without
the reduction to the range of `int`. -/
def backwardSum (catalogue : TransportCatalogue) (bus : Bus) (i j : Nat) : Int :=
  ((List.range' (j + 1) (i - j)).map
    (fun k =>
      TransportRouter.AddEdgesForBus.hop catalogue 0 (bus.stops.getD k "")
        (bus.stops.getD (k - 1) ""))).sum

/-- The accumulated distance of the position pair `(i, j)` as a mathematical integer. -/
def pairSum (catalogue : TransportCatalogue) (bus : Bus) (i j : Nat) : Int :=
  if i < j then forwardSum catalogue bus i j else backwardSum catalogue bus i j

/-- The route length of the specification for the stop sequence `s_0 .. s_{n-1}`, as a
mathematical integer: the sum over `i = 1 .. n-1` of
`GetRoadDistanceBidirectional(s_{i-1}, s_i)` plus, when the bus is not round-trip, the sum over
`i = 1 .. n-1` of `GetRoadDistanceBidirectional(s_i, s_{i-1})`. -/
def routeLength (db : TransportCatalogue) (stops : List String) (is_roundtrip : Bool) : Int :=
  (∑ i ∈ Finset.Ico 1 stops.length,
      db.GetRoadDistanceBidirectional (db.FindStop (stops.getD (i - 1) ""))
        (db.FindStop (stops.getD i ""))) +
    if is_roundtrip then 0
    else ∑ i ∈ Finset.Ico 1 stops.length,
      db.GetRoadDistanceBidirectional (db.FindStop (stops.getD i ""))
        (db.FindStop (stops.getD (i - 1) ""))

end Spec

namespace TransportCatalogue

/-- The distance of every position pair of every bus of the catalogue, summed over its hops as a
mathematical integer, is a value of `int`. -/
def SpansFit (db : TransportCatalogue) : Prop :=
  ∀ bus ∈ db.buses_, ∀ p ∈ TransportRouter.AddEdgesForBus.pairs bus,
    fitsInt (Spec.pairSum db bus p.1 p.2)

instance SpansFit.decidable (db : TransportCatalogue) : Decidable db.SpansFit := by
  unfold SpansFit
  infer_instance

end TransportCatalogue

/-! ## IEEE 754 binary64 -/

/-- A finite value of the type `double` (IEEE 754 binary64): the number
`mantissa * 2 ^ exponent`. -/
structure Binary64 where
  mantissa : Int
  exponent : Int
  deriving DecidableEq, Repr

namespace Binary64

/-- The number of binary digits of `n`, computed in at most `fuel` halvings. -/
def bits : Nat → Nat → Nat
  | 0, _ => 0
  | fuel + 1, n => if n = 0 then 0 else bits fuel (n / 2) + 1

/-- The `double` nearest to the number `num / den * 2 ^ scale`, ties going to the even
mantissa: the rounding every operation on `double` ends with. The mantissa of a result other
than zero has 53 bits. Results outside the normal range (overflow, subnormal numbers) and a
zero denominator are not modelled. -/
def round (num : Int) (den : Nat) (scale : Int) : Binary64 :=
  if num = 0 ∨ den = 0 then ⟨0, 0⟩
  else
    let a := num.natAbs
    let k0 : Int := (bits a a : Int) - (bits den den : Int) - 52
    let q0 := a * 2 ^ (-k0).toNat / (den * 2 ^ k0.toNat)
    let k : Int := if q0 < 2 ^ 52 then k0 - 1 else k0
    let n := a * 2 ^ (-k).toNat
    let d := den * 2 ^ k.toNat
    let q := n / d
    let r := n % d
    let m := if 2 * r < d then q else if d < 2 * r then q + 1 else if q % 2 = 0 then q else q + 1
    ⟨(if num < 0 then -1 else 1) * (m : Int), k + scale⟩

/-- The conversion of an `int` to `double`. -/
def ofInt (n : Int) : Binary64 := round n 1 0

/-- The product `a * b` of two `double`s. -/
def mul (a b : Binary64) : Binary64 :=
  round (a.mantissa * b.mantissa) 1 (a.exponent + b.exponent)

/-- The quotient `a / b` of two `double`s, `b` not zero. -/
def div (a b : Binary64) : Binary64 :=
  round (if b.mantissa < 0 then -a.mantissa else a.mantissa) b.mantissa.natAbs
    (a.exponent - b.exponent)

/-- The sum `a + b` of two `double`s. -/
def add (a b : Binary64) : Binary64 :=
  let e := min a.exponent b.exponent
  round (a.mantissa * 2 ^ (a.exponent - e).toNat + b.mantissa * 2 ^ (b.exponent - e).toNat) 1 e

/-- The comparison `a < b` of two `double`s. -/
def lt (a b : Binary64) : Bool :=
  let e := min a.exponent b.exponent
  decide (a.mantissa * 2 ^ (a.exponent - e).toNat < b.mantissa * 2 ^ (b.exponent - e).toNat)

/-- The rational number a `double` stands for. -/
def toRat (a : Binary64) : ℚ := (a.mantissa : ℚ) * (2 : ℚ) ^ a.exponent

end Binary64

namespace TransportRouter

/-- The function `TransportRouter::CalculateTime` in the arithmetic of `double`, where
`CalculateTime` reads it as exact: `bus_velocity` is the `double` that `settings_.bus_velocity`
holds, and the product and the two divisions round. -/
def CalculateTime.binary64 (bus_velocity : Binary64) (distance : Int) : Binary64 :=
  if bus_velocity.mantissa ≤ 0 then Binary64.ofInt 0
  else
    let velocity_m_per_min :=
      Binary64.div (Binary64.mul bus_velocity (Binary64.ofInt 1000)) (Binary64.ofInt 60)
    Binary64.div (Binary64.ofInt distance) velocity_m_per_min

end TransportRouter

namespace Example

/-- Three stops `X`, `Y`, `Z` with `X -> Y = 2000000000` and `Y -> Z = 2000000000` declared,
and the bus `F = [X, Y, Z]`, not round-trip. Each distance is a value of `int`; their sum,
`4000000000`, is not. -/
def far : TransportCatalogue :=
  (((((TransportCatalogue.empty.AddStop { name := "X" }).AddStop { name := "Y" }).AddStop
    { name := "Z" }).SetDistance (some 0) (some 1) 2000000000).SetDistance (some 1) (some 2)
    2000000000).AddBus { name := "F", stops := ["X", "Y", "Z"], is_roundtrip := false }

/-- Five stops `P`, `Q`, `R`, `S`, `T` with `1073741824 = 2 ^ 30` declared for each of
`P -> Q`, `Q -> R`, `R -> S`, `S -> T`, and the bus `L = [P, Q, R, S, T]`, not round-trip. The
four distances sum to `2 ^ 32`. -/
def lap : TransportCatalogue :=
  (((((((((TransportCatalogue.empty.AddStop { name := "P" }).AddStop { name := "Q" }).AddStop
    { name := "R" }).AddStop { name := "S" }).AddStop { name := "T" }).SetDistance (some 0)
    (some 1) 1073741824).SetDistance (some 1) (some 2) 1073741824).SetDistance (some 2) (some 3)
    1073741824).SetDistance (some 3) (some 4) 1073741824).AddBus
    { name := "L", stops := ["P", "Q", "R", "S", "T"], is_roundtrip := false }

/-- Two stops `A` and `B` with `A -> B = 2000000000` declared and no entry for `B -> A`, and the
bus `R = [A, B]`, not round-trip. -/
def farApart : TransportCatalogue :=
  (((TransportCatalogue.empty.AddStop { name := "A" }).AddStop
    { name := "B", lng := 1 / 1000 }).SetDistance (some 0) (some 1) 2000000000).AddBus
    { name := "R", stops := ["A", "B"], is_roundtrip := false }

/-- Three stops `X`, `Y`, `Z` with `X -> Y = 1` and `Y -> Z = 9` declared, and the round-trip
bus `S = [X, Y, Z]`. -/
def near : TransportCatalogue :=
  (((((TransportCatalogue.empty.AddStop { name := "X" }).AddStop { name := "Y" }).AddStop
    { name := "Z" }).SetDistance (some 0) (some 1) 1).SetDistance (some 1) (some 2)
    9).AddBus { name := "S", stops := ["X", "Y", "Z"], is_roundtrip := true }

end Example

/-! # Theorems -/

/-! ## Machine integers -/

theorem intWrap_of_fits (x : Int) (h : fitsInt x) : intWrap x = x := by
  unfold fitsInt at h
  unfold intWrap
  omega

theorem intWrap_fits (x : Int) : fitsInt (intWrap x) := by
  unfold fitsInt intWrap
  omega

theorem intWrap_idem (x : Int) : intWrap (intWrap x) = intWrap x :=
  intWrap_of_fits _ (intWrap_fits x)

theorem intWrap_add_left (a b : Int) : intWrap (intWrap a + b) = intWrap (a + b) := by
  unfold intWrap
  omega

theorem intWrap_add_right (a b : Int) : intWrap (a + intWrap b) = intWrap (a + b) := by
  unfold intWrap
  omega

theorem intWrap_add (a b : Int) : intWrap (intWrap a + intWrap b) = intWrap (a + b) := by
  rw [intWrap_add_left, intWrap_add_right]

theorem intWrap_zero : intWrap 0 = 0 := by decide

/-! ## Containers -/

theorem mapFind_mapAssign {κ ν : Type} [DecidableEq κ] (m : List (κ × ν)) (k k' : κ) (v : ν) :
    mapFind (mapAssign m k v) k' = if k = k' then some v else mapFind m k' := by
  induction m with
  | nil => simp [mapAssign, mapFind]
  | cons hd tl ih =>
    obtain ⟨k0, v0⟩ := hd
    by_cases h0 : k0 = k
    · subst h0
      by_cases h1 : k0 = k' <;> simp [mapAssign, mapFind, h1]
    · by_cases h1 : k0 = k'
      · subst h1
        have : ¬ k = k0 := fun h => h0 h.symm
        simp [mapAssign, mapFind, h0, this]
      · simp [mapAssign, mapFind, h0, h1, ih]

theorem mapFind_mapAssign_self {κ ν : Type} [DecidableEq κ] (m : List (κ × ν)) (k : κ) (v : ν) :
    mapFind (mapAssign m k v) k = some v := by
  simp [mapFind_mapAssign]

theorem mapFind_mapAssign_ne {κ ν : Type} [DecidableEq κ] (m : List (κ × ν)) {k k' : κ} (v : ν)
    (h : k ≠ k') : mapFind (mapAssign m k v) k' = mapFind m k' := by
  simp [mapFind_mapAssign, h]

theorem setInsert_nodup {α : Type} [DecidableEq α] {s : List α} (h : s.Nodup) (x : α) :
    (setInsert s x).Nodup := by
  unfold setInsert
  split
  · exact h
  · rename_i hx
    exact List.nodup_append.2 ⟨h, List.nodup_singleton x, by simpa using hx⟩

theorem mem_setInsert {α : Type} [DecidableEq α] (s : List α) (x y : α) :
    y ∈ setInsert s x ↔ y ∈ s ∨ y = x := by
  unfold setInsert
  split
  · rename_i hx
    constructor
    · exact Or.inl
    · rintro (h | rfl)
      · exact h
      · exact hx
  · simp

theorem strLE_iff (a b : String) : strLE a b ↔ a ≤ b := String.le_iff_toList_le.symm

instance strLE.isTotal : IsTotal String strLE :=
  ⟨fun a b => by simpa [strLE_iff] using le_total a b⟩

instance strLE.isTrans : IsTrans String strLE :=
  ⟨fun a b c hab hbc => by
    rw [strLE_iff] at *
    exact le_trans hab hbc⟩

instance strLE.isAntisymm : IsAntisymm String strLE :=
  ⟨fun a b hab hba => by
    rw [strLE_iff] at *
    exact le_antisymm hab hba⟩

theorem stdSort_perm (v : List String) : (stdSort v).Perm v := List.perm_insertionSort strLE v

theorem stdSort_sorted (v : List String) : List.Sorted strLE (stdSort v) :=
  List.sorted_insertionSort strLE v

theorem mem_stdSort (v : List String) (x : String) : x ∈ stdSort v ↔ x ∈ v :=
  (stdSort_perm v).mem_iff

/-- Sorting a duplicate-free vector gives a strictly increasing one. -/
theorem stdSort_strict {v : List String} (h : v.Nodup) : List.Sorted (· < ·) (stdSort v) := by
  have hs := stdSort_sorted v
  have hn : (stdSort v).Nodup := (stdSort_perm v).nodup_iff.2 h
  have := List.Pairwise.and hs hn
  refine this.imp ?_
  rintro a b ⟨hab, hne⟩
  exact lt_of_le_of_ne ((strLE_iff a b).1 hab) hne

/-- Two vectors with the same elements, each free of duplicates, sort to the same vector. -/
theorem stdSort_congr {v w : List String} (hv : v.Nodup) (hw : w.Nodup)
    (h : ∀ x, x ∈ v ↔ x ∈ w) : stdSort v = stdSort w := by
  have hp : v.Perm w := (List.perm_ext_iff_of_nodup hv hw).2 h
  exact List.eq_of_perm_of_sorted (((stdSort_perm v).trans hp).trans (stdSort_perm w).symm)
    (stdSort_sorted v) (stdSort_sorted w)

/-! ## Road distances -/

namespace TransportCatalogue

theorem GetRoadDistance_eq (db : TransportCatalogue) (a b : StopPtr) :
    db.GetRoadDistance (some a) (some b) = (db.storedDistance a b).getD 0 := by
  unfold GetRoadDistance storedDistance
  cases h : mapFind db.distances_ a with
  | none => simp [h]
  | some row =>
    cases h2 : mapFind row b with
    | none => simp [h, h2]
    | some d => simp [h, h2]

theorem storedDistance_SetDistance (db : TransportCatalogue) (a b x y : StopPtr) (d : Int) :
    (db.SetDistance (some a) (some b) d).storedDistance x y =
      if a = x ∧ b = y then some d else db.storedDistance x y := by
  unfold SetDistance storedDistance
  simp only [mapFind_mapAssign]
  by_cases hax : a = x
  · subst hax
    by_cases hby : b = y
    · simp [hby, mapFind_mapAssign]
    · simp only [if_true, Option.bind_some, mapFind_mapAssign, hby, if_false, and_false,
        true_and, mapGetD]
      cases mapFind db.distances_ a with
      | none => simp [mapFind, hby]
      | some row => simp [hby, mapFind_mapAssign]
  · simp [hax]

end TransportCatalogue

/-! ### C1: the fallback of `GetRoadDistanceBidirectional` -/

namespace TransportCatalogue

/-- C1, as the code has it: for every catalogue state and every pair of non-null stops `a`, `b`,
`GetRoadDistanceBidirectional(a, b)` is the distance stored for `(a, b)` if one is stored and is
positive, otherwise the distance stored for `(b, a)` if one is stored and is positive, otherwise
`0`. The sign of the forward entry decides, not its presence. -/
theorem GetRoadDistanceBidirectional_eq_positiveFallback (db : TransportCatalogue)
    (a b : StopPtr) :
    db.GetRoadDistanceBidirectional (some a) (some b) = Spec.positiveFallback db a b := by
  unfold GetRoadDistanceBidirectional Spec.positiveFallback
  simp only [GetRoadDistance_eq]
  cases hab : db.storedDistance a b with
  | none =>
    cases hba : db.storedDistance b a with
    | none => simp
    | some e =>
      by_cases he : 0 < e
      · simp [Option.filter, he]
      · simp [Option.filter, he]
  | some d =>
    by_cases hd : 0 < d
    · simp [Option.filter, hd]
    · cases hba : db.storedDistance b a with
      | none => simp [Option.filter, hd]
      | some e =>
        by_cases he : 0 < e
        · simp [Option.filter, hd, he]
        · simp [Option.filter, hd, he]

/-- C1, as the specification states it, fails: with `A -> B` declared as `0` and `B -> A` declared
as `5`, the forward entry is present, yet `GetRoadDistanceBidirectional(A, B)` is `5`, not `0`. -/
theorem GetRoadDistanceBidirectional_ne_presenceFallback :
    Example.zeroForward.storedDistance 0 1 = some 0 ∧
      Example.zeroForward.GetRoadDistanceBidirectional (some 0) (some 1) = 5 ∧
      Example.zeroForward.GetRoadDistanceBidirectional (some 0) (some 1) ≠
        Spec.presenceFallback Example.zeroForward 0 1 := by
  decide

/-! ### C10: one declared direction -/

/-- C10, as the code has it: when a distance `d` is stored for `(a, b)` and none for `(b, a)`,
`GetRoadDistanceBidirectional(a, b)` and `GetRoadDistanceBidirectional(b, a)` both return `d` if
`d ≥ 0` and both return `0` if `d < 0`, that is `max d 0`. -/
theorem GetRoadDistanceBidirectional_one_direction (db : TransportCatalogue) (a b : StopPtr)
    (d : Int) (hab : db.storedDistance a b = some d) (hba : db.storedDistance b a = none) :
    db.GetRoadDistanceBidirectional (some a) (some b) = max d 0 ∧
      db.GetRoadDistanceBidirectional (some b) (some a) = max d 0 := by
  unfold GetRoadDistanceBidirectional
  simp only [GetRoadDistance_eq, hab, hba, Option.getD_some, Option.getD_none]
  by_cases hd : 0 < d
  · have : max d 0 = d := max_eq_left hd.le
    simp [hd, this]
  · have : max d 0 = 0 := max_eq_right (not_lt.1 hd)
    simp [hd, this]

/-- The theorem for C10 applied to two stops with only `A -> B = 1000` declared. -/
theorem GetRoadDistanceBidirectional_one_direction_witness :
    (Example.oneWay 1000).storedDistance 0 1 = some 1000 ∧
      (Example.oneWay 1000).storedDistance 1 0 = none ∧
      (Example.oneWay 1000).GetRoadDistanceBidirectional (some 0) (some 1) = max 1000 0 ∧
      (Example.oneWay 1000).GetRoadDistanceBidirectional (some 1) (some 0) = max 1000 0 :=
  ⟨by decide, by decide,
    GetRoadDistanceBidirectional_one_direction (Example.oneWay 1000) 0 1 1000 (by decide)
      (by decide)⟩

/-- C10, as the specification states it, fails for a negative distance: with only
`A -> B = -5` declared, both query orders return `0`, not `-5`. -/
theorem GetRoadDistanceBidirectional_negative_one_direction :
    (Example.oneWay (-5)).storedDistance 0 1 = some (-5) ∧
      (Example.oneWay (-5)).storedDistance 1 0 = none ∧
      (Example.oneWay (-5)).GetRoadDistanceBidirectional (some 0) (some 1) = 0 ∧
      (Example.oneWay (-5)).GetRoadDistanceBidirectional (some 1) (some 0) = 0 ∧
      (Example.oneWay (-5)).GetRoadDistanceBidirectional (some 0) (some 1) ≠ -5 := by
  decide

end TransportCatalogue

/-! ## The index from stops to buses -/

namespace TransportCatalogue

theorem visit_fields (bus_name : String) (db : TransportCatalogue) (stop_name : String) :
    (AddBus.visit bus_name db stop_name).stops_ = db.stops_ ∧
      (AddBus.visit bus_name db stop_name).buses_ = db.buses_ ∧
      (AddBus.visit bus_name db stop_name).stopname_to_stop_ = db.stopname_to_stop_ ∧
      (AddBus.visit bus_name db stop_name).busname_to_bus_ = db.busname_to_bus_ ∧
      (AddBus.visit bus_name db stop_name).distances_ = db.distances_ := by
  unfold AddBus.visit
  cases db.FindStop stop_name <;> simp

theorem foldl_visit_fields (bus_name : String) (l : List String) (db : TransportCatalogue) :
    (l.foldl (AddBus.visit bus_name) db).stops_ = db.stops_ ∧
      (l.foldl (AddBus.visit bus_name) db).buses_ = db.buses_ ∧
      (l.foldl (AddBus.visit bus_name) db).stopname_to_stop_ = db.stopname_to_stop_ ∧
      (l.foldl (AddBus.visit bus_name) db).busname_to_bus_ = db.busname_to_bus_ ∧
      (l.foldl (AddBus.visit bus_name) db).distances_ = db.distances_ := by
  induction l generalizing db with
  | nil => simp
  | cons s t ih =>
    obtain ⟨h1, h2, h3, h4, h5⟩ := visit_fields bus_name db s
    obtain ⟨g1, g2, g3, g4, g5⟩ := ih (AddBus.visit bus_name db s)
    simp only [List.foldl_cons]
    exact ⟨g1.trans h1, g2.trans h2, g3.trans h3, g4.trans h4, g5.trans h5⟩

theorem AddBus_stops_ (db : TransportCatalogue) (bus : Bus) : (db.AddBus bus).stops_ = db.stops_ :=
  (foldl_visit_fields bus.name bus.stops _).1

theorem AddBus_buses_ (db : TransportCatalogue) (bus : Bus) :
    (db.AddBus bus).buses_ = db.buses_ ++ [bus] :=
  (foldl_visit_fields bus.name bus.stops _).2.1

theorem AddBus_stopname_to_stop_ (db : TransportCatalogue) (bus : Bus) :
    (db.AddBus bus).stopname_to_stop_ = db.stopname_to_stop_ :=
  (foldl_visit_fields bus.name bus.stops _).2.2.1

theorem AddBus_distances_ (db : TransportCatalogue) (bus : Bus) :
    (db.AddBus bus).distances_ = db.distances_ :=
  (foldl_visit_fields bus.name bus.stops _).2.2.2.2

theorem FindStop_AddBus (db : TransportCatalogue) (bus : Bus) (name : String) :
    (db.AddBus bus).FindStop name = db.FindStop name := by
  unfold FindStop
  rw [AddBus_stopname_to_stop_]

theorem FindStop_SetDistance (db : TransportCatalogue) (a b : Option StopPtr) (d : Int)
    (name : String) : (db.SetDistance a b d).FindStop name = db.FindStop name := by
  unfold FindStop SetDistance
  cases a <;> cases b <;> rfl

theorem stop_to_buses_SetDistance (db : TransportCatalogue) (a b : Option StopPtr) (d : Int) :
    (db.SetDistance a b d).stop_to_buses_ = db.stop_to_buses_ := by
  unfold SetDistance
  cases a <;> cases b <;> rfl

theorem stops_SetDistance (db : TransportCatalogue) (a b : Option StopPtr) (d : Int) :
    (db.SetDistance a b d).stops_ = db.stops_ := by
  unfold SetDistance
  cases a <;> cases b <;> rfl

theorem buses_SetDistance (db : TransportCatalogue) (a b : Option StopPtr) (d : Int) :
    (db.SetDistance a b d).buses_ = db.buses_ := by
  unfold SetDistance
  cases a <;> cases b <;> rfl

theorem mapGetD_visit (bus_name : String) (db : TransportCatalogue) (stop_name : String)
    (p : StopPtr) :
    mapGetD (AddBus.visit bus_name db stop_name).stop_to_buses_ p [] =
      if db.FindStop stop_name = some p then setInsert (mapGetD db.stop_to_buses_ p []) bus_name
      else mapGetD db.stop_to_buses_ p [] := by
  unfold AddBus.visit
  cases h : db.FindStop stop_name with
  | none => simp
  | some q =>
    by_cases hq : q = p
    · subst hq
      simp [mapGetD, mapFind_mapAssign]
    · simp [mapGetD, mapFind_mapAssign, hq]

theorem mem_mapGetD_foldl_visit (bus_name : String) (l : List String) (db : TransportCatalogue)
    (p : StopPtr) (x : String) :
    x ∈ mapGetD (l.foldl (AddBus.visit bus_name) db).stop_to_buses_ p [] ↔
      x ∈ mapGetD db.stop_to_buses_ p [] ∨
        (x = bus_name ∧ ∃ s ∈ l, db.FindStop s = some p) := by
  induction l generalizing db with
  | nil => simp
  | cons s t ih =>
    simp only [List.foldl_cons]
    rw [ih]
    have hF : ∀ n, (AddBus.visit bus_name db s).FindStop n = db.FindStop n := by
      intro n
      unfold FindStop
      rw [(visit_fields bus_name db s).2.2.1]
    simp only [hF, mapGetD_visit]
    by_cases hs : db.FindStop s = some p
    · simp only [hs, if_true, mem_setInsert, List.mem_cons, exists_eq_or_imp]
      tauto
    · simp only [hs, if_false, List.mem_cons, exists_eq_or_imp]
      tauto

theorem mem_mapGetD_AddBus (db : TransportCatalogue) (bus : Bus) (p : StopPtr) (x : String) :
    x ∈ mapGetD (db.AddBus bus).stop_to_buses_ p [] ↔
      x ∈ mapGetD db.stop_to_buses_ p [] ∨
        (x = bus.name ∧ ∃ s ∈ bus.stops, db.FindStop s = some p) := by
  unfold AddBus
  rw [mem_mapGetD_foldl_visit]
  rfl

theorem SetsNodup_visit (bus_name : String) (db : TransportCatalogue) (stop_name : String)
    (h : db.SetsNodup) : (AddBus.visit bus_name db stop_name).SetsNodup := by
  unfold AddBus.visit
  cases hf : db.FindStop stop_name with
  | none => simpa using h
  | some q =>
    intro p s hp
    simp only [mapFind_mapAssign] at hp
    by_cases hq : q = p
    · simp only [hq, if_true, Option.some.injEq] at hp
      subst hp
      apply setInsert_nodup
      unfold mapGetD
      cases hm : mapFind db.stop_to_buses_ p with
      | none => simp
      | some s0 => simpa using h p s0 hm
    · simp only [hq, if_false] at hp
      exact h p s hp

theorem SetsNodup_foldl_visit (bus_name : String) (l : List String) (db : TransportCatalogue)
    (h : db.SetsNodup) : (l.foldl (AddBus.visit bus_name) db).SetsNodup := by
  induction l generalizing db with
  | nil => exact h
  | cons s t ih => exact ih _ (SetsNodup_visit bus_name db s h)

theorem Reachable.setsNodup {db : TransportCatalogue} (h : Reachable db) : db.SetsNodup := by
  induction h with
  | empty => intro p s hp; simp [TransportCatalogue.empty, mapFind] at hp
  | addStop stop _ ih => exact ih
  | addBus bus _ ih => exact SetsNodup_foldl_visit bus.name bus.stops _ ih
  | setDistance a b d _ ih =>
    intro p s hp
    rw [stop_to_buses_SetDistance] at hp
    exact ih p s hp

theorem GetBusesByStop_eq (db : TransportCatalogue) (stop_name : String) :
    db.GetBusesByStop stop_name =
      match db.FindStop stop_name with
      | some p => stdSort (mapGetD db.stop_to_buses_ p [])
      | none => [] := by
  unfold GetBusesByStop mapGetD
  cases db.FindStop stop_name with
  | none => rfl
  | some p =>
    cases hm : mapFind db.stop_to_buses_ p with
    | none => simp [hm, stdSort]
    | some s => simp [hm]

theorem SetsNodup.getD_nodup {db : TransportCatalogue} (h : db.SetsNodup) (p : StopPtr) :
    (mapGetD db.stop_to_buses_ p []).Nodup := by
  unfold mapGetD
  cases hm : mapFind db.stop_to_buses_ p with
  | none => simp
  | some s => simpa using h p s hm

/-! ### C7: the list of buses of a stop is strictly increasing -/

/-- C7: in every state a catalogue can reach, and for every stop name, the list returned by
`GetBusesByStop` is strictly increasing in the lexicographic order of strings (so it is sorted
and has no duplicates), whatever the order in which the buses were added. -/
theorem GetBusesByStop_strictly_increasing (db : TransportCatalogue) (h : Reachable db)
    (stop_name : String) : List.Sorted (· < ·) (db.GetBusesByStop stop_name) := by
  rw [GetBusesByStop_eq]
  cases db.FindStop stop_name with
  | none => exact List.sorted_nil
  | some p => exact stdSort_strict (h.setsNodup.getD_nodup p)

/-- The theorem for C7 applied to a stop served by the buses `"9"`, `"10"`, `"9"`, added in that
order: the list is `["10", "9"]`. -/
theorem GetBusesByStop_strictly_increasing_witness :
    Reachable Example.threeBuses ∧ Example.threeBuses.GetBusesByStop "A" = ["10", "9"] ∧
      List.Sorted (· < ·) (Example.threeBuses.GetBusesByStop "A") :=
  ⟨Reachable.addBus _ (Reachable.addBus _ (Reachable.addBus _ (Reachable.addStop _ Reachable.empty))),
    by decide,
    GetBusesByStop_strictly_increasing Example.threeBuses
      (Reachable.addBus _ (Reachable.addBus _ (Reachable.addBus _
        (Reachable.addStop _ Reachable.empty)))) "A"⟩

end TransportCatalogue

/-! ## Invariants of the reachable states -/

namespace TransportCatalogue

theorem FindStop_AddStop (db : TransportCatalogue) (stop : Stop) (n : String) :
    (db.AddStop stop).FindStop n =
      if stop.name = n then some db.stops_.length else db.FindStop n := by
  unfold FindStop AddStop
  simp [mapFind_mapAssign]

theorem getElem?_append_of_some {α : Type} {l : List α} {p : Nat} {a : α} (t : List α)
    (h : l[p]? = some a) : (l ++ t)[p]? = some a := by
  have hp : p < l.length := by
    by_contra hc
    rw [List.getElem?_eq_none (not_lt.1 hc)] at h
    cases h
  rw [List.getElem?_append_left hp]
  exact h

theorem Reachable.namesResolve {db : TransportCatalogue} (h : Reachable db) : db.NamesResolve := by
  induction h with
  | empty => intro n p hp; simp [TransportCatalogue.empty, FindStop, mapFind] at hp
  | @addStop db stop _ ih =>
    intro n p hp
    rw [FindStop_AddStop] at hp
    by_cases hn : stop.name = n
    · simp only [hn, if_true, Option.some.injEq] at hp
      subst hp
      exact ⟨stop, by simp [AddStop], hn⟩
    · simp only [hn, if_false] at hp
      obtain ⟨s, hs, hsn⟩ := ih n p hp
      exact ⟨s, getElem?_append_of_some [stop] hs, hsn⟩
  | @addBus db bus _ ih =>
    intro n p hp
    rw [FindStop_AddBus] at hp
    rw [AddBus_stops_]
    exact ih n p hp
  | @setDistance db a b d _ ih =>
    intro n p hp
    rw [FindStop_SetDistance] at hp
    rw [stops_SetDistance]
    exact ih n p hp

theorem Reachable.stopsIndexed {db : TransportCatalogue} (h : Reachable db) : db.StopsIndexed := by
  induction h with
  | empty => intro s hs; simp [TransportCatalogue.empty] at hs
  | @addStop db stop _ ih =>
    intro s hs
    rw [FindStop_AddStop]
    by_cases hn : stop.name = s.name
    · simp [hn]
    · simp only [hn, if_false]
      have : s ∈ db.stops_ := by
        simp only [AddStop, List.mem_append, List.mem_singleton] at hs
        rcases hs with hs | hs
        · exact hs
        · exact absurd (by rw [hs]) hn
      exact ih s this
  | @addBus db bus _ ih =>
    intro s hs
    rw [FindStop_AddBus]
    rw [AddBus_stops_] at hs
    exact ih s hs
  | @setDistance db a b d _ ih =>
    intro s hs
    rw [FindStop_SetDistance]
    rw [stops_SetDistance] at hs
    exact ih s hs

theorem Reachable.setsSound {db : TransportCatalogue} (h : Reachable db) : db.SetsSound := by
  induction h with
  | empty => intro p x hx; simp [TransportCatalogue.empty, mapGetD, mapFind] at hx
  | @addStop db stop _ ih =>
    intro p x hx
    obtain ⟨bus, hb, hn, s, hs, hm⟩ := ih p x hx
    exact ⟨bus, hb, hn, s, getElem?_append_of_some [stop] hs, hm⟩
  | @addBus db bus hr ih =>
    intro p x hx
    rw [mem_mapGetD_AddBus] at hx
    rw [AddBus_buses_, AddBus_stops_]
    rcases hx with hx | ⟨hxn, s, hs, hf⟩
    · obtain ⟨bus0, hb, hn, s, hs, hm⟩ := ih p x hx
      exact ⟨bus0, List.mem_append_left _ hb, hn, s, hs, hm⟩
    · obtain ⟨stop, hst, hsn⟩ := hr.namesResolve s p hf
      exact ⟨bus, by simp, hxn.symm, stop, hst, by rw [hsn]; exact hs⟩
  | @setDistance db a b d _ ih =>
    intro p x hx
    rw [stop_to_buses_SetDistance] at hx
    rw [buses_SetDistance, stops_SetDistance]
    exact ih p x hx

/-- In a reachable state, two names that resolve to the same stop are equal. -/
theorem Reachable.findStop_injective {db : TransportCatalogue} (h : Reachable db)
    {n m : String} {p : StopPtr} (hn : db.FindStop n = some p) (hm : db.FindStop m = some p) :
    n = m := by
  obtain ⟨s, hs, hsn⟩ := h.namesResolve n p hn
  obtain ⟨t, ht, htm⟩ := h.namesResolve m p hm
  rw [hs] at ht
  cases ht
  rw [← hsn, ← htm]

theorem mem_GetBusesByStop (db : TransportCatalogue) (stop_name x : String) :
    x ∈ db.GetBusesByStop stop_name ↔
      ∃ p, db.FindStop stop_name = some p ∧ x ∈ mapGetD db.stop_to_buses_ p [] := by
  rw [GetBusesByStop_eq]
  cases db.FindStop stop_name with
  | none => simp
  | some p => simp [mem_stdSort]

theorem GetBusesByStop_sorted (db : TransportCatalogue) (stop_name : String) :
    List.Sorted strLE (db.GetBusesByStop stop_name) := by
  rw [GetBusesByStop_eq]
  cases db.FindStop stop_name with
  | none => exact List.sorted_nil
  | some p => exact stdSort_sorted _

theorem Reachable.getBusesByStop_nodup {db : TransportCatalogue} (h : Reachable db)
    (stop_name : String) : (db.GetBusesByStop stop_name).Nodup := by
  rw [GetBusesByStop_eq]
  cases db.FindStop stop_name with
  | none => exact List.nodup_nil
  | some p => exact (stdSort_perm _).nodup_iff.2 (h.setsNodup.getD_nodup p)

theorem mem_mapGetD_foldl_AddBus (buses : List Bus) (db : TransportCatalogue) (p : StopPtr)
    (x : String) :
    x ∈ mapGetD (buses.foldl AddBus db).stop_to_buses_ p [] ↔
      x ∈ mapGetD db.stop_to_buses_ p [] ∨
        ∃ bus ∈ buses, bus.name = x ∧ ∃ s ∈ bus.stops, db.FindStop s = some p := by
  induction buses generalizing db with
  | nil => simp
  | cons b t ih =>
    simp only [List.foldl_cons]
    rw [ih, mem_mapGetD_AddBus]
    simp only [FindStop_AddBus, List.mem_cons, exists_eq_or_imp]
    constructor
    · rintro ((h | ⟨h1, h2⟩) | h)
      · exact Or.inl h
      · exact Or.inr (Or.inl ⟨h1.symm, h2⟩)
      · exact Or.inr (Or.inr h)
    · rintro (h | ⟨h1, h2⟩ | h)
      · exact Or.inl (Or.inl h)
      · exact Or.inl (Or.inr ⟨h1.symm, h2⟩)
      · exact Or.inr h

theorem FindStop_foldl_AddBus (buses : List Bus) (db : TransportCatalogue) (n : String) :
    (buses.foldl AddBus db).FindStop n = db.FindStop n := by
  induction buses generalizing db with
  | nil => rfl
  | cons b t ih => simp only [List.foldl_cons, ih, FindStop_AddBus]

theorem Reachable.foldl_AddStop (stops : List Stop) {db : TransportCatalogue} (h : Reachable db) :
    Reachable (stops.foldl AddStop db) := by
  induction stops generalizing db with
  | nil => exact h
  | cons s t ih => exact ih (Reachable.addStop s h)

theorem Reachable.foldl_SetDistance (ds : List (Option StopPtr × Option StopPtr × Int))
    {db : TransportCatalogue} (h : Reachable db) :
    Reachable (ds.foldl (fun db d => db.SetDistance d.1 d.2.1 d.2.2) db) := by
  induction ds generalizing db with
  | nil => exact h
  | cons s t ih => exact ih (Reachable.setDistance _ _ _ h)

theorem Reachable.foldl_AddBus (buses : List Bus) {db : TransportCatalogue} (h : Reachable db) :
    Reachable (buses.foldl AddBus db) := by
  induction buses generalizing db with
  | nil => exact h
  | cons s t ih => exact ih (Reachable.addBus s h)

theorem Reachable.populate (stops : List Stop)
    (distances : List (Option StopPtr × Option StopPtr × Int)) (buses : List Bus) :
    Reachable (populate stops distances buses) :=
  Reachable.foldl_AddBus buses
    (Reachable.foldl_SetDistance distances (Reachable.foldl_AddStop stops Reachable.empty))

theorem foldl_AddStop_fields (stops : List Stop) (db : TransportCatalogue) :
    (stops.foldl AddStop db).stops_ = db.stops_ ++ stops ∧
      (stops.foldl AddStop db).stop_to_buses_ = db.stop_to_buses_ := by
  induction stops generalizing db with
  | nil => simp
  | cons s t ih =>
    obtain ⟨h1, h2⟩ := ih (db.AddStop s)
    simp only [List.foldl_cons, h1, h2]
    simp [AddStop]

theorem foldl_SetDistance_fields (ds : List (Option StopPtr × Option StopPtr × Int))
    (db : TransportCatalogue) :
    (ds.foldl (fun db d => db.SetDistance d.1 d.2.1 d.2.2) db).stops_ = db.stops_ ∧
      (ds.foldl (fun db d => db.SetDistance d.1 d.2.1 d.2.2) db).stop_to_buses_ =
        db.stop_to_buses_ := by
  induction ds generalizing db with
  | nil => simp
  | cons s t ih =>
    obtain ⟨h1, h2⟩ := ih (db.SetDistance s.1 s.2.1 s.2.2)
    simp only [List.foldl_cons, h1, h2, stops_SetDistance, stop_to_buses_SetDistance]
    simp

end TransportCatalogue

/-! ### C8: which buses `GetBusesByStop` lists -/

namespace TransportCatalogue

theorem mem_populate_buses (stops : List Stop)
    (distances : List (Option StopPtr × Option StopPtr × Int)) (buses : List Bus) (s : String)
    (hs : s ∈ stops.map Stop.name) (b : String) :
    b ∈ (populate stops distances buses).GetBusesByStop s ↔
      ∃ bus ∈ buses, bus.name = b ∧ s ∈ bus.stops := by
  have hr : Reachable ((distances.foldl (fun db d => db.SetDistance d.1 d.2.1 d.2.2)
      (stops.foldl AddStop TransportCatalogue.empty))) :=
    Reachable.foldl_SetDistance distances (Reachable.foldl_AddStop stops Reachable.empty)
  have hstops : (distances.foldl (fun db d => db.SetDistance d.1 d.2.1 d.2.2)
      (stops.foldl AddStop TransportCatalogue.empty)).stops_ = stops := by
    rw [(foldl_SetDistance_fields distances _).1, (foldl_AddStop_fields stops _).1]
    simp [TransportCatalogue.empty]
  have hsets : (distances.foldl (fun db d => db.SetDistance d.1 d.2.1 d.2.2)
      (stops.foldl AddStop TransportCatalogue.empty)).stop_to_buses_ = [] := by
    rw [(foldl_SetDistance_fields distances _).2, (foldl_AddStop_fields stops _).2]
    rfl
  obtain ⟨stop, hstop, hname⟩ := List.mem_map.1 hs
  have hfound := hr.stopsIndexed stop (by rw [hstops]; exact hstop)
  rw [hname] at hfound
  obtain ⟨p, hp⟩ := Option.ne_none_iff_exists'.1 hfound
  unfold populate
  rw [mem_GetBusesByStop]
  simp only [FindStop_foldl_AddBus, hp, Option.some.injEq, exists_eq_left',
    mem_mapGetD_foldl_AddBus, hsets]
  constructor
  · rintro (h | ⟨bus, hb, hn, s', hs', hf⟩)
    · simp [mapGetD, mapFind] at h
    · exact ⟨bus, hb, hn, by rw [hr.findStop_injective hp hf]; exact hs'⟩
  · rintro ⟨bus, hb, hn, hm⟩
    exact Or.inr ⟨bus, hb, hn, s, hm, hp⟩

/-- C8: in a catalogue built by adding stops and then buses (distances may be set in between),
for every known stop name `s` and every name `b`: `b` is in `GetBusesByStop(s)` exactly when
some added bus named `b` has `s` in its stop sequence; the list has no duplicates, so a bus that
lists `s` several times occurs once; stop names of a bus that resolve to no stop do not matter;
and adding the buses in another order gives the same list. Distinct stop names are not needed
for this. -/
theorem GetBusesByStop_populate (stops : List Stop)
    (distances : List (Option StopPtr × Option StopPtr × Int)) (buses : List Bus) (s : String)
    (hs : s ∈ stops.map Stop.name) :
    (∀ b, b ∈ (populate stops distances buses).GetBusesByStop s ↔
        ∃ bus ∈ buses, bus.name = b ∧ s ∈ bus.stops) ∧
      ((populate stops distances buses).GetBusesByStop s).Nodup ∧
      ∀ buses' : List Bus, buses'.Perm buses →
        (populate stops distances buses').GetBusesByStop s =
          (populate stops distances buses).GetBusesByStop s := by
  refine ⟨mem_populate_buses stops distances buses s hs,
    (Reachable.populate stops distances buses).getBusesByStop_nodup s, ?_⟩
  intro buses' hperm
  apply List.eq_of_perm_of_sorted _ (GetBusesByStop_sorted _ s) (GetBusesByStop_sorted _ s)
  rw [List.perm_ext_iff_of_nodup ((Reachable.populate stops distances buses').getBusesByStop_nodup s)
    ((Reachable.populate stops distances buses).getBusesByStop_nodup s)]
  intro b
  rw [mem_populate_buses stops distances buses' s hs,
    mem_populate_buses stops distances buses s hs]
  constructor
  · rintro ⟨bus, hb, h⟩
    exact ⟨bus, hperm.mem_iff.1 hb, h⟩
  · rintro ⟨bus, hb, h⟩
    exact ⟨bus, hperm.mem_iff.2 hb, h⟩

/-- The theorem for C8 applied to the stops `A`, `B` and the buses `"9"` (through `A`, `A` and the
unknown stop `Q`) and `"10"` (through `B`, `A`): stop `A` lists `["10", "9"]`. -/
theorem GetBusesByStop_populate_witness :
    "A" ∈ ([{ name := "A" }, { name := "B" }] : List Stop).map Stop.name ∧
      (populate [{ name := "A" }, { name := "B" }] [(some 0, some 1, 7)]
        [{ name := "9", stops := ["A", "Q", "A"] },
          { name := "10", stops := ["B", "A"] }]).GetBusesByStop "A" = ["10", "9"] ∧
      ((∀ b, b ∈ (populate [{ name := "A" }, { name := "B" }] [(some 0, some 1, 7)]
            [{ name := "9", stops := ["A", "Q", "A"] },
              { name := "10", stops := ["B", "A"] }]).GetBusesByStop "A" ↔
          ∃ bus ∈ ([{ name := "9", stops := ["A", "Q", "A"] },
              { name := "10", stops := ["B", "A"] }] : List Bus),
            bus.name = b ∧ "A" ∈ bus.stops) ∧
        ((populate [{ name := "A" }, { name := "B" }] [(some 0, some 1, 7)]
            [{ name := "9", stops := ["A", "Q", "A"] },
              { name := "10", stops := ["B", "A"] }]).GetBusesByStop "A").Nodup ∧
        ∀ buses' : List Bus,
          buses'.Perm [{ name := "9", stops := ["A", "Q", "A"] },
              { name := "10", stops := ["B", "A"] }] →
            (populate [{ name := "A" }, { name := "B" }] [(some 0, some 1, 7)]
              buses').GetBusesByStop "A" =
              (populate [{ name := "A" }, { name := "B" }] [(some 0, some 1, 7)]
                [{ name := "9", stops := ["A", "Q", "A"] },
                  { name := "10", stops := ["B", "A"] }]).GetBusesByStop "A") :=
  ⟨by decide, by decide,
    GetBusesByStop_populate [{ name := "A" }, { name := "B" }] [(some 0, some 1, 7)]
      [{ name := "9", stops := ["A", "Q", "A"] }, { name := "10", stops := ["B", "A"] }] "A"
      (by decide)⟩

end TransportCatalogue

/-! ### C9: the answer to a Stop request -/

namespace JsonReader

open json TransportCatalogue

theorem ProcessStopRequest_unserved (db : TransportCatalogue) (id : Int) (stop_name : String)
    (p : StopPtr) (hp : db.FindStop stop_name = some p)
    (hempty : db.GetBusesByStop stop_name = []) :
    ProcessStopRequest db id stop_name =
      .ok (.dict [("buses", .array []), ("request_id", .int id)]) := by
  unfold ProcessStopRequest
  rw [hp]
  simp only [hempty]
  rfl

theorem ProcessStopRequest_unknown (db : TransportCatalogue) (id : Int) (stop_name : String)
    (hp : db.FindStop stop_name = none) :
    ProcessStopRequest db id stop_name =
      .ok (.dict [("error_message", .string "not found"), ("request_id", .int id)]) := by
  unfold ProcessStopRequest
  rw [hp]
  rfl

/-- C9: in every state a catalogue can reach and for every Stop request (fields `id`, `name`):
if a stop with that name is stored and no stored bus has the name in its stop sequence,
`ProcessStopRequest` answers a dictionary whose `"buses"` entry is the empty array and which has
no `"error_message"` entry; if no stop with that name is stored, it answers a dictionary whose
`"error_message"` entry is `"not found"` and which has no `"buses"` entry. Neither case raises. -/
theorem ProcessStopRequest_unserved_or_unknown (db : TransportCatalogue) (h : Reachable db)
    (id : Int) (stop_name : String) :
    (stop_name ∈ db.stops_.map Stop.name → (∀ bus ∈ db.buses_, stop_name ∉ bus.stops) →
        ∃ d : Dict, ProcessStopRequest db id stop_name = .ok (.dict d) ∧
          d.find "buses" = some (.array []) ∧ d.find "error_message" = none) ∧
      (stop_name ∉ db.stops_.map Stop.name →
        ∃ d : Dict, ProcessStopRequest db id stop_name = .ok (.dict d) ∧
          d.find "error_message" = some (.string "not found") ∧ d.find "buses" = none) := by
  constructor
  · intro hs hno
    obtain ⟨stop, hstop, hname⟩ := List.mem_map.1 hs
    have hfound := h.stopsIndexed stop hstop
    rw [hname] at hfound
    obtain ⟨p, hp⟩ := Option.ne_none_iff_exists'.1 hfound
    have hempty : db.GetBusesByStop stop_name = [] := by
      apply List.eq_nil_iff_forall_not_mem.2
      intro x hx
      obtain ⟨q, hq, hxq⟩ := (mem_GetBusesByStop db stop_name x).1 hx
      obtain ⟨bus, hb, _, st, hst, hmem⟩ := h.setsSound q x hxq
      obtain ⟨st', hst', hn'⟩ := h.namesResolve stop_name q hq
      rw [hst] at hst'
      cases hst'
      rw [hn'] at hmem
      exact hno bus hb hmem
    exact ⟨_, ProcessStopRequest_unserved db id stop_name p hp hempty, rfl, rfl⟩
  · intro hs
    have hp : db.FindStop stop_name = none := by
      by_contra hc
      obtain ⟨p, hp⟩ := Option.ne_none_iff_exists'.1 hc
      obtain ⟨st, hst, hn⟩ := h.namesResolve stop_name p hp
      exact hs (List.mem_map.2 ⟨st, List.getElem?_mem hst, hn⟩)
    exact ⟨_, ProcessStopRequest_unknown db id stop_name hp, rfl, rfl⟩

end JsonReader

namespace JsonReader

open json TransportCatalogue

/-- The theorem for C9 applied to the stops `A` (served by bus `"9"`) and `B` (unserved) and to
the unknown name `Q`. -/
theorem ProcessStopRequest_unserved_or_unknown_witness :
    Reachable Example.unserved ∧
      "B" ∈ Example.unserved.stops_.map Stop.name ∧
      (∀ bus ∈ Example.unserved.buses_, "B" ∉ bus.stops) ∧
      "Q" ∉ Example.unserved.stops_.map Stop.name ∧
      (∃ d : Dict, ProcessStopRequest Example.unserved 1 "B" = .ok (.dict d) ∧
        d.find "buses" = some (.array []) ∧ d.find "error_message" = none) ∧
      (∃ d : Dict, ProcessStopRequest Example.unserved 2 "Q" = .ok (.dict d) ∧
        d.find "error_message" = some (.string "not found") ∧ d.find "buses" = none) :=
  ⟨Reachable.addBus _ (Reachable.addStop _ (Reachable.addStop _ Reachable.empty)),
    by decide, by decide, by decide,
    (ProcessStopRequest_unserved_or_unknown Example.unserved
      (Reachable.addBus _ (Reachable.addStop _ (Reachable.addStop _ Reachable.empty))) 1 "B").1
      (by decide) (by decide),
    (ProcessStopRequest_unserved_or_unknown Example.unserved
      (Reachable.addBus _ (Reachable.addStop _ (Reachable.addStop _ Reachable.empty))) 2 "Q").2
      (by decide)⟩

/-! ## Bus statistics -/

theorem busAnswer_eq (id : Int) (curvature : ℚ) (route_length stop_count unique_stop_count : Int) :
    busAnswer id curvature route_length stop_count unique_stop_count =
      .ok (.dict [("curvature", .double curvature), ("request_id", .int id),
        ("route_length", .int route_length), ("stop_count", .int stop_count),
        ("unique_stop_count", .int unique_stop_count)]) :=
  rfl

theorem busAt_eq {db : TransportCatalogue} {p : BusPtr} {bus : Bus}
    (hb : db.buses_[p]? = some bus) : db.busAt p = bus := by
  unfold busAt
  rw [List.getD_eq_getElem?_getD, hb]
  rfl

/-- The answer of `ProcessBusRequest` for a stored bus with a non-empty stop sequence. -/
theorem ProcessBusRequest_nonempty (db : TransportCatalogue)
    (ComputeDistance : geo.Coordinates → geo.Coordinates → ℚ) (id : Int) (bus_name : String)
    (p : BusPtr) (bus : Bus) (hp : db.FindBus bus_name = some p)
    (hb : db.buses_[p]? = some bus) (hne : bus.stops ≠ []) :
    ProcessBusRequest db ComputeDistance id bus_name =
      .ok (.dict [
        ("curvature", .double
          (if (ProcessBusRequest.lengths db ComputeDistance bus.stops bus.is_roundtrip).2 > 0 then
            ((ProcessBusRequest.lengths db ComputeDistance bus.stops bus.is_roundtrip).1 : ℚ) /
              (ProcessBusRequest.lengths db ComputeDistance bus.stops bus.is_roundtrip).2
          else 0)),
        ("request_id", .int id),
        ("route_length",
          .int (ProcessBusRequest.lengths db ComputeDistance bus.stops bus.is_roundtrip).1),
        ("stop_count",
          .int (if bus.is_roundtrip then (bus.stops.length : Int)
            else (bus.stops.length : Int) * 2 - 1)),
        ("unique_stop_count", .int ((bus.stops.foldl setInsert []).length : Int))]) := by
  unfold ProcessBusRequest
  rw [hp]
  simp only [busAt_eq hb]
  have : bus.stops.isEmpty = false := by
    cases hs : bus.stops with
    | nil => exact absurd hs hne
    | cons a t => rfl
  rw [this]
  simp only [Bool.false_eq_true, if_false, busAnswer_eq]

theorem hop_fst (db : TransportCatalogue)
    (ComputeDistance : geo.Coordinates → geo.Coordinates → ℚ) (acc : Int × ℚ) (a b : String)
    (hacc : fitsInt acc.1) :
    (ProcessBusRequest.hop db ComputeDistance acc a b).1 =
      intWrap (acc.1 + db.GetRoadDistanceBidirectional (db.FindStop a) (db.FindStop b)) := by
  unfold ProcessBusRequest.hop
  cases db.FindStop a with
  | none => simp [GetRoadDistanceBidirectional, intWrap_of_fits _ hacc]
  | some x =>
    cases db.FindStop b with
    | none => simp [GetRoadDistanceBidirectional, intWrap_of_fits _ hacc]
    | some y => rfl

theorem foldl_hop_fst (db : TransportCatalogue)
    (ComputeDistance : geo.Coordinates → geo.Coordinates → ℚ) (f g : Nat → String)
    (l : List Nat) (acc : Int × ℚ) (hacc : fitsInt acc.1) :
    (l.foldl (fun acc i => ProcessBusRequest.hop db ComputeDistance acc (f i) (g i)) acc).1 =
      intWrap (acc.1 +
        (l.map (fun i => db.GetRoadDistanceBidirectional (db.FindStop (f i))
          (db.FindStop (g i)))).sum) := by
  induction l generalizing acc with
  | nil => simp [intWrap_of_fits _ hacc]
  | cons i t ih =>
    simp only [List.foldl_cons, List.map_cons, List.sum_cons]
    have hstep := hop_fst db ComputeDistance acc (f i) (g i) hacc
    rw [ih _ (by rw [hstep]; exact intWrap_fits _), hstep, intWrap_add_left, add_assoc]

theorem sum_map_range' (f : Nat → Int) (m : Nat) :
    ((List.range' 1 m).map f).sum = ∑ i ∈ Finset.Ico 1 (1 + m), f i := by
  induction m with
  | zero => simp
  | succ k ih =>
    rw [List.range'_concat, List.map_append, List.sum_append, ih]
    rw [show 1 + (k + 1) = (1 + k) + 1 by ring, Finset.sum_Ico_succ_top (by omega)]
    simp

end JsonReader

namespace TransportCatalogue

theorem GetRoadDistanceBidirectional_nonneg (db : TransportCatalogue) (a b : Option StopPtr) :
    0 ≤ db.GetRoadDistanceBidirectional a b := by
  unfold GetRoadDistanceBidirectional
  cases a with
  | none => simp
  | some f =>
    cases b with
    | none => simp
    | some t =>
      simp only
      split_ifs <;> omega

end TransportCatalogue

namespace JsonReader

open json TransportCatalogue

/-- The value of `route_length` after the loops of `ProcessBusRequest` is the route length of
the specification, reduced to the range of `int`. -/
theorem lengths_fst (db : TransportCatalogue)
    (ComputeDistance : geo.Coordinates → geo.Coordinates → ℚ) (stops : List String)
    (is_roundtrip : Bool) (hne : stops ≠ []) :
    (ProcessBusRequest.lengths db ComputeDistance stops is_roundtrip).1 =
      intWrap (Spec.routeLength db stops is_roundtrip) := by
  have hlen : 1 + (stops.length - 1) = stops.length := by
    have : 0 < stops.length := List.length_pos.2 hne
    omega
  have hzero : fitsInt ((0, 0) : Int × ℚ).1 := by decide
  unfold ProcessBusRequest.lengths Spec.routeLength
  cases is_roundtrip with
  | true =>
    simp only [Bool.not_true, Bool.false_eq_true, if_false, if_true, add_zero]
    rw [foldl_hop_fst db ComputeDistance (fun i => stops.getD (i - 1) "")
      (fun i => stops.getD i "") _ _ hzero, sum_map_range', hlen]
    simp
  | false =>
    simp only [Bool.not_false, if_true, Bool.false_eq_true, if_false]
    have hfwd := foldl_hop_fst db ComputeDistance (fun i => stops.getD (i - 1) "")
      (fun i => stops.getD i "") (List.range' 1 (stops.length - 1)) (0, 0) hzero
    rw [foldl_hop_fst db ComputeDistance (fun i => stops.getD i "")
      (fun i => stops.getD (i - 1) "") _ _ (by rw [hfwd]; exact intWrap_fits _), hfwd,
      intWrap_add_left, List.map_reverse, List.sum_reverse, sum_map_range', sum_map_range',
      hlen]
    simp

theorem routeLength_nonneg (db : TransportCatalogue) (stops : List String)
    (is_roundtrip : Bool) : 0 ≤ Spec.routeLength db stops is_roundtrip := by
  unfold Spec.routeLength
  apply add_nonneg
  · exact Finset.sum_nonneg (fun i _ => db.GetRoadDistanceBidirectional_nonneg _ _)
  · split
    · exact le_refl 0
    · exact Finset.sum_nonneg (fun i _ => db.GetRoadDistanceBidirectional_nonneg _ _)

/-! ### C2: the route length -/

/-- C2 (amended): for every stored bus with a non-empty stop sequence `s_0 .. s_{n-1}`,
`ProcessBusRequest` answers without raising and its `"route_length"` entry is the sum over
`i = 1 .. n-1` of `GetRoadDistanceBidirectional(s_{i-1}, s_i)` plus, when the bus is not
round-trip, the sum over `i = 1 .. n-1` of `GetRoadDistanceBidirectional(s_i, s_{i-1})`, each
direction looked up on its own, reduced to the range of the `int` that holds it. The sum is
never negative, and the entry is the sum itself when the sum is at most `2 ^ 31 - 1`. Here `s_i`
is the pointer `FindStop` gives for the `i`-th name; the equation also holds when a name
resolves to no stop, such a hop adding `0`. -/
theorem ProcessBusRequest_route_length (db : TransportCatalogue)
    (ComputeDistance : geo.Coordinates → geo.Coordinates → ℚ) (id : Int) (bus_name : String)
    (p : BusPtr) (bus : Bus) (hp : db.FindBus bus_name = some p)
    (hb : db.buses_[p]? = some bus) (hne : bus.stops ≠ []) :
    ∃ d : Dict, ProcessBusRequest db ComputeDistance id bus_name = .ok (.dict d) ∧
      d.find "route_length" =
        some (.int (intWrap (Spec.routeLength db bus.stops bus.is_roundtrip))) ∧
      0 ≤ Spec.routeLength db bus.stops bus.is_roundtrip ∧
      (Spec.routeLength db bus.stops bus.is_roundtrip ≤ 2147483647 →
        d.find "route_length" =
          some (.int (Spec.routeLength db bus.stops bus.is_roundtrip))) := by
  have hnn := routeLength_nonneg db bus.stops bus.is_roundtrip
  have hfind : Dict.find [
      ("curvature", Node.double
        (if (ProcessBusRequest.lengths db ComputeDistance bus.stops bus.is_roundtrip).2 > 0 then
          ((ProcessBusRequest.lengths db ComputeDistance bus.stops bus.is_roundtrip).1 : ℚ) /
            (ProcessBusRequest.lengths db ComputeDistance bus.stops bus.is_roundtrip).2
        else 0)),
      ("request_id", .int id),
      ("route_length",
        .int (ProcessBusRequest.lengths db ComputeDistance bus.stops bus.is_roundtrip).1),
      ("stop_count",
        .int (if bus.is_roundtrip then (bus.stops.length : Int)
          else (bus.stops.length : Int) * 2 - 1)),
      ("unique_stop_count", .int ((bus.stops.foldl setInsert []).length : Int))]
      "route_length" =
        some (.int (intWrap (Spec.routeLength db bus.stops bus.is_roundtrip))) := by
    rw [← lengths_fst db ComputeDistance bus.stops bus.is_roundtrip hne]
    rfl
  refine ⟨_, ProcessBusRequest_nonempty db ComputeDistance id bus_name p bus hp hb hne, hfind,
    hnn, ?_⟩
  intro hle
  rw [hfind, intWrap_of_fits _ ⟨by omega, hle⟩]

/-- The theorem for C2 applied to the scenario of the specification (`A -> B = 1000`, no entry
for `B -> A`, bus `R = [A, B]`, not round-trip): the route length is `1000 + 1000 = 2000`, the
stop count `3` and the unique stop count `2`. -/
theorem ProcessBusRequest_route_length_witness :
    Example.thereAndBack.FindBus "R" = some 0 ∧
      Example.thereAndBack.buses_[0]? = some { name := "R", stops := ["A", "B"] } ∧
      Spec.routeLength Example.thereAndBack ["A", "B"] false = 2000 ∧
      (∃ d : Dict,
        ProcessBusRequest Example.thereAndBack Example.flatDistance 1 "R" = .ok (.dict d) ∧
          d.find "route_length" = some (.int 2000) ∧ d.find "stop_count" = some (.int 3) ∧
          d.find "unique_stop_count" = some (.int 2)) := by
  refine ⟨by decide, by decide, by decide, ?_⟩
  obtain ⟨d, hd, _, _, hlen⟩ := ProcessBusRequest_route_length Example.thereAndBack
    Example.flatDistance 1 "R" 0 { name := "R", stops := ["A", "B"] } (by decide) (by decide)
    (by decide)
  refine ⟨d, hd, ?_, ?_, ?_⟩
  · rw [hlen (by decide)]
    exact congrArg (fun x => some (Node.int x)) (by decide)
  · have h := ProcessBusRequest_nonempty Example.thereAndBack Example.flatDistance 1 "R" 0
      { name := "R", stops := ["A", "B"] } (by decide) (by decide) (by decide)
    rw [h] at hd
    cases hd
    rfl
  · have h := ProcessBusRequest_nonempty Example.thereAndBack Example.flatDistance 1 "R" 0
      { name := "R", stops := ["A", "B"] } (by decide) (by decide) (by decide)
    rw [h] at hd
    cases hd
    rfl

/-- C2, counterexample: in `Example.farApart` the stops `A` and `B` are known, `A -> B` is
declared as `2000000000`, a value of `int`, and the bus `R = [A, B]` is not round-trip.
`GetRoadDistanceBidirectional` is `2000000000` in both directions, so the sum of the claim is
`4000000000`; the `"route_length"` entry of the answer is `-294967296`. -/
theorem ProcessBusRequest_route_length_wraps :
    Example.farApart.FindBus "R" = some 0 ∧
      Example.farApart.buses_[0]? = some { name := "R", stops := ["A", "B"] } ∧
      Example.farApart.FindStop "A" = some 0 ∧ Example.farApart.FindStop "B" = some 1 ∧
      Example.farApart.GetRoadDistanceBidirectional (some 0) (some 1) = 2000000000 ∧
      Example.farApart.GetRoadDistanceBidirectional (some 1) (some 0) = 2000000000 ∧
      Spec.routeLength Example.farApart ["A", "B"] false = 4000000000 ∧
      ∃ d : Dict,
        ProcessBusRequest Example.farApart Example.flatDistance 1 "R" = .ok (.dict d) ∧
          d.find "route_length" = some (.int (-294967296)) ∧
          d.find "route_length" ≠ some (.int 4000000000) := by
  refine ⟨by decide, by decide, by decide, by decide, by decide, by decide, by decide, ?_⟩
  have h := ProcessBusRequest_nonempty Example.farApart Example.flatDistance 1 "R" 0
    { name := "R", stops := ["A", "B"] } (by decide) (by decide) (by decide)
  have hl : (ProcessBusRequest.lengths Example.farApart Example.flatDistance ["A", "B"]
      false).1 = -294967296 := by
    rw [lengths_fst _ _ _ _ (by decide)]
    decide
  refine ⟨_, h, ?_, ?_⟩
  · exact congrArg (fun x => some (Node.int x)) hl
  · intro hc
    have hc' : some (Node.int (ProcessBusRequest.lengths Example.farApart Example.flatDistance
        ["A", "B"] false).1) = some (Node.int 4000000000) := hc
    rw [hl] at hc'
    injection hc' with hc'
    injection hc' with hc'
    exact absurd hc' (by decide)

/-! ### C3: the stop count -/

/-- C3: for every stored bus with a non-empty stop sequence of length `n`, `ProcessBusRequest`
answers without raising and its `"stop_count"` entry is `n` when the bus is round-trip and
`2 * n - 1` when it is not; whether the stop names resolve to stops plays no role. -/
theorem ProcessBusRequest_stop_count (db : TransportCatalogue)
    (ComputeDistance : geo.Coordinates → geo.Coordinates → ℚ) (id : Int) (bus_name : String)
    (p : BusPtr) (bus : Bus) (hp : db.FindBus bus_name = some p)
    (hb : db.buses_[p]? = some bus) (hne : bus.stops ≠ []) :
    ∃ d : Dict, ProcessBusRequest db ComputeDistance id bus_name = .ok (.dict d) ∧
      d.find "stop_count" = some (.int
        (if bus.is_roundtrip then (bus.stops.length : Int)
          else 2 * (bus.stops.length : Int) - 1)) := by
  refine ⟨_, ProcessBusRequest_nonempty db ComputeDistance id bus_name p bus hp hb hne, ?_⟩
  rw [mul_comm]
  rfl

/-- The theorem for C3 applied to a round-trip bus over three names, none of which is a stop
(`3` stops), and to the bus `R = [A, B]`, not round-trip (`2 * 2 - 1 = 3` stops). -/
theorem ProcessBusRequest_stop_count_witness :
    (∃ d : Dict,
      ProcessBusRequest
          (TransportCatalogue.empty.AddBus { name := "L", stops := ["P", "Q", "P"], is_roundtrip := true })
          Example.flatDistance 1 "L" = .ok (.dict d) ∧
        d.find "stop_count" = some (.int 3)) ∧
      (∃ d : Dict,
        ProcessBusRequest Example.thereAndBack Example.flatDistance 1 "R" = .ok (.dict d) ∧
          d.find "stop_count" = some (.int 3)) :=
  ⟨ProcessBusRequest_stop_count
      (TransportCatalogue.empty.AddBus { name := "L", stops := ["P", "Q", "P"], is_roundtrip := true })
      Example.flatDistance 1 "L" 0 { name := "L", stops := ["P", "Q", "P"], is_roundtrip := true }
      (by decide) (by decide) (by decide),
    ProcessBusRequest_stop_count Example.thereAndBack Example.flatDistance 1 "R" 0
      { name := "R", stops := ["A", "B"] } (by decide) (by decide) (by decide)⟩

end JsonReader

/-! ## The routing scenario -/

namespace TransportRouter

open graph

theorem linear_CalculateTime_1200 : Example.linearRouter.CalculateTime 1200 = 9 / 5 := by
  norm_num [CalculateTime, Example.linearRouter, SetRoutingSettings, TransportRouter.new]

theorem linear_CalculateTime_2400 : Example.linearRouter.CalculateTime 2400 = 18 / 5 := by
  norm_num [CalculateTime, Example.linearRouter, SetRoutingSettings, TransportRouter.new]

/-- The router of the routing scenario after `BuildGraph`, with the edge weights as the code
computes them. -/
theorem linear_BuildGraph_raw :
    Example.linearRouter.BuildGraph Example.linear =
      { settings_ := { bus_wait_time := 6, bus_velocity := 40 }
        graph_ :=
          { vertex_count := 6
            edges_ := [⟨0, 1, ((6 : Int) : ℚ)⟩, ⟨2, 3, ((6 : Int) : ℚ)⟩, ⟨4, 5, ((6 : Int) : ℚ)⟩,
              ⟨1, 2, Example.linearRouter.CalculateTime 1200⟩,
              ⟨1, 4, Example.linearRouter.CalculateTime 2400⟩,
              ⟨3, 4, Example.linearRouter.CalculateTime 1200⟩,
              ⟨5, 2, Example.linearRouter.CalculateTime 1200⟩,
              ⟨5, 0, Example.linearRouter.CalculateTime 2400⟩,
              ⟨3, 0, Example.linearRouter.CalculateTime 1200⟩] }
        stop_to_wait_vertex_ := [("X", 0), ("Y", 2), ("Z", 4)]
        stop_to_bus_vertex_ := [("X", 1), ("Y", 3), ("Z", 5)]
        vertex_to_stop_ := [(0, "X"), (1, "X"), (2, "Y"), (3, "Y"), (4, "Z"), (5, "Z")]
        edge_to_bus_ := [(3, "B"), (4, "B"), (5, "B"), (6, "B"), (7, "B"), (8, "B")]
        edge_to_span_count_ := [(3, 1), (4, 2), (5, 1), (6, 1), (7, 2), (8, 1)]
        graph_built_ := true } :=
  rfl

/-- The router of the routing scenario after `BuildGraph`. -/
theorem linear_BuildGraph :
    Example.linearRouter.BuildGraph Example.linear =
      { settings_ := { bus_wait_time := 6, bus_velocity := 40 }
        graph_ := Example.linearGraph
        stop_to_wait_vertex_ := [("X", 0), ("Y", 2), ("Z", 4)]
        stop_to_bus_vertex_ := [("X", 1), ("Y", 3), ("Z", 5)]
        vertex_to_stop_ := [(0, "X"), (1, "X"), (2, "Y"), (3, "Y"), (4, "Z"), (5, "Z")]
        edge_to_bus_ := [(3, "B"), (4, "B"), (5, "B"), (6, "B"), (7, "B"), (8, "B")]
        edge_to_span_count_ := [(3, 1), (4, 2), (5, 1), (6, 1), (7, 2), (8, 1)]
        graph_built_ := true } := by
  rw [linear_BuildGraph_raw, linear_CalculateTime_1200, linear_CalculateTime_2400]
  norm_num [Example.linearGraph]

theorem IsPath_cons {g : DirectedWeightedGraph} {s t : VertexId} {e : EdgeId}
    {rest : List EdgeId} (h : IsPath g s t (e :: rest) = true) :
    ∃ edge, g.edges_[e]? = some edge ∧ edge.from_ = s ∧ IsPath g edge.to_ t rest = true ∧
      pathWeight g (e :: rest) = edge.weight + pathWeight g rest := by
  unfold IsPath at h
  cases he : g.edges_[e]? with
  | none => simp [he] at h
  | some edge =>
    simp only [he, Bool.and_eq_true, decide_eq_true_eq] at h
    exact ⟨edge, rfl, h.1, h.2, by simp [pathWeight, he]⟩

theorem pathWeight_nonneg {g : DirectedWeightedGraph}
    (hg : ∀ edge ∈ g.edges_, 0 ≤ edge.weight) (path : List EdgeId) : 0 ≤ pathWeight g path := by
  unfold pathWeight
  apply List.sum_nonneg
  intro x hx
  obtain ⟨e, _, rfl⟩ := List.mem_map.1 hx
  cases he : g.edges_[e]? with
  | none => simp
  | some edge => simpa using hg edge (List.getElem?_mem he)

theorem linearGraph_nonneg (path : List EdgeId) : 0 ≤ pathWeight Example.linearGraph path := by
  apply pathWeight_nonneg
  intro edge he
  simp only [Example.linearGraph, List.mem_cons, List.mem_singleton, List.not_mem_nil,
    or_false] at he
  rcases he with h | h | h | h | h | h | h | h | h <;> subst h <;> norm_num

/-- The edge with which a path of the routing scenario starts at vertex `s`. -/
theorem linearGraph_first {s t : VertexId} {e : EdgeId} {rest : List EdgeId}
    (h : IsPath Example.linearGraph s t (e :: rest) = true) :
    ∃ edge, Example.linearGraph.edges_[e]? = some edge ∧ (e, edge) ∈
        [((0 : Nat), (⟨0, 1, 6⟩ : Edge)), (1, ⟨2, 3, 6⟩), (2, ⟨4, 5, 6⟩), (3, ⟨1, 2, 9 / 5⟩),
          (4, ⟨1, 4, 18 / 5⟩), (5, ⟨3, 4, 9 / 5⟩), (6, ⟨5, 2, 9 / 5⟩), (7, ⟨5, 0, 18 / 5⟩),
          (8, ⟨3, 0, 9 / 5⟩)] ∧
      edge.from_ = s ∧ IsPath Example.linearGraph edge.to_ t rest = true ∧
      pathWeight Example.linearGraph (e :: rest) =
        edge.weight + pathWeight Example.linearGraph rest := by
  obtain ⟨edge, he, hs, hrest, hw⟩ := IsPath_cons h
  refine ⟨edge, he, ?_, hs, hrest, hw⟩
  have hlt : e < 9 := by
    by_contra hc
    have : Example.linearGraph.edges_[e]? = none :=
      List.getElem?_eq_none (by simpa [Example.linearGraph] using not_lt.1 hc)
    rw [this] at he
    cases he
  interval_cases e <;> simp [Example.linearGraph] at he <;> subst he <;> simp

/-- In the graph of the routing scenario, the only path from vertex `0` (waiting at `X`) to vertex
`4` (waiting at `Z`) of weight at most `48 / 5` is the wait edge `0` followed by the ride edge
`4`. -/
theorem linearGraph_shortest {path : List EdgeId}
    (hp : IsPath Example.linearGraph 0 4 path = true)
    (hw : pathWeight Example.linearGraph path ≤ 48 / 5) : path = [0, 4] := by
  cases path with
  | nil => simp [IsPath] at hp
  | cons e1 p1 =>
    obtain ⟨edge1, _, hm1, hs1, hr1, hw1⟩ := linearGraph_first hp
    simp only [List.mem_cons, Prod.mk.injEq, List.mem_singleton, List.not_mem_nil, or_false]
      at hm1
    rcases hm1 with h | h | h | h | h | h | h | h | h <;> obtain ⟨rfl, rfl⟩ := h <;>
      simp at hs1
    cases p1 with
    | nil => simp [IsPath] at hr1
    | cons e2 p2 =>
      obtain ⟨edge2, _, hm2, hs2, hr2, hw2⟩ := linearGraph_first hr1
      simp only [List.mem_cons, Prod.mk.injEq, List.mem_singleton, List.not_mem_nil, or_false]
        at hm2
      rcases hm2 with h | h | h | h | h | h | h | h | h <;> obtain ⟨rfl, rfl⟩ := h <;>
        simp at hs2
      · cases p2 with
        | nil => simp [IsPath] at hr2
        | cons e3 p3 =>
          obtain ⟨edge3, _, hm3, hs3, hr3, hw3⟩ := linearGraph_first hr2
          simp only [List.mem_cons, Prod.mk.injEq, List.mem_singleton, List.not_mem_nil,
            or_false] at hm3
          have := linearGraph_nonneg p3
          rcases hm3 with h | h | h | h | h | h | h | h | h <;> obtain ⟨rfl, rfl⟩ := h <;>
            simp at hs3
          rw [hw1, hw2, hw3] at hw
          norm_num at hw
          linarith
      · cases p2 with
        | nil => rfl
        | cons e3 p3 =>
          obtain ⟨edge3, _, hm3, hs3, hr3, hw3⟩ := linearGraph_first hr2
          simp only [List.mem_cons, Prod.mk.injEq, List.mem_singleton, List.not_mem_nil,
            or_false] at hm3
          have := linearGraph_nonneg p3
          rcases hm3 with h | h | h | h | h | h | h | h | h <;> obtain ⟨rfl, rfl⟩ := h <;>
            simp at hs3
          rw [hw1, hw2, hw3] at hw
          norm_num at hw
          linarith

end TransportRouter

/-! ### C4: the routing scenario -/

namespace TransportRouter

open graph

theorem linear_direct_weight : pathWeight Example.linearGraph [0, 4] = 48 / 5 := by
  norm_num [pathWeight, Example.linearGraph]

/-- C4: in the routing scenario (`bus_wait_time = 6`, `bus_velocity = 40`, stops `X`, `Y`, `Z`,
`X -> Y = 1200`, `Y -> Z = 1200`, one non-round-trip bus `B = [X, Y, Z]`), for every engine that
answers the query between the waiting vertices of `X` and `Z` with a minimum-weight edge path,
`BuildRoute(X, Z)` returns exactly two items, `Wait` at `X` for `6` and `Bus B` with span `2` for
`2400 / (40 * 1000 / 60) = 18 / 5`, and total time `48 / 5`. The alternative with two rides
(edges `0, 3, 1, 5`) is a path of weight `78 / 5` and is not returned. -/
theorem BuildRoute_linear (router : graph.Router)
    (h : router.MinimumWeight (Example.linearRouter.BuildGraph Example.linear).graph_ 0 4) :
    mapFind (Example.linearRouter.BuildGraph Example.linear).stop_to_wait_vertex_ "X" = some 0 ∧
      mapFind (Example.linearRouter.BuildGraph Example.linear).stop_to_wait_vertex_ "Z" = some 4 ∧
      (BuildRoute router Example.linear Example.linearRouter "X" "Z").2 =
        .ok (some
          { total_time := 48 / 5
            items := [{ type := .Wait, stop_name := "X", time := 6 },
              { type := .Bus, bus := "B", span_count := 2, time := 18 / 5 }] }) ∧
      (2400 : ℚ) / (40 * 1000 / 60) = 18 / 5 ∧
      IsPath (Example.linearRouter.BuildGraph Example.linear).graph_ 0 4 [0, 3, 1, 5] = true ∧
      pathWeight (Example.linearRouter.BuildGraph Example.linear).graph_ [0, 3, 1, 5] = 78 / 5 := by
  rw [linear_BuildGraph] at h
  simp only at h
  refine ⟨by rw [linear_BuildGraph]; rfl, by rw [linear_BuildGraph]; rfl, ?_, by norm_num,
    by rw [linear_BuildGraph]; rfl,
    by rw [linear_BuildGraph]; norm_num [pathWeight, Example.linearGraph]⟩
  unfold Router.MinimumWeight at h
  cases hr : router Example.linearGraph 0 4 with
  | none =>
    rw [hr] at h
    have := h [0, 4]
    simp [IsPath, Example.linearGraph] at this
  | some route =>
    rw [hr] at h
    obtain ⟨hpath, hweight, hmin⟩ := h
    have hle : route.weight ≤ 48 / 5 := by
      have := hmin [0, 4] rfl
      rwa [linear_direct_weight] at this
    have hedges : route.edges = [0, 4] := linearGraph_shortest hpath (hweight ▸ hle)
    have hw : route.weight = 48 / 5 := by rw [hweight, hedges, linear_direct_weight]
    unfold BuildRoute
    simp only [linear_BuildGraph]
    have : ReconstructRoute
        { settings_ := { bus_wait_time := 6, bus_velocity := 40 }
          graph_ := Example.linearGraph
          stop_to_wait_vertex_ := [("X", 0), ("Y", 2), ("Z", 4)]
          stop_to_bus_vertex_ := [("X", 1), ("Y", 3), ("Z", 5)]
          vertex_to_stop_ := [(0, "X"), (1, "X"), (2, "Y"), (3, "Y"), (4, "Z"), (5, "Z")]
          edge_to_bus_ := [(3, "B"), (4, "B"), (5, "B"), (6, "B"), (7, "B"), (8, "B")]
          edge_to_span_count_ := [(3, 1), (4, 2), (5, 1), (6, 1), (7, 2), (8, 1)]
          graph_built_ := true } 0 4 router =
        .ok (some
          { total_time := 48 / 5
            items := [{ type := .Wait, stop_name := "X", time := 6 },
              { type := .Bus, bus := "B", span_count := 2, time := 18 / 5 }] }) := by
      unfold ReconstructRoute
      simp only [hr, hedges, hw]
      rfl
    exact this

/-- The theorem for C4 applied to an engine that answers the query from the waiting vertex of
`X` to that of `Z` with the path over the edges `0` and `4`, which is a minimum-weight path. -/
theorem BuildRoute_linear_witness :
    Example.directEngine.MinimumWeight
        (Example.linearRouter.BuildGraph Example.linear).graph_ 0 4 ∧
      (BuildRoute Example.directEngine Example.linear Example.linearRouter "X" "Z").2 =
        .ok (some
          { total_time := 48 / 5
            items := [{ type := .Wait, stop_name := "X", time := 6 },
              { type := .Bus, bus := "B", span_count := 2, time := 18 / 5 }] }) := by
  have hmin : Example.directEngine.MinimumWeight
      (Example.linearRouter.BuildGraph Example.linear).graph_ 0 4 := by
    rw [linear_BuildGraph]
    refine ⟨rfl, linear_direct_weight.symm, ?_⟩
    intro path hp
    by_contra hc
    have := linearGraph_shortest hp (le_of_lt (not_le.1 hc))
    subst this
    rw [linear_direct_weight] at hc
    exact hc (le_refl _)
  exact ⟨hmin, (BuildRoute_linear Example.directEngine hmin).2.2.1⟩

end TransportRouter

/-! ## The built graph -/

namespace TransportRouter

open graph

theorem foldl_invariant {α β : Type} (P : α → Prop) (f : α → β → α)
    (hstep : ∀ a b, P a → P (f a b)) (l : List β) (a : α) (ha : P a) : P (l.foldl f a) := by
  induction l generalizing a with
  | nil => exact ha
  | cons b t ih => exact ih _ (hstep a b ha)

theorem foldl_addStop_snoc (r : TransportRouter) (t : List Stop) (s : Stop) :
    (t ++ [s]).enum.foldl (fun r (p : Nat × Stop) => BuildGraph.addStop r p.1 p.2) r =
      BuildGraph.addStop
        (t.enum.foldl (fun r (p : Nat × Stop) => BuildGraph.addStop r p.1 p.2) r) t.length s := by
  rw [List.enum_append, List.foldl_append]
  rfl

theorem getElem?_snoc_length {α : Type} (l : List α) (a : α) : (l ++ [a])[l.length]? = some a := by
  simp

/-- What the first loop of `BuildGraph` leaves, when it starts without edges and with empty
vertex tables. -/
theorem addStop_loop (r : TransportRouter) (hedges : r.graph_.edges_ = [])
    (hwait : r.stop_to_wait_vertex_ = []) (hbus : r.stop_to_bus_vertex_ = [])
    (stops : List Stop) :
    (stops.enum.foldl (fun r (p : Nat × Stop) => BuildGraph.addStop r p.1 p.2) r).settings_ =
        r.settings_ ∧
      (stops.enum.foldl (fun r (p : Nat × Stop) => BuildGraph.addStop r p.1 p.2)
        r).graph_.edges_.length = stops.length ∧
      (stops.enum.foldl (fun r (p : Nat × Stop) => BuildGraph.addStop r p.1 p.2) r).WaitEdges
        stops ∧
      (stops.enum.foldl (fun r (p : Nat × Stop) => BuildGraph.addStop r p.1 p.2)
        r).BusVerticesOdd ∧
      (stops.enum.foldl (fun r (p : Nat × Stop) => BuildGraph.addStop r p.1 p.2)
        r).WaitVerticesSound stops ∧
      (∀ name, (mapFind (stops.enum.foldl
          (fun r (p : Nat × Stop) => BuildGraph.addStop r p.1 p.2) r).stop_to_wait_vertex_
            name).isSome ↔ name ∈ stops.map Stop.name) ∧
      (stops.enum.foldl (fun r (p : Nat × Stop) => BuildGraph.addStop r p.1 p.2)
        r).edge_to_bus_ = r.edge_to_bus_ ∧
      (stops.enum.foldl (fun r (p : Nat × Stop) => BuildGraph.addStop r p.1 p.2)
        r).edge_to_span_count_ = r.edge_to_span_count_ := by
  induction stops using List.reverseRecOn with
  | nil =>
    refine ⟨rfl, by simp [hedges], ?_, ?_, ?_, ?_, rfl, rfl⟩
    · intro i stop h
      simp at h
    · intro name v h
      simp [hbus, mapFind] at h
    · intro name v h
      simp [hwait, mapFind] at h
    · intro name
      simp [hwait, mapFind]
  | append_singleton t s ih =>
    obtain ⟨h1, h2, h3, h4, h5, h6, h7, h8⟩ := ih
    rw [foldl_addStop_snoc]
    generalize t.enum.foldl (fun r (p : Nat × Stop) => BuildGraph.addStop r p.1 p.2) r = r2
      at h1 h2 h3 h4 h5 h6 h7 h8
    refine ⟨h1, by simp [BuildGraph.addStop, DirectedWeightedGraph.AddEdge, h2], ?_, ?_, ?_, ?_,
      h7, h8⟩
    · intro i stop hi
      have hcases : i < t.length ∨ i = t.length := by
        have : i < (t ++ [s]).length := by
          by_contra hc
          rw [List.getElem?_eq_none (not_lt.1 hc)] at hi
          cases hi
        rw [List.length_append, List.length_singleton] at this
        omega
      rcases hcases with hlt | rfl
      · rw [List.getElem?_append_left hlt] at hi
        obtain ⟨he, hv⟩ := h3 i stop hi
        constructor
        · simp only [BuildGraph.addStop, DirectedWeightedGraph.AddEdge]
          exact TransportCatalogue.getElem?_append_of_some _ he
        · simp only [BuildGraph.addStop]
          have hne1 : t.length * 2 + 1 ≠ i * 2 := by omega
          have hne2 : t.length * 2 ≠ i * 2 := by omega
          rw [mapFind_mapAssign_ne _ _ hne1, mapFind_mapAssign_ne _ _ hne2]
          exact hv
      · rw [getElem?_snoc_length] at hi
        cases hi
        constructor
        · simp only [BuildGraph.addStop, DirectedWeightedGraph.AddEdge]
          rw [← h2]
          exact getElem?_snoc_length _ _
        · simp only [BuildGraph.addStop]
          have hne1 : t.length * 2 + 1 ≠ t.length * 2 := by omega
          rw [mapFind_mapAssign_ne _ _ hne1, mapFind_mapAssign_self]
    · intro name v hv
      simp only [BuildGraph.addStop, mapFind_mapAssign] at hv
      by_cases hn : s.name = name
      · simp only [hn, if_true, Option.some.injEq] at hv
        rw [← hv]
        omega
      · simp only [hn, if_false] at hv
        exact h4 name v hv
    · intro name v hv
      simp only [BuildGraph.addStop, mapFind_mapAssign] at hv
      by_cases hn : s.name = name
      · simp only [hn, if_true, Option.some.injEq] at hv
        exact ⟨t.length, s, getElem?_snoc_length _ _, hn, hv.symm⟩
      · simp only [hn, if_false] at hv
        obtain ⟨i, stop, hi, hname, hvi⟩ := h5 name v hv
        exact ⟨i, stop, TransportCatalogue.getElem?_append_of_some _ hi, hname, hvi⟩
    · intro name
      simp only [BuildGraph.addStop, mapFind_mapAssign]
      by_cases hn : s.name = name
      · simp [hn]
      · simp only [hn, if_false, h6 name]
        have hn' : ¬ name = s.name := fun h => hn h.symm
        simp [hn']

end TransportRouter

namespace TransportRouter

open graph

theorem Extends.start (r0 : TransportRouter) : Extends r0.graph_.edges_.length r0 r0 := by
  refine ⟨rfl, rfl, rfl, rfl, ?_, fun _ _ => rfl, le_refl _⟩
  intro e edge hle he
  rw [List.getElem?_eq_none hle] at he
  cases he

theorem addEdge_extends {n : Nat} {r0 r : TransportRouter} (h : Extends n r0 r)
    (bus_name : String) (from_vertex to_vertex : VertexId) (total_distance span_count : Int)
    (hodd : from_vertex % 2 = 1) :
    Extends n r0
      (AddEdgesForBus.addEdge r bus_name from_vertex to_vertex total_distance span_count) := by
  obtain ⟨h1, h2, h3, h4, h5, h6, h7⟩ := h
  unfold AddEdgesForBus.addEdge
  by_cases hz : total_distance = 0
  · simp only [hz, if_true]
    exact ⟨h1, h2, h3, h4, h5, h6, h7⟩
  · simp only [hz, if_false, DirectedWeightedGraph.AddEdge]
    refine ⟨h1, h2, h3, h4, ?_, ?_, ?_⟩
    · intro e edge hle he
      simp only at he ⊢
      by_cases hlt : e < r.graph_.edges_.length
      · rw [List.getElem?_append_left hlt] at he
        obtain ⟨ha, hb, hc⟩ := h5 e edge hle he
        have hne : r.graph_.edges_.length ≠ e := by omega
        rw [mapFind_mapAssign_ne _ _ hne, mapFind_mapAssign_ne _ _ hne]
        exact ⟨ha, hb, hc⟩
      · by_cases heq : e = r.graph_.edges_.length
        · subst heq
          rw [getElem?_snoc_length] at he
          cases he
          simp [mapFind_mapAssign_self, hodd]
        · rw [List.getElem?_eq_none (by simp; omega)] at he
          cases he
    · intro i hi
      simp only
      rw [List.getElem?_append_left (by omega)]
      exact h6 i hi
    · simp only [List.length_append, List.length_singleton]
      omega

theorem forwardPair_extends {n : Nat} {r0 r : TransportRouter} (h : Extends n r0 r)
    (hodd : r0.BusVerticesOdd) (catalogue : TransportCatalogue) (bus : Bus) (i j : Nat) :
    Extends n r0 (AddEdgesForBus.forwardPair catalogue bus r i j) := by
  unfold AddEdgesForBus.forwardPair
  simp only
  cases hf : mapFind r.stop_to_bus_vertex_ (bus.stops.getD i "") with
  | none => exact h
  | some fv =>
    cases ht : mapFind r.stop_to_wait_vertex_ (bus.stops.getD j "") with
    | none => exact h
    | some tv =>
      simp only
      apply addEdge_extends h
      rw [h.2.2.1] at hf
      exact hodd _ _ hf

theorem backwardPair_extends {n : Nat} {r0 r : TransportRouter} (h : Extends n r0 r)
    (hodd : r0.BusVerticesOdd) (catalogue : TransportCatalogue) (bus : Bus) (i j : Nat) :
    Extends n r0 (AddEdgesForBus.backwardPair catalogue bus r i j) := by
  unfold AddEdgesForBus.backwardPair
  simp only
  cases hf : mapFind r.stop_to_bus_vertex_ (bus.stops.getD i "") with
  | none => exact h
  | some fv =>
    cases ht : mapFind r.stop_to_wait_vertex_ (bus.stops.getD j "") with
    | none => exact h
    | some tv =>
      simp only
      apply addEdge_extends h
      rw [h.2.2.1] at hf
      exact hodd _ _ hf

theorem AddEdgesForBus_extends {n : Nat} {r0 r : TransportRouter} (h : Extends n r0 r)
    (hodd : r0.BusVerticesOdd) (catalogue : TransportCatalogue) (bus : Bus) :
    Extends n r0 (AddEdgesForBus catalogue r bus) := by
  unfold AddEdgesForBus
  simp only
  split
  · exact h
  · have hfwd : Extends n r0 ((List.range bus.stops.length).foldl
        (fun r i =>
          (List.range' (i + 1) (bus.stops.length - (i + 1))).foldl
            (fun r j => AddEdgesForBus.forwardPair catalogue bus r i j) r) r) := by
      apply foldl_invariant (Extends n r0) _ _ _ _ h
      intro a i ha
      apply foldl_invariant (Extends n r0) _ _ _ _ ha
      intro a j ha
      exact forwardPair_extends ha hodd catalogue bus i j
    split
    · apply foldl_invariant (Extends n r0) _ _ _ _ hfwd
      intro a i ha
      apply foldl_invariant (Extends n r0) _ _ _ _ ha
      intro a j ha
      exact backwardPair_extends ha hodd catalogue bus i j
    · exact hfwd

theorem BuildGraph_eq (catalogue : TransportCatalogue) (r : TransportRouter)
    (hbuilt : r.graph_built_ = false) :
    r.BuildGraph catalogue =
      { catalogue.buses_.foldl (AddEdgesForBus catalogue)
          (catalogue.stops_.enum.foldl (fun r (p : Nat × Stop) => BuildGraph.addStop r p.1 p.2)
            { r with
              graph_ := { vertex_count := catalogue.stops_.length * 2, edges_ := [] } }) with
        graph_built_ := true } := by
  unfold BuildGraph
  rw [if_neg (by simp [hbuilt])]

/-- What `BuildGraph` leaves when it runs on a router whose graph is not built and whose vertex
tables are empty. -/
theorem BuildGraph_facts (catalogue : TransportCatalogue) (r : TransportRouter)
    (hbuilt : r.graph_built_ = false) (hwait : r.stop_to_wait_vertex_ = [])
    (hbus : r.stop_to_bus_vertex_ = []) :
    (r.BuildGraph catalogue).settings_ = r.settings_ ∧
      (r.BuildGraph catalogue).WaitEdges catalogue.stops_ ∧
      (r.BuildGraph catalogue).RideEdgesTagged catalogue.stops_.length ∧
      (r.BuildGraph catalogue).WaitVerticesSound catalogue.stops_ ∧
      (∀ name, (mapFind (r.BuildGraph catalogue).stop_to_wait_vertex_ name).isSome ↔
        name ∈ catalogue.stops_.map Stop.name) ∧
      catalogue.stops_.length ≤ (r.BuildGraph catalogue).graph_.edges_.length := by
  obtain ⟨h1, h2, h3, h4, h5, h6, _, _⟩ :=
    addStop_loop { r with graph_ := { vertex_count := catalogue.stops_.length * 2, edges_ := [] } }
      rfl hwait hbus catalogue.stops_
  have hext := foldl_invariant (Extends catalogue.stops_.length _)
    (AddEdgesForBus catalogue)
    (fun a b ha => AddEdgesForBus_extends ha h4 catalogue b) catalogue.buses_ _
    (h2 ▸ Extends.start _)
  obtain ⟨e1, e2, e3, e4, e5, e6, e7⟩ := hext
  rw [BuildGraph_eq catalogue r hbuilt]
  have hw : (catalogue.buses_.foldl (AddEdgesForBus catalogue)
      (catalogue.stops_.enum.foldl (fun r (p : Nat × Stop) => BuildGraph.addStop r p.1 p.2)
        { r with
          graph_ := { vertex_count := catalogue.stops_.length * 2, edges_ := [] } })).WaitEdges
      catalogue.stops_ := by
    intro i stop hi
    have hlt : i < catalogue.stops_.length := by
      by_contra hc
      rw [List.getElem?_eq_none (not_lt.1 hc)] at hi
      cases hi
    obtain ⟨ha, hb⟩ := h3 i stop hi
    rw [e6 i hlt, e4, e1]
    exact ⟨ha, hb⟩
  have hs : (catalogue.buses_.foldl (AddEdgesForBus catalogue)
      (catalogue.stops_.enum.foldl (fun r (p : Nat × Stop) => BuildGraph.addStop r p.1 p.2)
        { r with
          graph_ :=
            { vertex_count := catalogue.stops_.length * 2, edges_ := [] } })).WaitVerticesSound
      catalogue.stops_ := by
    intro name v hv
    rw [e2] at hv
    exact h5 name v hv
  refine ⟨e1.trans h1, hw, e5, hs, ?_, e7⟩
  intro name
  show (mapFind (catalogue.buses_.foldl (AddEdgesForBus catalogue)
      (catalogue.stops_.enum.foldl (fun r (p : Nat × Stop) => BuildGraph.addStop r p.1 p.2)
        { r with
          graph_ :=
            { vertex_count := catalogue.stops_.length * 2, edges_ := [] } })).stop_to_wait_vertex_
      name).isSome ↔ _
  rw [e2]
  exact h6 name

end TransportRouter

/-! ## Reconstruction of a route -/

namespace TransportRouter

open graph

/-- On a built graph, the loop body of `ReconstructRoute` appends, for an edge of the graph, the
item the specification asks for. -/
theorem visit_eq (catalogue : TransportCatalogue) (r : TransportRouter)
    (hw : r.WaitEdges catalogue.stops_) (ht : r.RideEdgesTagged catalogue.stops_.length)
    (items : List RouteItem) (e : Nat) (he : e < r.graph_.edges_.length) :
    ReconstructRoute.visit r items e = .ok (items ++ [Spec.itemOfEdge catalogue r e]) := by
  by_cases hlt : e < catalogue.stops_.length
  · have hstop : catalogue.stops_[e]? = some (catalogue.stopAt e) := by
      unfold TransportCatalogue.stopAt
      rw [List.getD_eq_getElem?_getD, List.getElem?_eq_getElem hlt]
      rfl
    obtain ⟨hedge, hname⟩ := hw e _ hstop
    have hcond : e * 2 + 1 = e * 2 + 1 ∧ e * 2 % 2 = 0 := ⟨rfl, by omega⟩
    simp only [ReconstructRoute.visit, DirectedWeightedGraph.GetEdge, hedge, Spec.itemOfEdge, hlt,
      if_true, bind, Except.bind, hcond, and_self, hname]
  · obtain ⟨edge, hedge⟩ : ∃ edge, r.graph_.edges_[e]? = some edge :=
      ⟨_, List.getElem?_eq_getElem he⟩
    obtain ⟨hodd, hb, hc⟩ := ht e edge (not_lt.1 hlt) hedge
    obtain ⟨b, hb⟩ := Option.isSome_iff_exists.1 hb
    obtain ⟨c, hc⟩ := Option.isSome_iff_exists.1 hc
    have hcond : ¬ (edge.to_ = edge.from_ + 1 ∧ edge.from_ % 2 = 0) := by
      intro h
      exact absurd (hodd.symm.trans h.2) (by decide)
    simp only [ReconstructRoute.visit, DirectedWeightedGraph.GetEdge, hedge, Spec.itemOfEdge, hlt,
      if_false, bind, Except.bind, hcond, hb, hc, mapGetD, Option.getD_some, Option.map_some']

theorem foldlM_visit_eq (catalogue : TransportCatalogue) (r : TransportRouter)
    (hw : r.WaitEdges catalogue.stops_) (ht : r.RideEdgesTagged catalogue.stops_.length)
    (edges : List Nat) (hids : ∀ e ∈ edges, e < r.graph_.edges_.length)
    (items : List RouteItem) :
    edges.foldlM (ReconstructRoute.visit r) items =
      .ok (items ++ edges.map (Spec.itemOfEdge catalogue r)) := by
  induction edges generalizing items with
  | nil => simp [pure, Except.pure]
  | cons e rest ih =>
    rw [List.foldlM_cons, visit_eq catalogue r hw ht items e (hids e (List.mem_cons_self _ _))]
    simp only [bind, Except.bind]
    rw [ih (fun x hx => hids x (List.mem_cons_of_mem _ hx))]
    simp

/-! ### C5: one item per edge -/

/-- C5: on the graph a configured router builds over a catalogue, for every path the engine
returns whose edge ids are ids of that graph, `ReconstructRoute` returns (without raising) the
engine's weight as `total_time` and exactly one item per edge, in path order,
`Spec.itemOfEdge` of each edge: for the edge with id `i` below the number of stops, which is
the wait edge `2 i -> 2 i + 1` of the stop at index `i`, a `Wait` item with that stop's name and
`bus_wait_time`; for every other edge, which has a bus name and a span count recorded, a `Bus`
item with these and the weight of the edge. -/
theorem ReconstructRoute_one_item_per_edge (catalogue : TransportCatalogue)
    (settings : RoutingSettings) (router : graph.Router) (from_vertex to_vertex : VertexId)
    (route : graph.RouteInfo)
    (hroute : router ((configured settings).BuildGraph catalogue).graph_ from_vertex to_vertex =
      some route)
    (hids : ∀ e ∈ route.edges,
      e < ((configured settings).BuildGraph catalogue).graph_.edges_.length) :
    ((configured settings).BuildGraph catalogue).ReconstructRoute from_vertex to_vertex router =
        .ok (some
          { total_time := route.weight
            items := route.edges.map
              (Spec.itemOfEdge catalogue ((configured settings).BuildGraph catalogue)) }) ∧
      ((configured settings).BuildGraph catalogue).settings_ = settings ∧
      ((configured settings).BuildGraph catalogue).WaitEdges catalogue.stops_ ∧
      ((configured settings).BuildGraph catalogue).RideEdgesTagged catalogue.stops_.length := by
  obtain ⟨h1, h2, h3, _, _, _⟩ := BuildGraph_facts catalogue (configured settings) rfl rfl rfl
  refine ⟨?_, h1, h2, h3⟩
  unfold ReconstructRoute
  rw [hroute]
  simp only
  cases hedges : route.edges with
  | nil => rfl
  | cons e rest =>
    rw [hedges] at hids
    simp only [List.isEmpty_cons, Bool.false_eq_true, if_false]
    rw [foldlM_visit_eq catalogue _ h2 h3 (e :: rest) hids []]
    rfl

/-- The two items of the routing scenario for the path over the edges `0` and `4`. -/
theorem linear_items :
    [0, 4].map
        (Spec.itemOfEdge Example.linear
          ((configured { bus_wait_time := 6, bus_velocity := 40 }).BuildGraph Example.linear)) =
      [{ type := .Wait, stop_name := "X", time := 6 },
        { type := .Bus, bus := "B", span_count := 2, time := 18 / 5 }] := by
  have h : (configured { bus_wait_time := 6, bus_velocity := 40 }).BuildGraph Example.linear = _ :=
    linear_BuildGraph
  rw [h]
  have hlen : Example.linear.stops_.length = 3 := by decide
  have hname : (Example.linear.stopAt 0).name = "X" := by decide
  simp only [List.map, Spec.itemOfEdge, hlen, hname]
  norm_num [mapGetD, mapFind, Example.linearGraph]

/-- The theorem for C5 applied to the routing scenario and the path over the edges `0` (the
wait edge of `X`) and `4` (the ride `X -> Z`). -/
theorem ReconstructRoute_one_item_per_edge_witness :
    Example.directEngine
        ((configured { bus_wait_time := 6, bus_velocity := 40 }).BuildGraph
          Example.linear).graph_ 0 4 = some { weight := 48 / 5, edges := [0, 4] } ∧
      (∀ e ∈ [0, 4],
        e < ((configured { bus_wait_time := 6, bus_velocity := 40 }).BuildGraph
          Example.linear).graph_.edges_.length) ∧
      ((configured { bus_wait_time := 6, bus_velocity := 40 }).BuildGraph
          Example.linear).ReconstructRoute 0 4 Example.directEngine =
        .ok (some
          { total_time := 48 / 5
            items := [0, 4].map
              (Spec.itemOfEdge Example.linear
                ((configured { bus_wait_time := 6, bus_velocity := 40 }).BuildGraph
                  Example.linear)) }) ∧
      [0, 4].map
          (Spec.itemOfEdge Example.linear
            ((configured { bus_wait_time := 6, bus_velocity := 40 }).BuildGraph
              Example.linear)) =
        [{ type := .Wait, stop_name := "X", time := 6 },
          { type := .Bus, bus := "B", span_count := 2, time := 18 / 5 }] :=
  ⟨rfl, by decide,
    (ReconstructRoute_one_item_per_edge Example.linear { bus_wait_time := 6, bus_velocity := 40 }
      Example.directEngine 0 4 { weight := 48 / 5, edges := [0, 4] } rfl (by decide)).1,
    linear_items⟩

/-! ### C6: when `BuildRoute` returns nothing -/

theorem ReconstructRoute_ne_none (r : TransportRouter) (from_vertex to_vertex : VertexId)
    (router : graph.Router) (route : graph.RouteInfo)
    (hroute : router r.graph_ from_vertex to_vertex = some route) :
    r.ReconstructRoute from_vertex to_vertex router ≠ .ok none := by
  unfold ReconstructRoute
  rw [hroute]
  simp only
  split
  · intro h
    cases h
  · cases route.edges.foldlM (ReconstructRoute.visit r) [] with
    | error msg =>
      intro h
      cases h
    | ok items =>
      intro h
      cases h

/-- C6: for every catalogue, every routing settings, every engine and every pair of names,
`BuildRoute(from, to)` on a configured router returns the empty optional exactly when `from` is
not the name of a stop of the catalogue, or `to` is not, or the engine reports no path between
the waiting vertices recorded for the two names; in each of these cases it returns and does not
raise. A waiting vertex recorded for a name is vertex `2 i` of a stop at index `i` with that
name. -/
theorem BuildRoute_eq_none_iff (catalogue : TransportCatalogue) (settings : RoutingSettings)
    (router : graph.Router) (from_name to_name : String) :
    ((BuildRoute router catalogue (configured settings) from_name to_name).2 = .ok none ↔
        (from_name ∉ catalogue.stops_.map Stop.name ∨ to_name ∉ catalogue.stops_.map Stop.name ∨
          ∃ f t : VertexId,
            mapFind ((configured settings).BuildGraph catalogue).stop_to_wait_vertex_ from_name =
                some f ∧
              mapFind ((configured settings).BuildGraph catalogue).stop_to_wait_vertex_ to_name =
                some t ∧
              router ((configured settings).BuildGraph catalogue).graph_ f t = none)) ∧
      ((configured settings).BuildGraph catalogue).WaitVerticesSound catalogue.stops_ := by
  obtain ⟨_, _, _, hsound, hsome, _⟩ :=
    BuildGraph_facts catalogue (configured settings) rfl rfl rfl
  refine ⟨?_, hsound⟩
  unfold BuildRoute
  simp only
  cases hf : mapFind ((configured settings).BuildGraph catalogue).stop_to_wait_vertex_ from_name with
  | none =>
    have : from_name ∉ catalogue.stops_.map Stop.name := by
      rw [← hsome, hf]
      simp
    simp [this]
  | some f =>
    have hfm : from_name ∈ catalogue.stops_.map Stop.name := by
      rw [← hsome, hf]
      rfl
    cases ht : mapFind ((configured settings).BuildGraph catalogue).stop_to_wait_vertex_ to_name with
    | none =>
      have : to_name ∉ catalogue.stops_.map Stop.name := by
        rw [← hsome, ht]
        simp
      simp [this]
    | some t =>
      have htm : to_name ∈ catalogue.stops_.map Stop.name := by
        rw [← hsome, ht]
        rfl
      simp only [hfm, htm, not_true_eq_false, false_or, Option.some.injEq, exists_and_left,
        exists_eq_left']
      cases hr : router ((configured settings).BuildGraph catalogue).graph_ f t with
      | none =>
        refine ⟨fun _ => rfl, fun _ => ?_⟩
        show ReconstructRoute _ f t router = .ok none
        unfold ReconstructRoute
        rw [hr]
      | some route =>
        refine ⟨fun h => absurd h (ReconstructRoute_ne_none _ f t router route hr), fun h => ?_⟩
        cases h

end TransportRouter

/-! ### C11: what `SetDistance` changes -/

namespace TransportCatalogue

theorem GetRoadDistance_null_left (db : TransportCatalogue) (y : Option StopPtr) :
    db.GetRoadDistance none y = 0 := by
  unfold GetRoadDistance
  rfl

theorem GetRoadDistance_null_right (db : TransportCatalogue) (x : Option StopPtr) :
    db.GetRoadDistance x none = 0 := by
  unfold GetRoadDistance
  cases x <;> rfl

/-- C11: for every catalogue state, non-null stops `a`, `b` and integer `d`: after
`SetDistance(a, b, d)`, `GetRoadDistance(a, b)` returns `d`, whatever was stored for `(a, b)`
before; `GetRoadDistance(x, y)` is unchanged for every other ordered pair `(x, y)` of pointers
(null or not), in particular for `(b, a)` when `a` and `b` differ; and the stops, the buses, the
two name indexes and the index from stops to buses are unchanged. -/
theorem SetDistance_frame (db : TransportCatalogue) (a b : StopPtr) (d : Int) :
    (db.SetDistance (some a) (some b) d).GetRoadDistance (some a) (some b) = d ∧
      (∀ x y : Option StopPtr, (x, y) ≠ (some a, some b) →
        (db.SetDistance (some a) (some b) d).GetRoadDistance x y = db.GetRoadDistance x y) ∧
      (a ≠ b →
        (db.SetDistance (some a) (some b) d).GetRoadDistance (some b) (some a) =
          db.GetRoadDistance (some b) (some a)) ∧
      (db.SetDistance (some a) (some b) d).stops_ = db.stops_ ∧
      (db.SetDistance (some a) (some b) d).buses_ = db.buses_ ∧
      (db.SetDistance (some a) (some b) d).stopname_to_stop_ = db.stopname_to_stop_ ∧
      (db.SetDistance (some a) (some b) d).busname_to_bus_ = db.busname_to_bus_ ∧
      (db.SetDistance (some a) (some b) d).stop_to_buses_ = db.stop_to_buses_ := by
  have hother : ∀ x y : Option StopPtr, (x, y) ≠ (some a, some b) →
      (db.SetDistance (some a) (some b) d).GetRoadDistance x y = db.GetRoadDistance x y := by
    intro x y hxy
    cases x with
    | none => rw [GetRoadDistance_null_left, GetRoadDistance_null_left]
    | some x =>
      cases y with
      | none => rw [GetRoadDistance_null_right, GetRoadDistance_null_right]
      | some y =>
        rw [GetRoadDistance_eq, GetRoadDistance_eq, storedDistance_SetDistance]
        have hne : ¬ (a = x ∧ b = y) := by
          rintro ⟨rfl, rfl⟩
          exact hxy rfl
        simp [hne]
  refine ⟨?_, hother, ?_, rfl, rfl, rfl, rfl, rfl⟩
  · rw [GetRoadDistance_eq, storedDistance_SetDistance]
    simp
  · intro hab
    apply hother
    intro h
    simp only [Prod.mk.injEq, Option.some.injEq] at h
    exact hab h.1.symm

/-- The theorem for C11 applied to two stops with `A -> B = 1000` stored: after
`SetDistance(A, B, 7)` the pair `(A, B)` reads `7` and the pair `(B, A)` still reads `0`. -/
theorem SetDistance_frame_witness :
    ((Example.oneWay 1000).SetDistance (some 0) (some 1) 7).GetRoadDistance (some 0) (some 1) =
        7 ∧
      ((some 1, some 0) : Option StopPtr × Option StopPtr) ≠ (some 0, some 1) ∧
      ((Example.oneWay 1000).SetDistance (some 0) (some 1) 7).GetRoadDistance (some 1) (some 0) =
        (Example.oneWay 1000).GetRoadDistance (some 1) (some 0) ∧
      ((Example.oneWay 1000).SetDistance (some 0) (some 1) 7).stop_to_buses_ =
        (Example.oneWay 1000).stop_to_buses_ :=
  ⟨(SetDistance_frame (Example.oneWay 1000) 0 1 7).1, by decide,
    (SetDistance_frame (Example.oneWay 1000) 0 1 7).2.1 (some 1) (some 0) (by decide),
    (SetDistance_frame (Example.oneWay 1000) 0 1 7).2.2.2.2.2.2.2⟩

/-! ### C12: an unset pair and a pair declared as zero -/

/-- C12, as the code has it: `GetRoadDistance(a, b)` returns the `int` stored for `(a, b)`, and
`0` for a pair whose distance was never set. The outcome for an unset pair differs from the
outcome for every declared distance other than `0`, and equals the outcome for a distance
declared as `0`. -/
theorem GetRoadDistance_unset_is_zero (db : TransportCatalogue) (a b : StopPtr) :
    (db.storedDistance a b = none → db.GetRoadDistance (some a) (some b) = 0) ∧
      (∀ d : Int, db.storedDistance a b = some d → db.GetRoadDistance (some a) (some b) = d) ∧
      (∀ (db' : TransportCatalogue) (a' b' : StopPtr) (d : Int),
        db.storedDistance a b = none → db'.storedDistance a' b' = some d →
          (db.GetRoadDistance (some a) (some b) ≠ db'.GetRoadDistance (some a') (some b') ↔
            d ≠ 0)) := by
  refine ⟨?_, ?_, ?_⟩
  · intro h
    rw [GetRoadDistance_eq, h]
    rfl
  · intro d h
    rw [GetRoadDistance_eq, h]
    rfl
  · intro db' a' b' d h h'
    rw [GetRoadDistance_eq, GetRoadDistance_eq, h, h']
    simp only [Option.getD_none, Option.getD_some, ne_eq]
    constructor
    · intro hne hd
      exact hne hd.symm
    · intro hne hd
      exact hne hd.symm

/-- The theorem for C12 applied to two stops with only `A -> B = 1000` declared: the unset pair
`(B, A)` reads `0`, the declared pair reads `1000`, and the two outcomes differ. -/
theorem GetRoadDistance_unset_is_zero_witness :
    (Example.oneWay 1000).storedDistance 1 0 = none ∧
      (Example.oneWay 1000).storedDistance 0 1 = some 1000 ∧
      (Example.oneWay 1000).GetRoadDistance (some 1) (some 0) = 0 ∧
      (Example.oneWay 1000).GetRoadDistance (some 0) (some 1) = 1000 ∧
      ((Example.oneWay 1000).GetRoadDistance (some 1) (some 0) ≠
          (Example.oneWay 1000).GetRoadDistance (some 0) (some 1) ↔ (1000 : Int) ≠ 0) :=
  ⟨by decide, by decide,
    (GetRoadDistance_unset_is_zero (Example.oneWay 1000) 1 0).1 (by decide),
    (GetRoadDistance_unset_is_zero (Example.oneWay 1000) 0 1).2.1 1000 (by decide),
    (GetRoadDistance_unset_is_zero (Example.oneWay 1000) 1 0).2.2 (Example.oneWay 1000) 0 1 1000
      (by decide) (by decide)⟩

/-- C12, as the specification states it, fails: with only `A -> B = 0` declared, the declared
pair `(A, B)` and the never-set pair `(B, A)` give the same outcome, `0`. -/
theorem GetRoadDistance_unset_eq_declared_zero :
    (Example.oneWay 0).storedDistance 0 1 = some 0 ∧
      (Example.oneWay 0).storedDistance 1 0 = none ∧
      (Example.oneWay 0).GetRoadDistance (some 1) (some 0) =
        (Example.oneWay 0).GetRoadDistance (some 0) (some 1) := by
  decide

end TransportCatalogue

/-! ### C13: a bus without stops -/

namespace JsonReader

open json TransportCatalogue

/-- C13: for every stored bus whose stop sequence is empty, round-trip or not,
`ProcessBusRequest` answers without raising, with `"route_length"` `0`, `"stop_count"` `0` (not
`2 * 0 - 1`), `"unique_stop_count"` `0` and `"curvature"` exactly `0`. -/
theorem ProcessBusRequest_empty (db : TransportCatalogue)
    (ComputeDistance : geo.Coordinates → geo.Coordinates → ℚ) (id : Int) (bus_name : String)
    (p : BusPtr) (bus : Bus) (hp : db.FindBus bus_name = some p)
    (hb : db.buses_[p]? = some bus) (hempty : bus.stops = []) :
    ∃ d : Dict, ProcessBusRequest db ComputeDistance id bus_name = .ok (.dict d) ∧
      d.find "route_length" = some (.int 0) ∧ d.find "stop_count" = some (.int 0) ∧
      d.find "unique_stop_count" = some (.int 0) ∧ d.find "curvature" = some (.double 0) := by
  refine ⟨[("curvature", .double 0), ("request_id", .int id), ("route_length", .int 0),
    ("stop_count", .int 0), ("unique_stop_count", .int 0)], ?_, rfl, rfl, rfl, rfl⟩
  unfold ProcessBusRequest
  rw [hp]
  simp only [busAt_eq hb, hempty, List.isEmpty_nil, if_true, busAnswer_eq]

/-- The theorem for C13 applied to a bus `E` without stops that is not round-trip. -/
theorem ProcessBusRequest_empty_witness :
    Example.emptyBus.FindBus "E" = some 0 ∧
      Example.emptyBus.buses_[0]? = some { name := "E", stops := [], is_roundtrip := false } ∧
      ∃ d : Dict,
        ProcessBusRequest Example.emptyBus Example.flatDistance 1 "E" = .ok (.dict d) ∧
          d.find "route_length" = some (.int 0) ∧ d.find "stop_count" = some (.int 0) ∧
          d.find "unique_stop_count" = some (.int 0) ∧ d.find "curvature" = some (.double 0) :=
  ⟨by decide, by decide,
    ProcessBusRequest_empty Example.emptyBus Example.flatDistance 1 "E" 0
      { name := "E", stops := [], is_roundtrip := false } (by decide) (by decide) rfl⟩

/-! ### C14: the number of distinct stop names -/

theorem foldl_setInsert_nodup {α : Type} [DecidableEq α] (l : List α) (acc : List α)
    (h : acc.Nodup) : (l.foldl setInsert acc).Nodup := by
  induction l generalizing acc with
  | nil => exact h
  | cons a t ih => exact ih _ (setInsert_nodup h a)

theorem mem_foldl_setInsert {α : Type} [DecidableEq α] (l : List α) (acc : List α) (x : α) :
    x ∈ l.foldl setInsert acc ↔ x ∈ acc ∨ x ∈ l := by
  induction l generalizing acc with
  | nil => simp
  | cons a t ih =>
    simp only [List.foldl_cons, ih, mem_setInsert, List.mem_cons]
    tauto

theorem length_foldl_setInsert {α : Type} [DecidableEq α] (l : List α) :
    (l.foldl setInsert []).length = l.toFinset.card := by
  rw [← List.toFinset_card_of_nodup (foldl_setInsert_nodup l [] List.nodup_nil)]
  congr 1
  ext x
  simp [mem_foldl_setInsert]

/-- C14: for every stored bus, `ProcessBusRequest` answers without raising and its
`"unique_stop_count"` entry is the number of distinct names in the stop sequence of the bus; this
number is at least `1` and at most the length of the sequence when the sequence is not empty.
The catalogue's stops play no role in it, so a name that resolves to no stop counts as well. -/
theorem ProcessBusRequest_unique_stop_count (db : TransportCatalogue)
    (ComputeDistance : geo.Coordinates → geo.Coordinates → ℚ) (id : Int) (bus_name : String)
    (p : BusPtr) (bus : Bus) (hp : db.FindBus bus_name = some p)
    (hb : db.buses_[p]? = some bus) :
    (∃ d : Dict, ProcessBusRequest db ComputeDistance id bus_name = .ok (.dict d) ∧
        d.find "unique_stop_count" = some (.int (bus.stops.toFinset.card : Int))) ∧
      (bus.stops ≠ [] → 1 ≤ bus.stops.toFinset.card) ∧
      bus.stops.toFinset.card ≤ bus.stops.length := by
  refine ⟨?_, ?_, List.toFinset_card_le _⟩
  · by_cases hempty : bus.stops = []
    · obtain ⟨d, hd, _, _, hu, _⟩ :=
        ProcessBusRequest_empty db ComputeDistance id bus_name p bus hp hb hempty
      refine ⟨d, hd, ?_⟩
      rw [hu, hempty]
      rfl
    · refine ⟨_, ProcessBusRequest_nonempty db ComputeDistance id bus_name p bus hp hb hempty, ?_⟩
      rw [← length_foldl_setInsert]
      rfl
  · intro hne
    obtain ⟨a, ha⟩ := List.exists_mem_of_ne_nil _ hne
    exact Finset.card_pos.2 ⟨a, List.mem_toFinset.2 ha⟩

/-- The theorem for C14 applied to the bus `L` over the names `P`, `Q`, `P`, none of which is a
stop: two distinct names. -/
theorem ProcessBusRequest_unique_stop_count_witness :
    Example.unknownStops.FindBus "L" = some 0 ∧
      Example.unknownStops.buses_[0]? =
        some { name := "L", stops := ["P", "Q", "P"], is_roundtrip := true } ∧
      Example.unknownStops.FindStop "P" = none ∧
      (["P", "Q", "P"] : List String).toFinset.card = 2 ∧
      ∃ d : Dict,
        ProcessBusRequest Example.unknownStops Example.flatDistance 1 "L" = .ok (.dict d) ∧
          d.find "unique_stop_count" =
            some (.int ((["P", "Q", "P"] : List String).toFinset.card : Int)) :=
  ⟨by decide, by decide, by decide, by decide,
    (ProcessBusRequest_unique_stop_count Example.unknownStops Example.flatDistance 1 "L" 0
      { name := "L", stops := ["P", "Q", "P"], is_roundtrip := true } (by decide) (by decide)).1⟩

end JsonReader

/-! ### C15: the curvature -/

namespace JsonReader

open json TransportCatalogue

theorem hop_snd (db : TransportCatalogue)
    (ComputeDistance : geo.Coordinates → geo.Coordinates → ℚ) (acc : Int × ℚ) (a b : String) :
    (ProcessBusRequest.hop db ComputeDistance acc a b).2 =
      acc.2 + Spec.hopGeo db ComputeDistance a b := by
  unfold ProcessBusRequest.hop Spec.hopGeo
  cases db.FindStop a with
  | none => simp
  | some x =>
    cases db.FindStop b with
    | none => simp
    | some y => rfl

theorem foldl_hop_snd (db : TransportCatalogue)
    (ComputeDistance : geo.Coordinates → geo.Coordinates → ℚ) (f g : Nat → String)
    (l : List Nat) (acc : Int × ℚ) :
    (l.foldl (fun acc i => ProcessBusRequest.hop db ComputeDistance acc (f i) (g i)) acc).2 =
      acc.2 + (l.map (fun i => Spec.hopGeo db ComputeDistance (f i) (g i))).sum := by
  induction l generalizing acc with
  | nil => simp
  | cons i t ih =>
    simp only [List.foldl_cons, List.map_cons, List.sum_cons]
    rw [ih, hop_snd]
    ring

theorem sum_map_range'_rat (f : Nat → ℚ) (m : Nat) :
    ((List.range' 1 m).map f).sum = ∑ i ∈ Finset.Ico 1 (1 + m), f i := by
  induction m with
  | zero => simp
  | succ k ih =>
    rw [List.range'_concat, List.map_append, List.sum_append, ih]
    rw [show 1 + (k + 1) = (1 + k) + 1 by ring, Finset.sum_Ico_succ_top (by omega)]
    simp

theorem lengths_snd (db : TransportCatalogue)
    (ComputeDistance : geo.Coordinates → geo.Coordinates → ℚ) (stops : List String)
    (is_roundtrip : Bool) (hne : stops ≠ []) :
    (ProcessBusRequest.lengths db ComputeDistance stops is_roundtrip).2 =
      Spec.geoLength db ComputeDistance stops is_roundtrip := by
  have hlen : 1 + (stops.length - 1) = stops.length := by
    have : 0 < stops.length := List.length_pos.2 hne
    omega
  unfold ProcessBusRequest.lengths Spec.geoLength
  cases is_roundtrip with
  | true =>
    simp only [Bool.not_true, Bool.false_eq_true, if_false, if_true, add_zero]
    rw [foldl_hop_snd db ComputeDistance (fun i => stops.getD (i - 1) "")
      (fun i => stops.getD i ""), sum_map_range'_rat, hlen]
    simp
  | false =>
    simp only [Bool.not_false, if_true, Bool.false_eq_true, if_false]
    rw [foldl_hop_snd db ComputeDistance (fun i => stops.getD i "")
      (fun i => stops.getD (i - 1) ""),
      foldl_hop_snd db ComputeDistance (fun i => stops.getD (i - 1) "")
        (fun i => stops.getD i ""), List.map_reverse, List.sum_reverse, sum_map_range'_rat,
      sum_map_range'_rat, hlen]
    simp

/-- C15: for every stored bus with a non-empty stop sequence, `ProcessBusRequest` answers without
raising; with `L` its `"route_length"` entry and `G` the accumulated geographic length
(`Spec.geoLength`), its `"curvature"` entry is the rational quotient `L / G` when `G` is
positive and exactly `0` otherwise, so no division by zero takes place. `G` is `0`, and the
curvature with it, for a route with a single stop, and also when `ComputeDistance` of a point to
itself is `0` and any two consecutive stops have the same coordinates. -/
theorem ProcessBusRequest_curvature (db : TransportCatalogue)
    (ComputeDistance : geo.Coordinates → geo.Coordinates → ℚ) (id : Int) (bus_name : String)
    (p : BusPtr) (bus : Bus) (hp : db.FindBus bus_name = some p)
    (hb : db.buses_[p]? = some bus) (hne : bus.stops ≠ []) :
    (∃ (d : Dict) (L : Int),
        ProcessBusRequest db ComputeDistance id bus_name = .ok (.dict d) ∧
          d.find "route_length" = some (.int L) ∧
          d.find "curvature" = some (.double
            (if 0 < Spec.geoLength db ComputeDistance bus.stops bus.is_roundtrip then
              (L : ℚ) / Spec.geoLength db ComputeDistance bus.stops bus.is_roundtrip
            else 0)) ∧
          (Spec.geoLength db ComputeDistance bus.stops bus.is_roundtrip = 0 →
            d.find "curvature" = some (.double 0))) ∧
      (bus.stops.length = 1 →
        Spec.geoLength db ComputeDistance bus.stops bus.is_roundtrip = 0) ∧
      ((∀ c, ComputeDistance c c = 0) →
        (∀ i q r, 1 ≤ i → i < bus.stops.length →
          db.FindStop (bus.stops.getD (i - 1) "") = some q →
          db.FindStop (bus.stops.getD i "") = some r →
          (db.stopAt q).lat = (db.stopAt r).lat ∧ (db.stopAt q).lng = (db.stopAt r).lng) →
        Spec.geoLength db ComputeDistance bus.stops bus.is_roundtrip = 0) := by
  refine ⟨?_, ?_, ?_⟩
  · have hans := ProcessBusRequest_nonempty db ComputeDistance id bus_name p bus hp hb hne
    rw [lengths_snd db ComputeDistance bus.stops bus.is_roundtrip hne] at hans
    refine ⟨_, (ProcessBusRequest.lengths db ComputeDistance bus.stops bus.is_roundtrip).1,
      hans, rfl, rfl, ?_⟩
    intro hz
    show some (Node.double _) = some (Node.double 0)
    rw [hz]
    simp
  · intro hone
    unfold Spec.geoLength
    rw [hone]
    simp
  · intro hself hsame
    have hfwd : ∀ i ∈ Finset.Ico 1 bus.stops.length,
        Spec.hopGeo db ComputeDistance (bus.stops.getD (i - 1) "") (bus.stops.getD i "") = 0 := by
      intro i hi
      rw [Finset.mem_Ico] at hi
      unfold Spec.hopGeo
      cases hq : db.FindStop (bus.stops.getD (i - 1) "") with
      | none => rfl
      | some q =>
        cases hr : db.FindStop (bus.stops.getD i "") with
        | none => rfl
        | some r =>
          obtain ⟨h1, h2⟩ := hsame i q r hi.1 hi.2 hq hr
          simp only [h1, h2]
          exact hself _
    have hbwd : ∀ i ∈ Finset.Ico 1 bus.stops.length,
        Spec.hopGeo db ComputeDistance (bus.stops.getD i "") (bus.stops.getD (i - 1) "") = 0 := by
      intro i hi
      rw [Finset.mem_Ico] at hi
      unfold Spec.hopGeo
      cases hr : db.FindStop (bus.stops.getD i "") with
      | none => rfl
      | some r =>
        cases hq : db.FindStop (bus.stops.getD (i - 1) "") with
        | none => rfl
        | some q =>
          obtain ⟨h1, h2⟩ := hsame i q r hi.1 hi.2 hq hr
          simp only [h1, h2]
          exact hself _
    unfold Spec.geoLength
    rw [Finset.sum_eq_zero hfwd, Finset.sum_eq_zero hbwd]
    simp

/-- The theorem for C15 applied to the scenario of the specification with the stand-in distance
`flatDistance`: the geographic length is `1/1000 + 1/1000 = 1/500`, the route length `2000` and
the curvature `2000 / (1/500)`. -/
theorem ProcessBusRequest_curvature_witness :
    Example.thereAndBack.FindBus "R" = some 0 ∧
      Example.thereAndBack.buses_[0]? = some { name := "R", stops := ["A", "B"] } ∧
      Spec.geoLength Example.thereAndBack Example.flatDistance ["A", "B"] false = 1 / 500 ∧
      ∃ (d : Dict) (L : Int),
        ProcessBusRequest Example.thereAndBack Example.flatDistance 1 "R" = .ok (.dict d) ∧
          d.find "route_length" = some (.int L) ∧
          d.find "curvature" = some (.double
            (if 0 < Spec.geoLength Example.thereAndBack Example.flatDistance ["A", "B"] false then
              (L : ℚ) / Spec.geoLength Example.thereAndBack Example.flatDistance ["A", "B"] false
            else 0)) := by
  refine ⟨by decide, by decide, ?_, ?_⟩
  · have h0 : Example.thereAndBack.FindStop "A" = some 0 := by decide
    have h1 : Example.thereAndBack.FindStop "B" = some 1 := by decide
    have s0 : Example.thereAndBack.stopAt 0 = { name := "A" } := rfl
    have s1 : Example.thereAndBack.stopAt 1 = { name := "B", lng := 1 / 1000 } := rfl
    simp [Spec.geoLength, Spec.hopGeo, h0, h1, s0, s1, Example.flatDistance]
    rw [abs_of_pos (by norm_num : (0 : ℚ) < 1000⁻¹)]
    norm_num
  · obtain ⟨d, L, hd, hl, hc, _⟩ := (ProcessBusRequest_curvature Example.thereAndBack
      Example.flatDistance 1 "R" 0 { name := "R", stops := ["A", "B"] } (by decide) (by decide)
      (by decide)).1
    exact ⟨d, L, hd, hl, hc⟩

end JsonReader

/-! ### C16: asking twice -/

namespace TransportRouter

open graph

theorem BuildGraph_built (catalogue : TransportCatalogue) (r : TransportRouter) :
    (r.BuildGraph catalogue).graph_built_ = true := by
  unfold BuildGraph
  by_cases h : r.graph_built_ = true
  · simp [h]
  · simp [h]

theorem BuildGraph_noop (catalogue : TransportCatalogue) (r : TransportRouter)
    (h : r.graph_built_ = true) : r.BuildGraph catalogue = r := by
  unfold BuildGraph
  simp [h]

theorem BuildRoute_fst (router : graph.Router) (catalogue : TransportCatalogue)
    (r : TransportRouter) (from_name to_name : String) :
    (BuildRoute router catalogue r from_name to_name).1 = r.BuildGraph catalogue := by
  unfold BuildRoute
  simp only
  cases mapFind (r.BuildGraph catalogue).stop_to_wait_vertex_ from_name with
  | none => rfl
  | some f =>
    cases mapFind (r.BuildGraph catalogue).stop_to_wait_vertex_ to_name with
    | none => rfl
    | some t => rfl

theorem BuildRoute_of_built (router : graph.Router) (catalogue : TransportCatalogue)
    (r : TransportRouter) (from_name to_name : String) :
    BuildRoute router catalogue (r.BuildGraph catalogue) from_name to_name =
      BuildRoute router catalogue r from_name to_name := by
  unfold BuildRoute
  rw [BuildGraph_noop catalogue _ (BuildGraph_built catalogue r)]

/-- C16: for every router state, every catalogue, every engine (a function of the graph and the
two vertices, hence deterministic) and every pair of names: a second call `BuildRoute(from, to)`
right after a first one returns the same result (same presence, same `total_time`, same items,
or the same error) and leaves the router, with its graph, vertex maps and edge tables, exactly
as the first call left it. After the first call `graph_built_` is set, and `BuildGraph` changes
nothing on a router whose `graph_built_` is set. -/
theorem BuildRoute_twice (router : graph.Router) (catalogue : TransportCatalogue)
    (r : TransportRouter) (from_name to_name : String) :
    (BuildRoute router catalogue (BuildRoute router catalogue r from_name to_name).1 from_name
        to_name).2 = (BuildRoute router catalogue r from_name to_name).2 ∧
      (BuildRoute router catalogue (BuildRoute router catalogue r from_name to_name).1 from_name
        to_name).1 = (BuildRoute router catalogue r from_name to_name).1 ∧
      (BuildRoute router catalogue r from_name to_name).1.graph_built_ = true ∧
      ∀ r' : TransportRouter, r'.graph_built_ = true → r'.BuildGraph catalogue = r' := by
  rw [BuildRoute_fst router catalogue r from_name to_name, BuildRoute_of_built]
  exact ⟨rfl, BuildRoute_fst router catalogue r from_name to_name, BuildGraph_built catalogue r,
    fun r' h => BuildGraph_noop catalogue r' h⟩

/-- The theorem for C16 applied to the routing scenario: the second call returns the itinerary of
the first and leaves the built router as it is. -/
theorem BuildRoute_twice_witness :
    (BuildRoute Example.directEngine Example.linear
        (BuildRoute Example.directEngine Example.linear Example.linearRouter "X" "Z").1 "X"
        "Z").2 = (BuildRoute Example.directEngine Example.linear Example.linearRouter "X" "Z").2 ∧
      (Example.linearRouter.BuildGraph Example.linear).graph_built_ = true ∧
      (Example.linearRouter.BuildGraph Example.linear).BuildGraph Example.linear =
        Example.linearRouter.BuildGraph Example.linear :=
  ⟨(BuildRoute_twice Example.directEngine Example.linear Example.linearRouter "X" "Z").1,
    by decide,
    (BuildRoute_twice Example.directEngine Example.linear Example.linearRouter "X" "Z").2.2.2
      (Example.linearRouter.BuildGraph Example.linear) (by decide)⟩

end TransportRouter

/-! ### C19: finding stops and buses -/

namespace TransportCatalogue

theorem FindBus_AddStop (db : TransportCatalogue) (stop : Stop) (n : String) :
    (db.AddStop stop).FindBus n = db.FindBus n := rfl

theorem FindBus_SetDistance (db : TransportCatalogue) (a b : Option StopPtr) (d : Int)
    (n : String) : (db.SetDistance a b d).FindBus n = db.FindBus n := by
  unfold FindBus SetDistance
  cases a <;> cases b <;> rfl

theorem FindBus_AddBus (db : TransportCatalogue) (bus : Bus) (n : String) :
    (db.AddBus bus).FindBus n = if bus.name = n then some db.buses_.length else db.FindBus n := by
  unfold FindBus AddBus
  rw [(foldl_visit_fields bus.name bus.stops _).2.2.2.1]
  simp [mapFind_mapAssign]

theorem Reachable.busNamesResolve {db : TransportCatalogue} (h : Reachable db) :
    db.BusNamesResolve := by
  induction h with
  | empty => intro n p hp; simp [TransportCatalogue.empty, FindBus, mapFind] at hp
  | @addStop db stop _ ih =>
    intro n p hp
    exact ih n p hp
  | @addBus db bus _ ih =>
    intro n p hp
    rw [FindBus_AddBus] at hp
    rw [AddBus_buses_]
    by_cases hn : bus.name = n
    · simp only [hn, if_true, Option.some.injEq] at hp
      subst hp
      exact ⟨bus, by simp, hn⟩
    · simp only [hn, if_false] at hp
      obtain ⟨b, hb, hbn⟩ := ih n p hp
      exact ⟨b, getElem?_append_of_some [bus] hb, hbn⟩
  | @setDistance db a b d _ ih =>
    intro n p hp
    rw [FindBus_SetDistance] at hp
    rw [buses_SetDistance]
    exact ih n p hp

/-- C19: for every catalogue state, after `AddStop(s)` the pointer `FindStop(s.name)` returns
points to a record equal to `s` (name, latitude and longitude included), `FindStop(n)` is
unchanged for every other name `n`, and every stored record stays where it was; after
`AddBus(b)` the pointer `FindBus(b.name)` returns points to a record equal to `b` (stop sequence
and round-trip flag included). In every state a catalogue can reach, `FindStop(n)` and
`FindBus(n)` return the null pointer, without raising, for every name `n` that no stored stop,
respectively no stored bus, has. -/
theorem FindStop_FindBus_lookup (db : TransportCatalogue) :
    (∀ s : Stop, ∃ p, (db.AddStop s).FindStop s.name = some p ∧
        (db.AddStop s).stops_[p]? = some s ∧ (db.AddStop s).stopAt p = s) ∧
      (∀ (s : Stop) (n : String), n ≠ s.name → (db.AddStop s).FindStop n = db.FindStop n) ∧
      (∀ (s stop : Stop) (p : StopPtr), db.stops_[p]? = some stop →
        (db.AddStop s).stops_[p]? = some stop) ∧
      (∀ b : Bus, ∃ p, (db.AddBus b).FindBus b.name = some p ∧
        (db.AddBus b).buses_[p]? = some b ∧ (db.AddBus b).busAt p = b) ∧
      (Reachable db → ∀ n : String,
        (n ∉ db.stops_.map Stop.name → db.FindStop n = none) ∧
          (n ∉ db.buses_.map Bus.name → db.FindBus n = none)) := by
  refine ⟨?_, ?_, ?_, ?_, ?_⟩
  · intro s
    refine ⟨db.stops_.length, by simp [FindStop_AddStop], by simp [AddStop], ?_⟩
    simp [stopAt, AddStop, List.getD_eq_getElem?_getD]
  · intro s n hn
    rw [FindStop_AddStop]
    have : ¬ s.name = n := fun h => hn h.symm
    simp [this]
  · intro s stop p hp
    exact getElem?_append_of_some [s] hp
  · intro b
    refine ⟨db.buses_.length, by simp [FindBus_AddBus], by simp [AddBus_buses_], ?_⟩
    simp [busAt, AddBus_buses_, List.getD_eq_getElem?_getD]
  · intro hr n
    constructor
    · intro hn
      by_contra hc
      obtain ⟨p, hp⟩ := Option.ne_none_iff_exists'.1 hc
      obtain ⟨st, hst, hname⟩ := hr.namesResolve n p hp
      exact hn (List.mem_map.2 ⟨st, List.getElem?_mem hst, hname⟩)
    · intro hn
      by_contra hc
      obtain ⟨p, hp⟩ := Option.ne_none_iff_exists'.1 hc
      obtain ⟨b, hb, hname⟩ := hr.busNamesResolve n p hp
      exact hn (List.mem_map.2 ⟨b, List.getElem?_mem hb, hname⟩)

/-- The theorem for C19 applied to the catalogue with the stops `A`, `B` and the bus `"9"`:
the names `Q` and `"7"` were never added and resolve to the null pointer, and a stop `C` added
next is found with its coordinates. -/
theorem FindStop_FindBus_lookup_witness :
    Reachable Example.unserved ∧
      "Q" ∉ Example.unserved.stops_.map Stop.name ∧
      "7" ∉ Example.unserved.buses_.map Bus.name ∧
      Example.unserved.FindStop "Q" = none ∧ Example.unserved.FindBus "7" = none ∧
      (∃ p, (Example.unserved.AddStop { name := "C", lat := 1, lng := 2 }).FindStop "C" = some p ∧
        (Example.unserved.AddStop { name := "C", lat := 1, lng := 2 }).stops_[p]? =
          some { name := "C", lat := 1, lng := 2 } ∧
        (Example.unserved.AddStop { name := "C", lat := 1, lng := 2 }).stopAt p =
          { name := "C", lat := 1, lng := 2 }) ∧
      (Example.unserved.AddStop { name := "C", lat := 1, lng := 2 }).FindStop "A" =
        Example.unserved.FindStop "A" :=
  ⟨Reachable.addBus _ (Reachable.addStop _ (Reachable.addStop _ Reachable.empty)),
    by decide, by decide,
    ((FindStop_FindBus_lookup Example.unserved).2.2.2.2
      (Reachable.addBus _ (Reachable.addStop _ (Reachable.addStop _ Reachable.empty))) "Q").1
      (by decide),
    ((FindStop_FindBus_lookup Example.unserved).2.2.2.2
      (Reachable.addBus _ (Reachable.addStop _ (Reachable.addStop _ Reachable.empty))) "7").2
      (by decide),
    (FindStop_FindBus_lookup Example.unserved).1 { name := "C", lat := 1, lng := 2 },
    (FindStop_FindBus_lookup Example.unserved).2.1 { name := "C", lat := 1, lng := 2 } "A"
      (by decide)⟩

end TransportCatalogue

/-! ## Loading distances -/

namespace JsonReader

open json TransportCatalogue

theorem find_replace_dict (d : Dict) (k k' : String) (v : Node) :
    Dict.find (Dict.replace d k v) k' =
      if k = k' then (Dict.find d k).map (fun _ => v) else Dict.find d k' := by
  induction d with
  | nil => simp [Dict.replace, Dict.find, mapFind]
  | cons hd tl ih =>
    obtain ⟨k0, v0⟩ := hd
    unfold Dict.find at ih ⊢
    by_cases h0 : k0 = k
    · subst h0
      by_cases h1 : k0 = k' <;> simp [Dict.replace, mapFind, h1]
    · by_cases h1 : k0 = k'
      · subst h1
        have : ¬ k = k0 := fun h => h0 h.symm
        simp [Dict.replace, mapFind, h0, this]
      · simp [Dict.replace, mapFind, h0, h1, ih]

theorem entry_FindStop (from_stop : Option StopPtr) (db db' : TransportCatalogue)
    (e : String × Node) (h : LoadDistances.entry from_stop db e = .ok db') (n : String) :
    db'.FindStop n = db.FindStop n := by
  unfold LoadDistances.entry at h
  simp only at h
  split at h
  · cases hd : e.2.AsInt with
    | error msg => simp [hd, bind, Except.bind] at h
    | ok d =>
      simp only [hd, bind, Except.bind, pure, Except.pure, Except.ok.injEq] at h
      rw [← h, FindStop_SetDistance]
  · simp only [pure, Except.pure, Except.ok.injEq] at h
    rw [← h]

theorem foldlM_entry_FindStop (from_stop : Option StopPtr) (l : List (String × Node))
    (db db' : TransportCatalogue) (h : l.foldlM (LoadDistances.entry from_stop) db = .ok db')
    (n : String) : db'.FindStop n = db.FindStop n := by
  induction l generalizing db with
  | nil =>
    simp only [List.foldlM_nil, pure, Except.pure, Except.ok.injEq] at h
    rw [← h]
  | cons e t ih =>
    rw [List.foldlM_cons] at h
    cases he : LoadDistances.entry from_stop db e with
    | error msg => simp [he, bind, Except.bind] at h
    | ok db1 =>
      simp only [he, bind, Except.bind] at h
      rw [ih db1 h, entry_FindStop from_stop db db1 e he]

theorem visit_FindStop (db db' : TransportCatalogue) (node : Node)
    (h : LoadDistances.visit db node = .ok db') (n : String) :
    db'.FindStop n = db.FindStop n := by
  unfold LoadDistances.visit at h
  cases h1 : node.AsMap with
  | error msg => simp [h1, bind, Except.bind] at h
  | ok dict =>
    simp only [h1, bind, Except.bind] at h
    cases h2 : dict.at "type" with
    | error msg => simp [h2] at h
    | ok tn =>
      simp only [h2] at h
      cases h3 : tn.AsString with
      | error msg => simp [h3] at h
      | ok ty =>
        simp only [h3] at h
        split at h
        · cases h4 : dict.at "name" with
          | error msg => simp [h4] at h
          | ok nn =>
            simp only [h4] at h
            cases h5 : nn.AsString with
            | error msg => simp [h5] at h
            | ok from_name =>
              simp only [h5] at h
              cases h6 : dict.at "road_distances" with
              | error msg => simp [h6] at h
              | ok rn =>
                simp only [h6] at h
                cases h7 : rn.AsMap with
                | error msg => simp [h7] at h
                | ok distances =>
                  simp only [h7] at h
                  exact foldlM_entry_FindStop _ distances db db' h n
        · simp only [pure, Except.pure, Except.ok.injEq] at h
          rw [← h]

theorem foldlM_visit_FindStop (l : List Node) (db db' : TransportCatalogue)
    (h : l.foldlM LoadDistances.visit db = .ok db') (n : String) :
    db'.FindStop n = db.FindStop n := by
  induction l generalizing db with
  | nil =>
    simp only [List.foldlM_nil, pure, Except.pure, Except.ok.injEq] at h
    rw [← h]
  | cons e t ih =>
    rw [List.foldlM_cons] at h
    cases he : LoadDistances.visit db e with
    | error msg => simp [he, bind, Except.bind] at h
    | ok db1 =>
      simp only [he, bind, Except.bind] at h
      rw [ih db1 h, visit_FindStop db db1 e he]

/-- An entry that the inner loop of `LoadDistances` skips can be erased from the dictionary. -/
theorem foldlM_entry_erase (from_stop : Option StopPtr) (to_name : String)
    (l : List (String × Node)) (db : TransportCatalogue)
    (hskip : from_stop = none ∨ db.FindStop to_name = none) :
    (Dict.erase l to_name).foldlM (LoadDistances.entry from_stop) db =
      l.foldlM (LoadDistances.entry from_stop) db := by
  induction l generalizing db with
  | nil => rfl
  | cons e t ih =>
    by_cases hk : e.1 = to_name
    · have herase : Dict.erase (e :: t) to_name = Dict.erase t to_name := by
        simp [Dict.erase, List.filter, hk]
      have hid : LoadDistances.entry from_stop db e = .ok db := by
        unfold LoadDistances.entry
        rcases hskip with h | h
        · simp [h, pure, Except.pure]
        · simp [hk, h, pure, Except.pure]
      rw [herase, List.foldlM_cons, hid]
      simp only [bind, Except.bind]
      exact ih db hskip
    · have herase : Dict.erase (e :: t) to_name = e :: Dict.erase t to_name := by
        simp [Dict.erase, List.filter, hk]
      rw [herase, List.foldlM_cons, List.foldlM_cons]
      cases he : LoadDistances.entry from_stop db e with
      | error msg => rfl
      | ok db1 =>
        simp only [bind, Except.bind]
        apply ih db1
        rcases hskip with h | h
        · exact Or.inl h
        · exact Or.inr (by rw [entry_FindStop from_stop db db1 e he]; exact h)

theorem visit_erase (db : TransportCatalogue) (req rd : Dict) (from_name to_name : String)
    (hname : req.find "name" = some (.string from_name))
    (hrd : req.find "road_distances" = some (.dict rd))
    (hskip : db.FindStop from_name = none ∨ db.FindStop to_name = none) :
    LoadDistances.visit db
        (.dict (Dict.replace req "road_distances" (.dict (Dict.erase rd to_name)))) =
      LoadDistances.visit db (.dict req) := by
  have hfind : ∀ k, k ≠ "road_distances" →
      Dict.find (Dict.replace req "road_distances" (.dict (Dict.erase rd to_name))) k =
        Dict.find req k := by
    intro k hk
    rw [find_replace_dict]
    have : ¬ "road_distances" = k := fun h => hk h.symm
    simp [this]
  have hrd' : Dict.find (Dict.replace req "road_distances" (.dict (Dict.erase rd to_name)))
      "road_distances" = some (.dict (Dict.erase rd to_name)) := by
    rw [find_replace_dict, hrd]
    simp
  unfold LoadDistances.visit
  simp only [Node.AsMap, Dict.at, Dict.count, hfind "type" (by decide), hfind "name" (by decide),
    hrd', hrd, hname, bind, Except.bind, Node.AsString, Option.isSome_some,
    foldlM_entry_erase (db.FindStop from_name) to_name rd db hskip]

/-! ### C20: entries that name no stop -/

/-- C20: in every state a catalogue can reach and for every `base_requests` array, a
`road_distances` entry `to_name` of a Stop request named `from_name`, where `from_name` or
`to_name` is not the name of a stop of the catalogue, is skipped without error: `LoadDistances`
gives the same outcome, hence the same answer to every `GetRoadDistance` query, as on the array
with that entry erased. Likewise `SetDistance` with a null `from` or a null `to` changes
nothing, so every distance query is unchanged. -/
theorem LoadDistances_skips_unknown (db : TransportCatalogue) (hr : Reachable db)
    (pre post : List Node) (req rd : Dict) (from_name to_name : String)
    (hname : req.find "name" = some (.string from_name))
    (hrd : req.find "road_distances" = some (.dict rd))
    (hskip : from_name ∉ db.stops_.map Stop.name ∨ to_name ∉ db.stops_.map Stop.name) :
    LoadDistances db (pre ++ .dict req :: post) =
        LoadDistances db
          (pre ++ .dict (Dict.replace req "road_distances" (.dict (Dict.erase rd to_name))) ::
            post) ∧
      (∀ db1 db2 : TransportCatalogue, LoadDistances db (pre ++ .dict req :: post) = .ok db1 →
        LoadDistances db
            (pre ++ .dict (Dict.replace req "road_distances" (.dict (Dict.erase rd to_name))) ::
              post) = .ok db2 →
          ∀ x y : Option StopPtr, db1.GetRoadDistance x y = db2.GetRoadDistance x y) ∧
      (∀ (p x y : Option StopPtr) (d : Int),
        (db.SetDistance none p d).GetRoadDistance x y = db.GetRoadDistance x y ∧
          (db.SetDistance p none d).GetRoadDistance x y = db.GetRoadDistance x y) := by
  have hnone : ∀ n, n ∉ db.stops_.map Stop.name → db.FindStop n = none := by
    intro n hn
    by_contra hc
    obtain ⟨p, hp⟩ := Option.ne_none_iff_exists'.1 hc
    obtain ⟨st, hst, hsn⟩ := hr.namesResolve n p hp
    exact hn (List.mem_map.2 ⟨st, List.getElem?_mem hst, hsn⟩)
  have hskip' : db.FindStop from_name = none ∨ db.FindStop to_name = none :=
    hskip.imp (hnone _) (hnone _)
  have heq : LoadDistances db (pre ++ .dict req :: post) =
      LoadDistances db
        (pre ++ .dict (Dict.replace req "road_distances" (.dict (Dict.erase rd to_name))) ::
          post) := by
    unfold LoadDistances
    rw [List.foldlM_append, List.foldlM_append]
    cases hpre : pre.foldlM LoadDistances.visit db with
    | error msg => rfl
    | ok db1 =>
      simp only [bind, Except.bind, List.foldlM_cons]
      have hskip1 : db1.FindStop from_name = none ∨ db1.FindStop to_name = none := by
        rw [foldlM_visit_FindStop pre db db1 hpre, foldlM_visit_FindStop pre db db1 hpre]
        exact hskip'
      rw [visit_erase db1 req rd from_name to_name hname hrd hskip1]
  refine ⟨heq, ?_, ?_⟩
  · intro db1 db2 h1 h2 x y
    rw [heq, h2] at h1
    cases h1
    rfl
  · intro p x y d
    constructor
    · rfl
    · cases p <;> rfl

/-- The theorem for C20 applied to the stops `A` and `B` and a request for `A` that declares
`B -> 1000` and `Q -> 5`, where `Q` is not a stop: the outcome is the one without the entry `Q`,
the catalogue with only `A -> B = 1000` stored. -/
theorem LoadDistances_skips_unknown_witness :
    Reachable Example.twoStops ∧
      "Q" ∉ Example.twoStops.stops_.map Stop.name ∧
      LoadDistances Example.twoStops Example.requestsWithUnknown = .ok (Example.oneWay 1000) ∧
      LoadDistances Example.twoStops Example.requestsWithUnknown =
        LoadDistances Example.twoStops
          ([] ++ .dict (Dict.replace
              [("latitude", .double 0), ("longitude", .double 0), ("name", .string "A"),
                ("road_distances", .dict [("B", .int 1000), ("Q", .int 5)]),
                ("type", .string "Stop")]
              "road_distances" (.dict (Dict.erase [("B", .int 1000), ("Q", .int 5)] "Q"))) ::
            [.dict [("latitude", .double 0), ("longitude", .int 1), ("name", .string "B"),
              ("type", .string "Stop")]]) :=
  ⟨Reachable.addStop _ (Reachable.addStop _ Reachable.empty), by decide, rfl,
    (LoadDistances_skips_unknown Example.twoStops
      (Reachable.addStop _ (Reachable.addStop _ Reachable.empty)) []
      [.dict [("latitude", .double 0), ("longitude", .int 1), ("name", .string "B"),
        ("type", .string "Stop")]]
      [("latitude", .double 0), ("longitude", .double 0), ("name", .string "A"),
        ("road_distances", .dict [("B", .int 1000), ("Q", .int 5)]), ("type", .string "Stop")]
      [("B", .int 1000), ("Q", .int 5)] "A" "Q" rfl rfl (Or.inr (by decide))).1⟩

end JsonReader

/-! ## Routing without settings -/

namespace TransportRouter

open graph

/-- On a router whose graph is not built and whose vertex tables are empty, `BuildRoute` returns
a value whenever the edge ids the engine reports are ids of the built graph. -/
theorem BuildRoute_returns (engine : graph.Router) (catalogue : TransportCatalogue)
    (r : TransportRouter) (hbuilt : r.graph_built_ = false) (hwait : r.stop_to_wait_vertex_ = [])
    (hbus : r.stop_to_bus_vertex_ = [])
    (hids : ∀ f t route, engine (r.BuildGraph catalogue).graph_ f t = some route →
      ∀ e ∈ route.edges, e < (r.BuildGraph catalogue).graph_.edges_.length)
    (from_name to_name : String) :
    (BuildRoute engine catalogue r from_name to_name).2 = .ok none ∨
      ∃ f t route, engine (r.BuildGraph catalogue).graph_ f t = some route ∧
        (BuildRoute engine catalogue r from_name to_name).2 =
          .ok (some
            { total_time := route.weight
              items := route.edges.map (Spec.itemOfEdge catalogue (r.BuildGraph catalogue)) }) := by
  obtain ⟨_, h2, h3, _, _, _⟩ := BuildGraph_facts catalogue r hbuilt hwait hbus
  unfold BuildRoute
  simp only
  cases mapFind (r.BuildGraph catalogue).stop_to_wait_vertex_ from_name with
  | none => exact Or.inl rfl
  | some f =>
    cases mapFind (r.BuildGraph catalogue).stop_to_wait_vertex_ to_name with
    | none => exact Or.inl rfl
    | some t =>
      simp only
      cases hr : engine (r.BuildGraph catalogue).graph_ f t with
      | none =>
        left
        unfold ReconstructRoute
        rw [hr]
      | some route =>
        right
        refine ⟨f, t, route, hr, ?_⟩
        unfold ReconstructRoute
        rw [hr]
        simp only
        cases hedges : route.edges with
        | nil => rfl
        | cons e rest =>
          have hids' := hids f t route hr
          rw [hedges] at hids'
          simp only [List.isEmpty_cons, Bool.false_eq_true, if_false]
          rw [foldlM_visit_eq catalogue _ h2 h3 (e :: rest) hids' []]
          rfl

end TransportRouter

/-! ### C18: a routing query before the settings -/

namespace JsonReader

open json TransportRouter

/-- C18, as the code has it: a routing query made before the routing settings were configured
returns a value. A Route request processed by a reader without a router is answered with
`error_message` `"not found"`, and `LoadData` on a document without `routing_settings` leaves a
reader without a router as it is in that respect. `BuildRoute` on a router on which
`SetRoutingSettings` was never called is `BuildRoute` on a router configured with the default
settings (`bus_wait_time = 0`, `bus_velocity = 0`): it returns the empty optional or an
itinerary, and does not raise, whenever the edge ids the engine reports are ids of the graph. -/
theorem route_query_without_settings :
    (∀ (reader : JsonReader) (engine : graph.Router) (id : Int) (from_name to_name : String),
        reader.router_ = none →
          (ProcessRouteRequest reader engine id from_name to_name).2 =
            .ok (.dict [("error_message", .string "not found"), ("request_id", .int id)])) ∧
      (∀ (reader reader' : JsonReader) (root : Dict),
        reader.router_ = none → root.count "routing_settings" = false →
          LoadData reader (.dict root) = .ok reader' → reader'.router_ = none) ∧
      (∀ (engine : graph.Router) (catalogue : TransportCatalogue) (from_name to_name : String),
        BuildRoute engine catalogue TransportRouter.new from_name to_name =
          BuildRoute engine catalogue (configured { bus_wait_time := 0, bus_velocity := 0 })
            from_name to_name) ∧
      (∀ (engine : graph.Router) (catalogue : TransportCatalogue) (from_name to_name : String),
        (∀ f t route, engine (TransportRouter.new.BuildGraph catalogue).graph_ f t = some route →
          ∀ e ∈ route.edges, e < (TransportRouter.new.BuildGraph catalogue).graph_.edges_.length) →
        ∃ v, (BuildRoute engine catalogue TransportRouter.new from_name to_name).2 = .ok v) := by
  refine ⟨?_, ?_, ?_, ?_⟩
  · intro reader engine id from_name to_name h
    unfold ProcessRouteRequest
    rw [h]
    rfl
  · intro reader reader' root hnone hcount h
    unfold LoadData at h
    simp only [Node.AsMap, bind, Except.bind, hcount, Bool.false_eq_true, if_false] at h
    cases h1 : root.at "base_requests" with
    | error msg => simp [h1] at h
    | ok bn =>
      simp only [h1] at h
      cases h2 : bn.AsArray with
      | error msg => simp [h2] at h
      | ok base =>
        simp only [h2] at h
        cases h3 : LoadStops reader.db_ base with
        | error msg => simp [h3] at h
        | ok db1 =>
          simp only [h3] at h
          cases h4 : LoadDistances db1 base with
          | error msg => simp [h4] at h
          | ok db2 =>
            simp only [h4] at h
            cases h5 : LoadBuses db2 base with
            | error msg => simp [h5] at h
            | ok db3 =>
              simp only [h5, pure, Except.pure, Except.ok.injEq] at h
              rw [← h]
              exact hnone
  · intro engine catalogue from_name to_name
    rfl
  · intro engine catalogue from_name to_name hids
    rcases BuildRoute_returns engine catalogue TransportRouter.new rfl rfl rfl hids from_name
      to_name with h | ⟨_, _, _, _, h⟩
    · exact ⟨_, h⟩
    · exact ⟨_, h⟩

/-- The theorem for C18 applied to a reader without a router over the catalogue of the routing
scenario: the Route request from `X` to `Z` is answered with `"not found"`. -/
theorem route_query_without_settings_witness :
    ({ db_ := Example.linear, router_ := none } : JsonReader).router_ = none ∧
      (ProcessRouteRequest { db_ := Example.linear, router_ := none } Example.directEngine 7 "X"
          "Z").2 =
        .ok (.dict [("error_message", .string "not found"), ("request_id", .int 7)]) :=
  ⟨rfl, route_query_without_settings.1 { db_ := Example.linear, router_ := none }
    Example.directEngine 7 "X" "Z" rfl⟩

/-- C18, as the specification states it, fails: in the routing scenario, `BuildRoute(X, Z)` on a
router on which `SetRoutingSettings` was never called returns an itinerary of two items, and the
Route request processed by a reader without a router returns the answer `"not found"`; neither
raises. -/
theorem route_query_without_settings_returns :
    (BuildRoute Example.directEngine Example.linear TransportRouter.new "X" "Z").2 =
        .ok (some
          { total_time := 48 / 5
            items := [0, 4].map
              (Spec.itemOfEdge Example.linear (TransportRouter.new.BuildGraph Example.linear)) }) ∧
      (ProcessRouteRequest { db_ := Example.linear, router_ := none } Example.directEngine 7 "X"
          "Z").2 =
        .ok (.dict [("error_message", .string "not found"), ("request_id", .int 7)]) := by
  refine ⟨?_, rfl⟩
  have hx : mapFind (TransportRouter.new.BuildGraph Example.linear).stop_to_wait_vertex_ "X" =
      some 0 := by decide
  have hz : mapFind (TransportRouter.new.BuildGraph Example.linear).stop_to_wait_vertex_ "Z" =
      some 4 := by decide
  have hlen : ∀ e ∈ [0, 4],
      e < (TransportRouter.new.BuildGraph Example.linear).graph_.edges_.length := by decide
  obtain ⟨_, h2, h3, _, _, _⟩ :=
    BuildGraph_facts Example.linear TransportRouter.new rfl rfl rfl
  unfold BuildRoute
  simp only [hx, hz]
  unfold ReconstructRoute
  simp only [Example.directEngine, and_self, if_true, List.isEmpty_cons, Bool.false_eq_true,
    if_false]
  rw [foldlM_visit_eq Example.linear _ h2 h3 [0, 4] hlen []]
  rfl

end JsonReader

/-! ## Rebuilding the graph -/

namespace TransportRouter

open graph

theorem foldl_simulation {α β γ : Type} (R : α → β → Prop) (f : α → γ → α) (g : β → γ → β)
    (hstep : ∀ a b x, R a b → R (f a x) (g b x)) (l : List γ) (a : α) (b : β) (h : R a b) :
    R (l.foldl f a) (l.foldl g b) := by
  induction l generalizing a b with
  | nil => exact h
  | cons x t ih => exact ih _ _ (hstep a b x h)

/-- A property that every added ride edge preserves is preserved by `AddEdgesForBus`. -/
theorem AddEdgesForBus_invariant (P : TransportRouter → Prop)
    (hstep : ∀ r bus_name fv tv total span, P r →
      P (AddEdgesForBus.addEdge r bus_name fv tv total span))
    (catalogue : TransportCatalogue) (bus : Bus) (r : TransportRouter) (h : P r) :
    P (AddEdgesForBus catalogue r bus) := by
  have hf : ∀ r i j, P r → P (AddEdgesForBus.forwardPair catalogue bus r i j) := by
    intro r i j hr
    unfold AddEdgesForBus.forwardPair
    simp only
    cases mapFind r.stop_to_bus_vertex_ (bus.stops.getD i "") with
    | none => exact hr
    | some fv =>
      cases mapFind r.stop_to_wait_vertex_ (bus.stops.getD j "") with
      | none => exact hr
      | some tv => exact hstep _ _ _ _ _ _ hr
  have hb : ∀ r i j, P r → P (AddEdgesForBus.backwardPair catalogue bus r i j) := by
    intro r i j hr
    unfold AddEdgesForBus.backwardPair
    simp only
    cases mapFind r.stop_to_bus_vertex_ (bus.stops.getD i "") with
    | none => exact hr
    | some fv =>
      cases mapFind r.stop_to_wait_vertex_ (bus.stops.getD j "") with
      | none => exact hr
      | some tv => exact hstep _ _ _ _ _ _ hr
  unfold AddEdgesForBus
  simp only
  split
  · exact h
  · have hfwd : P ((List.range bus.stops.length).foldl
        (fun r i =>
          (List.range' (i + 1) (bus.stops.length - (i + 1))).foldl
            (fun r j => AddEdgesForBus.forwardPair catalogue bus r i j) r) r) := by
      apply foldl_invariant P _ _ _ _ h
      intro a i ha
      apply foldl_invariant P _ _ _ _ ha
      intro a j ha
      exact hf a i j ha
    split
    · apply foldl_invariant P _ _ _ _ hfwd
      intro a i ha
      apply foldl_invariant P _ _ _ _ ha
      intro a j ha
      exact hb a i j ha
    · exact hfwd

/-- A relation between two routers that implies equal entries in the stop tables and that every
ride edge added to both preserves is preserved by `AddEdgesForBus`. -/
theorem AddEdgesForBus_simulation (R : TransportRouter → TransportRouter → Prop)
    (hlook : ∀ a b, R a b →
      mapEquiv a.stop_to_wait_vertex_ b.stop_to_wait_vertex_ ∧
        mapEquiv a.stop_to_bus_vertex_ b.stop_to_bus_vertex_)
    (hstep : ∀ a b bus_name fv tv total span, R a b →
      R (AddEdgesForBus.addEdge a bus_name fv tv total span)
        (AddEdgesForBus.addEdge b bus_name fv tv total span))
    (catalogue : TransportCatalogue) (bus : Bus) (a b : TransportRouter) (h : R a b) :
    R (AddEdgesForBus catalogue a bus) (AddEdgesForBus catalogue b bus) := by
  have hf : ∀ a b i j, R a b →
      R (AddEdgesForBus.forwardPair catalogue bus a i j)
        (AddEdgesForBus.forwardPair catalogue bus b i j) := by
    intro a b i j hr
    obtain ⟨hw, hbv⟩ := hlook a b hr
    unfold AddEdgesForBus.forwardPair
    simp only
    rw [hw (bus.stops.getD j ""), hbv (bus.stops.getD i "")]
    cases mapFind b.stop_to_bus_vertex_ (bus.stops.getD i "") with
    | none => exact hr
    | some fv =>
      cases mapFind b.stop_to_wait_vertex_ (bus.stops.getD j "") with
      | none => exact hr
      | some tv => exact hstep _ _ _ _ _ _ _ hr
  have hb : ∀ a b i j, R a b →
      R (AddEdgesForBus.backwardPair catalogue bus a i j)
        (AddEdgesForBus.backwardPair catalogue bus b i j) := by
    intro a b i j hr
    obtain ⟨hw, hbv⟩ := hlook a b hr
    unfold AddEdgesForBus.backwardPair
    simp only
    rw [hw (bus.stops.getD j ""), hbv (bus.stops.getD i "")]
    cases mapFind b.stop_to_bus_vertex_ (bus.stops.getD i "") with
    | none => exact hr
    | some fv =>
      cases mapFind b.stop_to_wait_vertex_ (bus.stops.getD j "") with
      | none => exact hr
      | some tv => exact hstep _ _ _ _ _ _ _ hr
  unfold AddEdgesForBus
  simp only
  split
  · exact h
  · have hfwd : R ((List.range bus.stops.length).foldl
        (fun r i =>
          (List.range' (i + 1) (bus.stops.length - (i + 1))).foldl
            (fun r j => AddEdgesForBus.forwardPair catalogue bus r i j) r) a)
        ((List.range bus.stops.length).foldl
        (fun r i =>
          (List.range' (i + 1) (bus.stops.length - (i + 1))).foldl
            (fun r j => AddEdgesForBus.forwardPair catalogue bus r i j) r) b) := by
      apply foldl_simulation R _ _ _ _ _ _ h
      intro a b i hab
      apply foldl_simulation R _ _ _ _ _ _ hab
      intro a b j hab
      exact hf a b i j hab
    split
    · apply foldl_simulation R _ _ _ _ _ _ hfwd
      intro a b i hab
      apply foldl_simulation R _ _ _ _ _ _ hab
      intro a b j hab
      exact hb a b i j hab
    · exact hfwd

theorem addEdge_sameVertexTables (r0 r : TransportRouter) (bus_name : String)
    (fv tv : VertexId) (total span : Int) (h : SameVertexTables r0 r) :
    SameVertexTables r0 (AddEdgesForBus.addEdge r bus_name fv tv total span) := by
  unfold AddEdgesForBus.addEdge
  split
  · exact h
  · exact h

theorem addEdge_tagsBounded (n : Nat) (r : TransportRouter) (bus_name : String)
    (fv tv : VertexId) (total span : Int) (h : TagsBounded n r) :
    TagsBounded n (AddEdgesForBus.addEdge r bus_name fv tv total span) := by
  unfold AddEdgesForBus.addEdge
  split
  · exact h
  · obtain ⟨hn, hb⟩ := h
    refine ⟨by simp [DirectedWeightedGraph.AddEdge]; omega, ?_⟩
    intro e he
    simp only [DirectedWeightedGraph.AddEdge, mapFind_mapAssign, List.length_append,
      List.length_singleton] at he ⊢
    by_cases heq : r.graph_.edges_.length = e
    · omega
    · simp only [heq, if_false] at he
      have := hb e he
      omega

theorem addEdge_sameShape (a b : TransportRouter) (bus_name : String)
    (fv tv : VertexId) (total span : Int) (h : SameShape a b) :
    SameShape (AddEdgesForBus.addEdge a bus_name fv tv total span)
      (AddEdgesForBus.addEdge b bus_name fv tv total span) := by
  unfold AddEdgesForBus.addEdge
  split
  · exact h
  · obtain ⟨h1, h2, h3⟩ := h
    exact ⟨h1, h2, by simp [DirectedWeightedGraph.AddEdge, h3]⟩

theorem addEdge_rebuilding (n : Nat) (stale a b : TransportRouter) (bus_name : String)
    (fv tv : VertexId) (total span : Int) (h : Rebuilding n stale a b) :
    Rebuilding n stale (AddEdgesForBus.addEdge a bus_name fv tv total span)
      (AddEdgesForBus.addEdge b bus_name fv tv total span) := by
  unfold AddEdgesForBus.addEdge
  split
  · exact h
  · obtain ⟨h1, h2, h3, h4, h5, h6, h7⟩ := h
    have hlen : a.graph_.edges_.length = b.graph_.edges_.length := by rw [h2]
    simp only [CalculateTime, h1, h2, DirectedWeightedGraph.AddEdge]
    refine ⟨rfl, rfl, ?_, h4, h5, ?_, ?_⟩
    · simp only [List.length_append, List.length_singleton]
      omega
    · intro e hne hlt
      simp only [mapFind_mapAssign]
      by_cases heq : b.graph_.edges_.length = e
      · simp [heq]
      · simp only [heq, if_false]
        apply h6 e hne
        simp only [List.length_append, List.length_singleton] at hlt
        omega
    · intro e he
      simp only [List.length_append, List.length_singleton] at he
      have hne : b.graph_.edges_.length ≠ e := by omega
      simp only [mapFind_mapAssign, hne, if_false]
      apply h7 e
      omega

end TransportRouter

namespace TransportRouter

open graph

/-- What the first loop of `BuildGraph` leaves untouched. -/
theorem addStop_loop_frame (r : TransportRouter) (stops : List Stop) :
    (stops.enum.foldl (fun r (p : Nat × Stop) => BuildGraph.addStop r p.1 p.2) r).settings_ =
        r.settings_ ∧
      (stops.enum.foldl (fun r (p : Nat × Stop) => BuildGraph.addStop r p.1 p.2)
        r).edge_to_bus_ = r.edge_to_bus_ ∧
      (stops.enum.foldl (fun r (p : Nat × Stop) => BuildGraph.addStop r p.1 p.2)
        r).edge_to_span_count_ = r.edge_to_span_count_ ∧
      (stops.enum.foldl (fun r (p : Nat × Stop) => BuildGraph.addStop r p.1 p.2)
        r).graph_.edges_.length = r.graph_.edges_.length + stops.length ∧
      (∀ k, k ∉ stops.map Stop.name →
        mapFind (stops.enum.foldl (fun r (p : Nat × Stop) => BuildGraph.addStop r p.1 p.2)
            r).stop_to_wait_vertex_ k = mapFind r.stop_to_wait_vertex_ k ∧
          mapFind (stops.enum.foldl (fun r (p : Nat × Stop) => BuildGraph.addStop r p.1 p.2)
            r).stop_to_bus_vertex_ k = mapFind r.stop_to_bus_vertex_ k) ∧
      (∀ v : Nat, stops.length * 2 ≤ v →
        mapFind (stops.enum.foldl (fun r (p : Nat × Stop) => BuildGraph.addStop r p.1 p.2)
          r).vertex_to_stop_ v = mapFind r.vertex_to_stop_ v) := by
  induction stops using List.reverseRecOn with
  | nil => simp
  | append_singleton t s ih =>
    obtain ⟨h1, h2, h3, h4, h5, h6⟩ := ih
    rw [foldl_addStop_snoc]
    generalize t.enum.foldl (fun r (p : Nat × Stop) => BuildGraph.addStop r p.1 p.2) r = r2
      at h1 h2 h3 h4 h5 h6
    refine ⟨h1, h2, h3, ?_, ?_, ?_⟩
    · simp only [BuildGraph.addStop, DirectedWeightedGraph.AddEdge, List.length_append,
        List.length_singleton, h4]
      omega
    · intro k hk
      have hk1 : k ∉ t.map Stop.name := by
        intro h
        exact hk (by simp only [List.map_append, List.mem_append]; exact Or.inl h)
      have hk2 : s.name ≠ k := by
        intro h
        exact hk (by simp [h])
      simp only [BuildGraph.addStop]
      rw [mapFind_mapAssign_ne _ _ hk2, mapFind_mapAssign_ne _ _ hk2]
      exact h5 k hk1
    · intro v hv
      simp only [List.length_append, List.length_singleton] at hv
      have hv1 : t.length * 2 + 1 ≠ v := by omega
      have hv2 : t.length * 2 ≠ v := by omega
      simp only [BuildGraph.addStop]
      rw [mapFind_mapAssign_ne _ _ hv1, mapFind_mapAssign_ne _ _ hv2]
      exact h6 v (by omega)

/-- Two runs of the first loop of `BuildGraph` that start with the same settings and graph end
with the same graph and with the same entries for the stops they went through. -/
theorem addStop_loop_simulation (a b : TransportRouter) (hs : a.settings_ = b.settings_)
    (hg : a.graph_ = b.graph_) (stops : List Stop) :
    (stops.enum.foldl (fun r (p : Nat × Stop) => BuildGraph.addStop r p.1 p.2) a).graph_ =
        (stops.enum.foldl (fun r (p : Nat × Stop) => BuildGraph.addStop r p.1 p.2) b).graph_ ∧
      (stops.enum.foldl (fun r (p : Nat × Stop) => BuildGraph.addStop r p.1 p.2) a).settings_ =
        (stops.enum.foldl (fun r (p : Nat × Stop) => BuildGraph.addStop r p.1 p.2)
          b).settings_ ∧
      (∀ k, k ∈ stops.map Stop.name →
        mapFind (stops.enum.foldl (fun r (p : Nat × Stop) => BuildGraph.addStop r p.1 p.2)
            a).stop_to_wait_vertex_ k =
          mapFind (stops.enum.foldl (fun r (p : Nat × Stop) => BuildGraph.addStop r p.1 p.2)
            b).stop_to_wait_vertex_ k ∧
        mapFind (stops.enum.foldl (fun r (p : Nat × Stop) => BuildGraph.addStop r p.1 p.2)
            a).stop_to_bus_vertex_ k =
          mapFind (stops.enum.foldl (fun r (p : Nat × Stop) => BuildGraph.addStop r p.1 p.2)
            b).stop_to_bus_vertex_ k) ∧
      (∀ v : Nat, v < stops.length * 2 →
        mapFind (stops.enum.foldl (fun r (p : Nat × Stop) => BuildGraph.addStop r p.1 p.2)
            a).vertex_to_stop_ v =
          mapFind (stops.enum.foldl (fun r (p : Nat × Stop) => BuildGraph.addStop r p.1 p.2)
            b).vertex_to_stop_ v) := by
  induction stops using List.reverseRecOn with
  | nil =>
    refine ⟨hg, hs, ?_, ?_⟩
    · intro k hk
      simp at hk
    · intro v hv
      simp at hv
  | append_singleton t s ih =>
    obtain ⟨h1, h2, h3, h4⟩ := ih
    rw [foldl_addStop_snoc, foldl_addStop_snoc]
    generalize t.enum.foldl (fun r (p : Nat × Stop) => BuildGraph.addStop r p.1 p.2) a = a2
      at h1 h2 h3 h4
    generalize t.enum.foldl (fun r (p : Nat × Stop) => BuildGraph.addStop r p.1 p.2) b = b2
      at h1 h2 h3 h4
    refine ⟨?_, h2, ?_, ?_⟩
    · simp only [BuildGraph.addStop, h1, h2]
    · intro k hk
      simp only [BuildGraph.addStop, mapFind_mapAssign]
      by_cases hn : s.name = k
      · simp [hn]
      · simp only [hn, if_false]
        apply h3 k
        simp only [List.map_append, List.mem_append, List.map_cons, List.map_nil,
          List.mem_singleton] at hk
        rcases hk with hk | hk
        · exact hk
        · exact absurd hk.symm hn
    · intro v hv
      simp only [List.length_append, List.length_singleton] at hv
      simp only [BuildGraph.addStop, mapFind_mapAssign]
      by_cases hv1 : t.length * 2 + 1 = v
      · simp [hv1]
      · by_cases hv2 : t.length * 2 = v
        · simp [hv1, hv2]
        · simp only [hv1, hv2, if_false]
          exact h4 v (by omega)

end TransportRouter

namespace TransportRouter

open graph

theorem busLoops_invariant (P : TransportRouter → Prop)
    (hstep : ∀ r bus_name fv tv total span, P r →
      P (AddEdgesForBus.addEdge r bus_name fv tv total span))
    (catalogue : TransportCatalogue) (buses : List Bus) (r : TransportRouter) (h : P r) :
    P (buses.foldl (AddEdgesForBus catalogue) r) :=
  foldl_invariant P (AddEdgesForBus catalogue)
    (fun a bus ha => AddEdgesForBus_invariant P hstep catalogue bus a ha) buses r h

theorem busLoops_simulation (R : TransportRouter → TransportRouter → Prop)
    (hlook : ∀ a b, R a b →
      mapEquiv a.stop_to_wait_vertex_ b.stop_to_wait_vertex_ ∧
        mapEquiv a.stop_to_bus_vertex_ b.stop_to_bus_vertex_)
    (hstep : ∀ a b bus_name fv tv total span, R a b →
      R (AddEdgesForBus.addEdge a bus_name fv tv total span)
        (AddEdgesForBus.addEdge b bus_name fv tv total span))
    (catalogue : TransportCatalogue) (buses : List Bus) (a b : TransportRouter) (h : R a b) :
    R (buses.foldl (AddEdgesForBus catalogue) a) (buses.foldl (AddEdgesForBus catalogue) b) :=
  foldl_simulation R (AddEdgesForBus catalogue) (AddEdgesForBus catalogue)
    (fun a b bus hab => AddEdgesForBus_simulation R hlook hstep catalogue bus a b hab) buses a b h

/-- The tables after the two loops of `BuildGraph`, started without edges and with empty
tables: no entry for a name that is not the name of a stop, none for a vertex beyond the `2 n`
vertices, and edge tags only for ids of ride edges of the graph. -/
theorem loops_bounds (catalogue : TransportCatalogue) (r0 : TransportRouter)
    (hedges : r0.graph_.edges_ = []) (hw : r0.stop_to_wait_vertex_ = [])
    (hb : r0.stop_to_bus_vertex_ = []) (hv : r0.vertex_to_stop_ = [])
    (hetb : r0.edge_to_bus_ = []) (hesc : r0.edge_to_span_count_ = []) :
    (∀ k, k ∉ catalogue.stops_.map Stop.name →
        mapFind (catalogue.buses_.foldl (AddEdgesForBus catalogue)
          (catalogue.stops_.enum.foldl (fun r (p : Nat × Stop) => BuildGraph.addStop r p.1 p.2)
            r0)).stop_to_wait_vertex_ k = none ∧
        mapFind (catalogue.buses_.foldl (AddEdgesForBus catalogue)
          (catalogue.stops_.enum.foldl (fun r (p : Nat × Stop) => BuildGraph.addStop r p.1 p.2)
            r0)).stop_to_bus_vertex_ k = none) ∧
      (∀ v : Nat, catalogue.stops_.length * 2 ≤ v →
        mapFind (catalogue.buses_.foldl (AddEdgesForBus catalogue)
          (catalogue.stops_.enum.foldl (fun r (p : Nat × Stop) => BuildGraph.addStop r p.1 p.2)
            r0)).vertex_to_stop_ v = none) ∧
      TagsBounded catalogue.stops_.length
        (catalogue.buses_.foldl (AddEdgesForBus catalogue)
          (catalogue.stops_.enum.foldl (fun r (p : Nat × Stop) => BuildGraph.addStop r p.1 p.2)
            r0)) := by
  obtain ⟨_, f2, f3, f4, f5, f6⟩ := addStop_loop_frame r0 catalogue.stops_
  generalize catalogue.stops_.enum.foldl
    (fun r (p : Nat × Stop) => BuildGraph.addStop r p.1 p.2) r0 = L at f2 f3 f4 f5 f6 ⊢
  obtain ⟨_, v2, v3, v4⟩ := busLoops_invariant (SameVertexTables L)
    (addEdge_sameVertexTables L) catalogue catalogue.buses_ L ⟨rfl, rfl, rfl, rfl⟩
  have ht := busLoops_invariant (TagsBounded catalogue.stops_.length)
    (addEdge_tagsBounded _) catalogue catalogue.buses_ L
    (by
      refine ⟨by rw [f4, hedges]; simp, ?_⟩
      intro e he
      rw [f2, f3, hetb, hesc] at he
      simp [mapFind] at he)
  refine ⟨?_, ?_, ht⟩
  · intro k hk
    obtain ⟨g1, g2⟩ := f5 k hk
    rw [v2, v3, g1, g2, hw, hb]
    exact ⟨rfl, rfl⟩
  · intro v hle
    rw [v4, f6 v hle, hv]
    rfl

/-- The number of edges and the stop tables after the two loops of `BuildGraph` do not depend on
the settings or on the edge tables the loops start with. -/
theorem loops_sameShape (catalogue : TransportCatalogue) (a0 b0 : TransportRouter)
    (h : SameShape a0 b0) :
    SameShape
      (catalogue.buses_.foldl (AddEdgesForBus catalogue)
        (catalogue.stops_.enum.foldl (fun r (p : Nat × Stop) => BuildGraph.addStop r p.1 p.2) a0))
      (catalogue.buses_.foldl (AddEdgesForBus catalogue)
        (catalogue.stops_.enum.foldl (fun r (p : Nat × Stop) => BuildGraph.addStop r p.1 p.2)
          b0)) := by
  apply busLoops_simulation SameShape _ addEdge_sameShape
  · apply foldl_simulation SameShape _ _ _ _ _ _ h
    intro a b p hab
    obtain ⟨h1, h2, h3⟩ := hab
    exact ⟨by simp [BuildGraph.addStop, h1], by simp [BuildGraph.addStop, h2],
      by simp [BuildGraph.addStop, DirectedWeightedGraph.AddEdge, h3]⟩
  · intro a b hab
    exact ⟨fun k => by rw [hab.1], fun k => by rw [hab.2.1]⟩

end TransportRouter

namespace TransportRouter

open graph

/-- The two loops of `BuildGraph`, run once over the tables a finished build `stale` left and
once over empty tables, with the same settings and the same empty graph, end with the same
settings, the same graph and the same entries in all five tables. -/
theorem loops_rebuild (catalogue : TransportCatalogue) (stale a0 b0 : TransportRouter)
    (hs : a0.settings_ = b0.settings_) (hg : a0.graph_ = b0.graph_)
    (hedges : b0.graph_.edges_ = [])
    (hbw : b0.stop_to_wait_vertex_ = []) (hbb : b0.stop_to_bus_vertex_ = [])
    (hbv : b0.vertex_to_stop_ = []) (hbe : b0.edge_to_bus_ = [])
    (hbs : b0.edge_to_span_count_ = [])
    (haw : a0.stop_to_wait_vertex_ = stale.stop_to_wait_vertex_)
    (hab : a0.stop_to_bus_vertex_ = stale.stop_to_bus_vertex_)
    (hav : a0.vertex_to_stop_ = stale.vertex_to_stop_)
    (hae : a0.edge_to_bus_ = stale.edge_to_bus_)
    (has : a0.edge_to_span_count_ = stale.edge_to_span_count_)
    (hsw : ∀ k, k ∉ catalogue.stops_.map Stop.name →
      mapFind stale.stop_to_wait_vertex_ k = none ∧ mapFind stale.stop_to_bus_vertex_ k = none)
    (hsv : ∀ v : Nat, catalogue.stops_.length * 2 ≤ v → mapFind stale.vertex_to_stop_ v = none)
    (hst : TagsBounded catalogue.stops_.length stale)
    (hlen : stale.graph_.edges_.length =
      (catalogue.buses_.foldl (AddEdgesForBus catalogue)
        (catalogue.stops_.enum.foldl (fun r (p : Nat × Stop) => BuildGraph.addStop r p.1 p.2)
          b0)).graph_.edges_.length) :
    (catalogue.buses_.foldl (AddEdgesForBus catalogue)
        (catalogue.stops_.enum.foldl (fun r (p : Nat × Stop) => BuildGraph.addStop r p.1 p.2)
          a0)).settings_ =
        (catalogue.buses_.foldl (AddEdgesForBus catalogue)
          (catalogue.stops_.enum.foldl (fun r (p : Nat × Stop) => BuildGraph.addStop r p.1 p.2)
            b0)).settings_ ∧
      (catalogue.buses_.foldl (AddEdgesForBus catalogue)
        (catalogue.stops_.enum.foldl (fun r (p : Nat × Stop) => BuildGraph.addStop r p.1 p.2)
          a0)).graph_ =
        (catalogue.buses_.foldl (AddEdgesForBus catalogue)
          (catalogue.stops_.enum.foldl (fun r (p : Nat × Stop) => BuildGraph.addStop r p.1 p.2)
            b0)).graph_ ∧
      mapEquiv
        (catalogue.buses_.foldl (AddEdgesForBus catalogue)
          (catalogue.stops_.enum.foldl (fun r (p : Nat × Stop) => BuildGraph.addStop r p.1 p.2)
            a0)).stop_to_wait_vertex_
        (catalogue.buses_.foldl (AddEdgesForBus catalogue)
          (catalogue.stops_.enum.foldl (fun r (p : Nat × Stop) => BuildGraph.addStop r p.1 p.2)
            b0)).stop_to_wait_vertex_ ∧
      mapEquiv
        (catalogue.buses_.foldl (AddEdgesForBus catalogue)
          (catalogue.stops_.enum.foldl (fun r (p : Nat × Stop) => BuildGraph.addStop r p.1 p.2)
            a0)).stop_to_bus_vertex_
        (catalogue.buses_.foldl (AddEdgesForBus catalogue)
          (catalogue.stops_.enum.foldl (fun r (p : Nat × Stop) => BuildGraph.addStop r p.1 p.2)
            b0)).stop_to_bus_vertex_ ∧
      mapEquiv
        (catalogue.buses_.foldl (AddEdgesForBus catalogue)
          (catalogue.stops_.enum.foldl (fun r (p : Nat × Stop) => BuildGraph.addStop r p.1 p.2)
            a0)).vertex_to_stop_
        (catalogue.buses_.foldl (AddEdgesForBus catalogue)
          (catalogue.stops_.enum.foldl (fun r (p : Nat × Stop) => BuildGraph.addStop r p.1 p.2)
            b0)).vertex_to_stop_ ∧
      mapEquiv
        (catalogue.buses_.foldl (AddEdgesForBus catalogue)
          (catalogue.stops_.enum.foldl (fun r (p : Nat × Stop) => BuildGraph.addStop r p.1 p.2)
            a0)).edge_to_bus_
        (catalogue.buses_.foldl (AddEdgesForBus catalogue)
          (catalogue.stops_.enum.foldl (fun r (p : Nat × Stop) => BuildGraph.addStop r p.1 p.2)
            b0)).edge_to_bus_ ∧
      mapEquiv
        (catalogue.buses_.foldl (AddEdgesForBus catalogue)
          (catalogue.stops_.enum.foldl (fun r (p : Nat × Stop) => BuildGraph.addStop r p.1 p.2)
            a0)).edge_to_span_count_
        (catalogue.buses_.foldl (AddEdgesForBus catalogue)
          (catalogue.stops_.enum.foldl (fun r (p : Nat × Stop) => BuildGraph.addStop r p.1 p.2)
            b0)).edge_to_span_count_ := by
  obtain ⟨_, _, hB⟩ := loops_bounds catalogue b0 hedges hbw hbb hbv hbe hbs
  obtain ⟨_, fa2, fa3, fa4, fa5, fa6⟩ := addStop_loop_frame a0 catalogue.stops_
  obtain ⟨_, _, _, _, fb5, fb6⟩ := addStop_loop_frame b0 catalogue.stops_
  obtain ⟨s1, s2, s3, s4⟩ := addStop_loop_simulation a0 b0 hs hg catalogue.stops_
  generalize catalogue.stops_.enum.foldl
    (fun r (p : Nat × Stop) => BuildGraph.addStop r p.1 p.2) a0 = LA at *
  generalize catalogue.stops_.enum.foldl
    (fun r (p : Nat × Stop) => BuildGraph.addStop r p.1 p.2) b0 = LB at *
  have hwait : mapEquiv LA.stop_to_wait_vertex_ LB.stop_to_wait_vertex_ := by
    intro k
    by_cases hk : k ∈ catalogue.stops_.map Stop.name
    · exact (s3 k hk).1
    · rw [(fa5 k hk).1, (fb5 k hk).1, haw, hbw, (hsw k hk).1]
      rfl
  have hbus : mapEquiv LA.stop_to_bus_vertex_ LB.stop_to_bus_vertex_ := by
    intro k
    by_cases hk : k ∈ catalogue.stops_.map Stop.name
    · exact (s3 k hk).2
    · rw [(fa5 k hk).2, (fb5 k hk).2, hab, hbb, (hsw k hk).2]
      rfl
  have hvts : mapEquiv LA.vertex_to_stop_ LB.vertex_to_stop_ := by
    intro v
    by_cases hv : v < catalogue.stops_.length * 2
    · exact s4 v hv
    · rw [fa6 v (not_lt.1 hv), fb6 v (not_lt.1 hv), hav, hbv, hsv v (not_lt.1 hv)]
      rfl
  have hlenA : LA.graph_.edges_.length = catalogue.stops_.length := by
    rw [fa4, hg, hedges]
    simp
  have hR0 : Rebuilding catalogue.stops_.length stale LA LB := by
    refine ⟨s2, s1, by omega, hwait, hbus, ?_, ?_⟩
    · intro e h1 h2
      omega
    · intro e _
      rw [fa2, fa3, hae, has]
      exact ⟨rfl, rfl⟩
  have hR := busLoops_simulation (Rebuilding catalogue.stops_.length stale)
    (fun a b h => ⟨h.2.2.2.1, h.2.2.2.2.1⟩) (addEdge_rebuilding _ stale) catalogue
    catalogue.buses_ LA LB hR0
  obtain ⟨_, a2, a3, a4⟩ := busLoops_invariant (SameVertexTables LA)
    (addEdge_sameVertexTables LA) catalogue catalogue.buses_ LA ⟨rfl, rfl, rfl, rfl⟩
  obtain ⟨_, b2, b3, b4⟩ := busLoops_invariant (SameVertexTables LB)
    (addEdge_sameVertexTables LB) catalogue catalogue.buses_ LB ⟨rfl, rfl, rfl, rfl⟩
  generalize catalogue.buses_.foldl (AddEdgesForBus catalogue) LA = XA at *
  generalize catalogue.buses_.foldl (AddEdgesForBus catalogue) LB = XB at *
  obtain ⟨r1, r2, r3, r4, r5, r6, r7⟩ := hR
  have hlenAB : XA.graph_.edges_.length = XB.graph_.edges_.length := by rw [r2]
  have htags : ∀ e : Nat,
      mapFind XA.edge_to_bus_ e = mapFind XB.edge_to_bus_ e ∧
        mapFind XA.edge_to_span_count_ e = mapFind XB.edge_to_span_count_ e := by
    intro e
    by_cases he : catalogue.stops_.length ≤ e ∧ e < XA.graph_.edges_.length
    · exact r6 e he.1 he.2
    · have he' : e < catalogue.stops_.length ∨ XA.graph_.edges_.length ≤ e := by omega
      obtain ⟨t1, t2⟩ := r7 e he'
      have hnoneS : mapFind stale.edge_to_bus_ e = none ∧
          mapFind stale.edge_to_span_count_ e = none := by
        constructor
        · by_contra hc
          have := hst.2 e (Or.inl (Option.ne_none_iff_isSome.1 hc))
          omega
        · by_contra hc
          have := hst.2 e (Or.inr (Option.ne_none_iff_isSome.1 hc))
          omega
      have hnoneB : mapFind XB.edge_to_bus_ e = none ∧
          mapFind XB.edge_to_span_count_ e = none := by
        constructor
        · by_contra hc
          have := hB.2 e (Or.inl (Option.ne_none_iff_isSome.1 hc))
          omega
        · by_contra hc
          have := hB.2 e (Or.inr (Option.ne_none_iff_isSome.1 hc))
          omega
      rw [t1, t2, hnoneS.1, hnoneS.2, hnoneB.1, hnoneB.2]
      exact ⟨rfl, rfl⟩
  refine ⟨r1, r2, ?_, ?_, ?_, fun e => (htags e).1, fun e => (htags e).2⟩
  · exact r4
  · exact r5
  · intro v
    rw [a4, b4]
    exact hvts v

end TransportRouter

namespace TransportRouter

open graph

/-- A router built under `s1`, given the settings `s2` and built again over the same catalogue
has the content of a router built under `s2` from the start. -/
theorem rebuild_sameContent (catalogue : TransportCatalogue) (s1 s2 : RoutingSettings) :
    SameContent
      ((((configured s1).BuildGraph catalogue).SetRoutingSettings s2).BuildGraph catalogue)
      ((configured s2).BuildGraph catalogue) := by
  have hS := loops_bounds catalogue
    { configured s1 with
      graph_ := { vertex_count := catalogue.stops_.length * 2, edges_ := [] } }
    rfl rfl rfl rfl rfl rfl
  have hshape := loops_sameShape catalogue
    { configured s1 with
      graph_ := { vertex_count := catalogue.stops_.length * 2, edges_ := [] } }
    { configured s2 with
      graph_ := { vertex_count := catalogue.stops_.length * 2, edges_ := [] } }
    ⟨rfl, rfl, rfl⟩
  have hT := BuildGraph_eq catalogue (configured s1) rfl
  have hA := BuildGraph_eq catalogue
    (((configured s1).BuildGraph catalogue).SetRoutingSettings s2) rfl
  have hB := BuildGraph_eq catalogue (configured s2) rfl
  have hsw : ∀ k, k ∉ catalogue.stops_.map Stop.name →
      mapFind ((configured s1).BuildGraph catalogue).stop_to_wait_vertex_ k = none ∧
        mapFind ((configured s1).BuildGraph catalogue).stop_to_bus_vertex_ k = none := by
    rw [hT]
    exact hS.1
  have hsv : ∀ v : Nat, catalogue.stops_.length * 2 ≤ v →
      mapFind ((configured s1).BuildGraph catalogue).vertex_to_stop_ v = none := by
    rw [hT]
    exact hS.2.1
  have hst : TagsBounded catalogue.stops_.length ((configured s1).BuildGraph catalogue) := by
    rw [hT]
    exact hS.2.2
  have hlen : ((configured s1).BuildGraph catalogue).graph_.edges_.length =
      (catalogue.buses_.foldl (AddEdgesForBus catalogue)
        (catalogue.stops_.enum.foldl (fun r (p : Nat × Stop) => BuildGraph.addStop r p.1 p.2)
          { configured s2 with
            graph_ := { vertex_count := catalogue.stops_.length * 2, edges_ := [] } })
        ).graph_.edges_.length := by
    rw [hT]
    exact hshape.2.2
  obtain ⟨h1, h2, h3, h4, h5, h6, h7⟩ := loops_rebuild catalogue
    ((configured s1).BuildGraph catalogue)
    { ((configured s1).BuildGraph catalogue).SetRoutingSettings s2 with
      graph_ := { vertex_count := catalogue.stops_.length * 2, edges_ := [] } }
    { configured s2 with
      graph_ := { vertex_count := catalogue.stops_.length * 2, edges_ := [] } }
    rfl rfl rfl rfl rfl rfl rfl rfl rfl rfl rfl rfl rfl hsw hsv hst hlen
  rw [hA, hB]
  exact ⟨h1, h2, rfl, h3, h4, h5, h6, h7⟩

/-- The body of the loop of `ReconstructRoute` reads the graph and looks into three tables; it
does the same on two routers with the same content. -/
theorem visit_sameContent (a b : TransportRouter) (h : SameContent a b) (items : List RouteItem)
    (edge_id : Nat) :
    ReconstructRoute.visit a items edge_id = ReconstructRoute.visit b items edge_id := by
  obtain ⟨_, hg, _, _, _, hv, he, hs⟩ := h
  have hv' : ∀ k, mapFind a.vertex_to_stop_ k = mapFind b.vertex_to_stop_ k := hv
  have he' : ∀ k, mapFind a.edge_to_bus_ k = mapFind b.edge_to_bus_ k := he
  have hs' : ∀ k, mapFind a.edge_to_span_count_ k = mapFind b.edge_to_span_count_ k := hs
  unfold ReconstructRoute.visit
  simp only [hg, hv', he', hs']

theorem ReconstructRoute_sameContent (a b : TransportRouter) (h : SameContent a b)
    (from_vertex to_vertex : Nat) (router : graph.Router) :
    a.ReconstructRoute from_vertex to_vertex router =
      b.ReconstructRoute from_vertex to_vertex router := by
  have hvisit : ReconstructRoute.visit a = ReconstructRoute.visit b := by
    funext items edge_id
    exact visit_sameContent a b h items edge_id
  unfold ReconstructRoute
  rw [h.2.1, hvisit]

theorem BuildRoute_sameContent (router : graph.Router) (catalogue : TransportCatalogue)
    (a b : TransportRouter) (h : SameContent (a.BuildGraph catalogue) (b.BuildGraph catalogue))
    (from_name to_name : String) :
    (BuildRoute router catalogue a from_name to_name).2 =
      (BuildRoute router catalogue b from_name to_name).2 := by
  have hw : ∀ k, mapFind (a.BuildGraph catalogue).stop_to_wait_vertex_ k =
      mapFind (b.BuildGraph catalogue).stop_to_wait_vertex_ k := h.2.2.2.1
  unfold BuildRoute
  simp only [hw]
  cases mapFind (b.BuildGraph catalogue).stop_to_wait_vertex_ from_name with
  | none => rfl
  | some f =>
    cases mapFind (b.BuildGraph catalogue).stop_to_wait_vertex_ to_name with
    | none => rfl
    | some t => exact ReconstructRoute_sameContent _ _ h f t router

/-- C17: for every catalogue and all settings `s1`, `s2`: take the router that was configured with
`s1` and built its graph, give it `SetRoutingSettings(s2)`, and let it build again over the same
catalogue, as the next query makes it do. It then has the settings, the graph (vertex count and
the whole edge list, hence every wait-edge and ride-edge weight) and the set flag of a fresh
router configured with `s2` and built, and each of its five tables (the two vertex maps,
`vertex_to_stop_`, and the bus name and the span count per edge id) answers every lookup as the
table of the fresh router does, which is equality of `std::unordered_map`s. So every query
`BuildRoute(from, to)` on it returns, under every engine, what it returns on the fresh router.
`BuildGraph` replaces the graph and writes the tables again without clearing them; the entries
the `s1` build left are all overwritten, since the edge ids and vertex ids do not depend on the
settings. -/
theorem BuildGraph_after_SetRoutingSettings (catalogue : TransportCatalogue)
    (s1 s2 : RoutingSettings) :
    SameContent
        ((((configured s1).BuildGraph catalogue).SetRoutingSettings s2).BuildGraph catalogue)
        ((configured s2).BuildGraph catalogue) ∧
      ∀ (router : graph.Router) (from_name to_name : String),
        (BuildRoute router catalogue
            (((configured s1).BuildGraph catalogue).SetRoutingSettings s2) from_name to_name).2 =
          (BuildRoute router catalogue (configured s2) from_name to_name).2 :=
  ⟨rebuild_sameContent catalogue s1 s2, fun router from_name to_name =>
    BuildRoute_sameContent router catalogue _ _ (rebuild_sameContent catalogue s1 s2) from_name
      to_name⟩

end TransportRouter

/-! ## The ride edges of a bus, pair by pair -/

namespace TransportRouter

open graph

theorem mem_forwardPairs (n i j : Nat) :
    (i, j) ∈ AddEdgesForBus.forwardPairs n ↔ i < j ∧ j < n := by
  unfold AddEdgesForBus.forwardPairs
  simp only [List.mem_flatMap, List.mem_range, List.mem_map, List.mem_range'_1, Prod.mk.injEq]
  constructor
  · rintro ⟨a, ha, b, hb, rfl, rfl⟩
    omega
  · rintro ⟨h1, h2⟩
    exact ⟨i, by omega, j, by omega, rfl, rfl⟩

theorem mem_backwardPairs (n i j : Nat) :
    (i, j) ∈ AddEdgesForBus.backwardPairs n ↔ j < i ∧ i < n := by
  unfold AddEdgesForBus.backwardPairs
  simp only [List.mem_flatMap, List.mem_reverse, List.mem_range, List.mem_map,
    List.mem_range'_1, Prod.mk.injEq]
  constructor
  · rintro ⟨a, ha, b, hb, rfl, rfl⟩
    omega
  · rintro ⟨h1, h2⟩
    exact ⟨i, by omega, j, by omega, rfl, rfl⟩

theorem mem_pairs (bus : Bus) (i j : Nat) :
    (i, j) ∈ AddEdgesForBus.pairs bus ↔
      (i < j ∧ j < bus.stops.length) ∨
        (bus.is_roundtrip = false ∧ j < i ∧ i < bus.stops.length) := by
  unfold AddEdgesForBus.pairs
  rw [List.mem_append, mem_forwardPairs]
  cases hrt : bus.is_roundtrip with
  | true => simp
  | false => simp [mem_backwardPairs]

/-- A loop over `i` around a loop over `j` is one loop over the pairs `(i, j)`. -/
theorem foldl_pairs {α β γ : Type} (g : α → β → γ → α) (f : β → List γ) (l : List β) (a : α) :
    (l.flatMap (fun i => (f i).map (fun j => (i, j)))).foldl (fun a p => g a p.1 p.2) a =
      l.foldl (fun a i => (f i).foldl (fun a j => g a i j) a) a := by
  induction l generalizing a with
  | nil => rfl
  | cons i t ih =>
    rw [List.flatMap_cons, List.foldl_append, List.foldl_map, List.foldl_cons, ih]

theorem ride_store (catalogue : TransportCatalogue) (r : TransportRouter) (x : Ride) (bus : Bus)
    (p : Nat × Nat) :
    AddEdgesForBus.ride catalogue (AddEdgesForBus.store r x) bus p =
      AddEdgesForBus.ride catalogue r bus p := rfl

/-- Folding a step that stores the ride it finds, if any, stores the rides found from the start
state, when storing a ride does not change what is found. -/
theorem foldl_store_filterMap {β : Type} (g : TransportRouter → β → Option Ride)
    (hg : ∀ r x b, g (AddEdgesForBus.store r x) b = g r b) (l : List β) (r : TransportRouter) :
    l.foldl (fun r b => match g r b with
      | some x => AddEdgesForBus.store r x
      | none => r) r = (l.filterMap (g r)).foldl AddEdgesForBus.store r := by
  induction l generalizing r with
  | nil => rfl
  | cons b t ih =>
    rw [List.foldl_cons, List.filterMap_cons]
    cases hb : g r b with
    | none => exact ih r
    | some x =>
      simp only
      rw [ih, List.foldl_cons]
      have : g (AddEdgesForBus.store r x) = g r := funext (hg r x)
      rw [this]

theorem forwardPair_eq (catalogue : TransportCatalogue) (bus : Bus) (r : TransportRouter)
    (i j : Nat) (hij : i < j) :
    AddEdgesForBus.forwardPair catalogue bus r i j =
      match AddEdgesForBus.ride catalogue r bus (i, j) with
      | some x => AddEdgesForBus.store r x
      | none => r := by
  unfold AddEdgesForBus.forwardPair AddEdgesForBus.ride AddEdgesForBus.addEdge
  simp only [AddEdgesForBus.distance, AddEdgesForBus.span, hij, if_true,
    AddEdgesForBus.forwardDistance]
  cases mapFind r.stop_to_bus_vertex_ (bus.stops.getD i "") with
  | none => rfl
  | some fv =>
    cases mapFind r.stop_to_wait_vertex_ (bus.stops.getD j "") with
    | none => rfl
    | some tv =>
      simp only
      split <;> rfl

theorem backwardPair_eq (catalogue : TransportCatalogue) (bus : Bus) (r : TransportRouter)
    (i j : Nat) (hji : j < i) :
    AddEdgesForBus.backwardPair catalogue bus r i j =
      match AddEdgesForBus.ride catalogue r bus (i, j) with
      | some x => AddEdgesForBus.store r x
      | none => r := by
  have hij : ¬ i < j := by omega
  unfold AddEdgesForBus.backwardPair AddEdgesForBus.ride AddEdgesForBus.addEdge
  simp only [AddEdgesForBus.distance, AddEdgesForBus.span, hij, if_false,
    AddEdgesForBus.backwardDistance]
  cases mapFind r.stop_to_bus_vertex_ (bus.stops.getD i "") with
  | none => rfl
  | some fv =>
    cases mapFind r.stop_to_wait_vertex_ (bus.stops.getD j "") with
    | none => rfl
    | some tv =>
      simp only
      split <;> rfl

end TransportRouter

namespace TransportRouter

open graph

/-- What storing a list of rides leaves: the vertex tables, the settings and the flag stay, the
edges are appended in order, the tags of the old edge ids stay, and the `k`-th ride is tagged
under the id of its edge. -/
theorem foldl_store (items : List Ride) (r : TransportRouter) :
    (items.foldl AddEdgesForBus.store r).settings_ = r.settings_ ∧
      (items.foldl AddEdgesForBus.store r).stop_to_wait_vertex_ = r.stop_to_wait_vertex_ ∧
      (items.foldl AddEdgesForBus.store r).stop_to_bus_vertex_ = r.stop_to_bus_vertex_ ∧
      (items.foldl AddEdgesForBus.store r).vertex_to_stop_ = r.vertex_to_stop_ ∧
      (items.foldl AddEdgesForBus.store r).graph_built_ = r.graph_built_ ∧
      (items.foldl AddEdgesForBus.store r).graph_.vertex_count = r.graph_.vertex_count ∧
      (items.foldl AddEdgesForBus.store r).graph_.edges_ =
        r.graph_.edges_ ++ items.map Ride.edge ∧
      (∀ e : Nat, e < r.graph_.edges_.length →
        mapFind (items.foldl AddEdgesForBus.store r).edge_to_bus_ e = mapFind r.edge_to_bus_ e ∧
          mapFind (items.foldl AddEdgesForBus.store r).edge_to_span_count_ e =
            mapFind r.edge_to_span_count_ e) ∧
      ∀ (k : Nat) (x : Ride), items[k]? = some x →
        mapFind (items.foldl AddEdgesForBus.store r).edge_to_bus_ (r.graph_.edges_.length + k) =
            some x.bus ∧
          mapFind (items.foldl AddEdgesForBus.store r).edge_to_span_count_
            (r.graph_.edges_.length + k) = some x.span_count := by
  induction items generalizing r with
  | nil =>
    refine ⟨rfl, rfl, rfl, rfl, rfl, rfl, by simp, fun e _ => ⟨rfl, rfl⟩, ?_⟩
    intro k x h
    simp at h
  | cons y t ih =>
    obtain ⟨h1, h2, h3, h4, h5, h6, h7, h8, h9⟩ := ih (AddEdgesForBus.store r y)
    have hlen : (AddEdgesForBus.store r y).graph_.edges_.length = r.graph_.edges_.length + 1 := by
      simp [AddEdgesForBus.store, DirectedWeightedGraph.AddEdge]
    rw [List.foldl_cons]
    refine ⟨h1, h2, h3, h4, h5, h6, ?_, ?_, ?_⟩
    · rw [h7]
      simp [AddEdgesForBus.store, DirectedWeightedGraph.AddEdge]
    · intro e he
      obtain ⟨ha, hb⟩ := h8 e (by omega)
      rw [ha, hb]
      have hne : r.graph_.edges_.length ≠ e := by omega
      simp only [AddEdgesForBus.store, DirectedWeightedGraph.AddEdge]
      rw [mapFind_mapAssign_ne _ _ hne, mapFind_mapAssign_ne _ _ hne]
      exact ⟨rfl, rfl⟩
    · intro k x hk
      cases k with
      | zero =>
        simp only [List.getElem?_cons_zero, Option.some.injEq] at hk
        subst hk
        obtain ⟨ha, hb⟩ := h8 r.graph_.edges_.length (by omega)
        rw [Nat.add_zero, ha, hb]
        simp only [AddEdgesForBus.store, DirectedWeightedGraph.AddEdge]
        rw [mapFind_mapAssign_self, mapFind_mapAssign_self]
        exact ⟨rfl, rfl⟩
      | succ k =>
        rw [List.getElem?_cons_succ] at hk
        obtain ⟨ha, hb⟩ := h9 k x hk
        rw [hlen] at ha hb
        have hidx : r.graph_.edges_.length + (k + 1) = r.graph_.edges_.length + 1 + k := by omega
        rw [hidx]
        exact ⟨ha, hb⟩

theorem ride_foldl_store (catalogue : TransportCatalogue) (items : List Ride)
    (r : TransportRouter) (bus : Bus) :
    AddEdgesForBus.ride catalogue (items.foldl AddEdgesForBus.store r) bus =
      AddEdgesForBus.ride catalogue r bus := by
  induction items generalizing r with
  | nil => rfl
  | cons y t ih =>
    rw [List.foldl_cons, ih]
    exact funext (ride_store catalogue r y bus)

theorem rides_foldl_store (catalogue : TransportCatalogue) (items : List Ride)
    (r : TransportRouter) :
    AddEdgesForBus.rides catalogue (items.foldl AddEdgesForBus.store r) =
      AddEdgesForBus.rides catalogue r := by
  funext bus
  unfold AddEdgesForBus.rides
  rw [ride_foldl_store]

theorem pairs_of_short (bus : Bus) (h : bus.stops.length < 2) : AddEdgesForBus.pairs bus = [] := by
  unfold AddEdgesForBus.pairs AddEdgesForBus.forwardPairs AddEdgesForBus.backwardPairs
  have hcases : bus.stops.length = 0 ∨ bus.stops.length = 1 := by omega
  rcases hcases with h0 | h1
  · rw [h0]
    cases bus.is_roundtrip <;> rfl
  · rw [h1]
    cases bus.is_roundtrip <;> rfl

/-- The function `AddEdgesForBus` stores the rides of the position pairs of the bus, in order. -/
theorem AddEdgesForBus_eq_rides (catalogue : TransportCatalogue) (r : TransportRouter)
    (bus : Bus) :
    AddEdgesForBus catalogue r bus =
      (AddEdgesForBus.rides catalogue r bus).foldl AddEdgesForBus.store r := by
  by_cases hn : bus.stops.length < 2
  · unfold AddEdgesForBus AddEdgesForBus.rides
    rw [pairs_of_short bus hn]
    simp [hn]
  · have hfwd : (List.range bus.stops.length).foldl
        (fun r i =>
          (List.range' (i + 1) (bus.stops.length - (i + 1))).foldl
            (fun r j => AddEdgesForBus.forwardPair catalogue bus r i j) r) r =
        ((AddEdgesForBus.forwardPairs bus.stops.length).filterMap
          (AddEdgesForBus.ride catalogue r bus)).foldl AddEdgesForBus.store r := by
      rw [← foldl_pairs (fun r i j => AddEdgesForBus.forwardPair catalogue bus r i j)
        (fun i => List.range' (i + 1) (bus.stops.length - (i + 1)))]
      rw [← foldl_store_filterMap (fun r p => AddEdgesForBus.ride catalogue r bus p)
        (fun r x p => ride_store catalogue r x bus p)]
      apply List.foldl_ext
      intro a p hp
      have := (mem_forwardPairs bus.stops.length p.1 p.2).1 hp
      exact forwardPair_eq catalogue bus a p.1 p.2 this.1
    have hbwd : ∀ r1 : TransportRouter, (List.range' 1 (bus.stops.length - 1)).reverse.foldl
        (fun r i =>
          (List.range i).reverse.foldl
            (fun r j => AddEdgesForBus.backwardPair catalogue bus r i j) r) r1 =
        ((AddEdgesForBus.backwardPairs bus.stops.length).filterMap
          (AddEdgesForBus.ride catalogue r1 bus)).foldl AddEdgesForBus.store r1 := by
      intro r1
      rw [← foldl_pairs (fun r i j => AddEdgesForBus.backwardPair catalogue bus r i j)
        (fun i => (List.range i).reverse)]
      rw [← foldl_store_filterMap (fun r p => AddEdgesForBus.ride catalogue r bus p)
        (fun r x p => ride_store catalogue r x bus p)]
      apply List.foldl_ext
      intro a p hp
      have := (mem_backwardPairs bus.stops.length p.1 p.2).1 hp
      exact backwardPair_eq catalogue bus a p.1 p.2 this.1
    unfold AddEdgesForBus AddEdgesForBus.rides AddEdgesForBus.pairs
    simp only [hn, if_false]
    rw [hfwd]
    cases hrt : bus.is_roundtrip with
    | true => simp
    | false =>
      simp only [Bool.not_false, if_true]
      rw [hbwd, ride_foldl_store, List.filterMap_append, List.foldl_append]

/-- The second loop of `BuildGraph` stores the rides of all buses, bus after bus. -/
theorem busLoop_eq_rides (catalogue : TransportCatalogue) (buses : List Bus)
    (r : TransportRouter) :
    buses.foldl (AddEdgesForBus catalogue) r =
      (buses.flatMap (AddEdgesForBus.rides catalogue r)).foldl AddEdgesForBus.store r := by
  induction buses generalizing r with
  | nil => rfl
  | cons bus t ih =>
    rw [List.foldl_cons, AddEdgesForBus_eq_rides, ih, rides_foldl_store, List.flatMap_cons,
      List.foldl_append]

end TransportRouter

namespace TransportRouter

open graph

/-- What the first loop of `BuildGraph` leaves besides the wait edges: the riding vertex of a
name is its waiting vertex plus one, `vertex_to_stop_` names the stop of every riding vertex,
and the vertex count of the graph stays. -/
theorem addStop_loop_paired (r : TransportRouter) (hwait : r.stop_to_wait_vertex_ = [])
    (hbus : r.stop_to_bus_vertex_ = []) (stops : List Stop) :
    (∀ name, mapFind (stops.enum.foldl (fun r (p : Nat × Stop) => BuildGraph.addStop r p.1 p.2)
        r).stop_to_bus_vertex_ name =
      (mapFind (stops.enum.foldl (fun r (p : Nat × Stop) => BuildGraph.addStop r p.1 p.2)
        r).stop_to_wait_vertex_ name).map (fun v => v + 1)) ∧
      (∀ (i : Nat) (stop : Stop), stops[i]? = some stop →
        mapFind (stops.enum.foldl (fun r (p : Nat × Stop) => BuildGraph.addStop r p.1 p.2)
          r).vertex_to_stop_ (i * 2 + 1) = some stop.name) ∧
      (stops.enum.foldl (fun r (p : Nat × Stop) => BuildGraph.addStop r p.1 p.2)
        r).graph_.vertex_count = r.graph_.vertex_count ∧
      (stops.enum.foldl (fun r (p : Nat × Stop) => BuildGraph.addStop r p.1 p.2)
        r).graph_built_ = r.graph_built_ := by
  induction stops using List.reverseRecOn with
  | nil =>
    refine ⟨?_, ?_, rfl, rfl⟩
    · intro name
      simp [hwait, hbus, mapFind]
    · intro i stop h
      simp at h
  | append_singleton t s ih =>
    obtain ⟨h1, h2, h3, h4⟩ := ih
    rw [foldl_addStop_snoc]
    generalize t.enum.foldl (fun r (p : Nat × Stop) => BuildGraph.addStop r p.1 p.2) r = r2
      at h1 h2 h3 h4
    refine ⟨?_, ?_, h3, h4⟩
    · intro name
      simp only [BuildGraph.addStop, mapFind_mapAssign]
      by_cases hn : s.name = name
      · simp [hn]
      · simp only [hn, if_false]
        exact h1 name
    · intro i stop hi
      have hcases : i < t.length ∨ i = t.length := by
        have : i < (t ++ [s]).length := by
          by_contra hc
          rw [List.getElem?_eq_none (not_lt.1 hc)] at hi
          cases hi
        rw [List.length_append, List.length_singleton] at this
        omega
      rcases hcases with hlt | rfl
      · rw [List.getElem?_append_left hlt] at hi
        simp only [BuildGraph.addStop]
        have hne1 : t.length * 2 + 1 ≠ i * 2 + 1 := by omega
        have hne2 : t.length * 2 ≠ i * 2 + 1 := by omega
        rw [mapFind_mapAssign_ne _ _ hne1, mapFind_mapAssign_ne _ _ hne2]
        exact h2 i stop hi
      · rw [getElem?_snoc_length] at hi
        cases hi
        simp only [BuildGraph.addStop]
        rw [mapFind_mapAssign_self]

/-- The graph and the tables `BuildGraph` leaves, on a router whose graph is not built and whose
vertex tables are empty: vertex count, vertex tables, and the ride edges with their tags, which
are the rides of the position pairs of the buses, stored after the wait edges in order. -/
theorem BuildGraph_rides (catalogue : TransportCatalogue) (r : TransportRouter)
    (hbuilt : r.graph_built_ = false) (hwait : r.stop_to_wait_vertex_ = [])
    (hbus : r.stop_to_bus_vertex_ = []) :
    (r.BuildGraph catalogue).graph_.vertex_count = catalogue.stops_.length * 2 ∧
      (∀ name, mapFind (r.BuildGraph catalogue).stop_to_bus_vertex_ name =
        (mapFind (r.BuildGraph catalogue).stop_to_wait_vertex_ name).map (fun v => v + 1)) ∧
      (∀ (i : Nat) (stop : Stop), catalogue.stops_[i]? = some stop →
        mapFind (r.BuildGraph catalogue).vertex_to_stop_ (i * 2 + 1) = some stop.name) ∧
      (r.BuildGraph catalogue).graph_.edges_.length =
        catalogue.stops_.length + (BuildGraph.rides catalogue (r.BuildGraph catalogue)).length ∧
      ∀ (k : Nat) (x : Ride),
        (BuildGraph.rides catalogue (r.BuildGraph catalogue))[k]? = some x →
          (r.BuildGraph catalogue).graph_.edges_[catalogue.stops_.length + k]? = some x.edge ∧
            mapFind (r.BuildGraph catalogue).edge_to_bus_ (catalogue.stops_.length + k) =
              some x.bus ∧
            mapFind (r.BuildGraph catalogue).edge_to_span_count_ (catalogue.stops_.length + k) =
              some x.span_count := by
  obtain ⟨p1, p2, p3, _⟩ :=
    addStop_loop_paired
      { r with graph_ := { vertex_count := catalogue.stops_.length * 2, edges_ := [] } }
      hwait hbus catalogue.stops_
  obtain ⟨_, hlen, _⟩ :=
    addStop_loop { r with graph_ := { vertex_count := catalogue.stops_.length * 2, edges_ := [] } }
      rfl hwait hbus catalogue.stops_
  have hB := BuildGraph_eq catalogue r hbuilt
  rw [busLoop_eq_rides] at hB
  generalize catalogue.stops_.enum.foldl (fun r (p : Nat × Stop) => BuildGraph.addStop r p.1 p.2)
    { r with graph_ := { vertex_count := catalogue.stops_.length * 2, edges_ := [] } } = L
    at p1 p2 p3 hlen hB
  have hrides : BuildGraph.rides catalogue (r.BuildGraph catalogue) =
      catalogue.buses_.flatMap (AddEdgesForBus.rides catalogue L) := by
    rw [hB]
    show catalogue.buses_.flatMap (AddEdgesForBus.rides catalogue
      ((catalogue.buses_.flatMap (AddEdgesForBus.rides catalogue L)).foldl
        AddEdgesForBus.store L)) = _
    rw [rides_foldl_store]
  rw [hrides]
  obtain ⟨_, s2, s3, s4, _, s6, s7, _, s9⟩ :=
    foldl_store (catalogue.buses_.flatMap (AddEdgesForBus.rides catalogue L)) L
  rw [hB]
  refine ⟨s6.trans p3, ?_, ?_, ?_, ?_⟩
  · intro name
    show mapFind ((catalogue.buses_.flatMap (AddEdgesForBus.rides catalogue L)).foldl
      AddEdgesForBus.store L).stop_to_bus_vertex_ name =
      (mapFind ((catalogue.buses_.flatMap (AddEdgesForBus.rides catalogue L)).foldl
        AddEdgesForBus.store L).stop_to_wait_vertex_ name).map (fun v => v + 1)
    rw [s2, s3]
    exact p1 name
  · intro i stop hi
    show mapFind ((catalogue.buses_.flatMap (AddEdgesForBus.rides catalogue L)).foldl
      AddEdgesForBus.store L).vertex_to_stop_ (i * 2 + 1) = some stop.name
    rw [s4]
    exact p2 i stop hi
  · show ((catalogue.buses_.flatMap (AddEdgesForBus.rides catalogue L)).foldl
      AddEdgesForBus.store L).graph_.edges_.length = _
    rw [s7, List.length_append, List.length_map, hlen]
  · intro k x hk
    obtain ⟨t1, t2⟩ := s9 k x hk
    rw [hlen] at t1 t2
    refine ⟨?_, t1, t2⟩
    show ((catalogue.buses_.flatMap (AddEdgesForBus.rides catalogue L)).foldl
      AddEdgesForBus.store L).graph_.edges_[catalogue.stops_.length + k]? = some x.edge
    rw [s7, List.getElem?_append_right (by omega), hlen, Nat.add_sub_cancel_left,
      List.getElem?_map, hk]
    rfl

end TransportRouter

/-! ## The distance of a hop in the graph builder -/

namespace TransportRouter

open graph

/-- The hop of the graph builder between two known stops adds the distance stored for the
travel direction, or the one stored for the opposite direction when the first is `0`. -/
theorem hop_known (catalogue : TransportCatalogue) (total : Int) (current_stop next_stop : String)
    (p q : StopPtr) (hp : catalogue.FindStop current_stop = some p)
    (hq : catalogue.FindStop next_stop = some q) :
    AddEdgesForBus.hop catalogue total current_stop next_stop =
      total + (if catalogue.GetRoadDistance (some p) (some q) = 0 then
        catalogue.GetRoadDistance (some q) (some p)
      else catalogue.GetRoadDistance (some p) (some q)) := by
  unfold AddEdgesForBus.hop
  simp only [hp, hq]
  by_cases h1 : catalogue.GetRoadDistance (some p) (some q) = 0
  · simp only [h1, if_true]
    by_cases h2 : catalogue.GetRoadDistance (some q) (some p) = 0
    · simp [h2]
    · simp [h2]
  · simp [h1]

/-- The hop of the graph builder adds nothing when one of the two names is not a stop. -/
theorem hop_unknown (catalogue : TransportCatalogue) (total : Int)
    (current_stop next_stop : String)
    (h : catalogue.FindStop current_stop = none ∨ catalogue.FindStop next_stop = none) :
    AddEdgesForBus.hop catalogue total current_stop next_stop = total := by
  unfold AddEdgesForBus.hop
  rcases h with h | h
  · simp [h]
  · cases hc : catalogue.FindStop current_stop <;> simp [h]

/-- What a hop adds does not depend on the total it is added to. -/
theorem hop_add (catalogue : TransportCatalogue) (total : Int) (current_stop next_stop : String) :
    AddEdgesForBus.hop catalogue total current_stop next_stop =
      total + AddEdgesForBus.hop catalogue 0 current_stop next_stop := by
  cases hp : catalogue.FindStop current_stop with
  | none => rw [hop_unknown _ _ _ _ (Or.inl hp), hop_unknown _ _ _ _ (Or.inl hp), add_zero]
  | some p =>
    cases hq : catalogue.FindStop next_stop with
    | none => rw [hop_unknown _ _ _ _ (Or.inr hq), hop_unknown _ _ _ _ (Or.inr hq), add_zero]
    | some q => rw [hop_known _ _ _ _ p q hp hq, hop_known _ 0 _ _ p q hp hq, zero_add]

/-- The distance a hop of the graph builder adds against `GetRoadDistanceBidirectional`: they
agree if and only if the builder does not add a negative distance. -/
theorem hop_vs_bidirectional (catalogue : TransportCatalogue) (total : Int)
    (current_stop next_stop : String) (p q : StopPtr)
    (hp : catalogue.FindStop current_stop = some p)
    (hq : catalogue.FindStop next_stop = some q) :
    (AddEdgesForBus.hop catalogue total current_stop next_stop =
        total + catalogue.GetRoadDistanceBidirectional (some p) (some q) ↔
      total ≤ AddEdgesForBus.hop catalogue total current_stop next_stop) ∧
      (0 ≤ catalogue.GetRoadDistance (some p) (some q) →
        0 ≤ catalogue.GetRoadDistance (some q) (some p) →
        AddEdgesForBus.hop catalogue total current_stop next_stop =
          total + catalogue.GetRoadDistanceBidirectional (some p) (some q)) := by
  rw [hop_known catalogue total current_stop next_stop p q hp hq]
  unfold TransportCatalogue.GetRoadDistanceBidirectional
  simp only
  generalize catalogue.GetRoadDistance (some p) (some q) = x
  generalize catalogue.GetRoadDistance (some q) (some p) = y
  constructor
  · constructor
    · intro h
      split_ifs at h ⊢ <;> omega
    · intro h
      split_ifs at h ⊢ <;> omega
  · intro hx hy
    split_ifs <;> omega

/-- C24 (amended): for every catalogue state and every pair of known stops `a`, `b` (the names
`current_stop`, `next_stop` resolve to the pointers `p`, `q`), the distance the graph builder
adds for the hop `a -> b` is `GetRoadDistance(a, b)`, replaced by `GetRoadDistance(b, a)` when it
is `0`; it equals `GetRoadDistanceBidirectional(a, b)`, the value the route statistics use, if
and only if it is not negative, and so whenever neither direction holds a negative distance. -/
theorem hop_eq_GetRoadDistanceBidirectional_iff (catalogue : TransportCatalogue) (total : Int)
    (current_stop next_stop : String) (p q : StopPtr)
    (hp : catalogue.FindStop current_stop = some p)
    (hq : catalogue.FindStop next_stop = some q) :
    AddEdgesForBus.hop catalogue total current_stop next_stop =
        total + (if catalogue.GetRoadDistance (some p) (some q) = 0 then
          catalogue.GetRoadDistance (some q) (some p)
        else catalogue.GetRoadDistance (some p) (some q)) ∧
      (AddEdgesForBus.hop catalogue total current_stop next_stop =
          total + catalogue.GetRoadDistanceBidirectional (some p) (some q) ↔
        total ≤ AddEdgesForBus.hop catalogue total current_stop next_stop) ∧
      (0 ≤ catalogue.GetRoadDistance (some p) (some q) →
        0 ≤ catalogue.GetRoadDistance (some q) (some p) →
        AddEdgesForBus.hop catalogue total current_stop next_stop =
          total + catalogue.GetRoadDistanceBidirectional (some p) (some q)) :=
  ⟨hop_known catalogue total current_stop next_stop p q hp hq,
    hop_vs_bidirectional catalogue total current_stop next_stop p q hp hq⟩

/-- The theorem for C24 applied to the two hops between `A` and `B` of `Example.thereAndBack`,
where `A -> B = 1000` is declared and `B -> A` is not: the builder and
`GetRoadDistanceBidirectional` agree on both. -/
theorem hop_eq_GetRoadDistanceBidirectional_iff_witness :
    Example.thereAndBack.FindStop "A" = some 0 ∧ Example.thereAndBack.FindStop "B" = some 1 ∧
      AddEdgesForBus.hop Example.thereAndBack 0 "A" "B" =
        0 + Example.thereAndBack.GetRoadDistanceBidirectional (some 0) (some 1) ∧
      AddEdgesForBus.hop Example.thereAndBack 0 "B" "A" =
        0 + Example.thereAndBack.GetRoadDistanceBidirectional (some 1) (some 0) :=
  ⟨by decide, by decide,
    (hop_eq_GetRoadDistanceBidirectional_iff Example.thereAndBack 0 "A" "B" 0 1 (by decide)
      (by decide)).2.2 (by decide) (by decide),
    (hop_eq_GetRoadDistanceBidirectional_iff Example.thereAndBack 0 "B" "A" 1 0 (by decide)
      (by decide)).2.1.2 (by decide)⟩

/-- C24, counterexample: with `A -> B = -5` and `B -> A = 7` declared, both stops known, the
graph builder adds `-5` for the hop `A -> B`, and `GetRoadDistanceBidirectional(A, B)` is `7`. -/
theorem hop_ne_GetRoadDistanceBidirectional :
    Example.negativeForward.FindStop "A" = some 0 ∧
      Example.negativeForward.FindStop "B" = some 1 ∧
      Example.negativeForward.GetRoadDistance (some 0) (some 1) = -5 ∧
      Example.negativeForward.GetRoadDistance (some 1) (some 0) = 7 ∧
      AddEdgesForBus.hop Example.negativeForward 0 "A" "B" = -5 ∧
      Example.negativeForward.GetRoadDistanceBidirectional (some 0) (some 1) = 7 ∧
      AddEdgesForBus.hop Example.negativeForward 0 "A" "B" ≠
        0 + Example.negativeForward.GetRoadDistanceBidirectional (some 0) (some 1) := by
  decide

end TransportRouter

/-! ## Accumulated distances -/

theorem mem_of_mapFind {κ ν : Type} [DecidableEq κ] (m : List (κ × ν)) (k : κ) (v : ν)
    (h : mapFind m k = some v) : (k, v) ∈ m := by
  induction m with
  | nil => simp [mapFind] at h
  | cons e t ih =>
    obtain ⟨k', v'⟩ := e
    simp only [mapFind] at h
    by_cases hk : k' = k
    · simp only [hk, if_true, Option.some.injEq] at h
      subst hk h
      exact List.mem_cons_self _ _
    · simp only [hk, if_false] at h
      exact List.mem_cons_of_mem _ (ih h)

namespace TransportCatalogue

theorem GetRoadDistance_nonneg (db : TransportCatalogue) (h : db.DistancesNonneg)
    (a b : Option StopPtr) : 0 ≤ db.GetRoadDistance a b := by
  unfold GetRoadDistance
  cases a with
  | none => simp
  | some f =>
    cases b with
    | none => simp
    | some t =>
      simp only
      cases hrow : mapFind db.distances_ f with
      | none => simp
      | some row =>
        simp only
        cases hd : mapFind row t with
        | none => simp
        | some d =>
          simp only
          exact h (f, row) (mem_of_mapFind _ _ _ hrow) (t, d) (mem_of_mapFind _ _ _ hd)

end TransportCatalogue

namespace TransportRouter

open graph

/-- When no stored distance is negative, the hop of the graph builder adds
`GetRoadDistanceBidirectional` of the two stops. -/
theorem hop_of_nonneg (catalogue : TransportCatalogue) (h : catalogue.DistancesNonneg)
    (total : Int) (current_stop next_stop : String) :
    AddEdgesForBus.hop catalogue total current_stop next_stop =
      total + catalogue.GetRoadDistanceBidirectional (catalogue.FindStop current_stop)
        (catalogue.FindStop next_stop) := by
  cases hp : catalogue.FindStop current_stop with
  | none =>
    rw [hop_unknown _ _ _ _ (Or.inl hp)]
    simp [TransportCatalogue.GetRoadDistanceBidirectional]
  | some p =>
    cases hq : catalogue.FindStop next_stop with
    | none =>
      rw [hop_unknown _ _ _ _ (Or.inr hq)]
      simp [TransportCatalogue.GetRoadDistanceBidirectional]
    | some q =>
      exact (hop_vs_bidirectional catalogue total current_stop next_stop p q hp hq).2
        (catalogue.GetRoadDistance_nonneg h _ _) (catalogue.GetRoadDistance_nonneg h _ _)

end TransportRouter

namespace TransportRouter

open graph

/-- The loop over the hops of a span: each step stores the total in the `int`, so the loop ends
with the sum of what the hops add, reduced to the range of `int`. -/
theorem foldl_hop (catalogue : TransportCatalogue) (f g : Nat → String) (l : List Nat)
    (total : Int) (htotal : fitsInt total) :
    l.foldl (fun total k => intWrap (AddEdgesForBus.hop catalogue total (f k) (g k))) total =
      intWrap (total + (l.map (fun k => AddEdgesForBus.hop catalogue 0 (f k) (g k))).sum) := by
  induction l generalizing total with
  | nil => simp [intWrap_of_fits _ htotal]
  | cons k t ih =>
    simp only [List.foldl_cons, List.map_cons, List.sum_cons]
    rw [ih _ (intWrap_fits _), intWrap_add_left, hop_add catalogue total, add_assoc]

/-- The accumulated distance of a forward pair is the sum of what its hops add, reduced to the
range of `int`. -/
theorem forwardDistance_eq_sum (catalogue : TransportCatalogue) (bus : Bus) (i j : Nat) :
    AddEdgesForBus.forwardDistance catalogue bus i j =
      intWrap (Spec.forwardSum catalogue bus i j) := by
  unfold AddEdgesForBus.forwardDistance Spec.forwardSum
  rw [foldl_hop catalogue (fun k => bus.stops.getD k "") (fun k => bus.stops.getD (k + 1) "")
    _ 0 (by decide), zero_add]

/-- The accumulated distance of a return-leg pair is the sum of what its hops add, reduced to
the range of `int`. -/
theorem backwardDistance_eq_sum (catalogue : TransportCatalogue) (bus : Bus) (i j : Nat) :
    AddEdgesForBus.backwardDistance catalogue bus i j =
      intWrap (Spec.backwardSum catalogue bus i j) := by
  unfold AddEdgesForBus.backwardDistance Spec.backwardSum
  rw [foldl_hop catalogue (fun k => bus.stops.getD k "") (fun k => bus.stops.getD (k - 1) "")
    _ 0 (by decide), zero_add, List.map_reverse, List.sum_reverse]

/-- The accumulated distance of a position pair is the sum of what its hops add, reduced to the
range of `int`. -/
theorem distance_eq_pairSum (catalogue : TransportCatalogue) (bus : Bus) (i j : Nat) :
    AddEdgesForBus.distance catalogue bus i j = intWrap (Spec.pairSum catalogue bus i j) := by
  unfold AddEdgesForBus.distance Spec.pairSum
  split
  · exact forwardDistance_eq_sum catalogue bus i j
  · exact backwardDistance_eq_sum catalogue bus i j

theorem distance_fits (catalogue : TransportCatalogue) (bus : Bus) (i j : Nat) :
    fitsInt (AddEdgesForBus.distance catalogue bus i j) := by
  rw [distance_eq_pairSum]
  exact intWrap_fits _

/-- The accumulated distance of a position pair whose sum is a value of `int` is that sum. -/
theorem distance_of_fits (catalogue : TransportCatalogue) (bus : Bus) (i j : Nat)
    (h : fitsInt (Spec.pairSum catalogue bus i j)) :
    AddEdgesForBus.distance catalogue bus i j = Spec.pairSum catalogue bus i j := by
  rw [distance_eq_pairSum, intWrap_of_fits _ h]

theorem forwardSum_eq_spanDistance (catalogue : TransportCatalogue)
    (h : catalogue.DistancesNonneg) (bus : Bus) (i j : Nat) :
    Spec.forwardSum catalogue bus i j = Spec.spanDistance catalogue bus.stops i j := by
  unfold Spec.forwardSum Spec.spanDistance
  congr 1
  apply List.map_congr_left
  intro k _
  rw [hop_of_nonneg catalogue h, zero_add]

theorem hop_nonneg (catalogue : TransportCatalogue) (h : catalogue.DistancesNonneg)
    (current_stop next_stop : String) :
    0 ≤ AddEdgesForBus.hop catalogue 0 current_stop next_stop := by
  rw [hop_of_nonneg catalogue h, zero_add]
  unfold TransportCatalogue.GetRoadDistanceBidirectional
  cases catalogue.FindStop current_stop with
  | none => simp
  | some p =>
    cases catalogue.FindStop next_stop with
    | none => simp
    | some q =>
      simp only
      split_ifs <;> omega

theorem pairSum_nonneg (catalogue : TransportCatalogue) (h : catalogue.DistancesNonneg)
    (bus : Bus) (i j : Nat) : 0 ≤ Spec.pairSum catalogue bus i j := by
  unfold Spec.pairSum Spec.forwardSum Spec.backwardSum
  split
  · apply List.sum_nonneg
    intro x hx
    obtain ⟨k, _, rfl⟩ := List.mem_map.1 hx
    exact hop_nonneg catalogue h _ _
  · apply List.sum_nonneg
    intro x hx
    obtain ⟨k, _, rfl⟩ := List.mem_map.1 hx
    exact hop_nonneg catalogue h _ _

/-- With no negative distance stored, the accumulated distance of a forward pair whose sum of
`GetRoadDistanceBidirectional` is at most `2 ^ 31 - 1` is that sum. -/
theorem forwardDistance_eq_spanDistance (catalogue : TransportCatalogue)
    (h : catalogue.DistancesNonneg) (bus : Bus) (i j : Nat) (hij : i < j)
    (hfit : Spec.spanDistance catalogue bus.stops i j ≤ 2147483647) :
    AddEdgesForBus.forwardDistance catalogue bus i j =
      Spec.spanDistance catalogue bus.stops i j := by
  have hnn := pairSum_nonneg catalogue h bus i j
  unfold Spec.pairSum at hnn
  rw [if_pos hij, forwardSum_eq_spanDistance catalogue h] at hnn
  rw [forwardDistance_eq_sum, forwardSum_eq_spanDistance catalogue h,
    intWrap_of_fits _ ⟨by omega, hfit⟩]

/-- With no negative distance stored, the accumulated distance of a position pair whose sum is
at most `2 ^ 31 - 1` is not negative. -/
theorem distance_nonneg (catalogue : TransportCatalogue) (h : catalogue.DistancesNonneg)
    (bus : Bus) (i j : Nat) (hfit : fitsInt (Spec.pairSum catalogue bus i j)) :
    0 ≤ AddEdgesForBus.distance catalogue bus i j := by
  rw [distance_of_fits catalogue bus i j hfit]
  exact pairSum_nonneg catalogue h bus i j

/-- What `ride` returns when it returns a ride. -/
theorem ride_eq_some (catalogue : TransportCatalogue) (r : TransportRouter) (bus : Bus)
    (p : Nat × Nat) (x : Ride) :
    AddEdgesForBus.ride catalogue r bus p = some x ↔
      ∃ from_vertex to_vertex : Nat,
        mapFind r.stop_to_bus_vertex_ (bus.stops.getD p.1 "") = some from_vertex ∧
          mapFind r.stop_to_wait_vertex_ (bus.stops.getD p.2 "") = some to_vertex ∧
          AddEdgesForBus.distance catalogue bus p.1 p.2 ≠ 0 ∧
          x = { edge := ⟨from_vertex, to_vertex,
                  r.CalculateTime (AddEdgesForBus.distance catalogue bus p.1 p.2)⟩
                bus := bus.name
                span_count := AddEdgesForBus.span p.1 p.2 } := by
  unfold AddEdgesForBus.ride
  cases hf : mapFind r.stop_to_bus_vertex_ (bus.stops.getD p.1 "") with
  | none => simp
  | some fv =>
    cases ht : mapFind r.stop_to_wait_vertex_ (bus.stops.getD p.2 "") with
    | none => simp
    | some tv =>
      simp only
      by_cases hz : AddEdgesForBus.distance catalogue bus p.1 p.2 = 0
      · simp [hz]
      · simp only [hz, if_false, Option.some.injEq]
        constructor
        · intro h
          exact ⟨fv, tv, rfl, rfl, fun h0 => hz h0, h.symm⟩
        · rintro ⟨f, t, h1, h2, _, h4⟩
          cases h1
          cases h2
          exact h4.symm

/-- Every ride found for a position pair of a bus of the catalogue is an edge of the built
graph, at an id past the wait edges, tagged with its bus name and its span count. -/
theorem ride_mem_BuildGraph (catalogue : TransportCatalogue) (r : TransportRouter)
    (hbuilt : r.graph_built_ = false) (hwait : r.stop_to_wait_vertex_ = [])
    (hbus : r.stop_to_bus_vertex_ = []) (bus : Bus) (hmem : bus ∈ catalogue.buses_)
    (p : Nat × Nat) (hp : p ∈ AddEdgesForBus.pairs bus) (x : Ride)
    (hx : AddEdgesForBus.ride catalogue (r.BuildGraph catalogue) bus p = some x) :
    ∃ e : Nat, catalogue.stops_.length ≤ e ∧
      (r.BuildGraph catalogue).graph_.edges_[e]? = some x.edge ∧
      mapFind (r.BuildGraph catalogue).edge_to_bus_ e = some x.bus ∧
      mapFind (r.BuildGraph catalogue).edge_to_span_count_ e = some x.span_count := by
  obtain ⟨_, _, _, _, hrides⟩ := BuildGraph_rides catalogue r hbuilt hwait hbus
  have hxmem : x ∈ BuildGraph.rides catalogue (r.BuildGraph catalogue) := by
    unfold BuildGraph.rides
    rw [List.mem_flatMap]
    refine ⟨bus, hmem, ?_⟩
    unfold AddEdgesForBus.rides
    rw [List.mem_filterMap]
    exact ⟨p, hp, hx⟩
  obtain ⟨k, hk⟩ := List.mem_iff_getElem?.1 hxmem
  obtain ⟨h1, h2, h3⟩ := hrides k x hk
  exact ⟨catalogue.stops_.length + k, by omega, h1, h2, h3⟩

/-- Every edge of the built graph past the wait edges is the ride found for a position pair of
a bus of the catalogue, and is tagged with the bus name and the span count of that ride. -/
theorem ride_of_BuildGraph_edge (catalogue : TransportCatalogue) (r : TransportRouter)
    (hbuilt : r.graph_built_ = false) (hwait : r.stop_to_wait_vertex_ = [])
    (hbus : r.stop_to_bus_vertex_ = []) (e : Nat) (edge : Edge)
    (hle : catalogue.stops_.length ≤ e)
    (he : (r.BuildGraph catalogue).graph_.edges_[e]? = some edge) :
    ∃ bus ∈ catalogue.buses_, ∃ p ∈ AddEdgesForBus.pairs bus, ∃ x : Ride,
      AddEdgesForBus.ride catalogue (r.BuildGraph catalogue) bus p = some x ∧ x.edge = edge ∧
        mapFind (r.BuildGraph catalogue).edge_to_bus_ e = some x.bus ∧
        mapFind (r.BuildGraph catalogue).edge_to_span_count_ e = some x.span_count := by
  obtain ⟨_, _, _, hlen, hrides⟩ := BuildGraph_rides catalogue r hbuilt hwait hbus
  have helt : e < (r.BuildGraph catalogue).graph_.edges_.length := by
    by_contra hc
    rw [List.getElem?_eq_none (not_lt.1 hc)] at he
    cases he
  have hk : e - catalogue.stops_.length <
      (BuildGraph.rides catalogue (r.BuildGraph catalogue)).length := by omega
  obtain ⟨h1, h2, h3⟩ := hrides (e - catalogue.stops_.length) _ (List.getElem?_eq_getElem hk)
  have hidx : catalogue.stops_.length + (e - catalogue.stops_.length) = e := by omega
  rw [hidx] at h1 h2 h3
  have hxmem := List.getElem_mem hk
  unfold BuildGraph.rides at hxmem
  rw [List.mem_flatMap] at hxmem
  obtain ⟨bus, hbmem, hxb⟩ := hxmem
  unfold AddEdgesForBus.rides at hxb
  rw [List.mem_filterMap] at hxb
  obtain ⟨p, hp, hpx⟩ := hxb
  refine ⟨bus, hbmem, p, hp, _, hpx, ?_, h2, h3⟩
  rw [he] at h1
  exact (Option.some.inj h1).symm

end TransportRouter

/-! ## Ride edges of the built graph -/

namespace TransportRouter

open graph

theorem CalculateTime_of_pos (r : TransportRouter) (h : 0 < r.settings_.bus_velocity)
    (distance : Int) :
    r.CalculateTime distance = (distance : ℚ) / (r.settings_.bus_velocity * 1000 / 60) := by
  unfold CalculateTime
  rw [if_neg (not_le.2 h)]

theorem CalculateTime_of_nonpos (r : TransportRouter) (h : r.settings_.bus_velocity ≤ 0)
    (distance : Int) : r.CalculateTime distance = 0 := by
  unfold CalculateTime
  rw [if_pos h]

theorem getD_mem_stops (stops : List String) (i : Nat) (h : i < stops.length) :
    stops.getD i "" ∈ stops := by
  rw [List.getD_eq_getElem?_getD, List.getElem?_eq_getElem h]
  exact List.getElem_mem h

/-- In the graph a configured router builds, the name of every stop of the catalogue has a
waiting vertex with an even id, and its riding vertex is the next vertex. -/
theorem known_vertices (catalogue : TransportCatalogue) (settings : RoutingSettings)
    (name : String) (h : name ∈ catalogue.stops_.map Stop.name) :
    ∃ v : Nat, v % 2 = 0 ∧
      mapFind ((configured settings).BuildGraph catalogue).stop_to_wait_vertex_ name = some v ∧
      mapFind ((configured settings).BuildGraph catalogue).stop_to_bus_vertex_ name =
        some (v + 1) := by
  obtain ⟨_, _, _, hsound, hiff, _⟩ := BuildGraph_facts catalogue (configured settings) rfl rfl rfl
  obtain ⟨_, hpair, _, _, _⟩ := BuildGraph_rides catalogue (configured settings) rfl rfl rfl
  obtain ⟨v, hv⟩ := Option.isSome_iff_exists.1 ((hiff name).2 h)
  obtain ⟨i, stop, _, _, hvi⟩ := hsound name v hv
  refine ⟨v, by omega, hv, ?_⟩
  rw [hpair name, hv]
  rfl

/-- For a position pair of a bus of the catalogue whose two stops are stops of the catalogue
and whose accumulated distance is not zero, the built graph has an edge from the riding vertex
of the first stop to the waiting vertex of the second, weighted by `CalculateTime` of the
accumulated distance and tagged with the bus name and the span count of the pair. -/
theorem pair_edge (catalogue : TransportCatalogue) (settings : RoutingSettings) (bus : Bus)
    (hmem : bus ∈ catalogue.buses_) (i j : Nat) (hp : (i, j) ∈ AddEdgesForBus.pairs bus)
    (hi : bus.stops.getD i "" ∈ catalogue.stops_.map Stop.name)
    (hj : bus.stops.getD j "" ∈ catalogue.stops_.map Stop.name)
    (hD : AddEdgesForBus.distance catalogue bus i j ≠ 0) :
    ∃ e from_vertex to_vertex : Nat,
      catalogue.stops_.length ≤ e ∧
      mapFind ((configured settings).BuildGraph catalogue).stop_to_bus_vertex_
        (bus.stops.getD i "") = some from_vertex ∧
      mapFind ((configured settings).BuildGraph catalogue).stop_to_wait_vertex_
        (bus.stops.getD j "") = some to_vertex ∧
      ((configured settings).BuildGraph catalogue).graph_.edges_[e]? =
        some ⟨from_vertex, to_vertex,
          ((configured settings).BuildGraph catalogue).CalculateTime
            (AddEdgesForBus.distance catalogue bus i j)⟩ ∧
      mapFind ((configured settings).BuildGraph catalogue).edge_to_bus_ e = some bus.name ∧
      mapFind ((configured settings).BuildGraph catalogue).edge_to_span_count_ e =
        some (AddEdgesForBus.span i j) := by
  obtain ⟨vi, _, _, hfrom⟩ := known_vertices catalogue settings _ hi
  obtain ⟨vj, _, hto, _⟩ := known_vertices catalogue settings _ hj
  have hride := (ride_eq_some catalogue ((configured settings).BuildGraph catalogue) bus (i, j)
    _).2 ⟨vi + 1, vj, hfrom, hto, hD, rfl⟩
  obtain ⟨e, hle, h1, h2, h3⟩ :=
    ride_mem_BuildGraph catalogue (configured settings) rfl rfl rfl bus hmem (i, j) hp _ hride
  exact ⟨e, vi + 1, vj, hle, hfrom, hto, h1, h2, h3⟩

end TransportRouter

namespace TransportRouter

open graph

/-! ### C21: one ride edge per forward position pair -/

/-- C21 (amended): for every catalogue in which no stored distance is negative, every routing
settings, every bus of the catalogue whose stops are all stops of the catalogue, and every pair
of positions `i < j` of its stop sequence for which
`D(i, j) = sum over k = i .. j - 1 of GetRoadDistanceBidirectional(s_k, s_{k+1})` is not zero
and is at most `2 ^ 31 - 1`, so that the `int` the builder accumulates it in holds it:
the graph a configured router builds has an edge from the riding vertex of `s_i` to the waiting
vertex of `s_j` whose weight is `CalculateTime(D(i, j))` and which is tagged with the name of
the bus and the span count `j - i`; one edge for the pair. `CalculateTime(D)` is
`D / (bus_velocity * 1000 / 60)` when `bus_velocity` is positive and `0` otherwise. -/
theorem BuildGraph_forward_pair_edge (catalogue : TransportCatalogue)
    (settings : RoutingSettings) (hnonneg : catalogue.DistancesNonneg) (bus : Bus)
    (hmem : bus ∈ catalogue.buses_)
    (hknown : ∀ name ∈ bus.stops, name ∈ catalogue.stops_.map Stop.name)
    (i j : Nat) (hij : i < j) (hj : j < bus.stops.length)
    (hD : Spec.spanDistance catalogue bus.stops i j ≠ 0)
    (hfit : Spec.spanDistance catalogue bus.stops i j ≤ 2147483647) :
    (∃ e from_vertex to_vertex : Nat,
      mapFind ((configured settings).BuildGraph catalogue).stop_to_bus_vertex_
        (bus.stops.getD i "") = some from_vertex ∧
      mapFind ((configured settings).BuildGraph catalogue).stop_to_wait_vertex_
        (bus.stops.getD j "") = some to_vertex ∧
      ((configured settings).BuildGraph catalogue).graph_.edges_[e]? =
        some ⟨from_vertex, to_vertex,
          ((configured settings).BuildGraph catalogue).CalculateTime
            (Spec.spanDistance catalogue bus.stops i j)⟩ ∧
      mapFind ((configured settings).BuildGraph catalogue).edge_to_bus_ e = some bus.name ∧
      mapFind ((configured settings).BuildGraph catalogue).edge_to_span_count_ e =
        some ((j - i : Nat) : Int)) ∧
      (0 < settings.bus_velocity →
        ((configured settings).BuildGraph catalogue).CalculateTime
            (Spec.spanDistance catalogue bus.stops i j) =
          (Spec.spanDistance catalogue bus.stops i j : ℚ) / (settings.bus_velocity * 1000 / 60)) ∧
      (settings.bus_velocity ≤ 0 →
        ((configured settings).BuildGraph catalogue).CalculateTime
          (Spec.spanDistance catalogue bus.stops i j) = 0) := by
  obtain ⟨hset, _⟩ := BuildGraph_facts catalogue (configured settings) rfl rfl rfl
  have hset' : ((configured settings).BuildGraph catalogue).settings_ = settings := hset
  have hdist : AddEdgesForBus.distance catalogue bus i j =
      Spec.spanDistance catalogue bus.stops i j := by
    unfold AddEdgesForBus.distance
    rw [if_pos hij, forwardDistance_eq_spanDistance catalogue hnonneg bus i j hij hfit]
  have hspan : AddEdgesForBus.span i j = ((j - i : Nat) : Int) := by
    unfold AddEdgesForBus.span
    rw [if_pos hij]
  refine ⟨?_, ?_, ?_⟩
  · obtain ⟨e, f, t, _, h1, h2, h3, h4, h5⟩ :=
      pair_edge catalogue settings bus hmem i j
        ((mem_pairs bus i j).2 (Or.inl ⟨hij, hj⟩))
        (hknown _ (getD_mem_stops _ _ (by omega))) (hknown _ (getD_mem_stops _ _ hj))
        (by rw [hdist]; exact hD)
    rw [hdist] at h3
    rw [hspan] at h5
    exact ⟨e, f, t, h1, h2, h3, h4, h5⟩
  · intro hv
    rw [CalculateTime_of_pos _ (by rw [hset']; exact hv), hset']
  · intro hv
    exact CalculateTime_of_nonpos _ (by rw [hset']; exact hv) _

/-- The theorem for C21 applied to the routing scenario, positions `0` and `2` of the bus `B`:
the accumulated distance is `2400` and the graph has the edge from the riding vertex of `X` to
the waiting vertex of `Z`, tagged `B` with span count `2`. -/
theorem BuildGraph_forward_pair_edge_witness :
    Example.linear.DistancesNonneg ∧
      Spec.spanDistance Example.linear ["X", "Y", "Z"] 0 2 = 2400 ∧
      Spec.spanDistance Example.linear ["X", "Y", "Z"] 0 2 ≤ 2147483647 ∧
      ∃ e from_vertex to_vertex : Nat,
        mapFind ((configured { bus_wait_time := 6, bus_velocity := 40 }).BuildGraph
          Example.linear).stop_to_bus_vertex_ "X" = some from_vertex ∧
        mapFind ((configured { bus_wait_time := 6, bus_velocity := 40 }).BuildGraph
          Example.linear).stop_to_wait_vertex_ "Z" = some to_vertex ∧
        ((configured { bus_wait_time := 6, bus_velocity := 40 }).BuildGraph
          Example.linear).graph_.edges_[e]? =
          some ⟨from_vertex, to_vertex,
            ((configured { bus_wait_time := 6, bus_velocity := 40 }).BuildGraph
              Example.linear).CalculateTime 2400⟩ ∧
        mapFind ((configured { bus_wait_time := 6, bus_velocity := 40 }).BuildGraph
          Example.linear).edge_to_bus_ e = some "B" ∧
        mapFind ((configured { bus_wait_time := 6, bus_velocity := 40 }).BuildGraph
          Example.linear).edge_to_span_count_ e = some 2 :=
  ⟨by decide, by decide, by decide,
    (BuildGraph_forward_pair_edge Example.linear { bus_wait_time := 6, bus_velocity := 40 }
      (by decide) { name := "B", stops := ["X", "Y", "Z"], is_roundtrip := false } (by decide)
      (by decide) 0 2 (by decide) (by decide) (by decide) (by decide)).1⟩

end TransportRouter

namespace TransportRouter

open graph

/-- C21, counterexample. First input: `Example.cancelling`, with `A -> B = -5`, `B -> A = 7`,
`B -> C = 0`, `C -> B = 5` declared and the round-trip bus `K = [A, B, C]`, settings `6` and
`40`. For the positions `0 < 2` the sum of `GetRoadDistanceBidirectional` over the two hops is
`7 + 5 = 12` (and the sum of the entries chosen by presence is `-5 + 0 = -5`): not zero. The
builder accumulates `-5 + 5 = 0` and creates no edge for the pair: the graph has no edge from
vertex `1`, the riding vertex of `A`, to vertex `4`, the waiting vertex of `C`. Second input:
the routing scenario with `bus_velocity = -40`. For the positions `0 < 1` the sum is `1200`,
and every ride edge has weight `0`, the value `CalculateTime` returns for a velocity that is
not positive: no edge has weight `1200 / (-40 * 1000 / 60)`. Third input: `Example.lap`, with
no negative distance, the bus `L = [P, Q, R, S, T]` and settings `6` and `40`. For the
positions `0 < 4` the sum is `4 * 2 ^ 30 = 2 ^ 32`, not zero; the `int` of the builder holds
`0` after the four hops and the builder creates no edge for the pair: the graph has no edge
from vertex `1`, the riding vertex of `P`, to vertex `8`, the waiting vertex of `T`. -/
theorem forward_pair_edge_missing :
    ({ name := "K", stops := ["A", "B", "C"], is_roundtrip := true } : Bus) ∈
        Example.cancelling.buses_ ∧
      Example.cancelling.stops_.map Stop.name = ["A", "B", "C"] ∧
      Spec.spanDistance Example.cancelling ["A", "B", "C"] 0 2 = 12 ∧
      Spec.presenceFallback Example.cancelling 0 1 + Spec.presenceFallback Example.cancelling 1 2 =
        -5 ∧
      AddEdgesForBus.forwardDistance Example.cancelling
        { name := "K", stops := ["A", "B", "C"], is_roundtrip := true } 0 2 = 0 ∧
      mapFind ((configured { bus_wait_time := 6, bus_velocity := 40 }).BuildGraph
        Example.cancelling).stop_to_bus_vertex_ "A" = some 1 ∧
      mapFind ((configured { bus_wait_time := 6, bus_velocity := 40 }).BuildGraph
        Example.cancelling).stop_to_wait_vertex_ "C" = some 4 ∧
      ((configured { bus_wait_time := 6, bus_velocity := 40 }).BuildGraph
        Example.cancelling).graph_.edges_ =
          [⟨0, 1, 6⟩, ⟨2, 3, 6⟩, ⟨4, 5, 6⟩, ⟨1, 2, -3 / 400⟩, ⟨3, 4, 3 / 400⟩] ∧
      (∀ edge ∈ ((configured { bus_wait_time := 6, bus_velocity := 40 }).BuildGraph
        Example.cancelling).graph_.edges_, ¬ (edge.from_ = 1 ∧ edge.to_ = 4)) ∧
      ({ name := "B", stops := ["X", "Y", "Z"], is_roundtrip := false } : Bus) ∈
        Example.linear.buses_ ∧
      Example.linear.stops_.map Stop.name = ["X", "Y", "Z"] ∧
      Spec.spanDistance Example.linear ["X", "Y", "Z"] 0 1 = 1200 ∧
      ((configured { bus_wait_time := 6, bus_velocity := -40 }).BuildGraph
        Example.linear).graph_.edges_ =
          [⟨0, 1, 6⟩, ⟨2, 3, 6⟩, ⟨4, 5, 6⟩, ⟨1, 2, 0⟩, ⟨1, 4, 0⟩, ⟨3, 4, 0⟩, ⟨5, 2, 0⟩,
            ⟨5, 0, 0⟩, ⟨3, 0, 0⟩] ∧
      (∀ edge ∈ ((configured { bus_wait_time := 6, bus_velocity := -40 }).BuildGraph
        Example.linear).graph_.edges_,
          edge.weight ≠ ((1200 : Int) : ℚ) / (-40 * 1000 / 60)) ∧
      ({ name := "L", stops := ["P", "Q", "R", "S", "T"], is_roundtrip := false } : Bus) ∈
        Example.lap.buses_ ∧
      Example.lap.stops_.map Stop.name = ["P", "Q", "R", "S", "T"] ∧
      Example.lap.DistancesNonneg ∧
      Spec.spanDistance Example.lap ["P", "Q", "R", "S", "T"] 0 4 = 4294967296 ∧
      AddEdgesForBus.forwardDistance Example.lap
        { name := "L", stops := ["P", "Q", "R", "S", "T"], is_roundtrip := false } 0 4 = 0 ∧
      mapFind ((configured { bus_wait_time := 6, bus_velocity := 40 }).BuildGraph
        Example.lap).stop_to_bus_vertex_ "P" = some 1 ∧
      mapFind ((configured { bus_wait_time := 6, bus_velocity := 40 }).BuildGraph
        Example.lap).stop_to_wait_vertex_ "T" = some 8 ∧
      ∀ edge ∈ ((configured { bus_wait_time := 6, bus_velocity := 40 }).BuildGraph
        Example.lap).graph_.edges_, ¬ (edge.from_ = 1 ∧ edge.to_ = 8) := by
  have h3 : ∀ edge ∈ ((configured { bus_wait_time := 6, bus_velocity := 40 }).BuildGraph
      Example.lap).graph_.edges_, ¬ (edge.from_ = 1 ∧ edge.to_ = 8) := by
    decide
  have h1 : ((configured { bus_wait_time := 6, bus_velocity := 40 }).BuildGraph
      Example.cancelling).graph_.edges_ =
        [⟨0, 1, ((6 : Int) : ℚ)⟩, ⟨2, 3, ((6 : Int) : ℚ)⟩, ⟨4, 5, ((6 : Int) : ℚ)⟩,
          ⟨1, 2, (configured { bus_wait_time := 6, bus_velocity := 40 }).CalculateTime (-5)⟩,
          ⟨3, 4, (configured { bus_wait_time := 6, bus_velocity := 40 }).CalculateTime 5⟩] :=
    rfl
  have c1 : (configured { bus_wait_time := 6, bus_velocity := 40 }).CalculateTime (-5) =
      -3 / 400 := by
    norm_num [CalculateTime, configured, SetRoutingSettings, TransportRouter.new]
  have c1' : (configured { bus_wait_time := 6, bus_velocity := 40 }).CalculateTime 5 =
      3 / 400 := by
    norm_num [CalculateTime, configured, SetRoutingSettings, TransportRouter.new]
  have h2 : ((configured { bus_wait_time := 6, bus_velocity := -40 }).BuildGraph
      Example.linear).graph_.edges_ =
        [⟨0, 1, ((6 : Int) : ℚ)⟩, ⟨2, 3, ((6 : Int) : ℚ)⟩, ⟨4, 5, ((6 : Int) : ℚ)⟩,
          ⟨1, 2, (configured { bus_wait_time := 6, bus_velocity := -40 }).CalculateTime 1200⟩,
          ⟨1, 4, (configured { bus_wait_time := 6, bus_velocity := -40 }).CalculateTime 2400⟩,
          ⟨3, 4, (configured { bus_wait_time := 6, bus_velocity := -40 }).CalculateTime 1200⟩,
          ⟨5, 2, (configured { bus_wait_time := 6, bus_velocity := -40 }).CalculateTime 1200⟩,
          ⟨5, 0, (configured { bus_wait_time := 6, bus_velocity := -40 }).CalculateTime 2400⟩,
          ⟨3, 0, (configured { bus_wait_time := 6, bus_velocity := -40 }).CalculateTime 1200⟩] :=
    rfl
  have c2 : ∀ d : Int,
      (configured { bus_wait_time := 6, bus_velocity := -40 }).CalculateTime d = 0 := by
    intro d
    norm_num [CalculateTime, configured, SetRoutingSettings, TransportRouter.new]
  rw [h1, h2, c1, c1', c2, c2]
  refine ⟨by decide, by decide, by decide, by decide, by decide, rfl, rfl, by norm_num, ?_,
    by decide, by decide, by decide, by norm_num, ?_, by decide, by decide, by decide,
    by decide, by decide, rfl, rfl, h3⟩
  · intro edge hedge
    simp only [List.mem_cons, List.mem_singleton, List.not_mem_nil, or_false] at hedge
    rcases hedge with rfl | rfl | rfl | rfl | rfl <;> decide
  · intro edge hedge
    simp only [List.mem_cons, List.mem_singleton, List.not_mem_nil, or_false] at hedge
    rcases hedge with rfl | rfl | rfl | rfl | rfl | rfl | rfl | rfl | rfl <;> norm_num

end TransportRouter

namespace TransportRouter

open graph

/-! ### C22: the return leg, and round trips -/

/-- C22 (amended): for every catalogue, every routing settings and every bus of the catalogue
whose stops are all stops of the catalogue. If the bus is not a round trip, then for every pair
of positions `i > j` the `int` in which the builder accumulates the distance over the hops
`s_k -> s_{k-1}`, `k = i` down to `j + 1`, holds the sum of what the hops add reduced to the
range of `int`, which is the sum itself when the sum is a value of `int`; and when that `int`
is not zero, the graph a configured router builds has an edge from the riding vertex of `s_i`
to the waiting vertex of `s_j`, weighted by `CalculateTime` of it and tagged with the name of
the bus and the span count `i - j`. If the bus is a round trip, the position pairs
`AddEdgesForBus` goes through are exactly the pairs `i < j`, none with `i > j`, and the edges it
adds to any router are exactly the rides of these pairs, in order. -/
theorem BuildGraph_return_pair_edge (catalogue : TransportCatalogue)
    (settings : RoutingSettings) (bus : Bus) (hmem : bus ∈ catalogue.buses_)
    (hknown : ∀ name ∈ bus.stops, name ∈ catalogue.stops_.map Stop.name) :
    (bus.is_roundtrip = false → ∀ i j : Nat, j < i → i < bus.stops.length →
      AddEdgesForBus.backwardDistance catalogue bus i j =
          intWrap (Spec.backwardSum catalogue bus i j) ∧
        (fitsInt (Spec.backwardSum catalogue bus i j) →
          AddEdgesForBus.backwardDistance catalogue bus i j =
            Spec.backwardSum catalogue bus i j) ∧
        (AddEdgesForBus.backwardDistance catalogue bus i j ≠ 0 →
          ∃ e from_vertex to_vertex : Nat,
            mapFind ((configured settings).BuildGraph catalogue).stop_to_bus_vertex_
              (bus.stops.getD i "") = some from_vertex ∧
            mapFind ((configured settings).BuildGraph catalogue).stop_to_wait_vertex_
              (bus.stops.getD j "") = some to_vertex ∧
            ((configured settings).BuildGraph catalogue).graph_.edges_[e]? =
              some ⟨from_vertex, to_vertex,
                ((configured settings).BuildGraph catalogue).CalculateTime
                  (AddEdgesForBus.backwardDistance catalogue bus i j)⟩ ∧
            mapFind ((configured settings).BuildGraph catalogue).edge_to_bus_ e =
              some bus.name ∧
            mapFind ((configured settings).BuildGraph catalogue).edge_to_span_count_ e =
              some ((i - j : Nat) : Int))) ∧
      (bus.is_roundtrip = true →
        (∀ i j : Nat, (i, j) ∈ AddEdgesForBus.pairs bus ↔ i < j ∧ j < bus.stops.length) ∧
        ∀ r : TransportRouter,
          (AddEdgesForBus catalogue r bus).graph_.edges_ =
            r.graph_.edges_ ++
              ((AddEdgesForBus.forwardPairs bus.stops.length).filterMap
                (AddEdgesForBus.ride catalogue r bus)).map Ride.edge) := by
  constructor
  · intro hrt i j hji hi
    refine ⟨backwardDistance_eq_sum catalogue bus i j, ?_, ?_⟩
    · intro hfit
      rw [backwardDistance_eq_sum, intWrap_of_fits _ hfit]
    intro hD
    have hij : ¬ i < j := by omega
    have hdist : AddEdgesForBus.distance catalogue bus i j =
        AddEdgesForBus.backwardDistance catalogue bus i j := by
      unfold AddEdgesForBus.distance
      rw [if_neg hij]
    have hspan : AddEdgesForBus.span i j = ((i - j : Nat) : Int) := by
      unfold AddEdgesForBus.span
      rw [if_neg hij]
    obtain ⟨e, f, t, _, h1, h2, h3, h4, h5⟩ :=
      pair_edge catalogue settings bus hmem i j
        ((mem_pairs bus i j).2 (Or.inr ⟨hrt, hji, hi⟩))
        (hknown _ (getD_mem_stops _ _ hi)) (hknown _ (getD_mem_stops _ _ (by omega)))
        (by rw [hdist]; exact hD)
    rw [hdist] at h3
    rw [hspan] at h5
    exact ⟨e, f, t, h1, h2, h3, h4, h5⟩
  · intro hrt
    constructor
    · intro i j
      rw [mem_pairs]
      simp [hrt]
    · intro r
      rw [AddEdgesForBus_eq_rides]
      obtain ⟨_, _, _, _, _, _, h7, _⟩ := foldl_store (AddEdgesForBus.rides catalogue r bus) r
      rw [h7]
      unfold AddEdgesForBus.rides AddEdgesForBus.pairs
      simp [hrt]

/-- The theorem for C22 applied to the routing scenario, whose bus `B = [X, Y, Z]` is not a
round trip, at the positions `2 > 0`: the distance accumulated on the way back is `2400` and
the graph has the edge from the riding vertex of `Z` to the waiting vertex of `X`, tagged `B`
with span count `2`. Applied to the round-trip bus `N = [A, B]` of `Example.negativeForward`:
its only position pair is `(0, 1)`. -/
theorem BuildGraph_return_pair_edge_witness :
    AddEdgesForBus.backwardDistance Example.linear
        { name := "B", stops := ["X", "Y", "Z"], is_roundtrip := false } 2 0 = 2400 ∧
      Spec.backwardSum Example.linear
        { name := "B", stops := ["X", "Y", "Z"], is_roundtrip := false } 2 0 = 2400 ∧
      (∃ e from_vertex to_vertex : Nat,
        mapFind ((configured { bus_wait_time := 6, bus_velocity := 40 }).BuildGraph
          Example.linear).stop_to_bus_vertex_ "Z" = some from_vertex ∧
        mapFind ((configured { bus_wait_time := 6, bus_velocity := 40 }).BuildGraph
          Example.linear).stop_to_wait_vertex_ "X" = some to_vertex ∧
        ((configured { bus_wait_time := 6, bus_velocity := 40 }).BuildGraph
          Example.linear).graph_.edges_[e]? =
          some ⟨from_vertex, to_vertex,
            ((configured { bus_wait_time := 6, bus_velocity := 40 }).BuildGraph
              Example.linear).CalculateTime 2400⟩ ∧
        mapFind ((configured { bus_wait_time := 6, bus_velocity := 40 }).BuildGraph
          Example.linear).edge_to_bus_ e = some "B" ∧
        mapFind ((configured { bus_wait_time := 6, bus_velocity := 40 }).BuildGraph
          Example.linear).edge_to_span_count_ e = some 2) ∧
      ∀ i j : Nat,
        (i, j) ∈ AddEdgesForBus.pairs { name := "N", stops := ["A", "B"], is_roundtrip := true } ↔
          i < j ∧ j < 2 :=
  ⟨by decide, by decide,
    ((BuildGraph_return_pair_edge Example.linear { bus_wait_time := 6, bus_velocity := 40 }
      { name := "B", stops := ["X", "Y", "Z"], is_roundtrip := false } (by decide)
      (by decide)).1 rfl 2 0 (by decide) (by decide)).2.2 (by decide),
    ((BuildGraph_return_pair_edge Example.negativeForward
      { bus_wait_time := 6, bus_velocity := 40 }
      { name := "N", stops := ["A", "B"], is_roundtrip := true } (by decide)
      (by decide)).2 rfl).1⟩

/-- C22, counterexample: `Example.lap` has the stops `P`, `Q`, `R`, `S`, `T`, the distance
`2 ^ 30` declared for each of `P -> Q`, `Q -> R`, `R -> S`, `S -> T`, and the bus
`L = [P, Q, R, S, T]`, not round-trip, whose stops are all known. For the positions `4 > 0` the
four hops `T -> S`, `S -> R`, `R -> Q`, `Q -> P` add `2 ^ 30` each, the distance declared for
the opposite direction: their sum is `2 ^ 32`, not zero. The `int` of the builder holds `0`
after them, and the graph built with wait time `6` and velocity `40` has no edge from vertex
`9`, the riding vertex of `T`, to vertex `0`, the waiting vertex of `P`. -/
theorem return_pair_edge_missing :
    ({ name := "L", stops := ["P", "Q", "R", "S", "T"], is_roundtrip := false } : Bus) ∈
        Example.lap.buses_ ∧
      Example.lap.stops_.map Stop.name = ["P", "Q", "R", "S", "T"] ∧
      AddEdgesForBus.hop Example.lap 0 "T" "S" = 1073741824 ∧
      AddEdgesForBus.hop Example.lap 0 "S" "R" = 1073741824 ∧
      AddEdgesForBus.hop Example.lap 0 "R" "Q" = 1073741824 ∧
      AddEdgesForBus.hop Example.lap 0 "Q" "P" = 1073741824 ∧
      Spec.backwardSum Example.lap
        { name := "L", stops := ["P", "Q", "R", "S", "T"], is_roundtrip := false } 4 0 =
          4294967296 ∧
      AddEdgesForBus.backwardDistance Example.lap
        { name := "L", stops := ["P", "Q", "R", "S", "T"], is_roundtrip := false } 4 0 = 0 ∧
      mapFind ((configured { bus_wait_time := 6, bus_velocity := 40 }).BuildGraph
        Example.lap).stop_to_bus_vertex_ "T" = some 9 ∧
      mapFind ((configured { bus_wait_time := 6, bus_velocity := 40 }).BuildGraph
        Example.lap).stop_to_wait_vertex_ "P" = some 0 ∧
      ∀ edge ∈ ((configured { bus_wait_time := 6, bus_velocity := 40 }).BuildGraph
        Example.lap).graph_.edges_, ¬ (edge.from_ = 9 ∧ edge.to_ = 0) := by
  refine ⟨by decide, by decide, by decide, by decide, by decide, by decide, by decide,
    by decide, rfl, rfl, by decide⟩

end TransportRouter

/-! ## The vertex layout -/

namespace TransportRouter

open graph

/-- In a list without duplicates, an element sits at one position only. -/
theorem getElem?_inj_of_nodup {α : Type} {l : List α} (h : l.Nodup) {i j : Nat} {a : α}
    (hi : l[i]? = some a) (hj : l[j]? = some a) : i = j := by
  obtain ⟨hi', hia⟩ := List.getElem?_eq_some.1 hi
  obtain ⟨hj', hja⟩ := List.getElem?_eq_some.1 hj
  exact (h.getElem_inj_iff).1 (hia.trans hja.symm)

/-- The keys of `vertex_to_stop_` in the graph a configured router builds are vertex ids of
the graph. -/
theorem vertex_to_stop_bound (catalogue : TransportCatalogue) (settings : RoutingSettings)
    (v : Nat) (h : catalogue.stops_.length * 2 ≤ v) :
    mapFind ((configured settings).BuildGraph catalogue).vertex_to_stop_ v = none := by
  have hS := loops_bounds catalogue
    { configured settings with
      graph_ := { vertex_count := catalogue.stops_.length * 2, edges_ := [] } }
    rfl rfl rfl rfl rfl rfl
  rw [BuildGraph_eq catalogue (configured settings) rfl]
  exact hS.2.1 v h

/-- C23: for every catalogue whose stops have pairwise distinct names and every routing
settings, the graph a configured router builds over the `n` stops has `2 n` vertices, and for
every index `i < n`: the name of the stop at index `i` is mapped to the waiting vertex `2 i` and
to the riding vertex `2 i + 1`, `vertex_to_stop_` maps both vertices back to that name, the edge
with id `i` goes from `2 i` to `2 i + 1` with weight `bus_wait_time`, and it is the only edge
that leaves vertex `2 i`. The vertex maps hold nothing else: every entry of
`stop_to_wait_vertex_` and of `vertex_to_stop_` is one of these. -/
theorem BuildGraph_vertex_layout (catalogue : TransportCatalogue) (settings : RoutingSettings)
    (hdistinct : (catalogue.stops_.map Stop.name).Nodup) :
    ((configured settings).BuildGraph catalogue).graph_.vertex_count =
        catalogue.stops_.length * 2 ∧
      (∀ (i : Nat) (stop : Stop), catalogue.stops_[i]? = some stop →
        mapFind ((configured settings).BuildGraph catalogue).stop_to_wait_vertex_ stop.name =
            some (i * 2) ∧
          mapFind ((configured settings).BuildGraph catalogue).stop_to_bus_vertex_ stop.name =
            some (i * 2 + 1) ∧
          mapFind ((configured settings).BuildGraph catalogue).vertex_to_stop_ (i * 2) =
            some stop.name ∧
          mapFind ((configured settings).BuildGraph catalogue).vertex_to_stop_ (i * 2 + 1) =
            some stop.name ∧
          ((configured settings).BuildGraph catalogue).graph_.edges_[i]? =
            some ⟨i * 2, i * 2 + 1, (settings.bus_wait_time : ℚ)⟩ ∧
          ∀ (e : Nat) (edge : Edge),
            ((configured settings).BuildGraph catalogue).graph_.edges_[e]? = some edge →
              edge.from_ = i * 2 → e = i) ∧
      (∀ (name : String) (v : Nat),
        mapFind ((configured settings).BuildGraph catalogue).stop_to_wait_vertex_ name = some v →
          ∃ (i : Nat) (stop : Stop),
            catalogue.stops_[i]? = some stop ∧ stop.name = name ∧ v = i * 2) ∧
      ∀ (v : Nat) (name : String),
        mapFind ((configured settings).BuildGraph catalogue).vertex_to_stop_ v = some name →
          ∃ (i : Nat) (stop : Stop),
            catalogue.stops_[i]? = some stop ∧ stop.name = name ∧ (v = i * 2 ∨ v = i * 2 + 1) := by
  obtain ⟨hset, hwait, htag, hsound, hiff, _⟩ :=
    BuildGraph_facts catalogue (configured settings) rfl rfl rfl
  obtain ⟨hcount, hpair, hvts, _, _⟩ := BuildGraph_rides catalogue (configured settings) rfl rfl rfl
  have hset' : ((configured settings).BuildGraph catalogue).settings_ = settings := hset
  refine ⟨hcount, ?_, hsound, ?_⟩
  · intro i stop hi
    have hname : (catalogue.stops_.map Stop.name)[i]? = some stop.name := by
      rw [List.getElem?_map, hi]
      rfl
    have hmem : stop.name ∈ catalogue.stops_.map Stop.name :=
      List.mem_iff_getElem?.2 ⟨i, hname⟩
    obtain ⟨v, hv⟩ := Option.isSome_iff_exists.1 ((hiff stop.name).2 hmem)
    obtain ⟨i', stop', hi', hname', hvi⟩ := hsound stop.name v hv
    have hname'' : (catalogue.stops_.map Stop.name)[i']? = some stop.name := by
      rw [List.getElem?_map, hi', ← hname']
      rfl
    have hii : i' = i := getElem?_inj_of_nodup hdistinct hname'' hname
    subst hii
    subst hvi
    obtain ⟨hedge, hback⟩ := hwait i' stop hi
    rw [hset'] at hedge
    refine ⟨hv, ?_, hback, hvts i' stop hi, hedge, ?_⟩
    · rw [hpair, hv]
      rfl
    · intro e edge he hfrom
      by_cases hlt : e < catalogue.stops_.length
      · obtain ⟨hedge', _⟩ := hwait e _ (List.getElem?_eq_getElem hlt)
        rw [he] at hedge'
        have h1 : edge.from_ = e * 2 := by
          rw [Option.some.inj hedge']
        have h2 : e * 2 = i' * 2 := h1.symm.trans hfrom
        omega
      · obtain ⟨hodd, _, _⟩ := htag e edge (not_lt.1 hlt) he
        rw [hfrom] at hodd
        have h3 : (i' * 2 : Nat) % 2 = 1 := hodd
        omega
  · intro v name hv
    have hlt : v < catalogue.stops_.length * 2 := by
      by_contra hc
      rw [vertex_to_stop_bound catalogue settings v (not_lt.1 hc)] at hv
      cases hv
    have hidx : v / 2 < catalogue.stops_.length := by omega
    refine ⟨v / 2, catalogue.stops_[v / 2], List.getElem?_eq_getElem hidx, ?_, by omega⟩
    obtain ⟨_, hback⟩ := hwait (v / 2) _ (List.getElem?_eq_getElem hidx)
    have hback' := hvts (v / 2) _ (List.getElem?_eq_getElem hidx)
    rcases Nat.mod_two_eq_zero_or_one v with h0 | h1
    · have hv2 : v / 2 * 2 = v := by omega
      rw [hv2, hv] at hback
      exact (Option.some.inj hback).symm
    · have hv2 : v / 2 * 2 + 1 = v := by omega
      rw [hv2, hv] at hback'
      exact (Option.some.inj hback').symm

/-- The theorem for C23 applied to the routing scenario and its stop `Y` at index `1`: the
graph has `6` vertices, `Y` has the waiting vertex `2` and the riding vertex `3`, and edge `1`
goes from `2` to `3` with weight `6`. -/
theorem BuildGraph_vertex_layout_witness :
    (Example.linear.stops_.map Stop.name).Nodup ∧
      Example.linear.stops_[1]? = some { name := "Y" } ∧
      ((configured { bus_wait_time := 6, bus_velocity := 40 }).BuildGraph
        Example.linear).graph_.vertex_count = 3 * 2 ∧
      mapFind ((configured { bus_wait_time := 6, bus_velocity := 40 }).BuildGraph
        Example.linear).stop_to_wait_vertex_ "Y" = some 2 ∧
      mapFind ((configured { bus_wait_time := 6, bus_velocity := 40 }).BuildGraph
        Example.linear).stop_to_bus_vertex_ "Y" = some 3 ∧
      ((configured { bus_wait_time := 6, bus_velocity := 40 }).BuildGraph
        Example.linear).graph_.edges_[1]? = some ⟨2, 3, ((6 : Int) : ℚ)⟩ :=
  ⟨by decide, rfl,
    (BuildGraph_vertex_layout Example.linear { bus_wait_time := 6, bus_velocity := 40 }
      (by decide)).1,
    ((BuildGraph_vertex_layout Example.linear { bus_wait_time := 6, bus_velocity := 40 }
      (by decide)).2.1 1 { name := "Y" } rfl).1,
    ((BuildGraph_vertex_layout Example.linear { bus_wait_time := 6, bus_velocity := 40 }
      (by decide)).2.1 1 { name := "Y" } rfl).2.1,
    ((BuildGraph_vertex_layout Example.linear { bus_wait_time := 6, bus_velocity := 40 }
      (by decide)).2.1 1 { name := "Y" } rfl).2.2.2.2.1⟩

end TransportRouter

/-! ## The wait-edge test of `ReconstructRoute` -/

namespace TransportRouter

open graph

/-- C30: in the graph a configured router builds over a catalogue with `n` stops, for every
edge id `e` of the graph: the test `ReconstructRoute` uses to recognise a wait edge,
`edge.to == edge.from + 1 && edge.from % 2 == 0`, holds for the edge if and only if `e < n`,
that is if and only if the edge is one of the `n` wait edges; an edge with `e >= n` has both a
bus name and a span count recorded; so the loop body of `ReconstructRoute` appends exactly one
item for the edge, a `Wait` item if and only if `e < n` and a `Bus` item otherwise. The names of
the stops need not be distinct. -/
theorem wait_edge_test_iff (catalogue : TransportCatalogue) (settings : RoutingSettings)
    (e : Nat) (edge : Edge)
    (he : ((configured settings).BuildGraph catalogue).graph_.edges_[e]? = some edge) :
    ((edge.to_ = edge.from_ + 1 ∧ edge.from_ % 2 = 0) ↔ e < catalogue.stops_.length) ∧
      (catalogue.stops_.length ≤ e →
        (mapFind ((configured settings).BuildGraph catalogue).edge_to_bus_ e).isSome ∧
          (mapFind ((configured settings).BuildGraph catalogue).edge_to_span_count_ e).isSome) ∧
      (∀ items : List RouteItem,
        ReconstructRoute.visit ((configured settings).BuildGraph catalogue) items e =
          .ok (items ++
            [Spec.itemOfEdge catalogue ((configured settings).BuildGraph catalogue) e])) ∧
      ((Spec.itemOfEdge catalogue ((configured settings).BuildGraph catalogue) e).type = .Wait ↔
        e < catalogue.stops_.length) ∧
      ((Spec.itemOfEdge catalogue ((configured settings).BuildGraph catalogue) e).type = .Bus ↔
        catalogue.stops_.length ≤ e) := by
  obtain ⟨_, hwait, htag, _, _, _⟩ := BuildGraph_facts catalogue (configured settings) rfl rfl rfl
  have helt : e < ((configured settings).BuildGraph catalogue).graph_.edges_.length := by
    by_contra hc
    rw [List.getElem?_eq_none (not_lt.1 hc)] at he
    cases he
  refine ⟨?_, ?_, fun items => visit_eq catalogue _ hwait htag items e helt, ?_, ?_⟩
  · by_cases hlt : e < catalogue.stops_.length
    · obtain ⟨hedge, _⟩ := hwait e _ (List.getElem?_eq_getElem hlt)
      rw [he] at hedge
      have hval : edge = ⟨e * 2, e * 2 + 1,
          (((configured settings).BuildGraph catalogue).settings_.bus_wait_time : ℚ)⟩ :=
        Option.some.inj hedge
      simp only [hlt, iff_true]
      rw [hval]
      refine ⟨rfl, ?_⟩
      show (e * 2 : Nat) % 2 = 0
      omega
    · obtain ⟨hodd, _, _⟩ := htag e edge (not_lt.1 hlt) he
      simp only [hlt, iff_false]
      intro h
      exact absurd (hodd.symm.trans h.2) (by decide)
  · intro hle
    obtain ⟨_, hb, hc⟩ := htag e edge hle he
    exact ⟨hb, hc⟩
  · unfold Spec.itemOfEdge
    by_cases hlt : e < catalogue.stops_.length
    · simp [hlt]
    · simp [hlt]
  · unfold Spec.itemOfEdge
    by_cases hlt : e < catalogue.stops_.length
    · simp [hlt]
    · simp [hlt, not_lt.1 hlt]

/-- The theorem for C30 applied to the routing scenario, whose graph has three wait edges: the
test holds for edge `0`, the wait edge of `X`, and fails for edge `4`, the ride edge from the
riding vertex of `X` to the waiting vertex of `Z`, which has both tags. -/
theorem wait_edge_test_iff_witness :
    ((configured { bus_wait_time := 6, bus_velocity := 40 }).BuildGraph
        Example.linear).graph_.edges_[0]? = some ⟨0, 1, ((6 : Int) : ℚ)⟩ ∧
      (((1 : Nat) = 0 + 1 ∧ (0 : Nat) % 2 = 0) ↔ 0 < Example.linear.stops_.length) ∧
      ((configured { bus_wait_time := 6, bus_velocity := 40 }).BuildGraph
        Example.linear).graph_.edges_[4]? =
          some ⟨1, 4, (configured { bus_wait_time := 6, bus_velocity := 40 }).CalculateTime
            2400⟩ ∧
      (((4 : Nat) = 1 + 1 ∧ (1 : Nat) % 2 = 0) ↔ 4 < Example.linear.stops_.length) ∧
      (mapFind ((configured { bus_wait_time := 6, bus_velocity := 40 }).BuildGraph
        Example.linear).edge_to_bus_ 4).isSome ∧
      (mapFind ((configured { bus_wait_time := 6, bus_velocity := 40 }).BuildGraph
        Example.linear).edge_to_span_count_ 4).isSome :=
  ⟨rfl,
    (wait_edge_test_iff Example.linear { bus_wait_time := 6, bus_velocity := 40 } 0
      ⟨0, 1, ((6 : Int) : ℚ)⟩ rfl).1,
    rfl,
    (wait_edge_test_iff Example.linear { bus_wait_time := 6, bus_velocity := 40 } 4
      ⟨1, 4, (configured { bus_wait_time := 6, bus_velocity := 40 }).CalculateTime 2400⟩
      rfl).1,
    ((wait_edge_test_iff Example.linear { bus_wait_time := 6, bus_velocity := 40 } 4
      ⟨1, 4, (configured { bus_wait_time := 6, bus_velocity := 40 }).CalculateTime 2400⟩
      rfl).2.1 (by decide)).1,
    ((wait_edge_test_iff Example.linear { bus_wait_time := 6, bus_velocity := 40 } 4
      ⟨1, 4, (configured { bus_wait_time := 6, bus_velocity := 40 }).CalculateTime 2400⟩
      rfl).2.1 (by decide)).2⟩

end TransportRouter

/-! ## Where a ride edge comes from -/

namespace TransportRouter

open graph

/-- Every edge of the built graph past the wait edges was stored for a position pair of a bus
of the catalogue: it joins the riding vertex of the first stop of the pair to the waiting vertex
of the second, the accumulated distance of the pair is not zero and gives the weight, and the
edge is tagged with the name of the bus and the span count of the pair. -/
theorem ride_edge_origin (catalogue : TransportCatalogue) (settings : RoutingSettings)
    (e : Nat) (edge : Edge) (hle : catalogue.stops_.length ≤ e)
    (he : ((configured settings).BuildGraph catalogue).graph_.edges_[e]? = some edge) :
    ∃ bus ∈ catalogue.buses_, ∃ i j : Nat, (i, j) ∈ AddEdgesForBus.pairs bus ∧
      mapFind ((configured settings).BuildGraph catalogue).stop_to_bus_vertex_
        (bus.stops.getD i "") = some edge.from_ ∧
      mapFind ((configured settings).BuildGraph catalogue).stop_to_wait_vertex_
        (bus.stops.getD j "") = some edge.to_ ∧
      AddEdgesForBus.distance catalogue bus i j ≠ 0 ∧
      edge.weight = ((configured settings).BuildGraph catalogue).CalculateTime
        (AddEdgesForBus.distance catalogue bus i j) ∧
      mapFind ((configured settings).BuildGraph catalogue).edge_to_bus_ e = some bus.name ∧
      mapFind ((configured settings).BuildGraph catalogue).edge_to_span_count_ e =
        some (AddEdgesForBus.span i j) := by
  obtain ⟨bus, hmem, p, hp, x, hx, hxe, h2, h3⟩ :=
    ride_of_BuildGraph_edge catalogue (configured settings) rfl rfl rfl e edge hle he
  obtain ⟨f, t, hf, ht, hD, hval⟩ := (ride_eq_some catalogue _ bus p x).1 hx
  subst hval
  subst hxe
  exact ⟨bus, hmem, p.1, p.2, hp, hf, ht, hD, rfl, h2, h3⟩

/-- The span count of a position pair of a bus is at least `1` and at most the length of the
stop sequence minus `1`. -/
theorem span_bounds (bus : Bus) (i j : Nat) (h : (i, j) ∈ AddEdgesForBus.pairs bus) :
    1 ≤ AddEdgesForBus.span i j ∧ AddEdgesForBus.span i j ≤ (bus.stops.length : Int) - 1 := by
  unfold AddEdgesForBus.span
  rcases (mem_pairs bus i j).1 h with ⟨h1, h2⟩ | ⟨_, h1, h2⟩
  · rw [if_pos h1]
    omega
  · rw [if_neg (by omega)]
    omega

/-! ### C27: the shape of a ride edge -/

/-- C27: in the graph a configured router builds over a catalogue with `n` stops (distinctly
named or not), the edges with ids below `n` are the wait edges, and every other edge goes from a
vertex with an odd id, a riding vertex, to a vertex with an even id, a waiting vertex, and has a
bus name and a span count recorded for its edge id: the name is that of a bus of the catalogue
and the span count is at least `1` and at most the length of the stop sequence of that bus
minus `1`. -/
theorem ride_edge_shape (catalogue : TransportCatalogue) (settings : RoutingSettings) :
    (∀ (i : Nat) (stop : Stop), catalogue.stops_[i]? = some stop →
      ((configured settings).BuildGraph catalogue).graph_.edges_[i]? =
        some ⟨i * 2, i * 2 + 1, (settings.bus_wait_time : ℚ)⟩) ∧
      ∀ (e : Nat) (edge : Edge), catalogue.stops_.length ≤ e →
        ((configured settings).BuildGraph catalogue).graph_.edges_[e]? = some edge →
        edge.from_ % 2 = 1 ∧ edge.to_ % 2 = 0 ∧
          ∃ bus ∈ catalogue.buses_,
            mapFind ((configured settings).BuildGraph catalogue).edge_to_bus_ e =
              some bus.name ∧
            ∃ span_count : Int,
              mapFind ((configured settings).BuildGraph catalogue).edge_to_span_count_ e =
                some span_count ∧
              1 ≤ span_count ∧ span_count ≤ (bus.stops.length : Int) - 1 := by
  obtain ⟨hset, hwait, htag, hsound, _, _⟩ :=
    BuildGraph_facts catalogue (configured settings) rfl rfl rfl
  have hset' : ((configured settings).BuildGraph catalogue).settings_ = settings := hset
  constructor
  · intro i stop hi
    obtain ⟨hedge, _⟩ := hwait i stop hi
    rw [hset'] at hedge
    exact hedge
  · intro e edge hle he
    obtain ⟨hodd, _, _⟩ := htag e edge hle he
    obtain ⟨bus, hmem, i, j, hp, _, hto, _, _, hb, hs⟩ :=
      ride_edge_origin catalogue settings e edge hle he
    obtain ⟨k, _, _, _, hk⟩ := hsound _ _ hto
    obtain ⟨s1, s2⟩ := span_bounds bus i j hp
    refine ⟨hodd, ?_, bus, hmem, hb, _, hs, s1, s2⟩
    rw [hk]
    show (k * 2 : Nat) % 2 = 0
    omega

/-- The theorem for C27 applied to the routing scenario and its edge `7`, the ride from `Z`
back to `X`: it goes from vertex `5` to vertex `0` and is tagged with a bus of the catalogue
and a span count between `1` and the length of its stop sequence minus `1`. -/
theorem ride_edge_shape_witness :
    Example.linear.stops_.length ≤ 7 ∧
      ((configured { bus_wait_time := 6, bus_velocity := 40 }).BuildGraph
        Example.linear).graph_.edges_[7]? =
          some ⟨5, 0, (configured { bus_wait_time := 6, bus_velocity := 40 }).CalculateTime
            2400⟩ ∧
      ((5 : Nat) % 2 = 1 ∧ (0 : Nat) % 2 = 0 ∧
        ∃ bus ∈ Example.linear.buses_,
          mapFind ((configured { bus_wait_time := 6, bus_velocity := 40 }).BuildGraph
            Example.linear).edge_to_bus_ 7 = some bus.name ∧
          ∃ span_count : Int,
            mapFind ((configured { bus_wait_time := 6, bus_velocity := 40 }).BuildGraph
              Example.linear).edge_to_span_count_ 7 = some span_count ∧
            1 ≤ span_count ∧ span_count ≤ (bus.stops.length : Int) - 1) :=
  ⟨by decide, rfl,
    (ride_edge_shape Example.linear { bus_wait_time := 6, bus_velocity := 40 }).2 7
      ⟨5, 0, (configured { bus_wait_time := 6, bus_velocity := 40 }).CalculateTime 2400⟩
      (by decide) rfl⟩

end TransportRouter

/-! ## Pairs with zero accumulated distance -/

namespace TransportRouter

open graph

/-- A position pair whose accumulated distance is zero has no ride. -/
theorem ride_of_distance_zero (catalogue : TransportCatalogue) (r : TransportRouter) (bus : Bus)
    (p : Nat × Nat) (h : AddEdgesForBus.distance catalogue bus p.1 p.2 = 0) :
    AddEdgesForBus.ride catalogue r bus p = none := by
  cases hr : AddEdgesForBus.ride catalogue r bus p with
  | none => rfl
  | some x =>
    obtain ⟨_, _, _, _, hD, _⟩ := (ride_eq_some catalogue r bus p x).1 hr
    exact absurd h hD

/-- A hop that adds nothing in one direction adds nothing in the other. -/
theorem hop_zero_symm (catalogue : TransportCatalogue) (a b : String)
    (h : AddEdgesForBus.hop catalogue 0 a b = 0) : AddEdgesForBus.hop catalogue 0 b a = 0 := by
  cases hp : catalogue.FindStop a with
  | none => exact hop_unknown _ _ _ _ (Or.inr hp)
  | some p =>
    cases hq : catalogue.FindStop b with
    | none => exact hop_unknown _ _ _ _ (Or.inl hq)
    | some q =>
      rw [hop_known _ _ _ _ p q hp hq] at h
      rw [hop_known _ _ _ _ q p hq hp]
      generalize catalogue.GetRoadDistance (some p) (some q) = x at h
      generalize catalogue.GetRoadDistance (some q) (some p) = y at h
      split_ifs at h ⊢ <;> omega

/-- When every hop between neighbouring positions of a bus adds nothing, every position pair
has accumulated distance zero. -/
theorem distance_of_hops_zero (catalogue : TransportCatalogue) (bus : Bus)
    (h : ∀ k : Nat, k + 1 < bus.stops.length →
      AddEdgesForBus.hop catalogue 0 (bus.stops.getD k "") (bus.stops.getD (k + 1) "") = 0)
    (i j : Nat) (hp : (i, j) ∈ AddEdgesForBus.pairs bus) :
    AddEdgesForBus.distance catalogue bus i j = 0 := by
  unfold AddEdgesForBus.distance
  rcases (mem_pairs bus i j).1 hp with ⟨h1, h2⟩ | ⟨_, h1, h2⟩
  · have hsum : Spec.forwardSum catalogue bus i j = 0 := by
      unfold Spec.forwardSum
      apply List.sum_eq_zero
      intro x hx
      obtain ⟨k, hk, rfl⟩ := List.mem_map.1 hx
      rw [List.mem_range'_1] at hk
      exact h k (by omega)
    rw [if_pos h1, forwardDistance_eq_sum, hsum]
    rfl
  · rw [if_neg (by omega), backwardDistance_eq_sum]
    suffices hsum : Spec.backwardSum catalogue bus i j = 0 by
      rw [hsum]
      rfl
    unfold Spec.backwardSum
    apply List.sum_eq_zero
    intro x hx
    obtain ⟨k, hk, rfl⟩ := List.mem_map.1 hx
    rw [List.mem_range'_1] at hk
    apply hop_zero_symm
    have := h (k - 1) (by omega)
    rw [show k - 1 + 1 = k by omega] at this
    exact this

/-! ### C25: no edge for a span of zero distance -/

/-- C25: for every catalogue. A position pair of a traversal whose accumulated distance is zero
gets no edge: the body of the forward pair loop, and that of the return-leg pair loop, leaves
the router as it is. Every ride edge of the graph a configured router builds (an edge past the
wait edges) was stored for a position pair of a bus of the catalogue whose accumulated distance
is not zero, which gives its weight. A hop that resolves to zero leaves every total it is added
to unchanged. A bus whose hops between neighbouring positions all resolve to zero adds no edge:
`AddEdgesForBus` leaves the router as it is. -/
theorem zero_distance_no_edge (catalogue : TransportCatalogue) :
    (∀ (bus : Bus) (r : TransportRouter) (i j : Nat), i < j →
      AddEdgesForBus.forwardDistance catalogue bus i j = 0 →
        AddEdgesForBus.forwardPair catalogue bus r i j = r) ∧
      (∀ (bus : Bus) (r : TransportRouter) (i j : Nat), j < i →
        AddEdgesForBus.backwardDistance catalogue bus i j = 0 →
          AddEdgesForBus.backwardPair catalogue bus r i j = r) ∧
      (∀ (settings : RoutingSettings) (e : Nat) (edge : Edge), catalogue.stops_.length ≤ e →
        ((configured settings).BuildGraph catalogue).graph_.edges_[e]? = some edge →
        ∃ bus ∈ catalogue.buses_, ∃ i j : Nat, (i, j) ∈ AddEdgesForBus.pairs bus ∧
          AddEdgesForBus.distance catalogue bus i j ≠ 0 ∧
          edge.weight = ((configured settings).BuildGraph catalogue).CalculateTime
            (AddEdgesForBus.distance catalogue bus i j) ∧
          mapFind ((configured settings).BuildGraph catalogue).edge_to_bus_ e =
            some bus.name ∧
          mapFind ((configured settings).BuildGraph catalogue).edge_to_span_count_ e =
            some (AddEdgesForBus.span i j)) ∧
      (∀ (current_stop next_stop : String),
        AddEdgesForBus.hop catalogue 0 current_stop next_stop = 0 →
          ∀ total : Int, AddEdgesForBus.hop catalogue total current_stop next_stop = total) ∧
      ∀ (bus : Bus) (r : TransportRouter),
        (∀ k : Nat, k + 1 < bus.stops.length →
          AddEdgesForBus.hop catalogue 0 (bus.stops.getD k "") (bus.stops.getD (k + 1) "") = 0) →
        AddEdgesForBus catalogue r bus = r := by
  refine ⟨?_, ?_, ?_, ?_, ?_⟩
  · intro bus r i j hij hD
    rw [forwardPair_eq catalogue bus r i j hij, ride_of_distance_zero]
    unfold AddEdgesForBus.distance
    rw [if_pos hij]
    exact hD
  · intro bus r i j hji hD
    rw [backwardPair_eq catalogue bus r i j hji, ride_of_distance_zero]
    unfold AddEdgesForBus.distance
    rw [if_neg (by omega)]
    exact hD
  · intro settings e edge hle he
    obtain ⟨bus, hmem, i, j, hp, _, _, hD, hw, hb, hs⟩ :=
      ride_edge_origin catalogue settings e edge hle he
    exact ⟨bus, hmem, i, j, hp, hD, hw, hb, hs⟩
  · intro current_stop next_stop h total
    rw [hop_add, h, add_zero]
  · intro bus r h
    rw [AddEdgesForBus_eq_rides]
    have hnil : AddEdgesForBus.rides catalogue r bus = [] := by
      unfold AddEdgesForBus.rides
      rw [List.filterMap_eq_nil_iff]
      intro p hp
      exact ride_of_distance_zero catalogue r bus p
        (distance_of_hops_zero catalogue bus h p.1 p.2 hp)
    rw [hnil]
    rfl

/-- The theorem for C25 applied to `Example.twoStops`, where no distance is declared: the pair
`(0, 1)` of a bus `[A, B]` has accumulated distance zero and gets no edge, and the bus adds
nothing to a router. Applied to the routing scenario and its edge `4`: it was stored for a pair
whose accumulated distance is not zero. -/
theorem zero_distance_no_edge_witness :
    AddEdgesForBus.forwardDistance Example.twoStops { name := "U", stops := ["A", "B"] } 0 1 = 0 ∧
      AddEdgesForBus.forwardPair Example.twoStops { name := "U", stops := ["A", "B"] }
        (configured { bus_wait_time := 6, bus_velocity := 40 }) 0 1 =
          configured { bus_wait_time := 6, bus_velocity := 40 } ∧
      AddEdgesForBus Example.twoStops (configured { bus_wait_time := 6, bus_velocity := 40 })
        { name := "U", stops := ["A", "B"] } =
          configured { bus_wait_time := 6, bus_velocity := 40 } ∧
      ∃ bus ∈ Example.linear.buses_, ∃ i j : Nat, (i, j) ∈ AddEdgesForBus.pairs bus ∧
        AddEdgesForBus.distance Example.linear bus i j ≠ 0 ∧
        (configured { bus_wait_time := 6, bus_velocity := 40 }).CalculateTime 2400 =
          ((configured { bus_wait_time := 6, bus_velocity := 40 }).BuildGraph
            Example.linear).CalculateTime (AddEdgesForBus.distance Example.linear bus i j) ∧
        mapFind ((configured { bus_wait_time := 6, bus_velocity := 40 }).BuildGraph
          Example.linear).edge_to_bus_ 4 = some bus.name ∧
        mapFind ((configured { bus_wait_time := 6, bus_velocity := 40 }).BuildGraph
          Example.linear).edge_to_span_count_ 4 = some (AddEdgesForBus.span i j) :=
  ⟨by decide,
    (zero_distance_no_edge Example.twoStops).1 { name := "U", stops := ["A", "B"] }
      (configured { bus_wait_time := 6, bus_velocity := 40 }) 0 1 (by decide) (by decide),
    (zero_distance_no_edge Example.twoStops).2.2.2.2 { name := "U", stops := ["A", "B"] }
      (configured { bus_wait_time := 6, bus_velocity := 40 })
      (by
        intro k hk
        have hk' : k + 1 < 2 := hk
        have hk0 : k = 0 := by omega
        subst hk0
        decide),
    (zero_distance_no_edge Example.linear).2.2.1 { bus_wait_time := 6, bus_velocity := 40 } 4
      ⟨1, 4, (configured { bus_wait_time := 6, bus_velocity := 40 }).CalculateTime 2400⟩
      (by decide) rfl⟩

end TransportRouter

/-! ## A hop without a declared distance -/

namespace TransportRouter

open graph

/-- The sum over a forward span splits at every position in between. -/
theorem forwardSum_split (catalogue : TransportCatalogue) (bus : Bus) (i k j : Nat)
    (hik : i ≤ k) (hkj : k ≤ j) :
    Spec.forwardSum catalogue bus i j =
      Spec.forwardSum catalogue bus i k + Spec.forwardSum catalogue bus k j := by
  unfold Spec.forwardSum
  rw [← List.sum_append, ← List.map_append]
  have hrange : List.range' i (k - i) ++ List.range' k (j - k) = List.range' i (j - i) := by
    have h := List.range'_append_1 i (k - i) (j - k)
    rw [show i + (k - i) = k by omega, show j - k + (k - i) = j - i by omega] at h
    exact h
  rw [hrange]

/-- The sum over two neighbouring positions is what their hop adds. -/
theorem forwardSum_succ (catalogue : TransportCatalogue) (bus : Bus) (k : Nat) :
    Spec.forwardSum catalogue bus k (k + 1) =
      AddEdgesForBus.hop catalogue 0 (bus.stops.getD k "") (bus.stops.getD (k + 1) "") := by
  unfold Spec.forwardSum
  rw [show k + 1 - k = 1 by omega]
  simp

/-- The accumulated distance of a forward pair splits at every position in between, up to the
reduction to the range of `int`. -/
theorem forwardDistance_split (catalogue : TransportCatalogue) (bus : Bus) (i k j : Nat)
    (hik : i ≤ k) (hkj : k ≤ j) :
    AddEdgesForBus.forwardDistance catalogue bus i j =
      intWrap (AddEdgesForBus.forwardDistance catalogue bus i k +
        AddEdgesForBus.forwardDistance catalogue bus k j) := by
  rw [forwardDistance_eq_sum, forwardDistance_eq_sum, forwardDistance_eq_sum, intWrap_add,
    forwardSum_split catalogue bus i k j hik hkj]

/-- A hop between two stops without a stored distance in either direction adds nothing. -/
theorem hop_undeclared (catalogue : TransportCatalogue) (current_stop next_stop : String)
    (h : ∀ p q : StopPtr, catalogue.FindStop current_stop = some p →
      catalogue.FindStop next_stop = some q →
        catalogue.storedDistance p q = none ∧ catalogue.storedDistance q p = none) :
    AddEdgesForBus.hop catalogue 0 current_stop next_stop = 0 := by
  cases hp : catalogue.FindStop current_stop with
  | none => exact hop_unknown _ _ _ _ (Or.inl hp)
  | some p =>
    cases hq : catalogue.FindStop next_stop with
    | none => exact hop_unknown _ _ _ _ (Or.inr hq)
    | some q =>
      obtain ⟨h1, h2⟩ := h p q hp hq
      rw [hop_known _ _ _ _ p q hp hq, TransportCatalogue.GetRoadDistance_eq,
        TransportCatalogue.GetRoadDistance_eq, h1, h2]
      rfl

/-! ### C26: what an undeclared hop costs -/

/-- C26 (amended): for every catalogue, every bus and every hop `(s_k, s_{k+1})` of its stop
sequence whose distance is undeclared in both directions: the hop adds nothing to any total;
for every position pair `i <= k < j` the sum over the hops of the span is the sum over its
other hops, `S(i, k) + S(k + 1, j)`, and the `int` the builder accumulates it in holds that sum
reduced to the range of `int`, the sum itself when it is a value of `int`; the pair
`(k, k + 1)` itself gets no edge; and a wider pair of a bus of the catalogue with known stops
for which that `int` is not zero keeps its ride edge in the graph a configured router builds,
from the riding vertex of `s_i` to the waiting vertex of `s_j`, weighted by `CalculateTime` of
it and tagged with the name of the bus and the span count `j - i`: so when
`S(i, k) + S(k + 1, j)` is a value of `int` other than zero, the edge is weighted by
`CalculateTime` of that sum. -/
theorem undeclared_hop (catalogue : TransportCatalogue) (bus : Bus) (k : Nat)
    (hundeclared : ∀ p q : StopPtr, catalogue.FindStop (bus.stops.getD k "") = some p →
      catalogue.FindStop (bus.stops.getD (k + 1) "") = some q →
        catalogue.storedDistance p q = none ∧ catalogue.storedDistance q p = none) :
    (∀ total : Int,
      AddEdgesForBus.hop catalogue total (bus.stops.getD k "") (bus.stops.getD (k + 1) "") =
        total) ∧
      (∀ i j : Nat, i ≤ k → k < j →
        Spec.forwardSum catalogue bus i j =
            Spec.forwardSum catalogue bus i k + Spec.forwardSum catalogue bus (k + 1) j ∧
          AddEdgesForBus.forwardDistance catalogue bus i j =
            intWrap
              (Spec.forwardSum catalogue bus i k + Spec.forwardSum catalogue bus (k + 1) j) ∧
          (fitsInt
              (Spec.forwardSum catalogue bus i k + Spec.forwardSum catalogue bus (k + 1) j) →
            AddEdgesForBus.forwardDistance catalogue bus i j =
              Spec.forwardSum catalogue bus i k + Spec.forwardSum catalogue bus (k + 1) j)) ∧
      (∀ r : TransportRouter, AddEdgesForBus.forwardPair catalogue bus r k (k + 1) = r) ∧
      (∀ (settings : RoutingSettings) (i j : Nat), bus ∈ catalogue.buses_ →
        (∀ name ∈ bus.stops, name ∈ catalogue.stops_.map Stop.name) →
        i ≤ k → k < j → j < bus.stops.length →
        intWrap
          (Spec.forwardSum catalogue bus i k + Spec.forwardSum catalogue bus (k + 1) j) ≠ 0 →
        ∃ e from_vertex to_vertex : Nat,
          mapFind ((configured settings).BuildGraph catalogue).stop_to_bus_vertex_
            (bus.stops.getD i "") = some from_vertex ∧
          mapFind ((configured settings).BuildGraph catalogue).stop_to_wait_vertex_
            (bus.stops.getD j "") = some to_vertex ∧
          ((configured settings).BuildGraph catalogue).graph_.edges_[e]? =
            some ⟨from_vertex, to_vertex,
              ((configured settings).BuildGraph catalogue).CalculateTime
                (intWrap
                  (Spec.forwardSum catalogue bus i k +
                    Spec.forwardSum catalogue bus (k + 1) j))⟩ ∧
          mapFind ((configured settings).BuildGraph catalogue).edge_to_bus_ e = some bus.name ∧
          mapFind ((configured settings).BuildGraph catalogue).edge_to_span_count_ e =
            some ((j - i : Nat) : Int)) ∧
      ∀ (settings : RoutingSettings) (i j : Nat), bus ∈ catalogue.buses_ →
        (∀ name ∈ bus.stops, name ∈ catalogue.stops_.map Stop.name) →
        i ≤ k → k < j → j < bus.stops.length →
        fitsInt (Spec.forwardSum catalogue bus i k + Spec.forwardSum catalogue bus (k + 1) j) →
        Spec.forwardSum catalogue bus i k + Spec.forwardSum catalogue bus (k + 1) j ≠ 0 →
        ∃ e from_vertex to_vertex : Nat,
          mapFind ((configured settings).BuildGraph catalogue).stop_to_bus_vertex_
            (bus.stops.getD i "") = some from_vertex ∧
          mapFind ((configured settings).BuildGraph catalogue).stop_to_wait_vertex_
            (bus.stops.getD j "") = some to_vertex ∧
          ((configured settings).BuildGraph catalogue).graph_.edges_[e]? =
            some ⟨from_vertex, to_vertex,
              ((configured settings).BuildGraph catalogue).CalculateTime
                (Spec.forwardSum catalogue bus i k +
                  Spec.forwardSum catalogue bus (k + 1) j)⟩ ∧
          mapFind ((configured settings).BuildGraph catalogue).edge_to_bus_ e = some bus.name ∧
          mapFind ((configured settings).BuildGraph catalogue).edge_to_span_count_ e =
            some ((j - i : Nat) : Int) := by
  have hzero := hop_undeclared catalogue _ _ hundeclared
  have hsplit : ∀ i j : Nat, i ≤ k → k < j →
      Spec.forwardSum catalogue bus i j =
        Spec.forwardSum catalogue bus i k + Spec.forwardSum catalogue bus (k + 1) j := by
    intro i j hik hkj
    rw [forwardSum_split catalogue bus i k j hik (by omega),
      forwardSum_split catalogue bus k (k + 1) j (by omega) (by omega),
      forwardSum_succ, hzero, zero_add]
  have hedge : ∀ (settings : RoutingSettings) (i j : Nat), bus ∈ catalogue.buses_ →
      (∀ name ∈ bus.stops, name ∈ catalogue.stops_.map Stop.name) →
      i ≤ k → k < j → j < bus.stops.length →
      intWrap
        (Spec.forwardSum catalogue bus i k + Spec.forwardSum catalogue bus (k + 1) j) ≠ 0 →
      ∃ e from_vertex to_vertex : Nat,
        mapFind ((configured settings).BuildGraph catalogue).stop_to_bus_vertex_
          (bus.stops.getD i "") = some from_vertex ∧
        mapFind ((configured settings).BuildGraph catalogue).stop_to_wait_vertex_
          (bus.stops.getD j "") = some to_vertex ∧
        ((configured settings).BuildGraph catalogue).graph_.edges_[e]? =
          some ⟨from_vertex, to_vertex,
            ((configured settings).BuildGraph catalogue).CalculateTime
              (intWrap
                (Spec.forwardSum catalogue bus i k +
                  Spec.forwardSum catalogue bus (k + 1) j))⟩ ∧
        mapFind ((configured settings).BuildGraph catalogue).edge_to_bus_ e = some bus.name ∧
        mapFind ((configured settings).BuildGraph catalogue).edge_to_span_count_ e =
          some ((j - i : Nat) : Int) := by
    intro settings i j hmem hknown hik hkj hj hD
    have hij : i < j := by omega
    have hdist : AddEdgesForBus.distance catalogue bus i j =
        intWrap
          (Spec.forwardSum catalogue bus i k + Spec.forwardSum catalogue bus (k + 1) j) := by
      unfold AddEdgesForBus.distance
      rw [if_pos hij, forwardDistance_eq_sum, hsplit i j hik hkj]
    have hspan : AddEdgesForBus.span i j = ((j - i : Nat) : Int) := by
      unfold AddEdgesForBus.span
      rw [if_pos hij]
    obtain ⟨e, f, t, _, h1, h2, h3, h4, h5⟩ :=
      pair_edge catalogue settings bus hmem i j
        ((mem_pairs bus i j).2 (Or.inl ⟨hij, hj⟩))
        (hknown _ (getD_mem_stops _ _ (by omega))) (hknown _ (getD_mem_stops _ _ hj))
        (by rw [hdist]; exact hD)
    rw [hdist] at h3
    rw [hspan] at h5
    exact ⟨e, f, t, h1, h2, h3, h4, h5⟩
  refine ⟨?_, ?_, ?_, hedge, ?_⟩
  · intro total
    rw [hop_add, hzero, add_zero]
  · intro i j hik hkj
    refine ⟨hsplit i j hik hkj, ?_, ?_⟩
    · rw [forwardDistance_eq_sum, hsplit i j hik hkj]
    · intro hfit
      rw [forwardDistance_eq_sum, hsplit i j hik hkj, intWrap_of_fits _ hfit]
  · intro r
    rw [forwardPair_eq catalogue bus r k (k + 1) (by omega), ride_of_distance_zero]
    unfold AddEdgesForBus.distance
    rw [if_pos (by omega), forwardDistance_eq_sum, forwardSum_succ, hzero]
    rfl
  · intro settings i j hmem hknown hik hkj hj hfit hD
    have h := hedge settings i j hmem hknown hik hkj hj
      (by rw [intWrap_of_fits _ hfit]; exact hD)
    rw [intWrap_of_fits _ hfit] at h
    exact h

/-- The theorem for C26 applied to `Example.gap` and the hop `B -> C` (position `1`) of its bus
`G = [A, B, C]`: the pair `(1, 2)` gets no edge, and the pair `(0, 2)`, whose other hop has the
declared distance `1000`, keeps its edge. -/
theorem undeclared_hop_witness :
    (∀ p q : StopPtr, Example.gap.FindStop "B" = some p → Example.gap.FindStop "C" = some q →
      Example.gap.storedDistance p q = none ∧ Example.gap.storedDistance q p = none) ∧
      AddEdgesForBus.forwardPair Example.gap
        { name := "G", stops := ["A", "B", "C"], is_roundtrip := true }
        (configured { bus_wait_time := 6, bus_velocity := 40 }) 1 2 =
          configured { bus_wait_time := 6, bus_velocity := 40 } ∧
      ∃ e from_vertex to_vertex : Nat,
        mapFind ((configured { bus_wait_time := 6, bus_velocity := 40 }).BuildGraph
          Example.gap).stop_to_bus_vertex_ "A" = some from_vertex ∧
        mapFind ((configured { bus_wait_time := 6, bus_velocity := 40 }).BuildGraph
          Example.gap).stop_to_wait_vertex_ "C" = some to_vertex ∧
        ((configured { bus_wait_time := 6, bus_velocity := 40 }).BuildGraph
          Example.gap).graph_.edges_[e]? =
          some ⟨from_vertex, to_vertex,
            ((configured { bus_wait_time := 6, bus_velocity := 40 }).BuildGraph
              Example.gap).CalculateTime 1000⟩ ∧
        mapFind ((configured { bus_wait_time := 6, bus_velocity := 40 }).BuildGraph
          Example.gap).edge_to_bus_ e = some "G" ∧
        mapFind ((configured { bus_wait_time := 6, bus_velocity := 40 }).BuildGraph
          Example.gap).edge_to_span_count_ e = some 2 :=
  have hgap : ∀ p q : StopPtr, Example.gap.FindStop "B" = some p →
      Example.gap.FindStop "C" = some q →
        Example.gap.storedDistance p q = none ∧ Example.gap.storedDistance q p = none := by
    intro p q hp hq
    have hp' : p = 1 := (Option.some.inj hp).symm
    have hq' : q = 2 := (Option.some.inj hq).symm
    subst hp' hq'
    decide
  ⟨hgap,
    (undeclared_hop Example.gap { name := "G", stops := ["A", "B", "C"], is_roundtrip := true }
      1 hgap).2.2.1 (configured { bus_wait_time := 6, bus_velocity := 40 }),
    (undeclared_hop Example.gap { name := "G", stops := ["A", "B", "C"], is_roundtrip := true }
      1 hgap).2.2.2.2 { bus_wait_time := 6, bus_velocity := 40 } 0 2 (by decide) (by decide)
      (by decide) (by decide) (by decide) (by decide) (by decide)⟩

/-- C26, counterexample: in `Example.gap` the distance between `B` and `C` is undeclared in both
directions and the hop `B -> C` is the hop `k = 1` of the bus `G = [A, B, C]`. The pair of
positions `(0, 2)` spans it, and the graph built with wait time `6` and velocity `40` contains
the ride edge of `G` for that pair: edge `4` goes from vertex `1`, the riding vertex of `A`, to
vertex `4`, the waiting vertex of `C`, weighs `3/2` (the `1000` metres of `A -> B`) and is
tagged `G` with span count `2`. -/
theorem undeclared_hop_keeps_wider_edges :
    Example.gap.FindStop "B" = some 1 ∧ Example.gap.FindStop "C" = some 2 ∧
      Example.gap.storedDistance 1 2 = none ∧ Example.gap.storedDistance 2 1 = none ∧
      Example.gap.buses_ = [{ name := "G", stops := ["A", "B", "C"], is_roundtrip := true }] ∧
      mapFind ((configured { bus_wait_time := 6, bus_velocity := 40 }).BuildGraph
        Example.gap).stop_to_bus_vertex_ "A" = some 1 ∧
      mapFind ((configured { bus_wait_time := 6, bus_velocity := 40 }).BuildGraph
        Example.gap).stop_to_wait_vertex_ "C" = some 4 ∧
      ((configured { bus_wait_time := 6, bus_velocity := 40 }).BuildGraph
        Example.gap).graph_.edges_ =
          [⟨0, 1, 6⟩, ⟨2, 3, 6⟩, ⟨4, 5, 6⟩, ⟨1, 2, 3 / 2⟩, ⟨1, 4, 3 / 2⟩] ∧
      mapFind ((configured { bus_wait_time := 6, bus_velocity := 40 }).BuildGraph
        Example.gap).edge_to_bus_ 4 = some "G" ∧
      mapFind ((configured { bus_wait_time := 6, bus_velocity := 40 }).BuildGraph
        Example.gap).edge_to_span_count_ 4 = some 2 := by
  have h1 : ((configured { bus_wait_time := 6, bus_velocity := 40 }).BuildGraph
      Example.gap).graph_.edges_ =
        [⟨0, 1, ((6 : Int) : ℚ)⟩, ⟨2, 3, ((6 : Int) : ℚ)⟩, ⟨4, 5, ((6 : Int) : ℚ)⟩,
          ⟨1, 2, (configured { bus_wait_time := 6, bus_velocity := 40 }).CalculateTime 1000⟩,
          ⟨1, 4, (configured { bus_wait_time := 6, bus_velocity := 40 }).CalculateTime 1000⟩] :=
    rfl
  have c1 : (configured { bus_wait_time := 6, bus_velocity := 40 }).CalculateTime 1000 =
      3 / 2 := by
    norm_num [CalculateTime, configured, SetRoutingSettings, TransportRouter.new]
  rw [h1, c1]
  refine ⟨by decide, by decide, by decide, by decide, rfl, rfl, rfl, by norm_num, rfl, rfl⟩

end TransportRouter

/-! ## The sign of the edge weights -/

namespace TransportRouter

open graph

theorem CalculateTime_nonneg (r : TransportRouter) (distance : Int) (h : 0 ≤ distance) :
    0 ≤ r.CalculateTime distance := by
  unfold CalculateTime
  split
  · exact le_refl 0
  · rename_i hv
    have hv' : 0 < r.settings_.bus_velocity := not_le.1 hv
    apply div_nonneg
    · exact_mod_cast h
    · positivity

/-! ### C28: no negative edge weight -/

/-- C28 (amended): for every catalogue in which no stored distance is negative and the
distance of every position pair of every bus, summed over its hops, is a value of `int` (so
that the `int` the builder accumulates it in holds it), and every routing settings with
`bus_wait_time >= 0`, every edge of the graph a configured router builds, wait edge or ride
edge, has a weight that is not negative. This holds for every `bus_velocity`, so for
`bus_velocity > 0`: `CalculateTime` returns `0` when the velocity is not positive. -/
theorem edge_weight_nonneg (catalogue : TransportCatalogue) (settings : RoutingSettings)
    (hwait : 0 ≤ settings.bus_wait_time)
    (hnonneg : catalogue.DistancesNonneg) (hfit : catalogue.SpansFit) (e : Nat) (edge : Edge)
    (he : ((configured settings).BuildGraph catalogue).graph_.edges_[e]? = some edge) :
    0 ≤ edge.weight := by
  obtain ⟨hset, hwaitEdges, _, _, _, _⟩ :=
    BuildGraph_facts catalogue (configured settings) rfl rfl rfl
  have hset' : ((configured settings).BuildGraph catalogue).settings_ = settings := hset
  by_cases hlt : e < catalogue.stops_.length
  · obtain ⟨hedge, _⟩ := hwaitEdges e _ (List.getElem?_eq_getElem hlt)
    rw [he, hset'] at hedge
    rw [Option.some.inj hedge]
    show (0 : ℚ) ≤ (settings.bus_wait_time : ℚ)
    exact_mod_cast hwait
  · obtain ⟨bus, hmem, i, j, hp, _, _, _, hw, _, _⟩ :=
      ride_edge_origin catalogue settings e edge (not_lt.1 hlt) he
    rw [hw]
    exact CalculateTime_nonneg _ _
      (distance_nonneg catalogue hnonneg bus i j (hfit bus hmem (i, j) hp))

/-- The theorem for C28 applied to the routing scenario and its edge `7`, the ride from `Z` back
to `X`. -/
theorem edge_weight_nonneg_witness :
    (0 : Int) ≤ 6 ∧ (0 : ℚ) < 40 ∧ Example.linear.DistancesNonneg ∧
      Example.linear.SpansFit ∧
      ((configured { bus_wait_time := 6, bus_velocity := 40 }).BuildGraph
        Example.linear).graph_.edges_[7]? =
          some ⟨5, 0, (configured { bus_wait_time := 6, bus_velocity := 40 }).CalculateTime
            2400⟩ ∧
      0 ≤ (configured { bus_wait_time := 6, bus_velocity := 40 }).CalculateTime 2400 :=
  ⟨by decide, by norm_num, by decide, by decide, rfl,
    edge_weight_nonneg Example.linear { bus_wait_time := 6, bus_velocity := 40 } (by decide)
      (by decide) (by decide) 7
      ⟨5, 0, (configured { bus_wait_time := 6, bus_velocity := 40 }).CalculateTime 2400⟩ rfl⟩

/-- C28, counterexample. First input: the catalogue `Example.negativeForward` declares
`A -> B = -5`. With `bus_wait_time = 6 >= 0` and `bus_velocity = 40 > 0`, edge `2` of the built
graph, the ride of the bus `N` from `A` to `B`, has the weight
`-5 / (40 * 1000 / 60) = -3/400`, which is negative. Second input: the catalogue `Example.far`
stores no negative distance; it declares `X -> Y = 2000000000` and `Y -> Z = 2000000000`. With
`bus_wait_time = 6 >= 0` and `bus_velocity = 60 > 0`, the `int` of the builder holds
`-294967296` after the two hops from `X` to `Z`, and edge `4` of the built graph, the ride of
the bus `F` from `X` to `Z`, has the weight `-294967296 / (60 * 1000 / 60) = -36870912/125`,
which is negative. -/
theorem negative_distance_negative_weight :
    Example.negativeForward.GetRoadDistance (some 0) (some 1) = -5 ∧
      (0 : Int) ≤ 6 ∧ (0 : ℚ) < 40 ∧
      ((configured { bus_wait_time := 6, bus_velocity := 40 }).BuildGraph
        Example.negativeForward).graph_.edges_[2]? = some ⟨1, 2, -3 / 400⟩ ∧
      (∃ edge ∈ ((configured { bus_wait_time := 6, bus_velocity := 40 }).BuildGraph
        Example.negativeForward).graph_.edges_, edge.weight < 0) ∧
      Example.far.DistancesNonneg ∧ (0 : ℚ) < 60 ∧
      Spec.pairSum Example.far
        { name := "F", stops := ["X", "Y", "Z"], is_roundtrip := false } 0 2 = 4000000000 ∧
      AddEdgesForBus.distance Example.far
        { name := "F", stops := ["X", "Y", "Z"], is_roundtrip := false } 0 2 = -294967296 ∧
      ((configured { bus_wait_time := 6, bus_velocity := 60 }).BuildGraph
        Example.far).graph_.edges_[4]? = some ⟨1, 4, -36870912 / 125⟩ ∧
      ∃ edge ∈ ((configured { bus_wait_time := 6, bus_velocity := 60 }).BuildGraph
        Example.far).graph_.edges_, edge.weight < 0 := by
  have h2 : ((configured { bus_wait_time := 6, bus_velocity := 60 }).BuildGraph
      Example.far).graph_.edges_[4]? =
        some ⟨1, 4,
          (configured { bus_wait_time := 6, bus_velocity := 60 }).CalculateTime
            (-294967296)⟩ :=
    rfl
  have c2 : (configured { bus_wait_time := 6, bus_velocity := 60 }).CalculateTime
      (-294967296) = -36870912 / 125 := by
    norm_num [CalculateTime, configured, SetRoutingSettings, TransportRouter.new]
  rw [c2] at h2
  have h1 : ((configured { bus_wait_time := 6, bus_velocity := 40 }).BuildGraph
      Example.negativeForward).graph_.edges_ =
        [⟨0, 1, ((6 : Int) : ℚ)⟩, ⟨2, 3, ((6 : Int) : ℚ)⟩,
          ⟨1, 2, (configured { bus_wait_time := 6, bus_velocity := 40 }).CalculateTime (-5)⟩] :=
    rfl
  have c1 : (configured { bus_wait_time := 6, bus_velocity := 40 }).CalculateTime (-5) =
      -3 / 400 := by
    norm_num [CalculateTime, configured, SetRoutingSettings, TransportRouter.new]
  rw [h1, c1]
  refine ⟨by decide, by decide, by norm_num, rfl, ⟨⟨1, 2, -3 / 400⟩, by simp, by norm_num⟩,
    by decide, by norm_num, by decide, by decide, h2, ⟨1, 4, -36870912 / 125⟩,
    List.mem_iff_getElem?.2 ⟨4, h2⟩, by norm_num⟩

end TransportRouter

/-! ## The order of the entries of `base_requests` -/

namespace JsonReader

open json

/-- A loop that leaves the catalogue as it is on the entries a test rejects gives the same
outcome on the list of the entries the test keeps. -/
theorem foldlM_filter (visit : TransportCatalogue → Node → Except String TransportCatalogue)
    (keep : Node → Bool) (l : List Node)
    (hskip : ∀ node ∈ l, keep node = false → ∀ db, visit db node = .ok db)
    (db : TransportCatalogue) :
    l.foldlM visit db = (l.filter keep).foldlM visit db := by
  induction l generalizing db with
  | nil => rfl
  | cons node t ih =>
    have iht : ∀ db, t.foldlM visit db = (t.filter keep).foldlM visit db :=
      fun db => ih (fun n hn => hskip n (List.mem_cons_of_mem _ hn)) db
    rw [List.foldlM_cons]
    cases hk : keep node with
    | true =>
      rw [List.filter_cons_of_pos hk, List.foldlM_cons]
      congr 1
      funext db'
      exact iht db'
    | false =>
      rw [List.filter_cons_of_neg (by simp [hk]), hskip node (List.mem_cons_self _ _) hk db]
      exact iht db

theorem entryType_ok (node : Node) (s : String) (h : entryType node = .ok s) :
    ∃ d : Dict, node = .dict d ∧ Dict.find d "type" = some (.string s) := by
  unfold entryType at h
  cases node with
  | dict d =>
    refine ⟨d, rfl, ?_⟩
    simp only [Node.AsMap, Dict.at, bind, Except.bind] at h
    cases hf : Dict.find d "type" with
    | none => simp [hf] at h
    | some v =>
      simp only [hf] at h
      cases v <;> simp [Node.AsString] at h
      rw [h]
  | _ => simp [Node.AsMap, bind, Except.bind] at h

/-- An entry with a type that another type is asked of is rejected by `hasType`, and
conversely. -/
theorem hasType_false (t : String) (node : Node) (htyped : ∃ s, entryType node = .ok s)
    (h : hasType t node = false) : ∃ s, entryType node = .ok s ∧ s ≠ t := by
  obtain ⟨s, hs⟩ := htyped
  refine ⟨s, hs, ?_⟩
  unfold hasType at h
  rw [hs] at h
  simpa using h

theorem LoadStops_visit_skip (db : TransportCatalogue) (node : Node) (s : String)
    (hs : entryType node = .ok s) (hne : s ≠ "Stop") : LoadStops.visit db node = .ok db := by
  obtain ⟨d, rfl, hd⟩ := entryType_ok node s hs
  simp [LoadStops.visit, Node.AsMap, Dict.at, hd, Node.AsString, bind, Except.bind, hne, pure,
    Except.pure]

theorem LoadDistances_visit_skip (db : TransportCatalogue) (node : Node) (s : String)
    (hs : entryType node = .ok s) (hne : s ≠ "Stop") :
    LoadDistances.visit db node = .ok db := by
  obtain ⟨d, rfl, hd⟩ := entryType_ok node s hs
  simp [LoadDistances.visit, Node.AsMap, Dict.at, hd, Node.AsString, bind, Except.bind, hne, pure,
    Except.pure]

theorem LoadBuses_visit_skip (db : TransportCatalogue) (node : Node) (s : String)
    (hs : entryType node = .ok s) (hne : s ≠ "Bus") : LoadBuses.visit db node = .ok db := by
  obtain ⟨d, rfl, hd⟩ := entryType_ok node s hs
  simp [LoadBuses.visit, Node.AsMap, Dict.at, hd, Node.AsString, bind, Except.bind, hne, pure,
    Except.pure]

/-- Each of the three loops of the loader gives, on a list of typed entries, the outcome it
gives on the entries of its own type, in their order. -/
theorem loops_filter (l : List Node) (htyped : ∀ node ∈ l, ∃ s, entryType node = .ok s)
    (db : TransportCatalogue) :
    LoadStops db l = LoadStops db (l.filter (hasType "Stop")) ∧
      LoadDistances db l = LoadDistances db (l.filter (hasType "Stop")) ∧
      LoadBuses db l = LoadBuses db (l.filter (hasType "Bus")) := by
  refine ⟨?_, ?_, ?_⟩
  · apply foldlM_filter
    intro node hn hk db'
    obtain ⟨s, hs, hne⟩ := hasType_false "Stop" node (htyped node hn) hk
    exact LoadStops_visit_skip db' node s hs hne
  · apply foldlM_filter
    intro node hn hk db'
    obtain ⟨s, hs, hne⟩ := hasType_false "Stop" node (htyped node hn) hk
    exact LoadDistances_visit_skip db' node s hs hne
  · apply foldlM_filter
    intro node hn hk db'
    obtain ⟨s, hs, hne⟩ := hasType_false "Bus" node (htyped node hn) hk
    exact LoadBuses_visit_skip db' node s hs hne

end JsonReader

namespace JsonReader

open json

theorem hasType_exclusive (node : Node) (h : hasType "Stop" node = true) :
    hasType "Bus" node = false := by
  unfold hasType at h ⊢
  cases ht : entryType node with
  | error e => rfl
  | ok s =>
    rw [ht] at h
    simp only [decide_eq_true_eq] at h
    subst h
    decide

/-- The three loops on a document whose `base_requests` is the array `l`, as `LoadData` runs
them. -/
theorem LoadData_eq (reader : JsonReader) (rest : Dict) (l : List Node) :
    LoadData reader (.dict (("base_requests", .array l) :: rest)) =
      (do
        let db ← LoadStops reader.db_ l
        let db ← LoadDistances db l
        let db ← LoadBuses db l
        if Dict.count rest "routing_settings" = true then
          let routing_settings ←
            ParseRoutingSettings (← (← Dict.at rest "routing_settings").AsMap)
          pure { db_ := db,
                 router_ := some (TransportRouter.new.SetRoutingSettings routing_settings) }
        else pure { reader with db_ := db }) := by
  have hcount : Dict.count (("base_requests", Node.array l) :: rest) "routing_settings" =
      Dict.count rest "routing_settings" := by
    simp [Dict.count, Dict.find, mapFind]
  have hat : Dict.at (("base_requests", Node.array l) :: rest) "routing_settings" =
      Dict.at rest "routing_settings" := by
    simp [Dict.at, Dict.find, mapFind]
  have hbase : Dict.at (("base_requests", Node.array l) :: rest) "base_requests" =
      .ok (.array l) := by
    simp [Dict.at, Dict.find, mapFind]
  unfold LoadData
  simp only [Node.AsMap, hbase, hcount, hat, Node.AsArray, bind, Except.bind]

end JsonReader

/-! ### What each loop leaves in the catalogue -/

namespace JsonReader

open json

/-- A property that holds once one member of the list has been visited, and that the visits of
the members keep, holds after the loop. -/
theorem foldlM_establishes {σ α : Type} (visit : σ → α → Except String σ) (I P : σ → Prop)
    (l : List α) (x : α) (hmem : x ∈ l)
    (hI : ∀ s a s', visit s a = .ok s' → I s → I s')
    (hx : ∀ s s', visit s x = .ok s' → I s → P s')
    (hstep : ∀ s a s', a ∈ l → visit s a = .ok s' → I s → P s → P s')
    (s s' : σ) (h : l.foldlM visit s = .ok s') (hs : I s) : P s' := by
  have main : ∀ (t : List α), (∀ a ∈ t, a ∈ l) → ∀ s, I s → (P s ∨ x ∈ t) →
      t.foldlM visit s = .ok s' → P s' := by
    intro t
    induction t with
    | nil =>
      intro _ s _ hp h
      simp only [List.foldlM_nil, pure, Except.pure, Except.ok.injEq] at h
      rcases hp with hp | hp
      · rw [← h]
        exact hp
      · exact absurd hp (List.not_mem_nil _)
    | cons a t ih =>
      intro hsub s hs hp h
      rw [List.foldlM_cons] at h
      cases ha : visit s a with
      | error msg => simp [ha, bind, Except.bind] at h
      | ok s1 =>
        simp only [ha, bind, Except.bind] at h
        refine ih (fun b hb => hsub b (List.mem_cons_of_mem _ hb)) s1 (hI s a s1 ha hs) ?_ h
        rcases hp with hp | hp
        · exact Or.inl (hstep s a s1 (hsub a (List.mem_cons_self _ _)) ha hs hp)
        · rcases List.mem_cons.1 hp with hxa | hxt
          · subst hxa
            exact Or.inl (hx s s1 ha hs)
          · by_cases hP : P s
            · exact Or.inl (hstep s a s1 (hsub a (List.mem_cons_self _ _)) ha hs hP)
            · exact Or.inr hxt
  exact main l (fun _ ha => ha) s hs (Or.inr hmem) h

/-- A property that every visit keeps holds after the loop. -/
theorem foldlM_keeps {σ α : Type} (visit : σ → α → Except String σ) (P : σ → Prop)
    (hstep : ∀ s a s', visit s a = .ok s' → P s → P s') (l : List α) (s s' : σ)
    (h : l.foldlM visit s = .ok s') (hs : P s) : P s' := by
  induction l generalizing s with
  | nil =>
    simp only [List.foldlM_nil, pure, Except.pure, Except.ok.injEq] at h
    rw [← h]
    exact hs
  | cons a t ih =>
    rw [List.foldlM_cons] at h
    cases ha : visit s a with
    | error msg => simp [ha, bind, Except.bind] at h
    | ok s1 =>
      simp only [ha, bind, Except.bind] at h
      exact ih s1 h (hstep s a s1 ha hs)

/-- What a visit of `LoadStops` that returns has done: nothing on an entry of another type, one
`AddStop` under the entry's name on a `Stop` entry. -/
theorem LoadStops_visit_ok (db db' : TransportCatalogue) (node : Node)
    (h : LoadStops.visit db node = .ok db') :
    ∃ d : Dict, node = .dict d ∧
      ((Dict.find d "type" ≠ some (.string "Stop") ∧ db' = db) ∨
        (Dict.find d "type" = some (.string "Stop") ∧
          ∃ stop : Stop, Dict.find d "name" = some (.string stop.name) ∧ db' = db.AddStop stop)) := by
  unfold LoadStops.visit at h
  cases node with
  | dict d =>
    refine ⟨d, rfl, ?_⟩
    simp only [Node.AsMap, Dict.at, bind, Except.bind] at h
    cases h2 : Dict.find d "type" with
    | none => simp [h2] at h
    | some tn =>
      simp only [h2] at h
      cases tn with
      | string ty =>
        simp only [Node.AsString] at h
        by_cases hty : ty = "Stop"
        · subst hty
          right
          refine ⟨rfl, ?_⟩
          simp only [if_true] at h
          cases h4 : Dict.find d "name" with
          | none => simp [h4] at h
          | some nn =>
            simp only [h4] at h
            cases nn with
            | string name =>
              simp only [Node.AsString] at h
              cases h5 : Dict.find d "latitude" with
              | none => simp [h5] at h
              | some la =>
                simp only [h5] at h
                cases h6 : la.AsDouble with
                | error msg => simp [h6] at h
                | ok lat =>
                  simp only [h6] at h
                  cases h7 : Dict.find d "longitude" with
                  | none => simp [h7] at h
                  | some lo =>
                    simp only [h7] at h
                    cases h8 : lo.AsDouble with
                    | error msg => simp [h8] at h
                    | ok lng =>
                      simp only [h8, pure, Except.pure, Except.ok.injEq] at h
                      exact ⟨{ name := name, lat := lat, lng := lng }, rfl, h.symm⟩
            | _ => simp [Node.AsString] at h
        · left
          simp only [hty, if_false, pure, Except.pure, Except.ok.injEq] at h
          refine ⟨?_, h.symm⟩
          intro hc
          simp only [Option.some.injEq, Node.string.injEq] at hc
          exact hty hc
      | _ => simp [Node.AsString] at h
  | _ => simp [Node.AsMap, bind, Except.bind] at h

/-- The strings `mapM AsString` reads off an array hold every string of the array. -/
theorem mapM_AsString_mem (arr : List Node) (stops : List String)
    (h : arr.mapM Node.AsString = .ok stops) (s : String) (hs : Node.string s ∈ arr) :
    s ∈ stops := by
  induction arr generalizing stops with
  | nil => exact absurd hs (List.not_mem_nil _)
  | cons a t ih =>
    rw [List.mapM_cons] at h
    cases ha : a.AsString with
    | error msg =>
      rw [ha] at h
      cases h
    | ok x =>
      cases ht : t.mapM Node.AsString with
      | error msg =>
        rw [ha, ht] at h
        cases h
      | ok xs =>
        rw [ha, ht] at h
        simp only [bind, Except.bind, pure, Except.pure, Except.ok.injEq] at h
        rw [← h]
        rcases List.mem_cons.1 hs with hsa | hst
        · rw [← hsa] at ha
          simp only [Node.AsString, Except.ok.injEq] at ha
          rw [ha]
          exact List.mem_cons_self _ _
        · exact List.mem_cons_of_mem _ (ih xs ht hst)

/-- What a visit of `LoadBuses` that returns has done: nothing on an entry of another type, one
`AddBus` under the entry's name and with the entry's stops on a `Bus` entry. -/
theorem LoadBuses_visit_ok (db db' : TransportCatalogue) (node : Node)
    (h : LoadBuses.visit db node = .ok db') :
    ∃ d : Dict, node = .dict d ∧
      ((Dict.find d "type" ≠ some (.string "Bus") ∧ db' = db) ∨
        (Dict.find d "type" = some (.string "Bus") ∧
          ∃ (bus : Bus) (arr : List Node), Dict.find d "name" = some (.string bus.name) ∧
            Dict.find d "stops" = some (.array arr) ∧ arr.mapM Node.AsString = .ok bus.stops ∧
            db' = db.AddBus bus)) := by
  unfold LoadBuses.visit at h
  cases node with
  | dict d =>
    refine ⟨d, rfl, ?_⟩
    simp only [Node.AsMap, Dict.at, bind, Except.bind] at h
    cases h2 : Dict.find d "type" with
    | none => simp [h2] at h
    | some tn =>
      simp only [h2] at h
      cases tn with
      | string ty =>
        simp only [Node.AsString] at h
        by_cases hty : ty = "Bus"
        · subst hty
          right
          refine ⟨rfl, ?_⟩
          simp only [if_true] at h
          cases h4 : Dict.find d "name" with
          | none => simp [h4] at h
          | some nn =>
            simp only [h4] at h
            cases nn with
            | string name =>
              simp only [Node.AsString] at h
              cases h5 : Dict.find d "stops" with
              | none => simp [h5] at h
              | some sn =>
                simp only [h5] at h
                cases sn with
                | array arr =>
                  simp only [Node.AsArray] at h
                  cases h6 : arr.mapM Node.AsString with
                  | error msg =>
                    rw [h6] at h
                    cases h
                  | ok stops =>
                    rw [h6] at h
                    simp only at h
                    cases h7 : Dict.find d "is_roundtrip" with
                    | none => simp [h7] at h
                    | some rn =>
                      simp only [h7] at h
                      cases h8 : rn.AsBool with
                      | error msg => simp [h8] at h
                      | ok rt =>
                        simp only [h8, pure, Except.pure, Except.ok.injEq] at h
                        exact ⟨{ name := name, stops := stops, is_roundtrip := rt }, arr, rfl, rfl,
                          h6, h.symm⟩
                | _ => simp [Node.AsArray] at h
            | _ => simp [Node.AsString] at h
        · left
          simp only [hty, if_false, pure, Except.pure, Except.ok.injEq] at h
          refine ⟨?_, h.symm⟩
          intro hc
          simp only [Option.some.injEq, Node.string.injEq] at hc
          exact hty hc
      | _ => simp [Node.AsString] at h
  | _ => simp [Node.AsMap, bind, Except.bind] at h

/-- After `LoadStops` the name of every `Stop` entry of the list resolves. -/
theorem LoadStops_resolves (l : List Node) (db db' : TransportCatalogue)
    (h : LoadStops db l = .ok db') (d : Dict) (s : String) (hmem : Node.dict d ∈ l)
    (htype : Dict.find d "type" = some (.string "Stop"))
    (hname : Dict.find d "name" = some (.string s)) : ∃ p, db'.FindStop s = some p := by
  refine foldlM_establishes LoadStops.visit (fun _ => True) (fun db => ∃ p, db.FindStop s = some p)
    l (.dict d) hmem (fun _ _ _ _ _ => trivial) ?_ ?_ db db' h trivial
  · intro s1 s2 hv _
    obtain ⟨d', hd', hcase⟩ := LoadStops_visit_ok s1 s2 _ hv
    cases hd'
    rcases hcase with ⟨hne, _⟩ | ⟨_, stop, hn, rfl⟩
    · exact absurd htype hne
    · rw [hname] at hn
      cases hn
      exact ⟨_, by rw [TransportCatalogue.FindStop_AddStop, if_pos rfl]⟩
  · intro s1 a s2 _ hv _ hp
    obtain ⟨p, hp⟩ := hp
    obtain ⟨d', _, hcase⟩ := LoadStops_visit_ok s1 s2 a hv
    rcases hcase with ⟨_, rfl⟩ | ⟨_, stop, _, rfl⟩
    · exact ⟨p, hp⟩
    · rw [TransportCatalogue.FindStop_AddStop]
      by_cases hsn : stop.name = s
      · exact ⟨_, by rw [if_pos hsn]⟩
      · exact ⟨p, by rw [if_neg hsn, hp]⟩

/-- The loop of `LoadStops` keeps a catalogue among the reachable ones. -/
theorem LoadStops_reachable (l : List Node) (db db' : TransportCatalogue)
    (h : LoadStops db l = .ok db') (hdb : db.Reachable) : db'.Reachable := by
  refine foldlM_keeps LoadStops.visit TransportCatalogue.Reachable ?_ l db db' h hdb
  intro s1 a s2 hv hr
  obtain ⟨d', _, hcase⟩ := LoadStops_visit_ok s1 s2 a hv
  rcases hcase with ⟨_, rfl⟩ | ⟨_, stop, _, rfl⟩
  · exact hr
  · exact TransportCatalogue.Reachable.addStop stop hr

/-- The loop of `LoadBuses` leaves the stop a name resolves to and the stored distances as they
are. -/
theorem LoadBuses_frame (l : List Node) (db db' : TransportCatalogue)
    (h : LoadBuses db l = .ok db') :
    (∀ n, db'.FindStop n = db.FindStop n) ∧ db'.distances_ = db.distances_ := by
  refine foldlM_keeps LoadBuses.visit
    (fun x => (∀ n, x.FindStop n = db.FindStop n) ∧ x.distances_ = db.distances_) ?_ l db db' h
    ⟨fun _ => rfl, rfl⟩
  intro s1 a s2 hv hr
  obtain ⟨d', _, hcase⟩ := LoadBuses_visit_ok s1 s2 a hv
  rcases hcase with ⟨_, rfl⟩ | ⟨_, bus, arr, _, _, _, rfl⟩
  · exact hr
  · exact ⟨fun n => by rw [TransportCatalogue.FindStop_AddBus, hr.1 n],
      by rw [TransportCatalogue.AddBus_distances_, hr.2]⟩

/-- After `LoadBuses` every `Bus` entry of the list is recorded at each of its stops that
resolved when the loop began. -/
theorem LoadBuses_records (l : List Node) (db db' : TransportCatalogue)
    (h : LoadBuses db l = .ok db') (d : Dict) (b s : String) (arr : List Node) (p : StopPtr)
    (hmem : Node.dict d ∈ l) (htype : Dict.find d "type" = some (.string "Bus"))
    (hname : Dict.find d "name" = some (.string b))
    (hstops : Dict.find d "stops" = some (.array arr)) (hs : Node.string s ∈ arr)
    (hp : db.FindStop s = some p) : b ∈ mapGetD db'.stop_to_buses_ p [] := by
  refine foldlM_establishes LoadBuses.visit (fun x => x.FindStop s = some p)
    (fun x => b ∈ mapGetD x.stop_to_buses_ p []) l (.dict d) hmem ?_ ?_ ?_ db db' h hp
  · intro s1 a s2 hv hI
    obtain ⟨d', _, hcase⟩ := LoadBuses_visit_ok s1 s2 a hv
    rcases hcase with ⟨_, rfl⟩ | ⟨_, bus, arr, _, _, _, rfl⟩
    · exact hI
    · rw [TransportCatalogue.FindStop_AddBus, hI]
  · intro s1 s2 hv hI
    obtain ⟨d', hd', hcase⟩ := LoadBuses_visit_ok s1 s2 _ hv
    cases hd'
    rcases hcase with ⟨hne, _⟩ | ⟨_, bus, arr', hn, ha, hm, rfl⟩
    · exact absurd htype hne
    · rw [hname] at hn
      rw [hstops] at ha
      cases hn
      cases ha
      rw [TransportCatalogue.mem_mapGetD_AddBus]
      exact Or.inr ⟨rfl, s, mapM_AsString_mem arr bus.stops hm s hs, hI⟩
  · intro s1 a s2 _ hv _ hP
    obtain ⟨d', _, hcase⟩ := LoadBuses_visit_ok s1 s2 a hv
    rcases hcase with ⟨_, rfl⟩ | ⟨_, bus, arr, _, _, _, rfl⟩
    · exact hP
    · rw [TransportCatalogue.mem_mapGetD_AddBus]
      exact Or.inl hP

/-- What a visit of `LoadDistances` that returns has done: nothing on an entry that is not a
`Stop` entry with `road_distances`, the inner loop over the `road_distances` from the stop of
the entry's name on one that is. -/
theorem LoadDistances_visit_ok (db db' : TransportCatalogue) (node : Node)
    (h : LoadDistances.visit db node = .ok db') :
    ∃ d : Dict, node = .dict d ∧
      ((¬ (Dict.find d "type" = some (.string "Stop") ∧
            (Dict.find d "road_distances").isSome = true) ∧ db' = db) ∨
        (Dict.find d "type" = some (.string "Stop") ∧
          ∃ (from_name : String) (distances : Dict),
            Dict.find d "name" = some (.string from_name) ∧
            Dict.find d "road_distances" = some (.dict distances) ∧
            distances.foldlM (LoadDistances.entry (db.FindStop from_name)) db = .ok db')) := by
  unfold LoadDistances.visit at h
  cases node with
  | dict d =>
    refine ⟨d, rfl, ?_⟩
    simp only [Node.AsMap, Dict.at, Dict.count, bind, Except.bind] at h
    cases h2 : Dict.find d "type" with
    | none => simp [h2] at h
    | some tn =>
      simp only [h2] at h
      cases tn with
      | string ty =>
        simp only [Node.AsString] at h
        split at h
        · rename_i hc
          obtain ⟨hty, hcount⟩ := hc
          subst hty
          right
          refine ⟨rfl, ?_⟩
          cases h4 : Dict.find d "name" with
          | none => simp [h4] at h
          | some nn =>
            simp only [h4] at h
            cases nn with
            | string from_name =>
              simp only [Node.AsString] at h
              cases h6 : Dict.find d "road_distances" with
              | none => simp [h6] at h
              | some rn =>
                simp only [h6] at h
                cases rn with
                | dict distances =>
                  simp only [Node.AsMap] at h
                  exact ⟨from_name, distances, rfl, rfl, h⟩
                | _ => simp [Node.AsMap] at h
            | _ => simp [Node.AsString] at h
        · rename_i hc
          left
          simp only [pure, Except.pure, Except.ok.injEq] at h
          refine ⟨?_, h.symm⟩
          intro hcon
          apply hc
          obtain ⟨h1, h2⟩ := hcon
          simp only [Option.some.injEq, Node.string.injEq] at h1
          exact ⟨h1, h2⟩
      | _ => simp [Node.AsString] at h
  | _ => simp [Node.AsMap, bind, Except.bind] at h

/-- A step of the inner loop of `LoadDistances` that is not from the stop `pa` to the stop `pt`
leaves the distance stored for that pair as it is. -/
theorem entry_keeps (from_stop : Option StopPtr) (db db' : TransportCatalogue)
    (e : String × Node) (h : LoadDistances.entry from_stop db e = .ok db') (pa pt : StopPtr)
    (hne : from_stop ≠ some pa ∨ db.FindStop e.1 ≠ some pt) :
    db'.storedDistance pa pt = db.storedDistance pa pt := by
  unfold LoadDistances.entry at h
  simp only at h
  split at h
  · rename_i hc
    cases hd : e.2.AsInt with
    | error msg => simp [hd, bind, Except.bind] at h
    | ok d =>
      simp only [hd, bind, Except.bind, pure, Except.pure, Except.ok.injEq] at h
      rw [← h]
      cases hf : from_stop with
      | none => simp [hf] at hc
      | some f =>
        cases ht : db.FindStop e.1 with
        | none => simp [ht] at hc
        | some t =>
          rw [TransportCatalogue.storedDistance_SetDistance]
          rw [hf, ht] at hne
          have : ¬ (f = pa ∧ t = pt) := by
            rintro ⟨rfl, rfl⟩
            rcases hne with h1 | h1 <;> exact h1 rfl
          rw [if_neg this]
  · simp only [pure, Except.pure, Except.ok.injEq] at h
    rw [← h]

/-- The inner loop of `LoadDistances` over entries none of which is from `pa` to `pt` leaves the
distance stored for that pair as it is. -/
theorem foldlM_entry_keeps (from_stop : Option StopPtr) (l : List (String × Node))
    (db db' : TransportCatalogue) (h : l.foldlM (LoadDistances.entry from_stop) db = .ok db')
    (pa pt : StopPtr)
    (hne : from_stop ≠ some pa ∨ ∀ e ∈ l, db.FindStop e.1 ≠ some pt) :
    db'.storedDistance pa pt = db.storedDistance pa pt := by
  induction l generalizing db with
  | nil =>
    simp only [List.foldlM_nil, pure, Except.pure, Except.ok.injEq] at h
    rw [← h]
  | cons e t ih =>
    rw [List.foldlM_cons] at h
    cases he : LoadDistances.entry from_stop db e with
    | error msg => simp [he, bind, Except.bind] at h
    | ok db1 =>
      simp only [he, bind, Except.bind] at h
      have hfind : ∀ n, db1.FindStop n = db.FindStop n := entry_FindStop from_stop db db1 e he
      rw [ih db1 h ?_, entry_keeps from_stop db db1 e he pa pt ?_]
      · rcases hne with h1 | h1
        · exact Or.inl h1
        · exact Or.inr (h1 e (List.mem_cons_self _ _))
      · rcases hne with h1 | h1
        · exact Or.inl h1
        · refine Or.inr (fun x hx => ?_)
          rw [hfind]
          exact h1 x (List.mem_cons_of_mem _ hx)

/-- The inner loop of `LoadDistances` from the stop `pa` over a dictionary that maps the name
of the stop `pt` to the integer `dist` stores `dist` for the pair. -/
theorem foldlM_entry_stores (distances : Dict) (hord : Dict.Ordered distances)
    (db db' : TransportCatalogue) (pa pt : StopPtr) (t : String) (dist : Int)
    (h : distances.foldlM (LoadDistances.entry (some pa)) db = .ok db')
    (hfind : Dict.find distances t = some (.int dist)) (ht : db.FindStop t = some pt)
    (hinj : ∀ n, db.FindStop n = some pt → n = t) :
    db'.storedDistance pa pt = some dist := by
  induction distances generalizing db with
  | nil => simp [Dict.find, mapFind] at hfind
  | cons e rest ih =>
    rw [List.foldlM_cons] at h
    cases he : LoadDistances.entry (some pa) db e with
    | error msg => simp [he, bind, Except.bind] at h
    | ok db1 =>
      simp only [he, bind, Except.bind] at h
      have hfs : ∀ n, db1.FindStop n = db.FindStop n := entry_FindStop (some pa) db db1 e he
      obtain ⟨hhead, htail⟩ := List.pairwise_cons.1 hord
      by_cases hk : e.1 = t
      · have hv : e.2 = .int dist := by
          obtain ⟨k, v⟩ := e
          simp only at hk
          subst hk
          simpa [Dict.find, mapFind] using hfind
        have hdb1 : db1 = db.SetDistance (some pa) (some pt) dist := by
          unfold LoadDistances.entry at he
          simp only [hk, ht, hv, Option.isSome_some, Bool.and_self, if_true, Node.AsInt, bind,
            Except.bind, pure, Except.pure, Except.ok.injEq] at he
          exact he.symm
        rw [foldlM_entry_keeps (some pa) rest db1 db' h pa pt ?_, hdb1,
          TransportCatalogue.storedDistance_SetDistance, if_pos ⟨rfl, rfl⟩]
        refine Or.inr (fun x hx hc => ?_)
        rw [hfs] at hc
        have hxt := hinj x.1 hc
        exact (hhead x hx).2 (hk.trans hxt.symm)
      · refine ih htail db1 h ?_ ?_ ?_
        · obtain ⟨k, v⟩ := e
          simp only at hk
          simpa [Dict.find, mapFind, hk] using hfind
        · rw [hfs, ht]
        · intro n hn
          rw [hfs] at hn
          exact hinj n hn

/-- After `LoadDistances` on a catalogue in which names resolve to distinct stops, the distance
a `Stop` entry declares to the stop of a name that resolves is stored, when no other `Stop`
entry of the list has the same name. -/
theorem LoadDistances_stores (l : List Node) (db db' : TransportCatalogue)
    (h : LoadDistances db l = .ok db') (da distances : Dict) (a t : String) (dist : Int)
    (pa pt : StopPtr) (hmem : Node.dict da ∈ l)
    (htype : Dict.find da "type" = some (.string "Stop"))
    (hname : Dict.find da "name" = some (.string a))
    (hroad : Dict.find da "road_distances" = some (.dict distances))
    (hord : Dict.Ordered distances) (hfind : Dict.find distances t = some (.int dist))
    (honly : ∀ d2 : Dict, Node.dict d2 ∈ l → Dict.find d2 "type" = some (.string "Stop") →
      Dict.find d2 "name" = some (.string a) → d2 = da)
    (hpa : db.FindStop a = some pa) (hpt : db.FindStop t = some pt)
    (hinj : ∀ n m p, db.FindStop n = some p → db.FindStop m = some p → n = m) :
    db'.storedDistance pa pt = some dist := by
  have hx : ∀ s s', LoadDistances.visit s (.dict da) = .ok s' →
      (∀ n, s.FindStop n = db.FindStop n) → s'.storedDistance pa pt = some dist := by
    intro s s' hv hI
    obtain ⟨d', hd', hcase⟩ := LoadDistances_visit_ok s s' _ hv
    cases hd'
    rcases hcase with ⟨hne, _⟩ | ⟨_, from_name, distances', hn, hr, hfold⟩
    · exact absurd ⟨htype, by rw [hroad]; rfl⟩ hne
    · rw [hname] at hn
      rw [hroad] at hr
      cases hn
      cases hr
      rw [hI, hpa] at hfold
      refine foldlM_entry_stores distances hord s s' pa pt t dist hfold hfind ?_ ?_
      · rw [hI, hpt]
      · intro n hn
        rw [hI] at hn
        exact hinj n t pt hn hpt
  refine foldlM_establishes LoadDistances.visit (fun x => ∀ n, x.FindStop n = db.FindStop n)
    (fun x => x.storedDistance pa pt = some dist) l (.dict da) hmem ?_ hx ?_ db db' h
    (fun _ => rfl)
  · intro s1 x s2 hv hI n
    rw [visit_FindStop s1 s2 x hv n, hI]
  · intro s1 x s2 hxl hv hI hP
    obtain ⟨d', hd', hcase⟩ := LoadDistances_visit_ok s1 s2 x hv
    rcases hcase with ⟨_, rfl⟩ | ⟨hty, from_name, distances', hn, hr, hfold⟩
    · exact hP
    · by_cases hfa : from_name = a
      · subst hfa
        subst hd'
        have := honly d' hxl hty hn
        subst this
        exact hx s1 s2 hv hI
      · rw [foldlM_entry_keeps _ distances' s1 s2 hfold pa pt ?_]
        · exact hP
        · left
          intro hc
          rw [hI] at hc
          exact hfa (hinj from_name a pa hc hpa)

/-- A run of `LoadData` that returns has run the three loops one after the other, each over the
whole array, and holds the catalogue the last one gave. -/
theorem LoadData_ok (reader reader' : JsonReader) (rest : Dict) (l : List Node)
    (h : LoadData reader (.dict (("base_requests", .array l) :: rest)) = .ok reader') :
    ∃ db1 db2, LoadStops reader.db_ l = .ok db1 ∧ LoadDistances db1 l = .ok db2 ∧
      LoadBuses db2 l = .ok reader'.db_ := by
  rw [LoadData_eq] at h
  cases h1 : LoadStops reader.db_ l with
  | error msg => simp [h1, bind, Except.bind] at h
  | ok db1 =>
    cases h2 : LoadDistances db1 l with
    | error msg => simp [h1, h2, bind, Except.bind] at h
    | ok db2 =>
      cases h3 : LoadBuses db2 l with
      | error msg => simp [h1, h2, h3, bind, Except.bind] at h
      | ok db3 =>
        refine ⟨db1, db2, rfl, h2, ?_⟩
        simp only [h1, h2, h3, bind, Except.bind] at h
        split at h
        · cases h4 : Dict.at rest "routing_settings" with
          | error msg => simp [h4] at h
          | ok rn =>
            simp only [h4] at h
            cases h5 : rn.AsMap with
            | error msg => simp [h5] at h
            | ok settings =>
              simp only [h5] at h
              cases h6 : ParseRoutingSettings settings with
              | error msg => simp [h6] at h
              | ok rs =>
                simp only [h6, pure, Except.pure, Except.ok.injEq] at h
                rw [← h]
                exact h3
        · simp only [pure, Except.pure, Except.ok.injEq] at h
          rw [← h]
          exact h3

/-- In the catalogue `LoadData` leaves, a `Bus` entry of the array is among the buses of every
stop it names that a `Stop` entry of the array declares, wherever in the array the two entries
are. -/
theorem LoadData_bus_serves (reader reader' : JsonReader) (rest : Dict) (l : List Node)
    (h : LoadData reader (.dict (("base_requests", .array l) :: rest)) = .ok reader')
    (db ds : Dict) (b s : String) (arr : List Node) (hb : Node.dict db ∈ l)
    (hbtype : Dict.find db "type" = some (.string "Bus"))
    (hbname : Dict.find db "name" = some (.string b))
    (hbstops : Dict.find db "stops" = some (.array arr)) (hs : Node.string s ∈ arr)
    (hd : Node.dict ds ∈ l) (hstype : Dict.find ds "type" = some (.string "Stop"))
    (hsname : Dict.find ds "name" = some (.string s)) :
    b ∈ reader'.db_.GetBusesByStop s := by
  obtain ⟨db1, db2, h1, h2, h3⟩ := LoadData_ok reader reader' rest l h
  obtain ⟨p, hp⟩ := LoadStops_resolves l reader.db_ db1 h1 ds s hd hstype hsname
  have hp2 : db2.FindStop s = some p := by
    rw [foldlM_visit_FindStop l db1 db2 h2 s, hp]
  rw [TransportCatalogue.mem_GetBusesByStop]
  refine ⟨p, ?_, LoadBuses_records l db2 reader'.db_ h3 db b s arr p hb hbtype hbname hbstops hs hp2⟩
  rw [(LoadBuses_frame l db2 reader'.db_ h3).1 s, hp2]

/-- In the catalogue `LoadData` leaves, starting from a reachable one, the distance a `Stop`
entry of the array declares to the name of a `Stop` entry of the array is stored, wherever in
the array the two entries are, when no other `Stop` entry has the name of the first. -/
theorem LoadData_distance_stored (reader reader' : JsonReader) (rest : Dict) (l : List Node)
    (h : LoadData reader (.dict (("base_requests", .array l) :: rest)) = .ok reader')
    (hreach : reader.db_.Reachable) (da dt distances : Dict) (a t : String) (dist : Int)
    (ha : Node.dict da ∈ l) (hatype : Dict.find da "type" = some (.string "Stop"))
    (haname : Dict.find da "name" = some (.string a))
    (hroad : Dict.find da "road_distances" = some (.dict distances))
    (hord : Dict.Ordered distances) (hfind : Dict.find distances t = some (.int dist))
    (honly : ∀ d2 : Dict, Node.dict d2 ∈ l → Dict.find d2 "type" = some (.string "Stop") →
      Dict.find d2 "name" = some (.string a) → d2 = da)
    (ht : Node.dict dt ∈ l) (httype : Dict.find dt "type" = some (.string "Stop"))
    (htname : Dict.find dt "name" = some (.string t)) :
    ∃ pa pt, reader'.db_.FindStop a = some pa ∧ reader'.db_.FindStop t = some pt ∧
      reader'.db_.GetRoadDistance (some pa) (some pt) = dist := by
  obtain ⟨db1, db2, h1, h2, h3⟩ := LoadData_ok reader reader' rest l h
  obtain ⟨pa, hpa⟩ := LoadStops_resolves l reader.db_ db1 h1 da a ha hatype haname
  obtain ⟨pt, hpt⟩ := LoadStops_resolves l reader.db_ db1 h1 dt t ht httype htname
  have hreach1 := LoadStops_reachable l reader.db_ db1 h1 hreach
  have hstored := LoadDistances_stores l db1 db2 h2 da distances a t dist pa pt ha hatype haname
    hroad hord hfind honly hpa hpt (fun n m p hn hm => hreach1.findStop_injective hn hm)
  obtain ⟨hf, hdist⟩ := LoadBuses_frame l db2 reader'.db_ h3
  refine ⟨pa, pt, ?_, ?_, ?_⟩
  · rw [hf, foldlM_visit_FindStop l db1 db2 h2 a, hpa]
  · rw [hf, foldlM_visit_FindStop l db1 db2 h2 t, hpt]
  · rw [TransportCatalogue.GetRoadDistance_eq]
    have : reader'.db_.storedDistance pa pt = db2.storedDistance pa pt := by
      unfold TransportCatalogue.storedDistance
      rw [hdist]
    rw [this, hstored]
    rfl

/-! ### C29: stops, then distances, then buses -/

/-- C29: `LoadData` runs three loops over `base_requests`, `LoadStops`, then `LoadDistances`,
then `LoadBuses`, and each loop acts on the entries of its own type only. So for two lists of
typed entries (dictionaries with a string `type`) that hold the same `Stop` entries in the same
order and the same `Bus` entries in the same order, that is for two interleavings of the same
`Stop` entries and `Bus` entries, each loop gives the same outcome from every catalogue and
`LoadData` gives the same outcome, the same reader with the same catalogue or the same error.
`LoadData` on a list gives what it gives on the list with all `Stop` entries moved before the
`Bus` entries, and it is `LoadStops` on the `Stop` entries, then `LoadDistances` on the `Stop`
entries, then `LoadBuses` on the `Bus` entries. For every list on which `LoadData` returns, and
wherever in the list the entries are: a `Bus` entry is among the buses of every stop it names
that a `Stop` entry declares, so a bus listed before its stops is recorded as serving them; and,
from a reachable catalogue, the integer distance a `Stop` entry declares in its `road_distances`
(a `std::map`, so with ordered keys) to the name of a `Stop` entry is the road distance between
the two stops, so a distance to a stop listed later is stored, when no other `Stop` entry has
the declaring entry's name. -/
theorem LoadData_interleaving (reader : JsonReader) (rest : Dict) (l1 l2 : List Node)
    (h1 : ∀ node ∈ l1, ∃ s, entryType node = .ok s)
    (h2 : ∀ node ∈ l2, ∃ s, entryType node = .ok s)
    (hstops : l1.filter (hasType "Stop") = l2.filter (hasType "Stop"))
    (hbuses : l1.filter (hasType "Bus") = l2.filter (hasType "Bus")) :
    (∀ db, LoadStops db l1 = LoadStops db l2) ∧
      (∀ db, LoadDistances db l1 = LoadDistances db l2) ∧
      (∀ db, LoadBuses db l1 = LoadBuses db l2) ∧
      LoadData reader (.dict (("base_requests", .array l1) :: rest)) =
        LoadData reader (.dict (("base_requests", .array l2) :: rest)) ∧
      LoadData reader (.dict (("base_requests", .array l1) :: rest)) =
        LoadData reader (.dict (("base_requests",
          .array (l1.filter (hasType "Stop") ++ l1.filter (hasType "Bus"))) :: rest)) ∧
      LoadData reader (.dict (("base_requests", .array l1) :: rest)) =
        (do
          let db ← LoadStops reader.db_ (l1.filter (hasType "Stop"))
          let db ← LoadDistances db (l1.filter (hasType "Stop"))
          let db ← LoadBuses db (l1.filter (hasType "Bus"))
          if Dict.count rest "routing_settings" = true then
            let routing_settings ←
              ParseRoutingSettings (← (← Dict.at rest "routing_settings").AsMap)
            pure { db_ := db,
                   router_ := some (TransportRouter.new.SetRoutingSettings routing_settings) }
          else pure { reader with db_ := db }) ∧
      (∀ reader' : JsonReader,
        LoadData reader (.dict (("base_requests", .array l1) :: rest)) = .ok reader' →
        ∀ (db ds : Dict) (b s : String) (arr : List Node),
          Node.dict db ∈ l1 → Dict.find db "type" = some (.string "Bus") →
          Dict.find db "name" = some (.string b) → Dict.find db "stops" = some (.array arr) →
          Node.string s ∈ arr →
          Node.dict ds ∈ l1 → Dict.find ds "type" = some (.string "Stop") →
          Dict.find ds "name" = some (.string s) →
          b ∈ reader'.db_.GetBusesByStop s) ∧
      (∀ reader' : JsonReader,
        LoadData reader (.dict (("base_requests", .array l1) :: rest)) = .ok reader' →
        reader.db_.Reachable →
        ∀ (da dt distances : Dict) (a t : String) (dist : Int),
          Node.dict da ∈ l1 → Dict.find da "type" = some (.string "Stop") →
          Dict.find da "name" = some (.string a) →
          Dict.find da "road_distances" = some (.dict distances) → Dict.Ordered distances →
          Dict.find distances t = some (.int dist) →
          (∀ d2 : Dict, Node.dict d2 ∈ l1 → Dict.find d2 "type" = some (.string "Stop") →
            Dict.find d2 "name" = some (.string a) → d2 = da) →
          Node.dict dt ∈ l1 → Dict.find dt "type" = some (.string "Stop") →
          Dict.find dt "name" = some (.string t) →
          ∃ pa pt, reader'.db_.FindStop a = some pa ∧ reader'.db_.FindStop t = some pt ∧
            reader'.db_.GetRoadDistance (some pa) (some pt) = dist) := by
  have main : ∀ a b : List Node, (∀ node ∈ a, ∃ s, entryType node = .ok s) →
      (∀ node ∈ b, ∃ s, entryType node = .ok s) →
      a.filter (hasType "Stop") = b.filter (hasType "Stop") →
      a.filter (hasType "Bus") = b.filter (hasType "Bus") →
      (∀ db, LoadStops db a = LoadStops db b) ∧ (∀ db, LoadDistances db a = LoadDistances db b) ∧
        (∀ db, LoadBuses db a = LoadBuses db b) ∧
        LoadData reader (.dict (("base_requests", .array a) :: rest)) =
          LoadData reader (.dict (("base_requests", .array b) :: rest)) := by
    intro a b ha hb hs hbs
    have hS : ∀ db, LoadStops db a = LoadStops db b := by
      intro db
      rw [(loops_filter a ha db).1, (loops_filter b hb db).1, hs]
    have hD : ∀ db, LoadDistances db a = LoadDistances db b := by
      intro db
      rw [(loops_filter a ha db).2.1, (loops_filter b hb db).2.1, hs]
    have hB : ∀ db, LoadBuses db a = LoadBuses db b := by
      intro db
      rw [(loops_filter a ha db).2.2, (loops_filter b hb db).2.2, hbs]
    refine ⟨hS, hD, hB, ?_⟩
    rw [LoadData_eq, LoadData_eq]
    simp only [hS, hD, hB]
  obtain ⟨m1, m2, m3, m4⟩ := main l1 l2 h1 h2 hstops hbuses
  refine ⟨m1, m2, m3, m4, ?_, ?_,
    fun reader' h db ds b s arr hb hbt hbn hbs hs hd hst hsn =>
      LoadData_bus_serves reader reader' rest l1 h db ds b s arr hb hbt hbn hbs hs hd hst hsn,
    fun reader' h hreach da dt distances a t dist ha hat han hroad hord hfind honly ht htt htn =>
      LoadData_distance_stored reader reader' rest l1 h hreach da dt distances a t dist ha hat
        han hroad hord hfind honly ht htt htn⟩
  swap
  · rw [LoadData_eq, (loops_filter l1 h1 reader.db_).1]
    congr 1
    funext db1
    rw [(loops_filter l1 h1 db1).2.1]
    congr 1
    funext db2
    rw [(loops_filter l1 h1 db2).2.2]
  have htyped : ∀ node ∈ l1.filter (hasType "Stop") ++ l1.filter (hasType "Bus"),
      ∃ s, entryType node = .ok s := by
    intro node hn
    rcases List.mem_append.1 hn with h | h
    · exact h1 node (List.mem_filter.1 h).1
    · exact h1 node (List.mem_filter.1 h).1
  have hfs : l1.filter (hasType "Stop") =
      (l1.filter (hasType "Stop") ++ l1.filter (hasType "Bus")).filter (hasType "Stop") := by
    rw [List.filter_append, List.filter_filter, List.filter_filter]
    have hnil : l1.filter (fun a => hasType "Stop" a && hasType "Bus" a) = [] := by
      rw [List.filter_eq_nil_iff]
      intro node _ hc
      simp only [Bool.and_eq_true] at hc
      rw [hasType_exclusive node hc.1] at hc
      exact absurd hc.2 (by decide)
    rw [hnil, List.append_nil]
    simp
  have hfb : l1.filter (hasType "Bus") =
      (l1.filter (hasType "Stop") ++ l1.filter (hasType "Bus")).filter (hasType "Bus") := by
    rw [List.filter_append, List.filter_filter, List.filter_filter]
    have hnil : l1.filter (fun a => hasType "Bus" a && hasType "Stop" a) = [] := by
      rw [List.filter_eq_nil_iff]
      intro node _ hc
      simp only [Bool.and_eq_true] at hc
      rw [hasType_exclusive node hc.2] at hc
      exact absurd hc.1 (by decide)
    rw [hnil, List.nil_append]
    simp
  exact (main l1 _ h1 htyped hfs hfb).2.2.2

end JsonReader

namespace JsonReader

open json

/-- The theorem for C29 applied to `Example.busFirst`, which lists the bus `b = [A, B]` before
the stops `A` and `B`, and `Example.stopsFirst`, which lists it after them: `LoadData` gives the
same outcome on both, a reader in whose catalogue `b` serves `A` and `B` and the distance
`A -> B = 7`, declared by `A` before `B` is listed, is stored; the theorem gives the last two
facts for every reader `LoadData` returns on `Example.busFirst`. -/
theorem LoadData_interleaving_witness :
    (∀ node ∈ Example.busFirst, ∃ s, entryType node = .ok s) ∧
      Example.busFirst.filter (hasType "Stop") = Example.stopsFirst.filter (hasType "Stop") ∧
      Example.busFirst.filter (hasType "Bus") = Example.stopsFirst.filter (hasType "Bus") ∧
      LoadData {} (.dict [("base_requests", .array Example.busFirst)]) =
        LoadData {} (.dict [("base_requests", .array Example.stopsFirst)]) ∧
      ∃ reader : JsonReader,
        LoadData {} (.dict [("base_requests", .array Example.busFirst)]) = .ok reader ∧
          reader.db_.FindStop "A" = some 0 ∧ reader.db_.FindStop "B" = some 1 ∧
          reader.db_.FindBus "b" = some 0 ∧
          reader.db_.GetBusesByStop "A" = ["b"] ∧ reader.db_.GetBusesByStop "B" = ["b"] ∧
          reader.db_.GetRoadDistance (some 0) (some 1) = 7 ∧
          "b" ∈ reader.db_.GetBusesByStop "B" ∧
          ∃ pa pt, reader.db_.FindStop "A" = some pa ∧ reader.db_.FindStop "B" = some pt ∧
            reader.db_.GetRoadDistance (some pa) (some pt) = 7 :=
  have h1 : ∀ node ∈ Example.busFirst, ∃ s, entryType node = .ok s := by
    intro node hn
    simp only [Example.busFirst, List.mem_cons, List.mem_singleton, List.not_mem_nil,
      or_false] at hn
    rcases hn with rfl | rfl | rfl
    · exact ⟨"Bus", rfl⟩
    · exact ⟨"Stop", rfl⟩
    · exact ⟨"Stop", rfl⟩
  have h2 : ∀ node ∈ Example.stopsFirst, ∃ s, entryType node = .ok s := by
    intro node hn
    simp only [Example.stopsFirst, List.mem_cons, List.mem_singleton, List.not_mem_nil,
      or_false] at hn
    rcases hn with rfl | rfl | rfl
    · exact ⟨"Stop", rfl⟩
    · exact ⟨"Stop", rfl⟩
    · exact ⟨"Bus", rfl⟩
  have honly : ∀ d2 : Dict, Node.dict d2 ∈ Example.busFirst →
      Dict.find d2 "type" = some (.string "Stop") → Dict.find d2 "name" = some (.string "A") →
      d2 = [("latitude", .double 0), ("longitude", .double 0), ("name", .string "A"),
        ("road_distances", .dict [("B", .int 7)]), ("type", .string "Stop")] := by
    intro d2 hmem htype hname
    simp only [Example.busFirst, List.mem_cons, List.mem_singleton, List.not_mem_nil, or_false,
      Node.dict.injEq] at hmem
    rcases hmem with rfl | rfl | rfl
    · simp [Dict.find, mapFind] at htype
    · rfl
    · simp [Dict.find, mapFind] at hname
  ⟨h1, rfl, rfl,
    (LoadData_interleaving {} [] Example.busFirst Example.stopsFirst h1 h2 rfl rfl).2.2.2.1,
    ⟨_, rfl, by decide, by decide, by decide, by decide, by decide, by decide,
      (LoadData_interleaving {} [] Example.busFirst Example.stopsFirst h1 h2 rfl rfl).2.2.2.2.2.2.1
        _ rfl
        [("is_roundtrip", .bool true), ("name", .string "b"),
          ("stops", .array [.string "A", .string "B"]), ("type", .string "Bus")]
        [("latitude", .double 0), ("longitude", .double 1), ("name", .string "B"),
          ("type", .string "Stop")]
        "b" "B" [.string "A", .string "B"]
        (by simp [Example.busFirst]) rfl rfl rfl (by simp) (by simp [Example.busFirst]) rfl rfl,
      (LoadData_interleaving {} [] Example.busFirst Example.stopsFirst h1 h2 rfl rfl).2.2.2.2.2.2.2
        _ rfl TransportCatalogue.Reachable.empty
        [("latitude", .double 0), ("longitude", .double 0), ("name", .string "A"),
          ("road_distances", .dict [("B", .int 7)]), ("type", .string "Stop")]
        [("latitude", .double 0), ("longitude", .double 1), ("name", .string "B"),
          ("type", .string "Stop")]
        [("B", .int 7)] "A" "B" 7
        (by simp [Example.busFirst]) rfl rfl rfl (List.pairwise_singleton _ _) rfl honly
        (by simp [Example.busFirst]) rfl rfl⟩⟩

end JsonReader

/-! ## Additivity along a traversal -/

namespace TransportRouter

open graph

/-- The sum over a return-leg span splits at every position in between. -/
theorem backwardSum_split (catalogue : TransportCatalogue) (bus : Bus) (i j k : Nat)
    (hkj : k ≤ j) (hji : j ≤ i) :
    Spec.backwardSum catalogue bus i k =
      Spec.backwardSum catalogue bus i j + Spec.backwardSum catalogue bus j k := by
  have hrange : List.range' (k + 1) (j - k) ++ List.range' (j + 1) (i - j) =
      List.range' (k + 1) (i - k) := by
    have h := List.range'_append_1 (k + 1) (j - k) (i - j)
    rw [show k + 1 + (j - k) = j + 1 by omega, show i - j + (j - k) = i - k by omega] at h
    exact h
  unfold Spec.backwardSum
  rw [← hrange, List.map_append, List.sum_append]
  exact add_comm _ _

/-- The sum over the span of a position pair splits at every position a traversal passes in
between. -/
theorem pairSum_split (catalogue : TransportCatalogue) (bus : Bus) (i j k : Nat)
    (h : (i < j ∧ j < k) ∨ (k < j ∧ j < i)) :
    Spec.pairSum catalogue bus i k =
      Spec.pairSum catalogue bus i j + Spec.pairSum catalogue bus j k := by
  unfold Spec.pairSum
  rcases h with ⟨h1, h2⟩ | ⟨h1, h2⟩
  · rw [if_pos (by omega), if_pos h1, if_pos h2]
    exact forwardSum_split catalogue bus i j k (by omega) (by omega)
  · rw [if_neg (by omega), if_neg (by omega), if_neg (by omega)]
    exact backwardSum_split catalogue bus i j k (by omega) (by omega)

/-- The accumulated distance of a position pair splits at every position a traversal passes in
between, up to the reduction to the range of `int`. -/
theorem distance_split (catalogue : TransportCatalogue) (bus : Bus) (i j k : Nat)
    (h : (i < j ∧ j < k) ∨ (k < j ∧ j < i)) :
    AddEdgesForBus.distance catalogue bus i k =
      intWrap
        (AddEdgesForBus.distance catalogue bus i j +
          AddEdgesForBus.distance catalogue bus j k) := by
  rw [distance_eq_pairSum, distance_eq_pairSum, distance_eq_pairSum, intWrap_add,
    pairSum_split catalogue bus i j k h]

/-- The function `CalculateTime` is additive. -/
theorem CalculateTime_add (r : TransportRouter) (a b : Int) :
    r.CalculateTime (a + b) = r.CalculateTime a + r.CalculateTime b := by
  unfold CalculateTime
  split
  · simp
  · push_cast
    rw [add_div]

theorem pathWeight_single (g : DirectedWeightedGraph) (e : Nat) (edge : Edge)
    (h : g.edges_[e]? = some edge) : pathWeight g [e] = edge.weight := by
  simp [pathWeight, h]

theorem pathWeight_triple (g : DirectedWeightedGraph) (e1 e2 e3 : Nat) (x y z : Edge)
    (h1 : g.edges_[e1]? = some x) (h2 : g.edges_[e2]? = some y) (h3 : g.edges_[e3]? = some z) :
    pathWeight g [e1, e2, e3] = x.weight + y.weight + z.weight := by
  simp [pathWeight, h1, h2, h3, add_assoc]

end TransportRouter

namespace TransportRouter

open graph

/-- In the graph a configured router builds, the waiting vertex of a stop name has its wait
edge: an edge to the next vertex with the wait time as weight. -/
theorem wait_edge_of_vertex (catalogue : TransportCatalogue) (settings : RoutingSettings)
    (name : String) (v : Nat)
    (h : mapFind ((configured settings).BuildGraph catalogue).stop_to_wait_vertex_ name =
      some v) :
    ∃ e : Nat, e < catalogue.stops_.length ∧
      ((configured settings).BuildGraph catalogue).graph_.edges_[e]? =
        some ⟨v, v + 1, (settings.bus_wait_time : ℚ)⟩ := by
  obtain ⟨hset, hwait, _, hsound, _, _⟩ :=
    BuildGraph_facts catalogue (configured settings) rfl rfl rfl
  have hset' : ((configured settings).BuildGraph catalogue).settings_ = settings := hset
  obtain ⟨m, stop, hm, _, hv⟩ := hsound name v h
  obtain ⟨hedge, _⟩ := hwait m stop hm
  rw [hset'] at hedge
  have hlt : m < catalogue.stops_.length := by
    by_contra hc
    rw [List.getElem?_eq_none (not_lt.1 hc)] at hm
    cases hm
  refine ⟨m, hlt, ?_⟩
  rw [hedge, hv]

/-! ### C32: ride weights add up along a traversal -/

/-- C32 (amended): for every catalogue, every routing settings, every bus of the catalogue whose
stops are all stops of the catalogue, and positions `i`, `j`, `k` that one traversal of the bus
passes in this order (`i < j < k` on the way out, `i > j > k` on the way back of a bus that is
not a round trip): the sums over the hops satisfy `S(i, k) = S(i, j) + S(j, k)`, and the
accumulated `int` distances satisfy `D(i, k) = D(i, j) + D(j, k)` up to the reduction to the
range of `int`. When `D(i, j) + D(j, k)` is a value of `int`, `D(i, k) = D(i, j) + D(j, k)`,
and so does `CalculateTime` of it, read in exact arithmetic, for every velocity; when besides
the three distances are not zero, the built graph has the three ride edges, the weight of the
edge `i -> k` is, in exact arithmetic, the sum of the weights of `i -> j` and `j -> k`, and the
path through them that alights at `j` (ride, wait edge of `s_j`, ride) chains between the same
vertices as the edge `i -> k`; with `bus_wait_time >= 0` the edge `i -> k` weighs, in exact
arithmetic, no more than that path. -/
theorem ride_weights_additive (catalogue : TransportCatalogue) (settings : RoutingSettings)
    (bus : Bus) (hmem : bus ∈ catalogue.buses_)
    (hknown : ∀ name ∈ bus.stops, name ∈ catalogue.stops_.map Stop.name) (i j k : Nat)
    (horder : (i < j ∧ j < k ∧ k < bus.stops.length) ∨
      (bus.is_roundtrip = false ∧ k < j ∧ j < i ∧ i < bus.stops.length)) :
    Spec.pairSum catalogue bus i k =
        Spec.pairSum catalogue bus i j + Spec.pairSum catalogue bus j k ∧
    AddEdgesForBus.distance catalogue bus i k =
        intWrap
          (AddEdgesForBus.distance catalogue bus i j +
            AddEdgesForBus.distance catalogue bus j k) ∧
    (fitsInt
        (AddEdgesForBus.distance catalogue bus i j +
          AddEdgesForBus.distance catalogue bus j k) →
    AddEdgesForBus.distance catalogue bus i k =
        AddEdgesForBus.distance catalogue bus i j + AddEdgesForBus.distance catalogue bus j k ∧
      (i < j → AddEdgesForBus.forwardDistance catalogue bus i k =
        AddEdgesForBus.forwardDistance catalogue bus i j +
          AddEdgesForBus.forwardDistance catalogue bus j k) ∧
      (j < i → AddEdgesForBus.backwardDistance catalogue bus i k =
        AddEdgesForBus.backwardDistance catalogue bus i j +
          AddEdgesForBus.backwardDistance catalogue bus j k) ∧
      ((configured settings).BuildGraph catalogue).CalculateTime
          (AddEdgesForBus.distance catalogue bus i k) =
        ((configured settings).BuildGraph catalogue).CalculateTime
            (AddEdgesForBus.distance catalogue bus i j) +
          ((configured settings).BuildGraph catalogue).CalculateTime
            (AddEdgesForBus.distance catalogue bus j k) ∧
      (AddEdgesForBus.distance catalogue bus i j ≠ 0 →
        AddEdgesForBus.distance catalogue bus j k ≠ 0 →
        AddEdgesForBus.distance catalogue bus i k ≠ 0 →
        ∃ (e_ik e_ij e_wait e_jk : Nat) (a b c : Nat) (w_ik w_ij w_jk : ℚ),
          mapFind ((configured settings).BuildGraph catalogue).stop_to_bus_vertex_
            (bus.stops.getD i "") = some a ∧
          mapFind ((configured settings).BuildGraph catalogue).stop_to_wait_vertex_
            (bus.stops.getD j "") = some b ∧
          mapFind ((configured settings).BuildGraph catalogue).stop_to_bus_vertex_
            (bus.stops.getD j "") = some (b + 1) ∧
          mapFind ((configured settings).BuildGraph catalogue).stop_to_wait_vertex_
            (bus.stops.getD k "") = some c ∧
          ((configured settings).BuildGraph catalogue).graph_.edges_[e_ik]? =
            some ⟨a, c, w_ik⟩ ∧
          ((configured settings).BuildGraph catalogue).graph_.edges_[e_ij]? =
            some ⟨a, b, w_ij⟩ ∧
          ((configured settings).BuildGraph catalogue).graph_.edges_[e_wait]? =
            some ⟨b, b + 1, (settings.bus_wait_time : ℚ)⟩ ∧
          ((configured settings).BuildGraph catalogue).graph_.edges_[e_jk]? =
            some ⟨b + 1, c, w_jk⟩ ∧
          mapFind ((configured settings).BuildGraph catalogue).edge_to_bus_ e_ik =
            some bus.name ∧
          mapFind ((configured settings).BuildGraph catalogue).edge_to_bus_ e_ij =
            some bus.name ∧
          mapFind ((configured settings).BuildGraph catalogue).edge_to_bus_ e_jk =
            some bus.name ∧
          w_ik = w_ij + w_jk ∧
          IsPath ((configured settings).BuildGraph catalogue).graph_ a c [e_ik] = true ∧
          IsPath ((configured settings).BuildGraph catalogue).graph_ a c [e_ij, e_wait, e_jk] =
            true ∧
          (0 ≤ settings.bus_wait_time →
            pathWeight ((configured settings).BuildGraph catalogue).graph_ [e_ik] ≤
              pathWeight ((configured settings).BuildGraph catalogue).graph_
                [e_ij, e_wait, e_jk]))) := by
  have hlt : i < bus.stops.length ∧ j < bus.stops.length ∧ k < bus.stops.length := by
    rcases horder with ⟨h1, h2, h3⟩ | ⟨_, h1, h2, h3⟩ <;> omega
  have horder' : (i < j ∧ j < k) ∨ (k < j ∧ j < i) := by
    rcases horder with ⟨h1, h2, _⟩ | ⟨_, h1, h2, _⟩
    · exact Or.inl ⟨h1, h2⟩
    · exact Or.inr ⟨h1, h2⟩
  refine ⟨pairSum_split catalogue bus i j k horder', distance_split catalogue bus i j k horder',
    ?_⟩
  intro hfit
  have hsplit : AddEdgesForBus.distance catalogue bus i k =
      AddEdgesForBus.distance catalogue bus i j + AddEdgesForBus.distance catalogue bus j k := by
    rw [distance_split catalogue bus i j k horder', intWrap_of_fits _ hfit]
  have hp : (i, j) ∈ AddEdgesForBus.pairs bus ∧ (j, k) ∈ AddEdgesForBus.pairs bus ∧
      (i, k) ∈ AddEdgesForBus.pairs bus := by
    rcases horder with ⟨h1, h2, h3⟩ | ⟨hrt, h1, h2, h3⟩
    · exact ⟨(mem_pairs bus i j).2 (Or.inl ⟨h1, by omega⟩),
        (mem_pairs bus j k).2 (Or.inl ⟨h2, h3⟩),
        (mem_pairs bus i k).2 (Or.inl ⟨by omega, h3⟩)⟩
    · exact ⟨(mem_pairs bus i j).2 (Or.inr ⟨hrt, h2, h3⟩),
        (mem_pairs bus j k).2 (Or.inr ⟨hrt, h1, by omega⟩),
        (mem_pairs bus i k).2 (Or.inr ⟨hrt, by omega, h3⟩)⟩
  have hi := hknown _ (getD_mem_stops bus.stops i hlt.1)
  have hj := hknown _ (getD_mem_stops bus.stops j hlt.2.1)
  have hk := hknown _ (getD_mem_stops bus.stops k hlt.2.2)
  refine ⟨hsplit, ?_, ?_, ?_, ?_⟩
  · intro hij
    have h := hsplit
    unfold AddEdgesForBus.distance at h
    rw [if_pos (by omega), if_pos hij, if_pos (by omega)] at h
    exact h
  · intro hji
    have h := hsplit
    unfold AddEdgesForBus.distance at h
    rw [if_neg (by omega), if_neg (by omega), if_neg (by omega)] at h
    exact h
  · rw [hsplit, CalculateTime_add]
  · intro hDij hDjk hDik
    obtain ⟨e_ik, a, c, _, ha, hc, hedge_ik, htag_ik, _⟩ :=
      pair_edge catalogue settings bus hmem i k hp.2.2 hi hk hDik
    obtain ⟨e_ij, a', b, _, ha', hb, hedge_ij, htag_ij, _⟩ :=
      pair_edge catalogue settings bus hmem i j hp.1 hi hj hDij
    obtain ⟨e_jk, b', c', _, hb', hc', hedge_jk, htag_jk, _⟩ :=
      pair_edge catalogue settings bus hmem j k hp.2.1 hj hk hDjk
    obtain ⟨v, _, hv, hv'⟩ := known_vertices catalogue settings _ hj
    have haa : a' = a := Option.some.inj (ha'.symm.trans ha)
    have hcc : c' = c := Option.some.inj (hc'.symm.trans hc)
    have hbv : b = v := Option.some.inj (hb.symm.trans hv)
    have hbb : b' = v + 1 := Option.some.inj (hb'.symm.trans hv')
    subst haa hcc hbv hbb
    obtain ⟨e_wait, _, hedge_wait⟩ := wait_edge_of_vertex catalogue settings _ b hb
    have hadd := CalculateTime_add ((configured settings).BuildGraph catalogue)
      (AddEdgesForBus.distance catalogue bus i j) (AddEdgesForBus.distance catalogue bus j k)
    rw [← hsplit] at hadd
    refine ⟨e_ik, e_ij, e_wait, e_jk, a', b, c', _, _, _, ha, hb, hv', hc, hedge_ik, hedge_ij,
      hedge_wait, hedge_jk, htag_ik, htag_ij, htag_jk, hadd, ?_, ?_, ?_⟩
    · simp [IsPath, hedge_ik]
    · simp [IsPath, hedge_ij, hedge_wait, hedge_jk]
    · intro hwait
      rw [pathWeight_single _ _ _ hedge_ik,
        pathWeight_triple _ _ _ _ _ _ _ hedge_ij hedge_wait hedge_jk]
      simp only
      rw [hadd]
      have hw : (0 : ℚ) ≤ (settings.bus_wait_time : ℚ) := by exact_mod_cast hwait
      linarith

end TransportRouter

namespace TransportRouter

open graph

/-- The theorem for C32 applied to the routing scenario and the positions `0 < 1 < 2` of its bus
`B = [X, Y, Z]`: `D(0, 2) = 2400 = 1200 + 1200`, the three ride edges exist, and the edge from
`X` to `Z` weighs no more than the path that alights at `Y`. -/
theorem ride_weights_additive_witness :
    AddEdgesForBus.distance Example.linear
        { name := "B", stops := ["X", "Y", "Z"], is_roundtrip := false } 0 2 = 2400 ∧
      AddEdgesForBus.distance Example.linear
        { name := "B", stops := ["X", "Y", "Z"], is_roundtrip := false } 0 1 = 1200 ∧
      AddEdgesForBus.distance Example.linear
        { name := "B", stops := ["X", "Y", "Z"], is_roundtrip := false } 1 2 = 1200 ∧
      fitsInt
        (AddEdgesForBus.distance Example.linear
            { name := "B", stops := ["X", "Y", "Z"], is_roundtrip := false } 0 1 +
          AddEdgesForBus.distance Example.linear
            { name := "B", stops := ["X", "Y", "Z"], is_roundtrip := false } 1 2) ∧
      ∃ (e_ik e_ij e_wait e_jk : Nat) (w_ik w_ij w_jk : ℚ),
        ((configured { bus_wait_time := 6, bus_velocity := 40 }).BuildGraph
          Example.linear).graph_.edges_[e_ik]? = some ⟨1, 4, w_ik⟩ ∧
        ((configured { bus_wait_time := 6, bus_velocity := 40 }).BuildGraph
          Example.linear).graph_.edges_[e_ij]? = some ⟨1, 2, w_ij⟩ ∧
        ((configured { bus_wait_time := 6, bus_velocity := 40 }).BuildGraph
          Example.linear).graph_.edges_[e_wait]? = some ⟨2, 3, ((6 : Int) : ℚ)⟩ ∧
        ((configured { bus_wait_time := 6, bus_velocity := 40 }).BuildGraph
          Example.linear).graph_.edges_[e_jk]? = some ⟨3, 4, w_jk⟩ ∧
        w_ik = w_ij + w_jk ∧
        pathWeight ((configured { bus_wait_time := 6, bus_velocity := 40 }).BuildGraph
            Example.linear).graph_ [e_ik] ≤
          pathWeight ((configured { bus_wait_time := 6, bus_velocity := 40 }).BuildGraph
            Example.linear).graph_ [e_ij, e_wait, e_jk] := by
  refine ⟨by decide, by decide, by decide, by decide, ?_⟩
  obtain ⟨e_ik, e_ij, e_wait, e_jk, a, b, c, w_ik, w_ij, w_jk, ha, hb, _, hc, h1, h2, h3, h4, _,
      _, _, hsum, _, _, hle⟩ :=
    ((ride_weights_additive Example.linear { bus_wait_time := 6, bus_velocity := 40 }
      { name := "B", stops := ["X", "Y", "Z"], is_roundtrip := false } (by decide) (by decide)
      0 1 2 (Or.inl (by decide))).2.2 (by decide)).2.2.2.2 (by decide) (by decide) (by decide)
  have ha' : a = 1 := (Option.some.inj ha).symm
  have hb' : b = 2 := (Option.some.inj hb).symm
  have hc' : c = 4 := (Option.some.inj hc).symm
  subst ha' hb' hc'
  exact ⟨e_ik, e_ij, e_wait, e_jk, w_ik, w_ij, w_jk, h1, h2, h3, h4, hsum, hle (by decide)⟩

set_option maxRecDepth 100000 in
/-- C32, counterexample. First input: `Example.far`, with `X -> Y = 2000000000` and
`Y -> Z = 2000000000` declared, the bus `F = [X, Y, Z]` whose stops are all known, and the
positions `0 < 1 < 2`. The accumulated distances are `D(0, 1) = D(1, 2) = 2000000000` and
`D(0, 2) = -294967296`, not their sum; with `bus_wait_time = 6` and `bus_velocity = 60 > 0`
the three edges exist, `X -> Y` and `Y -> Z` weigh `2000000` each and `X -> Z` weighs
`-36870912/125`, not `4000000`. Second input: `Example.near`, with `X -> Y = 1` and
`Y -> Z = 9` declared and the bus `S = [X, Y, Z]`, `bus_wait_time = 0 >= 0` and
`bus_velocity = 60 > 0`. Here `D(0, 2) = 10 = D(0, 1) + D(1, 2)` and the three edges exist; in
exact arithmetic they weigh `1/100`, `1/1000` and `9/1000`. In the arithmetic of `double`, in
which the program computes, the edge `X -> Z` weighs `5764607523034235 * 2 ^ -59`, and the
path that alights at `Y`, with its wait of `0`, weighs `5764607523034234 * 2 ^ -59` in either
order of addition: riding through is costlier than alighting and boarding again. -/
theorem ride_weights_not_additive :
    ({ name := "F", stops := ["X", "Y", "Z"], is_roundtrip := false } : Bus) ∈
        Example.far.buses_ ∧
      Example.far.stops_.map Stop.name = ["X", "Y", "Z"] ∧
      AddEdgesForBus.distance Example.far
        { name := "F", stops := ["X", "Y", "Z"], is_roundtrip := false } 0 1 = 2000000000 ∧
      AddEdgesForBus.distance Example.far
        { name := "F", stops := ["X", "Y", "Z"], is_roundtrip := false } 1 2 = 2000000000 ∧
      AddEdgesForBus.distance Example.far
        { name := "F", stops := ["X", "Y", "Z"], is_roundtrip := false } 0 2 = -294967296 ∧
      AddEdgesForBus.distance Example.far
          { name := "F", stops := ["X", "Y", "Z"], is_roundtrip := false } 0 2 ≠
        AddEdgesForBus.distance Example.far
            { name := "F", stops := ["X", "Y", "Z"], is_roundtrip := false } 0 1 +
          AddEdgesForBus.distance Example.far
            { name := "F", stops := ["X", "Y", "Z"], is_roundtrip := false } 1 2 ∧
      (0 : ℚ) < 60 ∧
      ((configured { bus_wait_time := 6, bus_velocity := 60 }).BuildGraph
        Example.far).graph_.edges_[3]? = some ⟨1, 2, 2000000⟩ ∧
      ((configured { bus_wait_time := 6, bus_velocity := 60 }).BuildGraph
        Example.far).graph_.edges_[4]? = some ⟨1, 4, -36870912 / 125⟩ ∧
      ((configured { bus_wait_time := 6, bus_velocity := 60 }).BuildGraph
        Example.far).graph_.edges_[5]? = some ⟨3, 4, 2000000⟩ ∧
      (-36870912 / 125 : ℚ) ≠ 2000000 + 2000000 ∧
      ({ name := "S", stops := ["X", "Y", "Z"], is_roundtrip := true } : Bus) ∈
        Example.near.buses_ ∧
      Example.near.stops_.map Stop.name = ["X", "Y", "Z"] ∧
      AddEdgesForBus.distance Example.near
        { name := "S", stops := ["X", "Y", "Z"], is_roundtrip := true } 0 1 = 1 ∧
      AddEdgesForBus.distance Example.near
        { name := "S", stops := ["X", "Y", "Z"], is_roundtrip := true } 1 2 = 9 ∧
      AddEdgesForBus.distance Example.near
        { name := "S", stops := ["X", "Y", "Z"], is_roundtrip := true } 0 2 = 10 ∧
      ((configured { bus_wait_time := 0, bus_velocity := 60 }).BuildGraph
        Example.near).graph_.edges_ =
          [⟨0, 1, 0⟩, ⟨2, 3, 0⟩, ⟨4, 5, 0⟩, ⟨1, 2, 1 / 1000⟩, ⟨1, 4, 1 / 100⟩,
            ⟨3, 4, 9 / 1000⟩] ∧
      CalculateTime.binary64 (Binary64.ofInt 60) 1 = ⟨4611686018427388, -62⟩ ∧
      CalculateTime.binary64 (Binary64.ofInt 60) 9 = ⟨5188146770730811, -59⟩ ∧
      CalculateTime.binary64 (Binary64.ofInt 60) 10 = ⟨5764607523034235, -59⟩ ∧
      Binary64.add
          (Binary64.add (CalculateTime.binary64 (Binary64.ofInt 60) 1) (Binary64.ofInt 0))
          (CalculateTime.binary64 (Binary64.ofInt 60) 9) = ⟨5764607523034234, -59⟩ ∧
      Binary64.add (CalculateTime.binary64 (Binary64.ofInt 60) 1)
          (Binary64.add (Binary64.ofInt 0) (CalculateTime.binary64 (Binary64.ofInt 60) 9)) =
        ⟨5764607523034234, -59⟩ ∧
      Binary64.lt
          (Binary64.add
            (Binary64.add (CalculateTime.binary64 (Binary64.ofInt 60) 1) (Binary64.ofInt 0))
            (CalculateTime.binary64 (Binary64.ofInt 60) 9))
          (CalculateTime.binary64 (Binary64.ofInt 60) 10) = true := by
  have f3 : ((configured { bus_wait_time := 6, bus_velocity := 60 }).BuildGraph
      Example.far).graph_.edges_[3]? =
        some ⟨1, 2,
          (configured { bus_wait_time := 6, bus_velocity := 60 }).CalculateTime 2000000000⟩ :=
    rfl
  have f4 : ((configured { bus_wait_time := 6, bus_velocity := 60 }).BuildGraph
      Example.far).graph_.edges_[4]? =
        some ⟨1, 4,
          (configured { bus_wait_time := 6, bus_velocity := 60 }).CalculateTime
            (-294967296)⟩ :=
    rfl
  have f5 : ((configured { bus_wait_time := 6, bus_velocity := 60 }).BuildGraph
      Example.far).graph_.edges_[5]? =
        some ⟨3, 4,
          (configured { bus_wait_time := 6, bus_velocity := 60 }).CalculateTime 2000000000⟩ :=
    rfl
  have n1 : ((configured { bus_wait_time := 0, bus_velocity := 60 }).BuildGraph
      Example.near).graph_.edges_ =
        [⟨0, 1, ((0 : Int) : ℚ)⟩, ⟨2, 3, ((0 : Int) : ℚ)⟩, ⟨4, 5, ((0 : Int) : ℚ)⟩,
          ⟨1, 2, (configured { bus_wait_time := 0, bus_velocity := 60 }).CalculateTime 1⟩,
          ⟨1, 4, (configured { bus_wait_time := 0, bus_velocity := 60 }).CalculateTime 10⟩,
          ⟨3, 4, (configured { bus_wait_time := 0, bus_velocity := 60 }).CalculateTime 9⟩] :=
    rfl
  have c : ∀ (w d : Int),
      (configured { bus_wait_time := w, bus_velocity := 60 }).CalculateTime d =
        (d : ℚ) / 1000 := by
    intro w d
    norm_num [CalculateTime, configured, SetRoutingSettings, TransportRouter.new]
  rw [f3, f4, f5, n1, c, c, c, c, c]
  refine ⟨by decide, by decide, by decide, by decide, by decide, by decide, by norm_num,
    by norm_num, by norm_num, by norm_num, by norm_num, by decide, by decide, by decide,
    by decide, by decide, by norm_num, ?_, ?_, ?_, ?_, ?_, ?_⟩ <;> decide

end TransportRouter

/-! ## The way out and the way back -/

namespace TransportRouter

open graph

theorem range'_succ_eq_map (i n : Nat) :
    List.range' (i + 1) n = (List.range' i n).map (fun k => k + 1) := by
  have h := List.map_add_range' 1 i n 1
  rw [show 1 + i = i + 1 by omega] at h
  rw [← h]
  apply List.map_congr_left
  intro k _
  omega

/-- Between two stops with a stored distance in at most one direction, the hop of the graph
builder adds the same distance both ways. -/
theorem hop_symm_of_one_way (catalogue : TransportCatalogue) (a b : String)
    (h : ∀ p q : StopPtr, catalogue.FindStop a = some p → catalogue.FindStop b = some q →
      catalogue.storedDistance p q = none ∨ catalogue.storedDistance q p = none) :
    AddEdgesForBus.hop catalogue 0 b a = AddEdgesForBus.hop catalogue 0 a b := by
  cases hp : catalogue.FindStop a with
  | none => rw [hop_unknown _ _ _ _ (Or.inr hp), hop_unknown _ _ _ _ (Or.inl hp)]
  | some p =>
    cases hq : catalogue.FindStop b with
    | none => rw [hop_unknown _ _ _ _ (Or.inl hq), hop_unknown _ _ _ _ (Or.inr hq)]
    | some q =>
      rw [hop_known _ _ _ _ q p hq hp, hop_known _ _ _ _ p q hp hq,
        TransportCatalogue.GetRoadDistance_eq, TransportCatalogue.GetRoadDistance_eq]
      rcases h p q hp hq with h1 | h1
      · rw [h1]
        simp only [Option.getD_none, if_true, zero_add]
        split_ifs with h2
        · exact h2.symm
        · rfl
      · rw [h1]
        simp only [Option.getD_none, if_true, zero_add]
        split_ifs with h2
        · exact h2
        · rfl

/-- When every hop of a span has a stored distance in at most one direction, the way back
accumulates the distance of the way out. -/
theorem backwardDistance_eq_forwardDistance (catalogue : TransportCatalogue) (bus : Bus)
    (i j : Nat)
    (h : ∀ k : Nat, i ≤ k → k < j → ∀ p q : StopPtr,
      catalogue.FindStop (bus.stops.getD k "") = some p →
      catalogue.FindStop (bus.stops.getD (k + 1) "") = some q →
        catalogue.storedDistance p q = none ∨ catalogue.storedDistance q p = none) :
    AddEdgesForBus.backwardDistance catalogue bus j i =
      AddEdgesForBus.forwardDistance catalogue bus i j := by
  rw [backwardDistance_eq_sum, forwardDistance_eq_sum]
  congr 1
  unfold Spec.backwardSum Spec.forwardSum
  rw [range'_succ_eq_map, List.map_map]
  congr 1
  apply List.map_congr_left
  intro k hk
  rw [List.mem_range'_1] at hk
  simp only [Function.comp_apply, Nat.add_sub_cancel]
  exact hop_symm_of_one_way catalogue _ _ (h k hk.1 (by omega))

end TransportRouter

namespace TransportRouter

open graph

/-! ### C33: the return-leg edge mirrors the forward edge -/

/-- C33: for every catalogue, every routing settings and every bus of the catalogue that is not
a round trip, whose stops are all stops of the catalogue and each of whose hops
`(s_k, s_{k+1})` has a stored distance in at most one direction, and for every pair of positions
`i < j`: the return-leg pair `(j, i)` accumulates the distance of the forward pair `(i, j)`; the
loop body stores a ride for the one if and only if it stores a ride for the other; when the
distance is not zero the built graph has both edges, the forward one from the riding vertex of
`s_i` to the waiting vertex of `s_j` and the return one from the riding vertex of `s_j` to the
waiting vertex of `s_i`, with the same weight and the same span count `j - i`, both tagged with
the name of the bus; when it is zero neither pair adds an edge. -/
theorem return_edge_mirrors_forward_edge (catalogue : TransportCatalogue)
    (settings : RoutingSettings) (bus : Bus) (hmem : bus ∈ catalogue.buses_)
    (hrt : bus.is_roundtrip = false)
    (hknown : ∀ name ∈ bus.stops, name ∈ catalogue.stops_.map Stop.name)
    (honeway : ∀ k : Nat, k + 1 < bus.stops.length → ∀ p q : StopPtr,
      catalogue.FindStop (bus.stops.getD k "") = some p →
      catalogue.FindStop (bus.stops.getD (k + 1) "") = some q →
        catalogue.storedDistance p q = none ∨ catalogue.storedDistance q p = none)
    (i j : Nat) (hij : i < j) (hj : j < bus.stops.length) :
    AddEdgesForBus.backwardDistance catalogue bus j i =
        AddEdgesForBus.forwardDistance catalogue bus i j ∧
      ((AddEdgesForBus.ride catalogue ((configured settings).BuildGraph catalogue) bus
          (j, i)).isSome ↔
        (AddEdgesForBus.ride catalogue ((configured settings).BuildGraph catalogue) bus
          (i, j)).isSome) ∧
      (AddEdgesForBus.forwardDistance catalogue bus i j ≠ 0 →
        ∃ (e_forward e_return a b a' b' : Nat) (weight : ℚ),
          mapFind ((configured settings).BuildGraph catalogue).stop_to_bus_vertex_
            (bus.stops.getD i "") = some a ∧
          mapFind ((configured settings).BuildGraph catalogue).stop_to_wait_vertex_
            (bus.stops.getD j "") = some b ∧
          mapFind ((configured settings).BuildGraph catalogue).stop_to_bus_vertex_
            (bus.stops.getD j "") = some b' ∧
          mapFind ((configured settings).BuildGraph catalogue).stop_to_wait_vertex_
            (bus.stops.getD i "") = some a' ∧
          ((configured settings).BuildGraph catalogue).graph_.edges_[e_forward]? =
            some ⟨a, b, weight⟩ ∧
          ((configured settings).BuildGraph catalogue).graph_.edges_[e_return]? =
            some ⟨b', a', weight⟩ ∧
          weight = ((configured settings).BuildGraph catalogue).CalculateTime
            (AddEdgesForBus.forwardDistance catalogue bus i j) ∧
          mapFind ((configured settings).BuildGraph catalogue).edge_to_bus_ e_forward =
            some bus.name ∧
          mapFind ((configured settings).BuildGraph catalogue).edge_to_bus_ e_return =
            some bus.name ∧
          mapFind ((configured settings).BuildGraph catalogue).edge_to_span_count_ e_forward =
            some ((j - i : Nat) : Int) ∧
          mapFind ((configured settings).BuildGraph catalogue).edge_to_span_count_ e_return =
            some ((j - i : Nat) : Int)) ∧
      (AddEdgesForBus.forwardDistance catalogue bus i j = 0 →
        ∀ r : TransportRouter, AddEdgesForBus.forwardPair catalogue bus r i j = r ∧
          AddEdgesForBus.backwardPair catalogue bus r j i = r) := by
  have hback := backwardDistance_eq_forwardDistance catalogue bus i j
    (fun k _ hk => honeway k (by omega))
  have hdf : AddEdgesForBus.distance catalogue bus i j =
      AddEdgesForBus.forwardDistance catalogue bus i j := by
    unfold AddEdgesForBus.distance
    rw [if_pos hij]
  have hdb : AddEdgesForBus.distance catalogue bus j i =
      AddEdgesForBus.forwardDistance catalogue bus i j := by
    unfold AddEdgesForBus.distance
    rw [if_neg (by omega), hback]
  have hsf : AddEdgesForBus.span i j = ((j - i : Nat) : Int) := by
    unfold AddEdgesForBus.span
    rw [if_pos hij]
  have hsb : AddEdgesForBus.span j i = ((j - i : Nat) : Int) := by
    unfold AddEdgesForBus.span
    rw [if_neg (by omega)]
  have hi := hknown _ (getD_mem_stops bus.stops i (by omega))
  have hj' := hknown _ (getD_mem_stops bus.stops j hj)
  obtain ⟨vi, _, hwi, hbi⟩ := known_vertices catalogue settings _ hi
  obtain ⟨vj, _, hwj, hbj⟩ := known_vertices catalogue settings _ hj'
  have hfwd_iff : (AddEdgesForBus.ride catalogue ((configured settings).BuildGraph catalogue)
      bus (i, j)).isSome ↔ AddEdgesForBus.forwardDistance catalogue bus i j ≠ 0 := by
    constructor
    · intro h
      obtain ⟨x, hx⟩ := Option.isSome_iff_exists.1 h
      obtain ⟨_, _, _, _, hD, _⟩ := (ride_eq_some catalogue _ bus (i, j) x).1 hx
      rw [← hdf]
      exact hD
    · intro hD
      rw [Option.isSome_iff_exists]
      exact ⟨_, (ride_eq_some catalogue _ bus (i, j) _).2
        ⟨vi + 1, vj, hbi, hwj, by rw [hdf]; exact hD, rfl⟩⟩
  have hback_iff : (AddEdgesForBus.ride catalogue ((configured settings).BuildGraph catalogue)
      bus (j, i)).isSome ↔ AddEdgesForBus.forwardDistance catalogue bus i j ≠ 0 := by
    constructor
    · intro h
      obtain ⟨x, hx⟩ := Option.isSome_iff_exists.1 h
      obtain ⟨_, _, _, _, hD, _⟩ := (ride_eq_some catalogue _ bus (j, i) x).1 hx
      rw [← hdb]
      exact hD
    · intro hD
      rw [Option.isSome_iff_exists]
      exact ⟨_, (ride_eq_some catalogue _ bus (j, i) _).2
        ⟨vj + 1, vi, hbj, hwi, by rw [hdb]; exact hD, rfl⟩⟩
  refine ⟨hback, hback_iff.trans hfwd_iff.symm, ?_, ?_⟩
  · intro hD
    obtain ⟨e1, a, b, _, ha, hb, hedge1, htag1, hspan1⟩ :=
      pair_edge catalogue settings bus hmem i j ((mem_pairs bus i j).2 (Or.inl ⟨hij, hj⟩))
        hi hj' (by rw [hdf]; exact hD)
    obtain ⟨e2, b', a', _, hb', ha', hedge2, htag2, hspan2⟩ :=
      pair_edge catalogue settings bus hmem j i
        ((mem_pairs bus j i).2 (Or.inr ⟨hrt, hij, hj⟩)) hj' hi (by rw [hdb]; exact hD)
    rw [hdf] at hedge1
    rw [hdb] at hedge2
    rw [hsf] at hspan1
    rw [hsb] at hspan2
    exact ⟨e1, e2, a, b, a', b', _, ha, hb, hb', ha', hedge1, hedge2, rfl, htag1, htag2, hspan1,
      hspan2⟩
  · intro hD r
    constructor
    · rw [forwardPair_eq catalogue bus r i j hij, ride_of_distance_zero]
      rw [hdf]
      exact hD
    · rw [backwardPair_eq catalogue bus r j i hij, ride_of_distance_zero]
      rw [hdb]
      exact hD

end TransportRouter

namespace TransportRouter

open graph

/-- The theorem for C33 applied to the routing scenario, where `X -> Y` and `Y -> Z` are
declared one way only, and the positions `0 < 2` of its bus `B = [X, Y, Z]`: the way back from
`Z` to `X` accumulates `2400` like the way out, and the graph has both edges, with one weight
and the span count `2`. -/
theorem return_edge_mirrors_forward_edge_witness :
    AddEdgesForBus.forwardDistance Example.linear
        { name := "B", stops := ["X", "Y", "Z"], is_roundtrip := false } 0 2 = 2400 ∧
      AddEdgesForBus.backwardDistance Example.linear
        { name := "B", stops := ["X", "Y", "Z"], is_roundtrip := false } 2 0 = 2400 ∧
      ∃ (e_forward e_return : Nat) (weight : ℚ),
        ((configured { bus_wait_time := 6, bus_velocity := 40 }).BuildGraph
          Example.linear).graph_.edges_[e_forward]? = some ⟨1, 4, weight⟩ ∧
        ((configured { bus_wait_time := 6, bus_velocity := 40 }).BuildGraph
          Example.linear).graph_.edges_[e_return]? = some ⟨5, 0, weight⟩ ∧
        mapFind ((configured { bus_wait_time := 6, bus_velocity := 40 }).BuildGraph
          Example.linear).edge_to_span_count_ e_forward = some 2 ∧
        mapFind ((configured { bus_wait_time := 6, bus_velocity := 40 }).BuildGraph
          Example.linear).edge_to_span_count_ e_return = some 2 := by
  have honeway : ∀ k : Nat, k + 1 < 3 → ∀ p q : StopPtr,
      Example.linear.FindStop (["X", "Y", "Z"].getD k "") = some p →
      Example.linear.FindStop (["X", "Y", "Z"].getD (k + 1) "") = some q →
        Example.linear.storedDistance p q = none ∨ Example.linear.storedDistance q p = none := by
    intro k hk p q hp hq
    have hcases : k = 0 ∨ k = 1 := by omega
    rcases hcases with rfl | rfl
    · have hp' : p = 0 := (Option.some.inj hp).symm
      have hq' : q = 1 := (Option.some.inj hq).symm
      subst hp' hq'
      decide
    · have hp' : p = 1 := (Option.some.inj hp).symm
      have hq' : q = 2 := (Option.some.inj hq).symm
      subst hp' hq'
      decide
  refine ⟨by decide, by decide, ?_⟩
  obtain ⟨e1, e2, a, b, a', b', w, ha, hb, hb', ha', h1, h2, _, _, _, s1, s2⟩ :=
    (return_edge_mirrors_forward_edge Example.linear { bus_wait_time := 6, bus_velocity := 40 }
      { name := "B", stops := ["X", "Y", "Z"], is_roundtrip := false } (by decide) rfl
      (by decide) honeway 0 2 (by decide) (by decide)).2.2.1 (by decide)
  have e1' : a = 1 := (Option.some.inj ha).symm
  have e2' : b = 4 := (Option.some.inj hb).symm
  have e3' : b' = 5 := (Option.some.inj hb').symm
  have e4' : a' = 0 := (Option.some.inj ha').symm
  subst e1' e2' e3' e4'
  exact ⟨e1, e2, w, h1, h2, s1, s2⟩

end TransportRouter

/-! ## The items of a route alternate -/

namespace TransportRouter

open graph

/-- On the graph a configured router builds, `ReconstructRoute` returns the weight the engine
reports and one item per edge of its path, when the edge ids of the path are ids of the
graph. -/
theorem ReconstructRoute_eq_map (catalogue : TransportCatalogue) (settings : RoutingSettings)
    (router : graph.Router) (from_vertex to_vertex : Nat) (route : graph.RouteInfo)
    (hroute : router ((configured settings).BuildGraph catalogue).graph_ from_vertex to_vertex =
      some route)
    (hids : ∀ e ∈ route.edges,
      e < ((configured settings).BuildGraph catalogue).graph_.edges_.length) :
    ((configured settings).BuildGraph catalogue).ReconstructRoute from_vertex to_vertex router =
      .ok (some
        { total_time := route.weight
          items := route.edges.map
            (Spec.itemOfEdge catalogue ((configured settings).BuildGraph catalogue)) }) := by
  obtain ⟨_, h2, h3, _, _, _⟩ := BuildGraph_facts catalogue (configured settings) rfl rfl rfl
  unfold ReconstructRoute
  rw [hroute]
  simp only
  cases hedges : route.edges with
  | nil => rfl
  | cons e rest =>
    rw [hedges] at hids
    simp only [List.isEmpty_cons, Bool.false_eq_true, if_false]
    rw [foldlM_visit_eq catalogue _ h2 h3 (e :: rest) hids []]
    rfl

/-- In the graph a configured router builds, a wait edge goes from an even vertex to an odd one
and every other edge from an odd vertex to an even one. -/
theorem edge_parity (catalogue : TransportCatalogue) (settings : RoutingSettings) (e : Nat)
    (edge : Edge)
    (he : ((configured settings).BuildGraph catalogue).graph_.edges_[e]? = some edge) :
    (e < catalogue.stops_.length → edge.from_ = e * 2 ∧ edge.to_ = e * 2 + 1) ∧
      (catalogue.stops_.length ≤ e → edge.from_ % 2 = 1 ∧ edge.to_ % 2 = 0) := by
  obtain ⟨_, hwait, htag, hsound, _, _⟩ :=
    BuildGraph_facts catalogue (configured settings) rfl rfl rfl
  constructor
  · intro hlt
    obtain ⟨hedge, _⟩ := hwait e _ (List.getElem?_eq_getElem hlt)
    rw [he] at hedge
    rw [Option.some.inj hedge]
    exact ⟨rfl, rfl⟩
  · intro hle
    obtain ⟨hodd, _, _⟩ := htag e edge hle he
    obtain ⟨bus, _, i, j, _, _, hto, _⟩ := ride_edge_origin catalogue settings e edge hle he
    obtain ⟨k, _, _, _, hk⟩ := hsound _ _ hto
    refine ⟨hodd, ?_⟩
    rw [hk]
    show (k * 2 : Nat) % 2 = 0
    omega

/-- Along a chain of edges of a graph in which the edges with ids below `n` go from an even
vertex to an odd one and the others from an odd vertex to an even one, the parity of the vertex
changes with every edge, so the place of an edge in the chain tells its kind. -/
theorem path_alternates (g : DirectedWeightedGraph) (n : Nat)
    (hwait : ∀ (e : Nat) (edge : Edge), e < n → g.edges_[e]? = some edge →
      (edge.from_ : Nat) % 2 = 0 ∧ (edge.to_ : Nat) % 2 = 1)
    (hride : ∀ (e : Nat) (edge : Edge), n ≤ e → g.edges_[e]? = some edge →
      (edge.from_ : Nat) % 2 = 1 ∧ (edge.to_ : Nat) % 2 = 0)
    (path : List Nat) (s t : Nat) (h : IsPath g s t path = true) :
    t % 2 = (s + path.length) % 2 ∧
      ∀ (k e : Nat), path[k]? = some e →
        e < g.edges_.length ∧ (e < n ↔ (s + k) % 2 = 0) := by
  induction path generalizing s with
  | nil =>
    simp only [IsPath, decide_eq_true_eq] at h
    subst h
    refine ⟨by simp, ?_⟩
    intro k e hk
    simp at hk
  | cons e0 rest ih =>
    obtain ⟨edge, hedge, hfrom, hrest, _⟩ := IsPath_cons h
    obtain ⟨v, hv⟩ : ∃ v : Nat, v = edge.to_ := ⟨_, rfl⟩
    have hrest' : IsPath g v t rest = true := by rw [hv]; exact hrest
    obtain ⟨ih1, ih2⟩ := ih v hrest'
    have hfrom' : (edge.from_ : Nat) = s := hfrom
    have hlt0 : e0 < g.edges_.length := by
      by_contra hc
      rw [List.getElem?_eq_none (not_lt.1 hc)] at hedge
      cases hedge
    have hflip : v % 2 = (s + 1) % 2 ∧ (e0 < n ↔ s % 2 = 0) := by
      by_cases hn : e0 < n
      · obtain ⟨a, b⟩ := hwait e0 edge hn hedge
        have a' : s % 2 = 0 := by rw [← hfrom']; exact a
        have b' : v % 2 = 1 := by rw [hv]; exact b
        constructor
        · omega
        · simp [hn, a']
      · obtain ⟨a, b⟩ := hride e0 edge (not_lt.1 hn) hedge
        have a' : s % 2 = 1 := by rw [← hfrom']; exact a
        have b' : v % 2 = 0 := by rw [hv]; exact b
        constructor
        · omega
        · simp [hn, a']
    have hto : v % 2 = (s + 1) % 2 := hflip.1
    constructor
    · rw [List.length_cons]
      omega
    · intro k e hk
      cases k with
      | zero =>
        simp only [List.getElem?_cons_zero, Option.some.injEq] at hk
        subst hk
        exact ⟨hlt0, by simpa using hflip.2⟩
      | succ k =>
        rw [List.getElem?_cons_succ] at hk
        obtain ⟨a, b⟩ := ih2 k e hk
        refine ⟨a, ?_⟩
        rw [b]
        omega

end TransportRouter

namespace TransportRouter

open graph

/-! ### C31: the items of a route alternate -/

/-- C31: for every catalogue, every routing settings, every two stop names with a waiting
vertex in the built graph and every path of edge ids the engine reports between the two waiting
vertices that chains from the first to the second (each edge starts where the one before it
ends), `ReconstructRoute` returns one item per edge and the items alternate: the item at an
even place is a `Wait` item and the item at an odd place is a `Bus` item, the number of items
is even, and a non-empty list starts with a `Wait` item that names the source stop and ends
with a `Bus` item. -/
theorem ReconstructRoute_items_alternate (catalogue : TransportCatalogue)
    (settings : RoutingSettings) (router : graph.Router) (from_name to_name : String)
    (from_vertex to_vertex : Nat) (route : graph.RouteInfo)
    (hfrom : mapFind ((configured settings).BuildGraph catalogue).stop_to_wait_vertex_
      from_name = some from_vertex)
    (hto : mapFind ((configured settings).BuildGraph catalogue).stop_to_wait_vertex_
      to_name = some to_vertex)
    (hroute : router ((configured settings).BuildGraph catalogue).graph_ from_vertex to_vertex =
      some route)
    (hpath : IsPath ((configured settings).BuildGraph catalogue).graph_ from_vertex to_vertex
      route.edges = true) :
    ∃ items : List RouteItem,
      ((configured settings).BuildGraph catalogue).ReconstructRoute from_vertex to_vertex
          router = .ok (some { total_time := route.weight, items := items }) ∧
        items.length = route.edges.length ∧
        (∀ (k : Nat) (item : RouteItem), items[k]? = some item →
          (item.type = .Wait ↔ k % 2 = 0) ∧ (item.type = .Bus ↔ k % 2 = 1)) ∧
        items.length % 2 = 0 ∧
        (items ≠ [] →
          (∃ first, items.head? = some first ∧ first.type = .Wait ∧
            first.stop_name = from_name) ∧
          ∃ last, items.getLast? = some last ∧ last.type = .Bus) := by
  obtain ⟨_, hwait, _, hsound, _, _⟩ :=
    BuildGraph_facts catalogue (configured settings) rfl rfl rfl
  obtain ⟨fi, fstop, hfi, hfname, hfv⟩ := hsound _ _ hfrom
  obtain ⟨ti, _, _, _, htv⟩ := hsound _ _ hto
  obtain ⟨hlen, hkind⟩ :=
    path_alternates ((configured settings).BuildGraph catalogue).graph_ catalogue.stops_.length
      (fun e edge hlt he => by
        obtain ⟨a, b⟩ := (edge_parity catalogue settings e edge he).1 hlt
        rw [a, b]
        constructor
        · show (e * 2 : Nat) % 2 = 0
          omega
        · show (e * 2 + 1 : Nat) % 2 = 1
          omega)
      (fun e edge hle he => (edge_parity catalogue settings e edge he).2 hle)
      route.edges from_vertex to_vertex hpath
  have hids : ∀ e ∈ route.edges,
      e < ((configured settings).BuildGraph catalogue).graph_.edges_.length := by
    intro e he
    obtain ⟨k, hk⟩ := List.getElem?_of_mem he
    exact (hkind k e hk).1
  have hitem : ∀ (k : Nat) (item : RouteItem),
      (route.edges.map
        (Spec.itemOfEdge catalogue ((configured settings).BuildGraph catalogue)))[k]? =
          some item →
        ∃ e, route.edges[k]? = some e ∧
          item = Spec.itemOfEdge catalogue ((configured settings).BuildGraph catalogue) e ∧
          (e < catalogue.stops_.length ↔ k % 2 = 0) := by
    intro k item hk
    rw [List.getElem?_map] at hk
    cases he : route.edges[k]? with
    | none => rw [he] at hk; cases hk
    | some e =>
      rw [he] at hk
      refine ⟨e, rfl, (Option.some.inj hk).symm, ?_⟩
      rw [(hkind k e he).2]
      omega
  have heven : route.edges.length % 2 = 0 := by omega
  have htype : ∀ (k : Nat) (item : RouteItem),
      (route.edges.map
        (Spec.itemOfEdge catalogue ((configured settings).BuildGraph catalogue)))[k]? =
          some item →
        (item.type = .Wait ↔ k % 2 = 0) ∧ (item.type = .Bus ↔ k % 2 = 1) := by
    intro k item hk
    obtain ⟨e, _, hi, hiff⟩ := hitem k item hk
    rw [hi]
    unfold Spec.itemOfEdge
    by_cases hlt : e < catalogue.stops_.length
    · have h0 : k % 2 = 0 := hiff.1 hlt
      rw [if_pos hlt]
      simp [h0]
    · have h1 : k % 2 = 1 := by
        have : ¬ k % 2 = 0 := fun h => hlt (hiff.2 h)
        omega
      rw [if_neg hlt]
      simp [h1]
  refine ⟨_, ReconstructRoute_eq_map catalogue settings router from_vertex to_vertex route
    hroute hids, List.length_map _ _, htype, by rw [List.length_map]; exact heven, ?_⟩
  intro hne
  have hne' : route.edges ≠ [] := fun h => hne (by rw [h]; rfl)
  constructor
  · cases hedges : route.edges with
    | nil => exact absurd hedges hne'
    | cons e0 rest =>
      have h0 : route.edges[0]? = some e0 := by rw [hedges]; simp
      have hlt : e0 < catalogue.stops_.length := by
        rw [(hkind 0 e0 h0).2]
        omega
      rw [hedges] at hpath
      obtain ⟨edge, hedge, hfromv, _, _⟩ := IsPath_cons hpath
      obtain ⟨a, _⟩ := (edge_parity catalogue settings e0 edge hedge).1 hlt
      have hfromv' : (edge.from_ : Nat) = from_vertex := hfromv
      have a' : (edge.from_ : Nat) = e0 * 2 := a
      have he2 : e0 * 2 = fi * 2 := a'.symm.trans (hfromv'.trans hfv)
      have he0 : e0 = fi := Nat.eq_of_mul_eq_mul_right (by decide) he2
      refine ⟨_, rfl, ?_, ?_⟩
      · unfold Spec.itemOfEdge
        rw [if_pos hlt]
      · unfold Spec.itemOfEdge
        rw [if_pos hlt]
        show (catalogue.stopAt e0).name = from_name
        unfold TransportCatalogue.stopAt
        rw [he0, List.getD_eq_getElem?_getD, hfi]
        exact hfname
  · have hpos : 0 < route.edges.length := List.length_pos.2 hne'
    have hlast : (route.edges.map
        (Spec.itemOfEdge catalogue ((configured settings).BuildGraph catalogue))).getLast? =
          (route.edges.map
            (Spec.itemOfEdge catalogue ((configured settings).BuildGraph catalogue)))[
              route.edges.length - 1]? := by
      rw [List.getLast?_eq_getElem?, List.length_map]
    cases hl : (route.edges.map
        (Spec.itemOfEdge catalogue ((configured settings).BuildGraph catalogue)))[
          route.edges.length - 1]? with
    | none =>
      rw [List.getElem?_eq_none_iff, List.length_map] at hl
      omega
    | some last =>
      refine ⟨last, by rw [hlast, hl], ?_⟩
      rw [(htype _ last hl).2]
      omega

end TransportRouter

namespace TransportRouter

open graph

/-- The theorem for C31 applied to the routing scenario and the path over the edges `0` (the
wait edge of `X`) and `4` (the ride `X -> Z`), from the waiting vertex of `X` to that of `Z`. -/
theorem ReconstructRoute_items_alternate_witness :
    mapFind ((configured { bus_wait_time := 6, bus_velocity := 40 }).BuildGraph
        Example.linear).stop_to_wait_vertex_ "X" = some 0 ∧
      mapFind ((configured { bus_wait_time := 6, bus_velocity := 40 }).BuildGraph
        Example.linear).stop_to_wait_vertex_ "Z" = some 4 ∧
      Example.directEngine
        ((configured { bus_wait_time := 6, bus_velocity := 40 }).BuildGraph
          Example.linear).graph_ 0 4 = some { weight := 48 / 5, edges := [0, 4] } ∧
      IsPath ((configured { bus_wait_time := 6, bus_velocity := 40 }).BuildGraph
        Example.linear).graph_ 0 4 [0, 4] = true ∧
      ∃ items : List RouteItem,
        ((configured { bus_wait_time := 6, bus_velocity := 40 }).BuildGraph
            Example.linear).ReconstructRoute 0 4 Example.directEngine =
          .ok (some { total_time := 48 / 5, items := items }) ∧
        items.length = [0, 4].length ∧
        (∀ (k : Nat) (item : RouteItem), items[k]? = some item →
          (item.type = .Wait ↔ k % 2 = 0) ∧ (item.type = .Bus ↔ k % 2 = 1)) ∧
        items.length % 2 = 0 ∧
        (items ≠ [] →
          (∃ first, items.head? = some first ∧ first.type = .Wait ∧ first.stop_name = "X") ∧
          ∃ last, items.getLast? = some last ∧ last.type = .Bus) :=
  ⟨rfl, rfl, rfl, rfl,
    ReconstructRoute_items_alternate Example.linear { bus_wait_time := 6, bus_velocity := 40 }
      Example.directEngine "X" "Z" 0 4 { weight := 48 / 5, edges := [0, 4] } rfl rfl rfl rfl⟩

end TransportRouter

/-! ## Entries of a dictionary under construction -/

namespace json

theorem find_emplace_of_ne (d : Dict) (k k' : String) (v : Node) (h : k' ≠ k) :
    Dict.find (Dict.emplace d k v) k' = Dict.find d k' := by
  induction d with
  | nil =>
    have : ¬ k = k' := fun e => h e.symm
    simp [Dict.emplace, Dict.find, mapFind, this]
  | cons hd tl ih =>
    obtain ⟨k0, v0⟩ := hd
    unfold Dict.find at ih ⊢
    unfold Dict.emplace
    by_cases h0 : k0 = k
    · rw [if_pos h0]
    · rw [if_neg h0]
      by_cases h1 : strLE k k0
      · rw [if_pos h1]
        have : ¬ k = k' := fun e => h e.symm
        simp [mapFind, this]
      · rw [if_neg h1]
        by_cases h2 : k0 = k'
        · simp [mapFind, h2]
        · simp [mapFind, h2, ih]

theorem find_emplace_of_none (d : Dict) (k : String) (v : Node) (h : Dict.find d k = none) :
    Dict.find (Dict.emplace d k v) k = some v := by
  induction d with
  | nil => simp [Dict.emplace, Dict.find, mapFind]
  | cons hd tl ih =>
    obtain ⟨k0, v0⟩ := hd
    unfold Dict.find at ih h ⊢
    unfold Dict.emplace
    by_cases h0 : k0 = k
    · simp [mapFind, h0] at h
    · have htl : mapFind tl k = none := by simpa [mapFind, h0] using h
      rw [if_neg h0]
      by_cases h1 : strLE k k0
      · rw [if_pos h1]
        simp [mapFind]
      · rw [if_neg h1]
        simp [mapFind, h0, ih htl]

theorem mem_of_find (d : Dict) (k : String) (v : Node) (h : Dict.find d k = some v) :
    (k, v) ∈ d := by
  induction d with
  | nil => simp [Dict.find, mapFind] at h
  | cons hd tl ih =>
    obtain ⟨k0, v0⟩ := hd
    unfold Dict.find at ih h
    by_cases h0 : k0 = k
    · simp only [mapFind, h0, if_true, Option.some.injEq] at h
      rw [h0, h]
      exact List.mem_cons_self _ _
    · simp only [mapFind, h0, if_false] at h
      exact List.mem_cons_of_mem _ (ih h)

/-- On an ordered dictionary that holds an entry for `k`, `emplace` changes nothing. -/
theorem emplace_of_find (d : Dict) (k : String) (v old : Node) (hord : Dict.Ordered d)
    (h : Dict.find d k = some old) : Dict.emplace d k v = d := by
  induction d with
  | nil => simp [Dict.find, mapFind] at h
  | cons hd tl ih =>
    obtain ⟨k0, v0⟩ := hd
    unfold Dict.Ordered at hord ih
    rw [List.pairwise_cons] at hord
    unfold Dict.emplace
    by_cases h0 : k0 = k
    · rw [if_pos h0]
    · rw [if_neg h0]
      have htl : Dict.find tl k = some old := by
        unfold Dict.find at h ⊢
        simpa [mapFind, h0] using h
      obtain ⟨hle, _⟩ := hord.1 (k, old) (mem_of_find tl k old htl)
      have hnot : ¬ strLE k k0 := fun hk => h0 (antisymm hle hk)
      rw [if_neg hnot, ih hord.2 htl]

theorem mem_emplace (d : Dict) (k : String) (v : Node) (x : String × Node)
    (h : x ∈ Dict.emplace d k v) : x = (k, v) ∨ x ∈ d := by
  induction d with
  | nil =>
    simp only [Dict.emplace, List.mem_singleton] at h
    exact Or.inl h
  | cons hd tl ih =>
    obtain ⟨k0, v0⟩ := hd
    unfold Dict.emplace at h
    by_cases h0 : k0 = k
    · rw [if_pos h0] at h
      exact Or.inr h
    · rw [if_neg h0] at h
      by_cases h1 : strLE k k0
      · rw [if_pos h1] at h
        exact List.mem_cons.1 h
      · rw [if_neg h1] at h
        rcases List.mem_cons.1 h with h | h
        · exact Or.inr (h ▸ List.mem_cons_self _ _)
        · rcases ih h with h | h
          · exact Or.inl h
          · exact Or.inr (List.mem_cons_of_mem _ h)

/-- The call `emplace` keeps a dictionary ordered. -/
theorem emplace_ordered (d : Dict) (k : String) (v : Node) (hord : Dict.Ordered d) :
    Dict.Ordered (Dict.emplace d k v) := by
  induction d with
  | nil => exact List.pairwise_singleton _ _
  | cons hd tl ih =>
    obtain ⟨k0, v0⟩ := hd
    unfold Dict.Ordered at hord ih ⊢
    have hord' := List.pairwise_cons.1 hord
    unfold Dict.emplace
    by_cases h0 : k0 = k
    · rw [if_pos h0]
      exact hord
    · rw [if_neg h0]
      by_cases h1 : strLE k k0
      · rw [if_pos h1]
        refine List.pairwise_cons.2 ⟨?_, hord⟩
        intro x hx
        rcases List.mem_cons.1 hx with hx | hx
        · rw [hx]
          exact ⟨h1, fun e => h0 e.symm⟩
        · obtain ⟨a, b⟩ := hord'.1 x hx
          refine ⟨IsTrans.trans _ _ _ h1 a, ?_⟩
          intro e
          rw [← e] at a
          exact h0 (antisymm a h1)
      · rw [if_neg h1]
        refine List.pairwise_cons.2 ⟨?_, ih hord'.2⟩
        intro x hx
        rcases mem_emplace tl k v x hx with hx | hx
        · rw [hx]
          exact ⟨(total_of strLE k0 k).resolve_right h1, h0⟩
        · exact hord'.1 x hx

/-- Reading through a pointer what was written through it: after a store through a pointer
that points into the tree, the pointer points to the stored node. -/
theorem deref_store (root : Node) (p : NodePtr) (n m : Node) (h : root.deref p = some n) :
    (root.store p m).deref p = some m := by
  induction p generalizing root with
  | nil => simp [Node.store, Node.deref]
  | cons s rest ih =>
    cases root with
    | array a =>
      cases s with
      | index i =>
        simp only [Node.deref] at h
        cases hi : a[i]? with
        | none => simp [hi] at h
        | some c =>
          rw [hi] at h
          simp only [Node.store, hi, Node.deref]
          have hlt : i < a.length := by
            by_contra hc
            rw [List.getElem?_eq_none (not_lt.1 hc)] at hi
            cases hi
          rw [List.getElem?_set_self hlt]
          exact ih c h
      | key k => simp [Node.deref] at h
    | dict d =>
      cases s with
      | index i => simp [Node.deref] at h
      | key k =>
        simp only [Node.deref] at h
        cases hk : Dict.find d k with
        | none => simp [hk] at h
        | some c =>
          rw [hk] at h
          simp only [Node.store, hk, Node.deref]
          rw [JsonReader.find_replace_dict, if_pos rfl, hk]
          exact ih c h
    | null => simp [Node.deref] at h
    | bool b => simp [Node.deref] at h
    | int i => simp [Node.deref] at h
    | double x => simp [Node.deref] at h
    | string s0 => simp [Node.deref] at h

end json

namespace json

/-! ### C35: a key and a value inside an open dictionary -/

/-- The state after a key and a value, for a builder positioned inside an open dictionary. -/
theorem key_value_steps (b : Builder) (p : NodePtr) (dict : Dict) (k : String) (v : Node)
    (hc : b.completed_ = false) (htop : b.top = .ok (some (p, .dict dict)))
    (hw : b.waiting_key_ = none) :
    b.Key k = .ok { b with waiting_key_ := some k } ∧
      b.DoKey k = .ok { b with waiting_key_ := some k } ∧
      Builder.DoValue { b with waiting_key_ := some k } v =
        .ok { b with root_ := b.root_.store p (.dict (Dict.emplace dict k v)) } ∧
      Builder.Value { b with waiting_key_ := some k } v =
        .ok { b with root_ := b.root_.store p (.dict (Dict.emplace dict k v)) } ∧
      Builder.top { b with root_ := b.root_.store p (.dict (Dict.emplace dict k v)) } =
        .ok (some (p, .dict (Dict.emplace dict k v))) := by
  have htop1 : ∀ (w : Option String) (c : Bool),
      Builder.top { b with waiting_key_ := w, completed_ := c } =
        .ok (some (p, .dict dict)) := fun _ _ => htop
  have hderef : b.nodes_stack_.getLast? = some p ∧ b.root_.deref p = some (.dict dict) := by
    unfold Builder.top at htop
    cases hl : b.nodes_stack_.getLast? with
    | none => simp [hl] at htop
    | some q =>
      rw [hl] at htop
      simp only at htop
      cases hd : b.root_.deref q with
      | none => simp [hd] at htop
      | some n =>
        rw [hd] at htop
        simp only [Except.ok.injEq, Option.some.injEq, Prod.mk.injEq] at htop
        rw [← htop.1, ← htop.2]
        exact ⟨rfl, hd⟩
  have hdo : b.DoKey k = .ok { b with waiting_key_ := some k } := by
    simp [Builder.DoKey, htop, hw, hc, bind, Except.bind]
  refine ⟨?_, hdo, ?_, ?_, ?_⟩
  · simp [Builder.Key, htop, hw, hdo, bind, Except.bind]
  · simp [Builder.DoValue, htop1, hw, hc, bind, Except.bind]
  · simp [Builder.Value, htop1, hw, hc, bind, Except.bind]
  · unfold Builder.top
    simp only [hderef.1]
    rw [deref_store _ _ _ _ hderef.2]

end json

namespace json

/-- C35 (amended): for every builder positioned inside an open dictionary (not completed, the
top of the stack points to a dictionary `dict`, no key waiting), every key `k` and every value
`v`: `Key(k)` succeeds, on the builder and on a `DictItemContext` or `ValueAfterKeyContext`
alike, and `Value(v)` after it succeeds, on the `KeyItemContext` and on the builder alike; it
leaves the stack as it was, no key waiting, and at the top of the stack the dictionary
`emplace dict k v`. That dictionary maps `k` to `v` when `dict` holds no entry for `k`; when
`dict`, ordered as a `std::map` is, already holds an entry for `k`, it is `dict` unchanged and
still maps `k` to the entry it held. The entry of every other key is as before, and the
dictionary stays ordered. -/
theorem Key_Value_emplaces (b : Builder) (p : NodePtr) (dict : Dict) (k : String) (v : Node)
    (hc : b.completed_ = false) (htop : b.top = .ok (some (p, .dict dict)))
    (hw : b.waiting_key_ = none) :
    ∃ (b1 b2 : Builder) (dict2 : Dict),
      b.Key k = .ok b1 ∧ DictItemContext.Key b k = .ok b1 ∧
        ValueAfterKeyContext.Key b k = .ok b1 ∧
        KeyItemContext.Value b1 v = .ok b2 ∧ b1.Value v = .ok b2 ∧
        b2.nodes_stack_ = b.nodes_stack_ ∧ b2.waiting_key_ = none ∧ b2.completed_ = false ∧
        b2.top = .ok (some (p, .dict dict2)) ∧
        dict2 = Dict.emplace dict k v ∧
        (Dict.find dict k = none → Dict.find dict2 k = some v) ∧
        (∀ old : Node, Dict.Ordered dict → Dict.find dict k = some old →
          dict2 = dict ∧ Dict.find dict2 k = some old) ∧
        (∀ k' : String, k' ≠ k → Dict.find dict2 k' = Dict.find dict k') ∧
        (Dict.Ordered dict → Dict.Ordered dict2) := by
  obtain ⟨h1, h2, h3, h4, h5⟩ := key_value_steps b p dict k v hc htop hw
  refine ⟨_, _, Dict.emplace dict k v, h1, h2, h2, h3, h4, rfl, hw, hc, h5, rfl,
    find_emplace_of_none dict k v, ?_, fun k' hk => find_emplace_of_ne dict k k' v hk,
    emplace_ordered dict k v⟩
  intro old hord hfind
  have he := emplace_of_find dict k v old hord hfind
  exact ⟨he, by rw [he]; exact hfind⟩

/-- The theorem for C35 applied to the builder `Example.openDict`, whose open dictionary holds
`a -> 1`, with the key `a` and the value `2`. -/
theorem Key_Value_emplaces_witness :
    Example.openDict.completed_ = false ∧
      Example.openDict.top = .ok (some ([], .dict [("a", .int 1)])) ∧
      Example.openDict.waiting_key_ = none ∧
      ∃ (b1 b2 : Builder) (dict2 : Dict),
        Example.openDict.Key "a" = .ok b1 ∧ DictItemContext.Key Example.openDict "a" = .ok b1 ∧
          ValueAfterKeyContext.Key Example.openDict "a" = .ok b1 ∧
          KeyItemContext.Value b1 (.int 2) = .ok b2 ∧ b1.Value (.int 2) = .ok b2 ∧
          b2.nodes_stack_ = Example.openDict.nodes_stack_ ∧ b2.waiting_key_ = none ∧
          b2.completed_ = false ∧
          b2.top = .ok (some ([], .dict dict2)) ∧
          dict2 = Dict.emplace [("a", .int 1)] "a" (.int 2) ∧
          (Dict.find [("a", .int 1)] "a" = none → Dict.find dict2 "a" = some (.int 2)) ∧
          (∀ old : Node, Dict.Ordered [("a", .int 1)] →
            Dict.find [("a", .int 1)] "a" = some old →
              dict2 = [("a", .int 1)] ∧ Dict.find dict2 "a" = some old) ∧
          (∀ k' : String, k' ≠ "a" → Dict.find dict2 k' = Dict.find [("a", .int 1)] k') ∧
          (Dict.Ordered [("a", .int 1)] → Dict.Ordered dict2) :=
  ⟨rfl, rfl, rfl,
    Key_Value_emplaces Example.openDict [] [("a", .int 1)] "a" (.int 2) rfl rfl rfl⟩

/-- C35, counterexample: the builder `Example.openDict` is the state after
`StartDict().Key("a").Value(1)`; it is positioned inside an open dictionary that holds the
entry `a -> 1`. `Key("a")` followed by `Value(2)` succeeds and leaves the builder as it was:
the dictionary still maps `a` to `1`, not to `2`, and `EndDict().Build()` returns the
dictionary with `a -> 1`. -/
theorem Key_Value_keeps_existing_entry :
    (Builder.StartDict {} >>= fun b => DictItemContext.Key b "a" >>= fun b =>
        KeyItemContext.Value b (.int 1)) = .ok Example.openDict ∧
      Example.openDict.completed_ = false ∧
      Example.openDict.top = .ok (some ([], .dict [("a", .int 1)])) ∧
      Example.openDict.waiting_key_ = none ∧
      Dict.Ordered [("a", .int 1)] ∧
      Dict.find [("a", .int 1)] "a" = some (.int 1) ∧
      Example.openDict.Key "a" = .ok { Example.openDict with waiting_key_ := some "a" } ∧
      ValueAfterKeyContext.Key Example.openDict "a" =
        .ok { Example.openDict with waiting_key_ := some "a" } ∧
      KeyItemContext.Value { Example.openDict with waiting_key_ := some "a" } (.int 2) =
        .ok Example.openDict ∧
      Builder.Value { Example.openDict with waiting_key_ := some "a" } (.int 2) =
        .ok Example.openDict ∧
      Dict.find [("a", .int 1)] "a" ≠ some (.int 2) ∧
      (ValueAfterKeyContext.EndDict Example.openDict >>= Builder.Build) =
        .ok (.dict [("a", .int 1)]) := by
  refine ⟨rfl, rfl, rfl, rfl, List.pairwise_singleton _ _, rfl, rfl, rfl, rfl, rfl, ?_, rfl⟩
  intro h
  injection h with h
  injection h with h
  exact absurd h (by decide)

end json

/-! ## Loops over `size_t` counters -/

theorem sizeSucc_of_lt (w c : Nat) (h : c + 1 < 2 ^ w) : sizeSucc w c = c + 1 :=
  Nat.mod_eq_of_lt h

theorem sizePred_succ (w c : Nat) (h : c + 1 < 2 ^ w) : sizePred w (c + 1) = c := by
  unfold sizePred
  have : c + 1 + 2 ^ w - 1 = c + 2 ^ w := by omega
  rw [this, Nat.add_mod_right]
  exact Nat.mod_eq_of_lt (by omega)

theorem sizePred_zero (w : Nat) : sizePred w 0 = 2 ^ w - 1 := by
  unfold sizePred
  have hpos : 0 < 2 ^ w := Nat.two_pow_pos w
  rw [Nat.zero_add]
  exact Nat.mod_eq_of_lt (by omega)

theorem foldlM_ok {σ β : Type} (body : σ → β → Except String σ) (f : σ → β → σ) (l : List β)
    (h : ∀ x ∈ l, ∀ s, body s x = .ok (f s x)) (s : σ) :
    l.foldlM body s = .ok (l.foldl f s) := by
  induction l generalizing s with
  | nil => rfl
  | cons x t ih =>
    rw [List.foldlM_cons, h x (List.mem_cons_self _ _) s]
    exact ih (fun y hy => h y (List.mem_cons_of_mem _ hy)) (f s x)

theorem foldlM_congr {σ β : Type} (f g : σ → β → Except String σ) (l : List β)
    (h : ∀ x ∈ l, ∀ s, f s x = g s x) (s : σ) : l.foldlM f s = l.foldlM g s := by
  induction l generalizing s with
  | nil => rfl
  | cons x t ih =>
    rw [List.foldlM_cons, List.foldlM_cons, h x (List.mem_cons_self _ _) s]
    cases g s x with
    | error e => rfl
    | ok s' => exact ih (fun y hy => h y (List.mem_cons_of_mem _ hy)) s'

theorem foldlM_pairs {σ β γ : Type} (g : β → γ → σ → Except String σ) (f : β → List γ)
    (l : List β) (s : σ) :
    (l.flatMap (fun i => (f i).map (fun j => (i, j)))).foldlM (fun s p => g p.1 p.2 s) s =
      l.foldlM (fun s i => (f i).foldlM (fun s j => g i j s) s) s := by
  induction l generalizing s with
  | nil => rfl
  | cons i t ih =>
    rw [List.flatMap_cons, List.foldlM_append, List.foldlM_cons, List.foldlM_map]
    cases (f i).foldlM (fun s j => g i j s) s with
    | error e => rfl
    | ok s' => exact ih s'

/-- A loop that counts up to `n` runs its body on `c, c + 1, .., n - 1` and ends, given fuel for
its `n - c + 1` tests. -/
theorem forLoop_up {σ : Type} (w n : Nat) (hn : n < 2 ^ w) (body : Nat → σ → Except String σ)
    (d : Nat) : ∀ (c fuel : Nat) (s : σ), c + d = n → d + 1 ≤ fuel →
      forLoop (fun k => decide (k < n)) (sizeSucc w) body fuel c s =
        (List.range' c d).foldlM (fun s k => body k s) s := by
  induction d with
  | zero =>
    intro c fuel s hc hfuel
    obtain ⟨fuel, rfl⟩ : ∃ f, fuel = f + 1 := ⟨fuel - 1, by omega⟩
    have : ¬ c < n := by omega
    simp [forLoop, this]
    rfl
  | succ d ih =>
    intro c fuel s hc hfuel
    obtain ⟨fuel, rfl⟩ : ∃ f, fuel = f + 1 := ⟨fuel - 1, by omega⟩
    have hlt : c < n := by omega
    rw [List.range'_succ, List.foldlM_cons]
    simp only [forLoop, hlt, decide_True, if_true]
    cases body c s with
    | error e => rfl
    | ok s' =>
      simp only
      rw [sizeSucc_of_lt w c (by omega)]
      exact ih (c + 1) fuel s' (by omega) (by omega)

/-- A loop that counts down while its counter is above `j` runs its body on
`j + d, .., j + 1` and ends, given fuel for its `d + 1` tests. -/
theorem forLoop_down {σ : Type} (w j : Nat) (body : Nat → σ → Except String σ) (d : Nat) :
    ∀ (fuel : Nat) (s : σ), j + d < 2 ^ w → d + 1 ≤ fuel →
      forLoop (fun k => decide (k > j)) (sizePred w) body fuel (j + d) s =
        (List.range' (j + 1) d).reverse.foldlM (fun s k => body k s) s := by
  induction d with
  | zero =>
    intro fuel s _ hfuel
    obtain ⟨fuel, rfl⟩ : ∃ f, fuel = f + 1 := ⟨fuel - 1, by omega⟩
    simp [forLoop]
    rfl
  | succ d ih =>
    intro fuel s hw hfuel
    obtain ⟨fuel, rfl⟩ : ∃ f, fuel = f + 1 := ⟨fuel - 1, by omega⟩
    have hgt : j + (d + 1) > j := by omega
    rw [List.range'_concat, List.reverse_append, List.reverse_singleton, List.singleton_append,
      List.foldlM_cons]
    simp only [forLoop, hgt, decide_True, if_true]
    have hk : j + 1 + 1 * d = j + (d + 1) := by omega
    rw [hk]
    cases body (j + (d + 1)) s with
    | error e => rfl
    | ok s' =>
      simp only
      have hp : sizePred w (j + (d + 1)) = j + d := sizePred_succ w (j + d) (by omega)
      rw [hp]
      exact ih fuel s' (by omega) (by omega)

/-- A loop that counts down while its counter is below `n` runs its body on `c, .., 0`, wraps
around and ends, given fuel for its `c + 2` tests. -/
theorem forLoop_wrap {σ : Type} (w n : Nat) (hn : n < 2 ^ w) (body : Nat → σ → Except String σ)
    (c : Nat) : ∀ (fuel : Nat) (s : σ), c < n → c + 2 ≤ fuel →
      forLoop (fun j => decide (j < n)) (sizePred w) body fuel c s =
        (List.range (c + 1)).reverse.foldlM (fun s j => body j s) s := by
  induction c with
  | zero =>
    intro fuel s hc hfuel
    obtain ⟨fuel, rfl⟩ : ∃ f, fuel = f + 2 := ⟨fuel - 2, by omega⟩
    have hnot : ¬ 2 ^ w - 1 < n := by omega
    simp only [forLoop, hc, decide_True, if_true]
    show _ = (body 0 s >>= fun s' => pure s')
    cases body 0 s with
    | error e => rfl
    | ok s' =>
      simp only [sizePred_zero, hnot, decide_False, Bool.false_eq_true, if_false]
      rfl
  | succ c ih =>
    intro fuel s hc hfuel
    obtain ⟨fuel, rfl⟩ : ∃ f, fuel = f + 1 := ⟨fuel - 1, by omega⟩
    rw [List.range_succ, List.reverse_append, List.reverse_singleton, List.singleton_append,
      List.foldlM_cons]
    simp only [forLoop, hc, decide_True, if_true]
    cases body (c + 1) s with
    | error e => rfl
    | ok s' =>
      simp only
      rw [sizePred_succ w c (by omega)]
      exact ih fuel s' (by omega) (by omega)

namespace TransportRouter

/-! ## The loops of `AddEdgesForBus` reach the position pairs -/

/-- The forward loops over `size_t` counters run their body on the pairs of `forwardPairs`, in
order, and end. -/
theorem forwardLeg_eq {σ : Type} (w fuel n : Nat) (hn : n < 2 ^ w) (hfuel : n + 1 ≤ fuel)
    (body : Nat → Nat → σ → Except String σ) (s : σ) :
    Sized.forwardLeg w fuel n body s =
      (AddEdgesForBus.forwardPairs n).foldlM (fun s p => body p.1 p.2 s) s := by
  unfold Sized.forwardLeg AddEdgesForBus.forwardPairs
  rw [foldlM_pairs, forLoop_up w n hn _ n 0 fuel s (by omega) hfuel, List.range_eq_range']
  apply foldlM_congr
  intro i hi s'
  have hi' : i < n := by
    have := (List.mem_range'_1.1 hi).2
    omega
  rw [sizeSucc_of_lt w i (by omega)]
  exact forLoop_up w n hn (body i) (n - (i + 1)) (i + 1) fuel s' (by omega) (by omega)

/-- The return-leg loops over `size_t` counters run their body on the pairs of `backwardPairs`,
in order, and end. -/
theorem returnLeg_eq {σ : Type} (w fuel n : Nat) (h1 : 1 ≤ n) (hn : n < 2 ^ w)
    (hfuel : n + 1 ≤ fuel) (body : Nat → Nat → σ → Except String σ) (s : σ) :
    Sized.returnLeg w fuel n body s =
      (AddEdgesForBus.backwardPairs n).foldlM (fun s p => body p.1 p.2 s) s := by
  unfold Sized.returnLeg AddEdgesForBus.backwardPairs
  obtain ⟨m, rfl⟩ : ∃ m, n = m + 1 := ⟨n - 1, by omega⟩
  rw [foldlM_pairs, sizePred_succ w m hn]
  rw [Nat.add_sub_cancel]
  have hdown := forLoop_down w 0
    (fun i s => forLoop (fun j => decide (j < m + 1)) (sizePred w) (body i) fuel (sizePred w i) s)
    m fuel s (by omega) (by omega)
  simp only [Nat.zero_add] at hdown
  rw [hdown]
  apply foldlM_congr
  intro i hi s'
  have hi' : 1 ≤ i ∧ i < m + 1 := by
    have := List.mem_range'_1.1 (List.mem_reverse.1 hi)
    omega
  obtain ⟨c, rfl⟩ : ∃ c, i = c + 1 := ⟨i - 1, by omega⟩
  rw [sizePred_succ w c (by omega)]
  exact forLoop_wrap w (m + 1) hn (body (c + 1)) c fuel s' (by omega) (by omega)

theorem subscript_of_lt (bus : Bus) (k : Nat) (h : k < bus.stops.length) :
    AddEdgesForBus.subscript bus k = .ok (bus.stops.getD k "") := by
  unfold AddEdgesForBus.subscript
  rw [List.getD_eq_getElem?_getD, List.getElem?_eq_getElem h]
  rfl

/-- In range, the forward pair body over `size_t` counters reads no stop outside the sequence
and does what `forwardPair` does. -/
theorem forwardPair_sized (w fuel : Nat) (catalogue : TransportCatalogue) (bus : Bus)
    (hn : bus.stops.length < 2 ^ w) (hfuel : bus.stops.length + 1 ≤ fuel) (i j : Nat)
    (hij : i < j) (hj : j < bus.stops.length) (r : TransportRouter) :
    Sized.forwardPair w fuel catalogue bus i j r =
      .ok (AddEdgesForBus.forwardPair catalogue bus r i j) := by
  have hhops : Sized.forwardHops w fuel catalogue bus i j =
      .ok (AddEdgesForBus.forwardDistance catalogue bus i j) := by
    unfold Sized.forwardHops AddEdgesForBus.forwardDistance
    rw [forLoop_up w j (by omega) _ (j - i) i fuel 0 (by omega) (by omega)]
    apply foldlM_ok
    intro k hk total
    have hk' : i ≤ k ∧ k < j := by
      have := List.mem_range'_1.1 hk
      omega
    rw [sizeSucc_of_lt w k (by omega), subscript_of_lt bus k (by omega),
      subscript_of_lt bus (k + 1) (by omega)]
    rfl
  unfold Sized.forwardPair AddEdgesForBus.forwardPair
  rw [subscript_of_lt bus i (by omega), subscript_of_lt bus j hj]
  simp only [bind, Except.bind, pure, Except.pure]
  cases mapFind r.stop_to_bus_vertex_ (bus.stops.getD i "") with
  | none => rfl
  | some from_vertex =>
    cases mapFind r.stop_to_wait_vertex_ (bus.stops.getD j "") with
    | none => rfl
    | some to_vertex =>
      simp only [hhops]
      rfl

/-- In range, the return-leg pair body over `size_t` counters reads no stop outside the
sequence and does what `backwardPair` does. -/
theorem backwardPair_sized (w fuel : Nat) (catalogue : TransportCatalogue) (bus : Bus)
    (hn : bus.stops.length < 2 ^ w) (hfuel : bus.stops.length + 1 ≤ fuel) (i j : Nat)
    (hji : j < i) (hi : i < bus.stops.length) (r : TransportRouter) :
    Sized.backwardPair w fuel catalogue bus i j r =
      .ok (AddEdgesForBus.backwardPair catalogue bus r i j) := by
  have hhops : Sized.backwardHops w fuel catalogue bus i j =
      .ok (AddEdgesForBus.backwardDistance catalogue bus i j) := by
    unfold Sized.backwardHops AddEdgesForBus.backwardDistance
    have hstart : j + (i - j) = i := by omega
    have hdown := forLoop_down w j
      (fun k total_distance => do
        let current_stop ← AddEdgesForBus.subscript bus k
        let next_stop ← AddEdgesForBus.subscript bus (sizePred w k)
        pure (intWrap (AddEdgesForBus.hop catalogue total_distance current_stop next_stop)))
      (i - j) fuel 0 (by omega) (by omega)
    rw [hstart] at hdown
    rw [hdown]
    apply foldlM_ok
    intro k hk total
    have hk' : j + 1 ≤ k ∧ k ≤ i := by
      have := List.mem_range'_1.1 (List.mem_reverse.1 hk)
      omega
    obtain ⟨c, rfl⟩ : ∃ c, k = c + 1 := ⟨k - 1, by omega⟩
    beta_reduce
    rw [sizePred_succ w c (by omega), subscript_of_lt bus (c + 1) (by omega),
      subscript_of_lt bus c (by omega)]
    rfl
  unfold Sized.backwardPair AddEdgesForBus.backwardPair
  rw [subscript_of_lt bus i hi, subscript_of_lt bus j (by omega)]
  simp only [bind, Except.bind, pure, Except.pure]
  cases mapFind r.stop_to_bus_vertex_ (bus.stops.getD i "") with
  | none => rfl
  | some from_vertex =>
    cases mapFind r.stop_to_wait_vertex_ (bus.stops.getD j "") with
    | none => rfl
    | some to_vertex =>
      simp only [hhops]
      rfl

/-- With a sequence that fits a `size_t` and fuel for `n + 1` tests per loop, `AddEdgesForBus`
over `size_t` counters ends without a fault and returns what `AddEdgesForBus` returns. -/
theorem AddEdgesForBus_sized (w fuel : Nat) (catalogue : TransportCatalogue)
    (r : TransportRouter) (bus : Bus) (hn : bus.stops.length < 2 ^ w)
    (hfuel : bus.stops.length + 1 ≤ fuel) :
    Sized.AddEdgesForBus w fuel catalogue r bus = .ok (AddEdgesForBus catalogue r bus) := by
  unfold Sized.AddEdgesForBus AddEdgesForBus
  simp only
  by_cases h2 : bus.stops.length < 2
  · rw [if_pos h2, if_pos h2]
  · rw [if_neg h2, if_neg h2]
    have hfwd : ∀ r : TransportRouter,
        Sized.forwardLeg w fuel bus.stops.length (Sized.forwardPair w fuel catalogue bus) r =
          .ok ((List.range bus.stops.length).foldl
            (fun r i =>
              (List.range' (i + 1) (bus.stops.length - (i + 1))).foldl
                (fun r j => AddEdgesForBus.forwardPair catalogue bus r i j) r) r) := by
      intro r
      rw [forwardLeg_eq w fuel _ hn hfuel,
        ← foldl_pairs (fun r i j => AddEdgesForBus.forwardPair catalogue bus r i j)]
      apply foldlM_ok
      intro p hp s
      obtain ⟨a, b⟩ := (mem_forwardPairs _ p.1 p.2).1 hp
      exact forwardPair_sized w fuel catalogue bus hn hfuel p.1 p.2 a b s
    have hback : ∀ r : TransportRouter,
        Sized.returnLeg w fuel bus.stops.length (Sized.backwardPair w fuel catalogue bus) r =
          .ok ((List.range' 1 (bus.stops.length - 1)).reverse.foldl
            (fun r i =>
              (List.range i).reverse.foldl
                (fun r j => AddEdgesForBus.backwardPair catalogue bus r i j) r) r) := by
      intro r
      rw [returnLeg_eq w fuel _ (by omega) hn hfuel,
        ← foldl_pairs (fun r i j => AddEdgesForBus.backwardPair catalogue bus r i j)]
      apply foldlM_ok
      intro p hp s
      obtain ⟨a, b⟩ := (mem_backwardPairs _ p.1 p.2).1 hp
      exact backwardPair_sized w fuel catalogue bus hn hfuel p.1 p.2 a b s
    rw [hfwd]
    simp only [bind, Except.bind, pure, Except.pure]
    cases bus.is_roundtrip with
    | true => rfl
    | false => exact hback _

theorem backwardPairs_nodup (n : Nat) : (AddEdgesForBus.backwardPairs n).Nodup := by
  unfold AddEdgesForBus.backwardPairs
  rw [List.nodup_flatMap]
  refine ⟨?_, ?_⟩
  · intro i _
    exact (List.nodup_reverse.2 (List.nodup_range i)).map (fun a b h => (Prod.mk.inj h).2)
  · refine (List.nodup_reverse.2 (List.nodup_range' 1 (n - 1))).pairwise_of_forall_ne ?_
    intro a _ b _ hab
    intro p hpa hpb
    obtain ⟨_, _, rfl⟩ := List.mem_map.1 hpa
    obtain ⟨_, _, h⟩ := List.mem_map.1 hpb
    exact hab (Prod.mk.inj h).1.symm

end TransportRouter

namespace TransportRouter

theorem foldl_record (l init : List (Nat × Nat)) :
    l.foldl (fun visited p => visited ++ [p]) init = init ++ l := by
  induction l generalizing init with
  | nil => simp
  | cons p t ih => rw [List.foldl_cons, ih, List.append_assoc, List.singleton_append]

/-! ### C34: the loops of `AddEdgesForBus` end -/

/-- C34: for every catalogue, router and bus whose stop sequence, of length `n`, fits a `size_t`
of `w` bits, `AddEdgesForBus` run over `size_t` counters with checked subscripts ends, given
fuel for `n + 1` tests per loop, without a fault, in the state `AddEdgesForBus` returns. A bus
with fewer than `2` stops returns at once, for every fuel, and leaves the router as it was: it
adds no edge and reaches no loop. For `n >= 2` the return-leg loops, for every body, run the
body on the pairs of `backwardPairs n` in order and end, the inner counter leaving its loop by
wrapping around below `0`; the pairs they visit are the pairs `(i, j)` with
`n - 1 >= i > j >= 0`, each once; and the body of every visited pair, and of every forward pair,
reads `bus.stops` only at positions below `n`: at `i`, at `j`, and at `k` and `k - 1` for
`i >= k > j`. The counter value after `0` is `2 ^ w - 1`, which fails the test `j < n`. -/
theorem AddEdgesForBus_terminates (w fuel : Nat) (catalogue : TransportCatalogue)
    (r : TransportRouter) (bus : Bus) (hn : bus.stops.length < 2 ^ w)
    (hfuel : bus.stops.length + 1 ≤ fuel) :
    Sized.AddEdgesForBus w fuel catalogue r bus = .ok (AddEdgesForBus catalogue r bus) ∧
      (bus.stops.length < 2 →
        (∀ fuel0 : Nat, Sized.AddEdgesForBus w fuel0 catalogue r bus = .ok r) ∧
          AddEdgesForBus catalogue r bus = r) ∧
      (2 ≤ bus.stops.length →
        (∀ (σ : Type) (body : Nat → Nat → σ → Except String σ) (s : σ),
          Sized.returnLeg w fuel bus.stops.length body s =
            (AddEdgesForBus.backwardPairs bus.stops.length).foldlM
              (fun s p => body p.1 p.2 s) s) ∧
          Sized.returnLeg w fuel bus.stops.length Sized.record [] =
            .ok (AddEdgesForBus.backwardPairs bus.stops.length) ∧
          (AddEdgesForBus.backwardPairs bus.stops.length).Nodup ∧
          (∀ i j : Nat, (i, j) ∈ AddEdgesForBus.backwardPairs bus.stops.length ↔
            j < i ∧ i ≤ bus.stops.length - 1) ∧
          (∀ i j : Nat, (i, j) ∈ AddEdgesForBus.backwardPairs bus.stops.length →
            (∃ from_stop to_stop,
              AddEdgesForBus.subscript bus i = .ok from_stop ∧
                AddEdgesForBus.subscript bus j = .ok to_stop) ∧
            (∀ k : Nat, j < k → k ≤ i →
              sizePred w k = k - 1 ∧
                ∃ current_stop next_stop,
                  AddEdgesForBus.subscript bus k = .ok current_stop ∧
                    AddEdgesForBus.subscript bus (sizePred w k) = .ok next_stop) ∧
            ∀ r0 : TransportRouter,
              Sized.backwardPair w fuel catalogue bus i j r0 =
                .ok (AddEdgesForBus.backwardPair catalogue bus r0 i j)) ∧
          ∀ i j : Nat, (i, j) ∈ AddEdgesForBus.forwardPairs bus.stops.length →
            ∀ r0 : TransportRouter,
              Sized.forwardPair w fuel catalogue bus i j r0 =
                .ok (AddEdgesForBus.forwardPair catalogue bus r0 i j)) ∧
      sizePred w 0 = 2 ^ w - 1 ∧ ¬ 2 ^ w - 1 < bus.stops.length := by
  refine ⟨AddEdgesForBus_sized w fuel catalogue r bus hn hfuel, ?_, ?_, sizePred_zero w,
    by omega⟩
  · intro h2
    constructor
    · intro fuel0
      unfold Sized.AddEdgesForBus
      simp only
      rw [if_pos h2]
    · unfold AddEdgesForBus
      simp only
      rw [if_pos h2]
  · intro h2
    refine ⟨fun σ body s => returnLeg_eq w fuel _ (by omega) hn hfuel body s, ?_,
      backwardPairs_nodup _, ?_, ?_, ?_⟩
    · rw [returnLeg_eq w fuel _ (by omega) hn hfuel,
        foldlM_ok (fun (visited : List (Nat × Nat)) (p : Nat × Nat) =>
            Sized.record p.1 p.2 visited)
          (fun visited p => visited ++ [p]) _ (fun _ _ _ => rfl), foldl_record]
      rfl
    · intro i j
      rw [mem_backwardPairs]
      omega
    · intro i j hmem
      obtain ⟨hji, hi⟩ := (mem_backwardPairs _ i j).1 hmem
      refine ⟨⟨_, _, subscript_of_lt bus i hi, subscript_of_lt bus j (by omega)⟩, ?_,
        fun r0 => backwardPair_sized w fuel catalogue bus hn hfuel i j hji hi r0⟩
      intro k hjk hki
      obtain ⟨c, rfl⟩ : ∃ c, k = c + 1 := ⟨k - 1, by omega⟩
      have hp : sizePred w (c + 1) = c := sizePred_succ w c (by omega)
      refine ⟨hp, bus.stops.getD (c + 1) "", bus.stops.getD c "",
        subscript_of_lt bus (c + 1) (by omega), ?_⟩
      rw [hp]
      exact subscript_of_lt bus c (by omega)
    · intro i j hmem r0
      obtain ⟨hij, hj⟩ := (mem_forwardPairs _ i j).1 hmem
      exact forwardPair_sized w fuel catalogue bus hn hfuel i j hij hj r0

/-- The theorem for C34 applied to the bus `B = [X, Y, Z]` of the routing scenario with a
`size_t` of `64` bits and fuel `4`: the run ends in the state `AddEdgesForBus` returns, and the
return-leg loops visit `(2, 1)`, `(2, 0)`, `(1, 0)`. -/
theorem AddEdgesForBus_terminates_witness :
    ([ "X", "Y", "Z" ] : List String).length < 2 ^ 64 ∧
      ([ "X", "Y", "Z" ] : List String).length + 1 ≤ 4 ∧
      Sized.AddEdgesForBus 64 4 Example.linear Example.linearRouter
          { name := "B", stops := ["X", "Y", "Z"], is_roundtrip := false } =
        .ok (AddEdgesForBus Example.linear Example.linearRouter
          { name := "B", stops := ["X", "Y", "Z"], is_roundtrip := false }) ∧
      Sized.returnLeg 64 4 3 Sized.record [] = .ok [(2, 1), (2, 0), (1, 0)] :=
  ⟨by decide, by decide,
    (AddEdgesForBus_terminates 64 4 Example.linear Example.linearRouter
      { name := "B", stops := ["X", "Y", "Z"], is_roundtrip := false } (by decide)
      (by decide)).1,
    ((AddEdgesForBus_terminates 64 4 Example.linear Example.linearRouter
      { name := "B", stops := ["X", "Y", "Z"], is_roundtrip := false } (by decide)
      (by decide)).2.2.1 (by decide)).2.1⟩

end TransportRouter
